import Mathlib

/-!
# Velodyne HDL packet decoder and frame assembler

A shallow embedding of `VelodyneHDL/vtkVelodyneHDLReader.cxx`.

* C++ `double` values are the rationals they denote; every arithmetic operation
  rounds its exact result to binary64 (round to nearest, ties to even).  Overflow,
  NaN and subnormal numbers are outside the model.
* `unsigned char`, `unsigned short` and `unsigned int` values are natural numbers,
  reduced modulo `2^8`, `2^16`, `2^32` where the source narrows; `short` values are
  integers wrapped into `[-2^15, 2^15)`.
* Fixed-size C arrays indexed by a laser or firing number are functions from the
  index; the growing VTK arrays are lists.
* The method bodies are state transformers on `vtkInternal`.
-/

namespace VelodyneHDL

/-! ## Double-precision arithmetic -/

/-- Helper for `ilog2`: at most `fuel` halvings. -/
def log2Aux : Nat → Nat → Nat
  | 0, _ => 0
  | fuel + 1, n => if n < 2 then 0 else 1 + log2Aux fuel (n / 2)

/-- Floor of the binary logarithm (`0` at `0`). -/
def ilog2 (n : Nat) : Nat := log2Aux n n

/-- Round a rational to the nearest number with a `p`-bit significand, ties to even
(unbounded exponent range). -/
def roundToPrecision (p : Nat) (q : ℚ) : ℚ :=
  if q.num = 0 then 0 else
  let a : Nat := q.num.natAbs
  let d : Nat := q.den
  let k : Int := (ilog2 a : Int) - (ilog2 d : Int)
  let ge : Bool := if 0 ≤ k then decide (d * 2 ^ k.toNat ≤ a) else decide (d ≤ a * 2 ^ (-k).toNat)
  let e : Int := if ge then k - (p - 1) else k - p
  let num : Nat := if 0 ≤ e then a else a * 2 ^ (-e).toNat
  let den : Nat := if 0 ≤ e then d * 2 ^ e.toNat else d
  let m0 : Nat := num / den
  let r : Nat := num % den
  let m : Nat :=
    if 2 * r < den then m0 else if den < 2 * r then m0 + 1 else if m0 % 2 = 0 then m0 else m0 + 1
  let v : ℚ := if 0 ≤ e then (m : ℚ) * (2 ^ e.toNat : Nat) else (m : ℚ) / (2 ^ (-e).toNat : Nat)
  if q.num < 0 then -v else v

/-- Conversion of an exact value to `double`. -/
def toDouble (q : ℚ) : ℚ := roundToPrecision 53 q

/-- Conversion of a `double` to `float` (the point coordinates are stored as floats). -/
def toFloat (q : ℚ) : ℚ := roundToPrecision 24 q

/-- The `double` sum. -/
def dadd (a b : ℚ) : ℚ := toDouble (a + b)

/-- The `double` difference. -/
def dsub (a b : ℚ) : ℚ := toDouble (a - b)

/-- The `double` product. -/
def dmul (a b : ℚ) : ℚ := toDouble (a * b)

/-- The `double` quotient (the source only divides by non-zero constants and by pi). -/
def ddiv (a b : ℚ) : ℚ := toDouble (a / b)

/-- The external mathematics the source calls: `vtkMath::Pi()`, `std::sin`, `std::cos`,
`std::atan2`.  They are parameters of the embedding. -/
structure Libm where
  pi : ℚ
  sin : ℚ → ℚ
  cos : ℚ → ℚ
  atan2 : ℚ → ℚ → ℚ

/-- The macro `HDL_Grabber_toRadians(x)`, that is `((x) * vtkMath::Pi() / 180.0)`. -/
def HDL_Grabber_toRadians (lm : Libm) (x : ℚ) : ℚ := ddiv (dmul x lm.pi) 180

/-- Narrowing of an `int` to `short`. -/
def toShort (x : Int) : Int := (x + 32768) % 65536 - 32768

/-! ## Constants and wire records -/

def HDL_NUM_ROT_ANGLES : Nat := 36001
def HDL_LASER_PER_FIRING : Nat := 32
def HDL_MAX_NUM_LASERS : Nat := 64
def HDL_FIRING_PER_PKT : Nat := 12

def BLOCK_0_TO_31 : Nat := 0xeeff
def BLOCK_32_TO_63 : Nat := 0xddff

/-- Modelled from the spec: the `DualFlag` enumeration is declared in
`vtkVelodyneHDLReader.h`; the values are those of the spec, section 6. -/
def DUAL_DISTANCE_NEAR : Nat := 1
/-- Modelled from the spec: see `DUAL_DISTANCE_NEAR`. -/
def DUAL_DISTANCE_FAR : Nat := 2
/-- Modelled from the spec: see `DUAL_DISTANCE_NEAR`. -/
def DUAL_INTENSITY_LOW : Nat := 4
/-- Modelled from the spec: see `DUAL_DISTANCE_NEAR`. -/
def DUAL_INTENSITY_HIGH : Nat := 8
/-- Modelled from the spec: see `DUAL_DISTANCE_NEAR`. -/
def DUAL_DOUBLED : Nat := 15

/-- The value `~flag` of an `unsigned int` operand. -/
def bitNot32 (flag : Nat) : Nat := (2 ^ 32 - 1) ^^^ (flag % 2 ^ 32)

structure HDLLaserReturn where
  distance : Nat
  intensity : Nat

structure HDLFiringData where
  blockIdentifier : Nat
  rotationalPosition : Nat
  laserReturns : Nat → HDLLaserReturn

structure HDLDataPacket where
  firingData : Nat → HDLFiringData
  gpsTimestamp : Nat
  blank1 : Nat
  blank2 : Nat

structure HDLLaserCorrection where
  azimuthCorrection : ℚ
  verticalCorrection : ℚ
  distanceCorrection : ℚ
  verticalOffsetCorrection : ℚ
  horizontalOffsetCorrection : ℚ
  sinVertCorrection : ℚ
  cosVertCorrection : ℚ
  sinVertOffsetCorrection : ℚ
  cosVertOffsetCorrection : ℚ

/-! ### The packed layout (`#pragma pack(push, 1)`) -/

/-- Size of `HDLLaserReturn`: an `unsigned short` and an `unsigned char`. -/
def sizeofHDLLaserReturn : Nat := 2 + 1

/-- Size of `HDLFiringData`: two `unsigned short` and the 32 returns. -/
def sizeofHDLFiringData : Nat := 2 + 2 + HDL_LASER_PER_FIRING * sizeofHDLLaserReturn

/-- Size of `HDLDataPacket`: the 12 firings, an `unsigned int` and two `unsigned char`. -/
def sizeofHDLDataPacket : Nat := HDL_FIRING_PER_PKT * sizeofHDLFiringData + 4 + 1 + 1

/-- A buffer `data` of `bytesReceived` bytes: its length and the byte at each offset.  Past
the length, `byte` is what the memory behind the buffer holds. -/
structure Payload where
  length : Nat
  byte : Nat → Nat

/-- The buffer that holds the bytes of a list, with zeros behind it. -/
def Payload.ofList (bytes : List Nat) : Payload where
  length := bytes.length
  byte := fun off => bytes.getD off 0

/-- The `unsigned char` at byte offset `off` of a buffer. -/
def readU8 (data : Payload) (off : Nat) : Nat := data.byte off % 256

/-- A little-endian `unsigned short` at byte offset `off`. -/
def readU16 (data : Payload) (off : Nat) : Nat := readU8 data off + 256 * readU8 data (off + 1)

/-- A little-endian `unsigned int` at byte offset `off`. -/
def readU32 (data : Payload) (off : Nat) : Nat :=
  readU8 data off + 256 * readU8 data (off + 1) + 65536 * readU8 data (off + 2)
    + 16777216 * readU8 data (off + 3)

/-- The `HDLLaserReturn` stored at byte offset `off`. -/
def readLaserReturn (data : Payload) (off : Nat) : HDLLaserReturn where
  distance := readU16 data off
  intensity := readU8 data (off + 2)

/-- The `HDLFiringData` stored at byte offset `off`. -/
def readFiringData (data : Payload) (off : Nat) : HDLFiringData where
  blockIdentifier := readU16 data off
  rotationalPosition := readU16 data (off + 2)
  laserReturns := fun j => readLaserReturn data (off + 2 + 2 + j * sizeofHDLLaserReturn)

/-- The cast `reinterpret_cast<HDLDataPacket *>(data)` on a little-endian host. -/
def reinterpretPacket (data : Payload) : HDLDataPacket where
  firingData := fun i => readFiringData data (i * sizeofHDLFiringData)
  gpsTimestamp := readU32 data (HDL_FIRING_PER_PKT * sizeofHDLFiringData)
  blank1 := readU8 data (HDL_FIRING_PER_PKT * sizeofHDLFiringData + 4)
  blank2 := readU8 data (HDL_FIRING_PER_PKT * sizeofHDLFiringData + 4 + 1)

/-! ## Frames -/

/-- The `vtkPolyData` of one frame: the points, the vertex cells and the eight
point-data arrays created by `CreateData`. -/
structure PolyData where
  Points : List (ℚ × ℚ × ℚ)
  Verts : List Nat
  Intensity : List Nat
  LaserId : List Nat
  Azimuth : List Nat
  Distance : List ℚ
  Timestamp : List Nat
  Flags : List Nat
  IntensityDelta : List Int
  DistanceDelta : List ℚ
  deriving DecidableEq

/-- The cell array `1, 0, 1, 1, 1, 2, ...` of `numberOfVerts` vertices. -/
def NewVertexCells (numberOfVerts : Nat) : List Nat :=
  (List.range numberOfVerts).flatMap fun i => [1, i]

/-- A data set with `numberOfPoints` tuples in every array (the source leaves them
uninitialised; it only ever passes `0`). -/
def CreateData (numberOfPoints : Nat) : PolyData where
  Points := List.replicate numberOfPoints (0, 0, 0)
  Verts := NewVertexCells numberOfPoints
  Intensity := List.replicate numberOfPoints 0
  LaserId := List.replicate numberOfPoints 0
  Azimuth := List.replicate numberOfPoints 0
  Distance := List.replicate numberOfPoints 0
  Timestamp := List.replicate numberOfPoints 0
  Flags := List.replicate numberOfPoints 0
  IntensityDelta := List.replicate numberOfPoints 0
  DistanceDelta := List.replicate numberOfPoints 0

/-- The accessor `GetValue(id)` of a VTK array (the default value outside the array, where
the source reads out of bounds). -/
def getValue {α : Type} (col : List α) (id : Int) (dflt : α) : α :=
  if id < 0 then dflt else col.getD id.toNat dflt

/-- The accessor `SetValue(id, v)` of a VTK array (no effect outside the array). -/
def setValue {α : Type} (col : List α) (id : Int) (v : α) : List α :=
  if id < 0 then col else col.set id.toNat v

/-! ## The capture file -/

/-- Modelled from the spec: `vtkPacketFileReader` (packet file I/O, section 1) is declared
outside this file.  A capture is the list of the payloads of its records, each record being
a 42-byte link-layer header followed by the payload; a file position is the number of
records already read. -/
structure vtkPacketFileReader where
  packets : List Payload
  position : Nat

/-- Modelled from the spec: the records a reader has not yet read (`next_packet` yields
them in order). -/
def vtkPacketFileReader.remaining (r : vtkPacketFileReader) : List Payload :=
  r.packets.drop r.position

/-- Modelled from the spec: `set_position`. -/
def vtkPacketFileReader.SetFilePosition (r : vtkPacketFileReader) (p : Nat) :
    vtkPacketFileReader :=
  { r with position := p }

/-! ## The reader state -/

/-- The members of `vtkVelodyneHDLReader::vtkInternal`.  The array pointers `Points`,
`Intensity`, ... alias the arrays of `CurrentDataset` and are its fields here. -/
structure vtkInternal where
  Datasets : List PolyData
  CurrentDataset : PolyData
  Interp : Option (Nat → ℚ × ℚ × ℚ × ℚ × ℚ)
  LastAzimuth : Nat
  LastPointId : Nat → Int
  FirstPointIdThisReturn : Int
  FilePositions : List Nat
  Skips : List Nat
  Skip : Nat
  Reader : Option vtkPacketFileReader
  SplitCounter : Int
  NumberOfTrailingFrames : Int
  ApplyTransform : Int
  PointsSkip : Int
  LaserSelection : Nat → Bool
  cos_lookup_table_ : List ℚ
  sin_lookup_table_ : List ℚ
  laser_corrections_ : Nat → HDLLaserCorrection

/-! ## Point insertion -/

/-- Line 764 of `PushFiringData`: the azimuth after the adjustment, stored back into the
`unsigned short` parameter. -/
def PushFiringData.effectiveAzimuth (azimuth azimuthAdjustment : Nat) : Nat :=
  (azimuth + azimuthAdjustment) % 36000 % 65536

/-- Lines 766-777 of `PushFiringData`: `cosAzimuth` and `sinAzimuth` for the effective
azimuth, from the tables or from the library (a table read past its end, where the source
reads out of bounds, gives `0`). -/
def PushFiringData.cosSinAzimuth (s : vtkInternal) (azimuth : Nat)
    (correction : HDLLaserCorrection) (lm : Libm) : ℚ × ℚ :=
  if correction.azimuthCorrection = 0 then
    (s.cos_lookup_table_.getD azimuth 0, s.sin_lookup_table_.getD azimuth 0)
  else
    let azimuthInRadians :=
      HDL_Grabber_toRadians lm (dsub (ddiv azimuth 100) correction.azimuthCorrection)
    (lm.cos azimuthInRadians, lm.sin azimuthInRadians)

/-- Line 779 of `PushFiringData`: `distanceM`. -/
def PushFiringData.distanceM (laserReturn : HDLLaserReturn) (correction : HDLLaserCorrection) :
    ℚ :=
  dadd (dmul laserReturn.distance (toDouble 0.002)) correction.distanceCorrection

/-- Lines 780-790 of `PushFiringData`: the point given to `InsertNextPoint`, whose
coordinates are stored as floats. -/
def PushFiringData.point (s : vtkInternal) (azimuth : Nat) (laserReturn : HDLLaserReturn)
    (correction : HDLLaserCorrection) (translation : ℚ × ℚ × ℚ) (lm : Libm) : ℚ × ℚ × ℚ :=
  let cosAzimuth := (PushFiringData.cosSinAzimuth s azimuth correction lm).1
  let sinAzimuth := (PushFiringData.cosSinAzimuth s azimuth correction lm).2
  let distanceM := PushFiringData.distanceM laserReturn correction
  let xyDistance :=
    dsub (dmul distanceM correction.cosVertCorrection) correction.sinVertOffsetCorrection
  let x := dsub (dmul xyDistance sinAzimuth) (dmul correction.horizontalOffsetCorrection cosAzimuth)
  let y := dadd (dmul xyDistance cosAzimuth) (dmul correction.horizontalOffsetCorrection sinAzimuth)
  let z := dadd (dmul distanceM correction.sinVertCorrection) correction.cosVertOffsetCorrection
  let x := dadd x translation.1
  let y := dadd y translation.2.1
  let z := dadd z translation.2.2
  (toFloat x, toFloat y, toFloat z)

/-- Lines 759-762 and 790-791 of `PushFiringData`: the six columns that every branch
appends in the same way. -/
def PushFiringData.insertRaw (d : PolyData) (laserId azimuth timestamp : Nat)
    (laserReturn : HDLLaserReturn) (point : ℚ × ℚ × ℚ) (distanceM : ℚ) : PolyData :=
  { d with
    Azimuth := d.Azimuth ++ [azimuth]
    Intensity := d.Intensity ++ [laserReturn.intensity]
    LaserId := d.LaserId ++ [laserId]
    Timestamp := d.Timestamp ++ [timestamp]
    Points := d.Points ++ [point]
    Distance := d.Distance ++ [distanceM] }

/-- Lines 799-801 and 847-849 of `PushFiringData`: the point has no partner. -/
def PushFiringData.insertDoubled (d : PolyData) : PolyData :=
  { d with
    Flags := d.Flags ++ [DUAL_DOUBLED]
    IntensityDelta := d.IntensityDelta ++ [0]
    DistanceDelta := d.DistanceDelta ++ [0] }

/-- Lines 805-842 of `PushFiringData`: the new point is reconciled with the point
`dualPointId` of the same laser. -/
def PushFiringData.reconcile (d : PolyData) (dualPointId : Int) (intensity : Int)
    (distanceM : ℚ) : PolyData :=
  let dualIntensity : Int := (getValue d.Intensity dualPointId 0 : Nat)
  let dualDistance : ℚ := getValue d.Distance dualPointId 0
  let firstFlags : Nat := getValue d.Flags dualPointId 0
  let secondFlags : Nat := 0
  let firstFlags :=
    if dualIntensity < intensity then firstFlags &&& bitNot32 DUAL_INTENSITY_HIGH
    else firstFlags &&& bitNot32 DUAL_INTENSITY_LOW
  let secondFlags :=
    if dualIntensity < intensity then secondFlags ||| DUAL_INTENSITY_HIGH
    else secondFlags ||| DUAL_INTENSITY_LOW
  let firstFlags :=
    if dualDistance < distanceM then firstFlags &&& bitNot32 DUAL_DISTANCE_FAR
    else firstFlags &&& bitNot32 DUAL_DISTANCE_NEAR
  let secondFlags :=
    if dualDistance < distanceM then secondFlags ||| DUAL_DISTANCE_FAR
    else secondFlags ||| DUAL_DISTANCE_NEAR
  let meanIntensity : Int := toShort (dualIntensity + intensity)
  let meanDistance : ℚ := dmul 0.5 (dadd dualDistance distanceM)
  { d with
    Flags := setValue d.Flags dualPointId firstFlags ++ [secondFlags]
    IntensityDelta :=
      setValue d.IntensityDelta dualPointId (toShort (2 * dualIntensity - meanIntensity))
        ++ [toShort (2 * intensity - meanIntensity)]
    DistanceDelta :=
      setValue d.DistanceDelta dualPointId (dsub dualDistance meanDistance)
        ++ [dsub distanceM meanDistance] }

/-- The method `vtkInternal::PushFiringData`. -/
def PushFiringData (s : vtkInternal) (laserId : Nat) (azimuth : Nat) (timestamp : Nat)
    (laserReturn : HDLLaserReturn) (correction : HDLLaserCorrection) (azimuthAdjustment : Nat)
    (translation : ℚ × ℚ × ℚ) (dualReturn : Bool) (lm : Libm) : vtkInternal :=
  let thisPointId : Int := s.CurrentDataset.Points.length
  let intensity : Int := laserReturn.intensity
  let point :=
    PushFiringData.point s (PushFiringData.effectiveAzimuth azimuth azimuthAdjustment)
      laserReturn correction translation lm
  let distanceM := PushFiringData.distanceM laserReturn correction
  let d := PushFiringData.insertRaw s.CurrentDataset laserId azimuth timestamp laserReturn
    point distanceM
  let dualPointId := s.LastPointId laserId
  let d1 : PolyData :=
    if dualReturn = true then
      if dualPointId < s.FirstPointIdThisReturn then PushFiringData.insertDoubled d
      else PushFiringData.reconcile d dualPointId intensity distanceM
    else PushFiringData.insertDoubled d
  { s with
    CurrentDataset := d1
    LastPointId := fun n => if n = laserId then thisPointId else s.LastPointId n }

/-- The laser loop of `ProcessFiring`: lasers `j, j + 1, ...`, `n` of them; `dual` is the
local computed before the loop. -/
def ProcessFiring.loop (firingData : HDLFiringData) (offset : Nat) (gpsTime : Nat)
    (azimuthOffset : Nat) (translation : ℚ × ℚ × ℚ) (dual : Bool) (lm : Libm) :
    Nat → Nat → vtkInternal → vtkInternal
  | 0, _, s => s
  | n + 1, j, s =>
    let laserId := (j + offset) % 256
    let s1 :=
      if (firingData.laserReturns j).distance ≠ 0 ∧ s.LaserSelection laserId = true then
        PushFiringData s laserId firingData.rotationalPosition gpsTime
          (firingData.laserReturns j) (s.laser_corrections_ (j + offset))
          (azimuthOffset % 65536) translation dual lm
      else s
    ProcessFiring.loop firingData offset gpsTime azimuthOffset translation dual lm n (j + 1) s1

/-- The method `vtkInternal::ProcessFiring`. -/
def ProcessFiring (s : vtkInternal) (firingData : HDLFiringData) (offset : Nat) (gpsTime : Nat)
    (azimuthOffset : Nat) (translation : ℚ × ℚ × ℚ) (lm : Libm) : vtkInternal :=
  let dual : Bool := decide (s.LastAzimuth = firingData.rotationalPosition)
  let s1 :=
    if dual = false then
      { s with FirstPointIdThisReturn := (s.CurrentDataset.Points.length : Int) }
    else s
  ProcessFiring.loop firingData offset gpsTime azimuthOffset translation dual lm
    HDL_LASER_PER_FIRING 0 s1

/-- The method `vtkInternal::SplitFrame`. -/
def SplitFrame (s : vtkInternal) (force : Bool) : vtkInternal :=
  if 0 < s.SplitCounter ∧ force = false then
    { s with SplitCounter := s.SplitCounter - 1 }
  else
    { s with
      LastPointId := fun n => if n < HDL_MAX_NUM_LASERS then -1 else s.LastPointId n
      Datasets := s.Datasets ++
        [{ s.CurrentDataset with Verts := NewVertexCells s.CurrentDataset.Points.length }]
      CurrentDataset := CreateData 0 }

/-- The conversion `static_cast<unsigned int>(x)` of a `double`: truncation toward zero,
reduced modulo `2^32`. -/
def toUnsignedInt (x : ℚ) : Nat := (if 0 ≤ x then ⌊x⌋ else ⌈x⌉).toNat % 2 ^ 32

/-- The method `vtkInternal::ComputeOrientation`; the two reference parameters are returned. -/
def ComputeOrientation (s : vtkInternal) (timestamp : Nat) (azimuthOffset : Nat)
    (translation : ℚ × ℚ × ℚ) (lm : Libm) : Nat × (ℚ × ℚ × ℚ) :=
  match s.Interp with
  | some interp =>
    if s.ApplyTransform ≠ 0 then
      let tuple := interp timestamp
      let angle := lm.atan2 tuple.2.2.2.2 tuple.2.2.2.1
      let angle := if 0 < angle then angle else dadd (dmul 2 lm.pi) angle
      let angle := ddiv (dmul 180 angle) lm.pi
      (toUnsignedInt (dmul angle 100), (tuple.1, tuple.2.1, tuple.2.2.1))
    else (azimuthOffset, translation)
  | none => (azimuthOffset, translation)

/-- Lines 1091-1099 of `ProcessHDLPacket`: firing `i` is processed unless `PointsSkip`
leaves it out. -/
def ProcessHDLPacket.fire (dataPacket : HDLDataPacket) (azimuthOffset : Nat)
    (translation : ℚ × ℚ × ℚ) (lm : Libm) (i : Nat) (s : vtkInternal) : vtkInternal :=
  let firingData := dataPacket.firingData i
  let offset := if firingData.blockIdentifier = BLOCK_0_TO_31 then 0 else 32
  if s.PointsSkip = 0 ∨ Int.tmod (i : Int) (s.PointsSkip + 1) = 0 then
    ProcessFiring s firingData offset dataPacket.gpsTimestamp azimuthOffset translation lm
  else s

/-- One iteration of the firing loop of `ProcessHDLPacket`, at firing `i`. -/
def ProcessHDLPacket.step (dataPacket : HDLDataPacket) (azimuthOffset : Nat)
    (translation : ℚ × ℚ × ℚ) (lm : Libm) (i : Nat) (s : vtkInternal) : vtkInternal :=
  let firingData := dataPacket.firingData i
  let s1 := if firingData.rotationalPosition < s.LastAzimuth then SplitFrame s false else s
  let s2 := ProcessHDLPacket.fire dataPacket azimuthOffset translation lm i s1
  { s2 with LastAzimuth := firingData.rotationalPosition }

/-- The firing loop of `ProcessHDLPacket`: firings `i, i + 1, ...`, `n` of them. -/
def ProcessHDLPacket.loop (dataPacket : HDLDataPacket) (azimuthOffset : Nat)
    (translation : ℚ × ℚ × ℚ) (lm : Libm) : Nat → Nat → vtkInternal → vtkInternal
  | 0, _, s => s
  | n + 1, i, s =>
    ProcessHDLPacket.loop dataPacket azimuthOffset translation lm n (i + 1)
      (ProcessHDLPacket.step dataPacket azimuthOffset translation lm i s)

/-- The body of `ProcessHDLPacket` after the length test, on the packet the cast yields. -/
def ProcessHDLPacket.decoded (s : vtkInternal) (dataPacket : HDLDataPacket) (lm : Libm) :
    vtkInternal :=
  let o := ComputeOrientation s dataPacket.gpsTimestamp 0 (0, 0, 0) lm
  let i := s.Skip
  ProcessHDLPacket.loop dataPacket o.1 o.2 lm (HDL_FIRING_PER_PKT - i) i { s with Skip := 0 }

/-- The method `vtkInternal::ProcessHDLPacket`; `bytesReceived` is the length of `data`. -/
def ProcessHDLPacket (s : vtkInternal) (data : Payload) (lm : Libm) : vtkInternal :=
  if data.length ≠ 1206 then s
  else ProcessHDLPacket.decoded s (reinterpretPacket data) lm

/-! ## Calibration and construction -/

/-- The local array `hdl32VerticalCorrections` of `LoadHDL32Corrections`. -/
def hdl32VerticalCorrections : List ℚ :=
  [-30.67, -9.3299999, -29.33, -8, -28,
    -6.6700001, -26.67, -5.3299999, -25.33, -4, -24, -2.6700001, -22.67,
    -1.33, -21.33, 0, -20, 1.33, -18.67, 2.6700001, -17.33, 4, -16, 5.3299999,
    -14.67, 6.6700001, -13.33, 8, -12, 9.3299999, -10.67, 10.67].map toDouble

/-- The method `vtkInternal::SetCorrectionsCommon`. -/
def SetCorrectionsCommon (s : vtkInternal) : vtkInternal :=
  { s with
    laser_corrections_ := fun i =>
      if i < HDL_MAX_NUM_LASERS then
        let correction := s.laser_corrections_ i
        { correction with
          sinVertOffsetCorrection :=
            dmul correction.verticalOffsetCorrection correction.sinVertCorrection
          cosVertOffsetCorrection :=
            dmul correction.verticalOffsetCorrection correction.cosVertCorrection }
      else s.laser_corrections_ i }

/-- The method `vtkInternal::LoadHDL32Corrections`. -/
def LoadHDL32Corrections (s : vtkInternal) (lm : Libm) : vtkInternal :=
  SetCorrectionsCommon
    { s with
      laser_corrections_ := fun i =>
        if i < HDL_LASER_PER_FIRING then
          { s.laser_corrections_ i with
            azimuthCorrection := 0
            distanceCorrection := 0
            horizontalOffsetCorrection := 0
            verticalOffsetCorrection := 0
            verticalCorrection := hdl32VerticalCorrections.getD i 0
            sinVertCorrection := lm.sin (HDL_Grabber_toRadians lm (hdl32VerticalCorrections.getD i 0))
            cosVertCorrection := lm.cos (HDL_Grabber_toRadians lm (hdl32VerticalCorrections.getD i 0)) }
        else if i < HDL_MAX_NUM_LASERS then
          { s.laser_corrections_ i with
            azimuthCorrection := 0
            distanceCorrection := 0
            horizontalOffsetCorrection := 0
            verticalOffsetCorrection := 0
            verticalCorrection := 0
            sinVertCorrection := 0
            cosVertCorrection := 1 }
        else s.laser_corrections_ i }

/-- The method `vtkInternal::InitTables` (the tables are `NULL`, here empty, before). -/
def InitTables (s : vtkInternal) (lm : Libm) : vtkInternal :=
  if s.cos_lookup_table_ = [] ∧ s.sin_lookup_table_ = [] then
    { s with
      cos_lookup_table_ :=
        (List.range HDL_NUM_ROT_ANGLES).map fun i => lm.cos (HDL_Grabber_toRadians lm (ddiv i 100))
      sin_lookup_table_ :=
        (List.range HDL_NUM_ROT_ANGLES).map fun i => lm.sin (HDL_Grabber_toRadians lm (ddiv i 100)) }
  else s

/-- The method `vtkInternal::Init`. -/
def Init (s : vtkInternal) (lm : Libm) : vtkInternal :=
  LoadHDL32Corrections (InitTables s lm) lm

/-- The method `vtkVelodyneHDLReader::UnloadData`. -/
def UnloadData (s : vtkInternal) : vtkInternal :=
  { s with
    LastPointId := fun n => if n < HDL_MAX_NUM_LASERS then -1 else s.LastPointId n
    LastAzimuth := 0
    Datasets := []
    CurrentDataset := CreateData 0 }

/-- The constructor `vtkInternal()` followed by the `UnloadData` call of the constructor of
`vtkVelodyneHDLReader`.  The constructor does not initialise `FirstPointIdThisReturn`; its
indeterminate value is the parameter `firstPointIdThisReturn`.  The correction table is
written in full by `Init`. -/
def vtkInternal.new (firstPointIdThisReturn : Int) (lm : Libm) : vtkInternal :=
  UnloadData <| Init
    { Datasets := []
      CurrentDataset := CreateData 0
      Interp := none
      LastAzimuth := 0
      LastPointId := fun _ => -1
      FirstPointIdThisReturn := firstPointIdThisReturn
      FilePositions := []
      Skips := []
      Skip := 0
      Reader := none
      SplitCounter := 0
      NumberOfTrailingFrames := 0
      ApplyTransform := 0
      PointsSkip := 0
      LaserSelection := fun _ => true
      cos_lookup_table_ := []
      sin_lookup_table_ := []
      laser_corrections_ := fun _ => ⟨0, 0, 0, 0, 0, 0, 0, 0, 0⟩ } lm

/-! ## The frame index -/

/-- The method `vtkVelodyneHDLReader::GetNumberOfFrames`. -/
def GetNumberOfFrames (s : vtkInternal) : Int := s.FilePositions.length

/-- The locals of `ReadFrameInformation`; `missed` collects the numbers printed by the
"missed packets" diagnostic. -/
structure ScanState where
  lastAzimuth : Nat
  lastTimestamp : Nat
  filePositions : List Nat
  skips : List Nat
  lastFilePosition : Nat
  missed : List Int

/-- The firing loop of `ReadFrameInformation`: firings `i, i + 1, ...`, `n` of them. -/
def ReadFrameInformation.firings (dataPacket : HDLDataPacket) : Nat → Nat → ScanState → ScanState
  | 0, _, st => st
  | n + 1, i, st =>
    let firingData := dataPacket.firingData i
    let st1 :=
      if firingData.rotationalPosition < st.lastAzimuth then
        { st with
          filePositions := st.filePositions ++ [st.lastFilePosition]
          skips := st.skips ++ [i] }
      else st
    ReadFrameInformation.firings dataPacket n (i + 1)
      { st1 with lastAzimuth := firingData.rotationalPosition }

/-- The body of the packet loop of `ReadFrameInformation` for a packet of the right length;
`position` is the reader position before its record. -/
def ReadFrameInformation.packet (dataPacket : HDLDataPacket) (position : Nat) (st : ScanState) :
    ScanState :=
  let timeDiff : Nat := (dataPacket.gpsTimestamp + 2 ^ 32 - st.lastTimestamp) % 2 ^ 32
  let st1 :=
    if 600 < timeDiff ∧ st.lastTimestamp ≠ 0 then
      { st with missed := st.missed ++ [⌊dadd (ddiv timeDiff 553) 0.5⌋] }
    else st
  let st2 := ReadFrameInformation.firings dataPacket HDL_FIRING_PER_PKT 0 st1
  { st2 with lastTimestamp := dataPacket.gpsTimestamp, lastFilePosition := position + 1 }

/-- The packet loop of `ReadFrameInformation`; `position` is the reader position before the
next record. -/
def ReadFrameInformation.loop : List Payload → Nat → ScanState → ScanState
  | [], _, st => st
  | data :: rest, position, st =>
    if data.length ≠ 1206 then ReadFrameInformation.loop rest (position + 1) st
    else
      ReadFrameInformation.loop rest (position + 1)
        (ReadFrameInformation.packet (reinterpretPacket data) position st)

/-- The scan of `ReadFrameInformation` over an opened capture. -/
def ReadFrameInformation.scan (packets : List Payload) : ScanState :=
  ReadFrameInformation.loop packets 0
    { lastAzimuth := 0, lastTimestamp := 0, filePositions := [0], skips := [0],
      lastFilePosition := 0, missed := [] }

/-- The method `vtkVelodyneHDLReader::ReadFrameInformation`; `file` is the capture named by
`FileName`, `none` when it cannot be opened. -/
def ReadFrameInformation (s : vtkInternal) (file : Option (List Payload)) :
    vtkInternal × Int :=
  match file with
  | none => (s, 0)
  | some packets =>
    let st := ReadFrameInformation.scan packets
    let s1 := { s with FilePositions := st.filePositions, Skips := st.skips }
    (s1, GetNumberOfFrames s1)

/-! ## Frame requests -/

/-- What a frame request returns: the state afterwards, the returned data set (`none` for
the null pointer, and for `back()` of an empty `Datasets`), and the error reported. -/
structure FrameResult where
  state : vtkInternal
  frame : Option PolyData
  error : Option String

/-- Modelled from the spec: the effect of a successful `next_packet` on the open reader, which
moves past one record. -/
def advanceReader (s : vtkInternal) : vtkInternal :=
  { s with Reader := s.Reader.map fun r => { r with position := r.position + 1 } }

/-- The packet loop of `GetFrame` over the records left in the capture, with the final
`SplitFrame()` at the end of the stream. -/
def GetFrame.loop (lm : Libm) : List Payload → vtkInternal → vtkInternal
  | [], s => SplitFrame s false
  | data :: rest, s =>
    let s1 := ProcessHDLPacket (advanceReader s) data lm
    if s1.Datasets.length ≠ 0 then s1 else GetFrame.loop lm rest s1

/-- The method `vtkVelodyneHDLReader::GetFrame`.  An index outside `FilePositions` and `Skips`
(where the source reads out of bounds) reads `0`. -/
def GetFrame (s : vtkInternal) (frameNumber : Int) (lm : Libm) : FrameResult :=
  let s := UnloadData s
  match s.Reader with
  | none => ⟨s, none, some "GetFrame() called but packet file reader is not open."⟩
  | some reader =>
    if frameNumber < 0 ∨ (s.FilePositions.length : Int) < frameNumber then
      ⟨s, none, some "Invalid frame requested"⟩
    else
      let reader := reader.SetFilePosition (s.FilePositions.getD frameNumber.toNat 0)
      let s := { s with Reader := some reader, Skip := s.Skips.getD frameNumber.toNat 0 }
      let s1 := GetFrame.loop lm reader.remaining s
      ⟨s1, s1.Datasets.getLast?, none⟩

/-- The packet loop of `GetFrameRange`, with the final `SplitFrame(true)`. -/
def GetFrameRange.loop (lm : Libm) : List Payload → vtkInternal → vtkInternal
  | [], s => SplitFrame s true
  | data :: rest, s =>
    let s1 := ProcessHDLPacket (advanceReader s) data lm
    if s1.Datasets.length ≠ 0 then s1 else GetFrameRange.loop lm rest s1

/-- The method `vtkVelodyneHDLReader::GetFrameRange`. -/
def GetFrameRange (s : vtkInternal) (startFrame numberOfFrames : Int) (lm : Libm) :
    FrameResult :=
  let s := UnloadData s
  match s.Reader with
  | none => ⟨s, none, some "GetFrame() called but packet file reader is not open."⟩
  | some reader =>
    let numberOfFrames := if startFrame < 0 then numberOfFrames - startFrame else numberOfFrames
    let startFrame := if startFrame < 0 then 0 else startFrame
    let reader := reader.SetFilePosition (s.FilePositions.getD startFrame.toNat 0)
    let s :=
      { s with
        Reader := some reader
        Skip := s.Skips.getD startFrame.toNat 0
        SplitCounter := numberOfFrames }
    let s1 := GetFrameRange.loop lm reader.remaining s
    ⟨{ s1 with SplitCounter := 0 }, s1.Datasets.getLast?, none⟩

/-- The locals of `DumpFrames` that its loops update, with the records written so far and
the number of records read. -/
structure DumpState where
  lastAzimuth : Nat
  currentFrame : Int
  written : List Payload
  consumed : Nat

/-- The firing loop of `DumpFrames` with its `break`: firings `i, i + 1, ...`, `n` of them. -/
def DumpFrames.firings (dataPacket : HDLDataPacket) (endFrame : Int) :
    Nat → Nat → DumpState → DumpState
  | 0, _, st => st
  | n + 1, i, st =>
    let firingData := dataPacket.firingData i
    if firingData.rotationalPosition ≠ 0 ∧ firingData.rotationalPosition < st.lastAzimuth then
      if endFrame < st.currentFrame + 1 then { st with currentFrame := st.currentFrame + 1 }
      else
        DumpFrames.firings dataPacket endFrame n (i + 1)
          { st with
            lastAzimuth := firingData.rotationalPosition
            currentFrame := st.currentFrame + 1 }
    else
      DumpFrames.firings dataPacket endFrame n (i + 1)
        { st with lastAzimuth := firingData.rotationalPosition }

/-- The body of the packet loop of `DumpFrames`.  A record is the 42-byte header followed by
the payload `data`, so its length is `data.length + 42`; `dataPacket` is the packet the cast
yields at `data`. -/
def DumpFrames.packet (endFrame : Int) (data : Payload) (dataPacket : HDLDataPacket)
    (skip : Nat) (st : DumpState) : DumpState :=
  let st1 :=
    if data.length + 42 = 1206 + 42 then { st with written := st.written ++ [data] } else st
  DumpFrames.firings dataPacket endFrame (HDL_FIRING_PER_PKT - skip) skip st1

/-- The packet loop of `DumpFrames`: the loop condition reads a record and then compares
`currentFrame` with `endFrame`. -/
def DumpFrames.loop (endFrame : Int) : List Payload → Nat → DumpState → DumpState
  | [], _, st => st
  | data :: rest, skip, st =>
    let st := { st with consumed := st.consumed + 1 }
    if st.currentFrame ≤ endFrame then
      DumpFrames.loop endFrame rest 0
        (DumpFrames.packet endFrame data (reinterpretPacket data) skip st)
    else st

/-- The method `vtkVelodyneHDLReader::DumpFrames`: the state afterwards and the records written
to the output capture, `none` when no capture is written because the reader is not open or
the writer cannot open the file (`writerOpens`). -/
def DumpFrames (s : vtkInternal) (startFrame endFrame : Int) (writerOpens : Bool) :
    vtkInternal × Option (List Payload) :=
  match s.Reader with
  | none => (s, none)
  | some reader =>
    if writerOpens = false then (s, none)
    else
      let reader := reader.SetFilePosition (s.FilePositions.getD startFrame.toNat 0)
      let skip := s.Skips.getD startFrame.toNat 0
      let st := DumpFrames.loop endFrame reader.remaining skip
        { lastAzimuth := 0, currentFrame := startFrame, written := [], consumed := 0 }
      ({ s with Reader := some { reader with position := reader.position + st.consumed } },
        some st.written)

/-- The state of `ProcessHDLPacket` on a payload of 1206 bytes just before firing `i` of
its loop, for `Skip ≤ i ≤ 12`: firings `Skip, ..., i - 1` have been processed. -/
def ProcessHDLPacket.beforeFiring (s : vtkInternal) (data : Payload) (lm : Libm) (i : Nat) :
    vtkInternal :=
  let dataPacket := reinterpretPacket data
  let o := ComputeOrientation s dataPacket.gpsTimestamp 0 (0, 0, 0) lm
  ProcessHDLPacket.loop dataPacket o.1 o.2 lm (i - s.Skip) s.Skip { s with Skip := 0 }

/-- The method `vtkVelodyneHDLReader::Close`. -/
def Close (s : vtkInternal) : vtkInternal := { s with Reader := none }

/-- The method `vtkVelodyneHDLReader::Open`; `file` is the capture named by `FileName`, `none`
when it cannot be opened. -/
def Open (s : vtkInternal) (file : Option (List Payload)) : vtkInternal :=
  match file with
  | some packets => { Close s with Reader := some { packets := packets, position := 0 } }
  | none => Close (Close s)

/-- The method `vtkVelodyneHDLReader::RequestData` for the requested `timestep`: the state
afterwards, the data set copied to the output (`none` when the output is not written or a
null pointer is returned) and the return value.  `fileNameLength` is the length of
`FileName` and `file` the capture it names. -/
def RequestData (s : vtkInternal) (fileNameLength : Nat) (file : Option (List Payload))
    (timestep : Int) (lm : Libm) : vtkInternal × Option PolyData × Int :=
  if fileNameLength = 0 then (s, none, 0)
  else if timestep < 0 ∨ GetNumberOfFrames s ≤ timestep then (s, some (CreateData 0), 0)
  else
    let s1 := Open s file
    let r :=
      if 0 < s1.NumberOfTrailingFrames then
        GetFrameRange s1 (timestep - s1.NumberOfTrailingFrames) s1.NumberOfTrailingFrames lm
      else GetFrame s1 timestep lm
    (Close r.state, r.frame, 1)

/-! ## Decoding a whole capture -/

/-- Every payload of a capture given to `ProcessHDLPacket` in order, without seeking. -/
def decodeAll (s : vtkInternal) (packets : List Payload) (lm : Libm) : vtkInternal :=
  packets.foldl (fun st data => ProcessHDLPacket st data lm) s

/-! ## Column lengths -/

/-- The number of points of a data set, `GetNumberOfPoints()`. -/
def PolyData.numPoints (d : PolyData) : Nat := d.Points.length

/-- The lengths of the nine columns of a frame, in the order position, intensity, laser_id,
azimuth, distance_m, timestamp, dual_flags, dual_intensity_delta, dual_distance_delta. -/
def PolyData.columnLengths (d : PolyData) : List Nat :=
  [d.Points.length, d.Intensity.length, d.LaserId.length, d.Azimuth.length, d.Distance.length,
    d.Timestamp.length, d.Flags.length, d.IntensityDelta.length, d.DistanceDelta.length]

/-- The nine columns of a frame have the same length. -/
def PolyData.columnsAligned (d : PolyData) : Prop :=
  d.columnLengths = List.replicate 9 d.Points.length

instance (d : PolyData) : Decidable d.columnsAligned := by
  unfold PolyData.columnsAligned
  infer_instance

/-- The frame under construction and every emitted frame have aligned columns. -/
def framesAligned (s : vtkInternal) : Prop :=
  s.CurrentDataset.columnsAligned ∧ ∀ d ∈ s.Datasets, d.columnsAligned

/-- The members of the state that neither point insertion nor the frame split writes. -/
structure sameSettings (s t : vtkInternal) : Prop where
  Interp : t.Interp = s.Interp
  FilePositions : t.FilePositions = s.FilePositions
  Skips : t.Skips = s.Skips
  Reader : t.Reader = s.Reader
  NumberOfTrailingFrames : t.NumberOfTrailingFrames = s.NumberOfTrailingFrames
  ApplyTransform : t.ApplyTransform = s.ApplyTransform
  PointsSkip : t.PointsSkip = s.PointsSkip
  LaserSelection : t.LaserSelection = s.LaserSelection
  cos_lookup_table_ : t.cos_lookup_table_ = s.cos_lookup_table_
  sin_lookup_table_ : t.sin_lookup_table_ = s.sin_lookup_table_
  laser_corrections_ : t.laser_corrections_ = s.laser_corrections_


/-- The points of all emitted frames and of the frame under construction. -/
def totalPoints (s : vtkInternal) : Nat :=
  (s.Datasets.map PolyData.numPoints).sum + s.CurrentDataset.numPoints

/-- The frames returned by `GetFrame` for the frame numbers of a list, requested one after
the other on the same reader. -/
def requestFrames (lm : Libm) : List Int → vtkInternal → List (Option PolyData)
  | [], _ => []
  | n :: ns, s => (GetFrame s n lm).frame :: requestFrames lm ns (GetFrame s n lm).state

/-- The number of points of a returned frame (`0` for a null pointer). -/
def framePoints (frame : Option PolyData) : Nat := (frame.map PolyData.numPoints).getD 0

/-- The reader `s` after `ReadFrameInformation` and `Open` on a capture that can be opened. -/
def indexedReader (s : vtkInternal) (capture : List Payload) : vtkInternal :=
  Open (ReadFrameInformation s (some capture)).1 (some capture)

/-! ## Point counts

The number of points a firing contributes depends on the packet, the laser selection and
`PointsSkip` only.  The functions below follow the assembler and the index scan on these
numbers; they are used to compare `GetFrame` with sequential decoding. -/

/-- The number of points `ProcessFiring` pushes for lasers `j, j + 1, ...`, `n` of them. -/
def firingPoints (sel : Nat → Bool) (firingData : HDLFiringData) (offset : Nat) :
    Nat → Nat → Nat
  | 0, _ => 0
  | n + 1, j =>
    (if (firingData.laserReturns j).distance ≠ 0 ∧ sel ((j + offset) % 256) = true then 1 else 0)
      + firingPoints sel firingData offset n (j + 1)

/-- The number of points firing `i` of a packet contributes. -/
def firePoints (sel : Nat → Bool) (pointsSkip : Int) (dataPacket : HDLDataPacket) (i : Nat) :
    Nat :=
  let firingData := dataPacket.firingData i
  let offset := if firingData.blockIdentifier = BLOCK_0_TO_31 then 0 else 32
  if pointsSkip = 0 ∨ Int.tmod (i : Int) (pointsSkip + 1) = 0 then
    firingPoints sel firingData offset HDL_LASER_PER_FIRING 0
  else 0

/-- The point counts of the emitted frames and of the frame under construction, with the
last azimuth. -/
structure FrameCounts where
  emitted : List Nat
  current : Nat
  lastAzimuth : Nat
  deriving DecidableEq

/-- The counts of an assembler state. -/
def countsOf (s : vtkInternal) : FrameCounts where
  emitted := s.Datasets.map PolyData.numPoints
  current := s.CurrentDataset.numPoints
  lastAzimuth := s.LastAzimuth

/-- All points counted. -/
def FrameCounts.total (a : FrameCounts) : Nat := a.emitted.sum + a.current

/-- The counts with further frames emitted before. -/
def FrameCounts.prepend (e : List Nat) (a : FrameCounts) : FrameCounts where
  emitted := e ++ a.emitted
  current := a.current
  lastAzimuth := a.lastAzimuth

/-- The counts after one iteration of the firing loop with `SplitCounter = 0`. -/
def countStep (sel : Nat → Bool) (pointsSkip : Int) (dataPacket : HDLDataPacket) (i : Nat)
    (a : FrameCounts) : FrameCounts :=
  let rot := (dataPacket.firingData i).rotationalPosition
  if rot < a.lastAzimuth then
    { emitted := a.emitted ++ [a.current]
      current := firePoints sel pointsSkip dataPacket i
      lastAzimuth := rot }
  else
    { emitted := a.emitted
      current := a.current + firePoints sel pointsSkip dataPacket i
      lastAzimuth := rot }

/-- The counts after firings `i, i + 1, ...`, `n` of them. -/
def countLoop (sel : Nat → Bool) (pointsSkip : Int) (dataPacket : HDLDataPacket) :
    Nat → Nat → FrameCounts → FrameCounts
  | 0, _, a => a
  | n + 1, i, a =>
    countLoop sel pointsSkip dataPacket n (i + 1) (countStep sel pointsSkip dataPacket i a)

/-- The counts after decoding the payloads of a list in order; `skip` is the value of `Skip`. -/
def countAll (sel : Nat → Bool) (pointsSkip : Int) : List Payload → Nat → FrameCounts → FrameCounts
  | [], _, a => a
  | data :: rest, skip, a =>
    if data.length ≠ 1206 then countAll sel pointsSkip rest skip a
    else
      countAll sel pointsSkip rest 0
        (countLoop sel pointsSkip (reinterpretPacket data) (HDL_FIRING_PER_PKT - skip) skip a)

/-- The counts after the packet loop of `GetFrame` with `SplitCounter = 0`. -/
def countGetFrame (sel : Nat → Bool) (pointsSkip : Int) :
    List Payload → Nat → FrameCounts → FrameCounts
  | [], _, a => { emitted := a.emitted ++ [a.current], current := 0, lastAzimuth := a.lastAzimuth }
  | data :: rest, skip, a =>
    if data.length ≠ 1206 then
      if a.emitted.length ≠ 0 then a else countGetFrame sel pointsSkip rest skip a
    else
      let a1 :=
        countLoop sel pointsSkip (reinterpretPacket data) (HDL_FIRING_PER_PKT - skip) skip a
      if a1.emitted.length ≠ 0 then a1 else countGetFrame sel pointsSkip rest 0 a1

/-- The number of points of the frame `GetFrame` returns when it starts at the records
`suffix` with `Skip = skip`. -/
def frameCount (sel : Nat → Bool) (pointsSkip : Int) (suffix : List Payload) (skip : Nat) : Nat :=
  ((countGetFrame sel pointsSkip suffix skip
    { emitted := [], current := 0, lastAzimuth := 0 }).emitted.getLast?).getD 0

/-- The number of firings among `i, i + 1, ...` (`n` of them) whose rotational position is
below that of the firing before, `lastAzimuth` being the one before firing `i`. -/
def azimuthDecreases (dataPacket : HDLDataPacket) : Nat → Nat → Nat → Nat
  | 0, _, _ => 0
  | n + 1, i, lastAzimuth =>
    (if (dataPacket.firingData i).rotationalPosition < lastAzimuth then 1 else 0)
      + azimuthDecreases dataPacket n (i + 1) (dataPacket.firingData i).rotationalPosition

/-- No payload of 1206 bytes contains more than one firing whose rotational position is
below that of the firing scanned before it; `lastAzimuth` is the one scanned last. -/
def atMostOneBoundaryPerPacket : List Payload → Nat → Bool
  | [], _ => true
  | data :: rest, lastAzimuth =>
    if data.length ≠ 1206 then atMostOneBoundaryPerPacket rest lastAzimuth
    else
      decide (azimuthDecreases (reinterpretPacket data) HDL_FIRING_PER_PKT 0 lastAzimuth ≤ 1) &&
        atMostOneBoundaryPerPacket rest
          ((reinterpretPacket data).firingData (HDL_FIRING_PER_PKT - 1)).rotationalPosition

/-- The index entries the firing loop of the scan adds, each with the records `pending` that
follow the recorded file position instead of the position. -/
def scanFirings (dataPacket : HDLDataPacket) (pending : List Payload) :
    Nat → Nat → Nat → List (List Payload × Nat)
  | 0, _, _ => []
  | n + 1, i, lastAzimuth =>
    (if (dataPacket.firingData i).rotationalPosition < lastAzimuth then [(pending, i)] else [])
      ++ scanFirings dataPacket pending n (i + 1) (dataPacket.firingData i).rotationalPosition

/-- The index entries the packet loop of the scan adds for the records `rest`; `pending` are
the records that follow the recorded file position. -/
def scanSuffixes : List Payload → List Payload → Nat → List (List Payload × Nat)
  | [], _, _ => []
  | data :: rest, pending, lastAzimuth =>
    if data.length ≠ 1206 then scanSuffixes rest pending lastAzimuth
    else
      scanFirings (reinterpretPacket data) pending HDL_FIRING_PER_PKT 0 lastAzimuth
        ++ scanSuffixes rest rest
            ((reinterpretPacket data).firingData (HDL_FIRING_PER_PKT - 1)).rotationalPosition

/-- The settings the point counts depend on, with `SplitCounter = 0`. -/
def countSettings (sel : Nat → Bool) (pointsSkip : Int) (s : vtkInternal) : Prop :=
  s.LaserSelection = sel ∧ s.PointsSkip = pointsSkip ∧ s.SplitCounter = 0

/-- A reader that is open on `capture`, holds the index `filePositions`, `skips`, and has the
settings `sel`, `pointsSkip` and `SplitCounter = 0`. -/
def readerSettings (capture : List Payload) (filePositions skips : List Nat) (sel : Nat → Bool)
    (pointsSkip : Int) (s : vtkInternal) : Prop :=
  (∃ p, s.Reader = some { packets := capture, position := p }) ∧
  s.FilePositions = filePositions ∧ s.Skips = skips ∧ countSettings sel pointsSkip s

/-- The index entries `(file position, skip)`, each with the records that follow the file
position in `capture` instead of the position. -/
def entriesOf (capture : List Payload) (filePositions skips : List Nat) :
    List (List Payload × Nat) :=
  (List.zip filePositions skips).map fun e => (capture.drop e.1, e.2)

/-- No firing of a payload of 1206 bytes has a rotational position below that of the firing
scanned before it; `lastAzimuth` is the one scanned last. -/
def azimuthNeverDecreases : List Payload → Nat → Bool
  | [], _ => true
  | data :: rest, lastAzimuth =>
    if data.length ≠ 1206 then azimuthNeverDecreases rest lastAzimuth
    else
      decide (azimuthDecreases (reinterpretPacket data) HDL_FIRING_PER_PKT 0 lastAzimuth = 0) &&
        azimuthNeverDecreases rest
          ((reinterpretPacket data).firingData (HDL_FIRING_PER_PKT - 1)).rotationalPosition

/-- The state `s` with another reader and another index. -/
def withIndex (reader : Option vtkPacketFileReader) (filePositions skips : List Nat)
    (s : vtkInternal) : vtkInternal :=
  { s with Reader := reader, FilePositions := filePositions, Skips := skips }

/-! ## The wire format of the specification -/

/-- Byte `k` of a little-endian unsigned integer. -/
def littleEndianByte (v k : Nat) : Nat := v / 256 ^ k % 256

/-- Byte `k` of a return on the wire: `(u16 distance, u8 intensity)`. -/
def encodeLaserReturn (r : HDLLaserReturn) (k : Nat) : Nat :=
  if k < 2 then littleEndianByte r.distance k else littleEndianByte r.intensity (k - 2)

/-- Byte `k` of a firing block on the wire:
`(u16 block_id, u16 rotational_position, 32 × return)`. -/
def encodeFiringBlock (f : HDLFiringData) (k : Nat) : Nat :=
  if k < 2 then littleEndianByte f.blockIdentifier k
  else if k < 2 + 2 then littleEndianByte f.rotationalPosition (k - 2)
  else encodeLaserReturn (f.laserReturns ((k - (2 + 2)) / 3)) ((k - (2 + 2)) % 3)

/-- The wire format of section 6 of the specification, packed and little-endian:
`12 × firing block + u32 gps_timestamp + 2 bytes padding`, with zeros behind the payload. -/
def encodePacket (p : HDLDataPacket) : Payload where
  length := 12 * (2 + 2 + 32 * 3) + 4 + 2
  byte := fun off =>
    if off < 12 * 100 then encodeFiringBlock (p.firingData (off / 100)) (off % 100)
    else if off < 12 * 100 + 4 then littleEndianByte p.gpsTimestamp (off - 12 * 100)
    else if off = 12 * 100 + 4 then littleEndianByte p.blank1 0
    else if off = 12 * 100 + 4 + 1 then littleEndianByte p.blank2 0
    else 0

/-- The field widths of a `Packet` value: 16-bit block identifier, rotational position and
distance, 8-bit intensity and padding, 32-bit timestamp. -/
def HDLDataPacket.wellFormed (p : HDLDataPacket) : Prop :=
  p.gpsTimestamp < 2 ^ 32 ∧ p.blank1 < 256 ∧ p.blank2 < 256 ∧
  ∀ i, i < 12 →
    (p.firingData i).blockIdentifier < 65536 ∧ (p.firingData i).rotationalPosition < 65536 ∧
    ∀ j, j < 32 →
      ((p.firingData i).laserReturns j).distance < 65536 ∧
      ((p.firingData i).laserReturns j).intensity < 256

/-! ## Closed examples -/

/-- A math library for the closed examples below: the `double` nearest to π, the leading
terms of the sine and cosine series, and an `atan2` that is never called because no
example installs a pose interpolator.  Every theorem that is stated for a `Libm` holds
for all of them. -/
def exampleLibm : Libm where
  pi := 884279719003555 / 281474976710656
  sin := fun x => toDouble (x - x ^ 3 / 6 + x ^ 5 / 120)
  cos := fun x => toDouble (1 - x ^ 2 / 2 + x ^ 4 / 24)
  atan2 := fun _ _ => 0

/-- Scenario 4 of the specification: firings 0 and 1 have rotational position 18000 and
block identifier 0xEEFF, laser 0 returns raw distance 1000 with intensity 40 and then raw
distance 2000 with intensity 80; nothing else returns. -/
def dualReturnPacket : HDLDataPacket where
  firingData := fun i =>
    { blockIdentifier := 0xeeff
      rotationalPosition := 18000
      laserReturns := fun j =>
        if j = 0 ∧ i = 0 then ⟨1000, 40⟩ else if j = 0 ∧ i = 1 then ⟨2000, 80⟩ else ⟨0, 0⟩ }
  gpsTimestamp := 123456
  blank1 := 0
  blank2 := 0

/-- The state after the first firing of scenario 4, from the initial state. -/
def dualReturnFirst : vtkInternal :=
  ProcessHDLPacket.step dualReturnPacket 0 (0, 0, 0) exampleLibm 0 (vtkInternal.new 0 exampleLibm)

/-- The state after the second firing of scenario 4. -/
def dualReturnSecond : vtkInternal :=
  ProcessHDLPacket.step dualReturnPacket 0 (0, 0, 0) exampleLibm 1 dualReturnFirst

/-- Scenario 4 with raw distances 500 and 501 in place of 1000 and 2000. -/
def nearbyReturnsPacket : HDLDataPacket where
  firingData := fun i =>
    { blockIdentifier := 0xeeff
      rotationalPosition := 18000
      laserReturns := fun j =>
        if j = 0 ∧ i = 0 then ⟨500, 40⟩ else if j = 0 ∧ i = 1 then ⟨501, 80⟩ else ⟨0, 0⟩ }
  gpsTimestamp := 123456
  blank1 := 0
  blank2 := 0

/-- The state after the first firing of `nearbyReturnsPacket`, from the initial state. -/
def nearbyReturnsFirst : vtkInternal :=
  ProcessHDLPacket.step nearbyReturnsPacket 0 (0, 0, 0) exampleLibm 0
    (vtkInternal.new 0 exampleLibm)

/-- The state after the second firing of `nearbyReturnsPacket`. -/
def nearbyReturnsSecond : vtkInternal :=
  ProcessHDLPacket.step nearbyReturnsPacket 0 (0, 0, 0) exampleLibm 1 nearbyReturnsFirst

/-- A packet of block 0xEEFF whose firing `i` has rotational position `first + step * i`
and in which only laser 0 returns (raw distance 1000, intensity 10). -/
def sweepPacket (first step timestamp : Nat) : HDLDataPacket where
  firingData := fun i =>
    { blockIdentifier := 0xeeff
      rotationalPosition := first + step * i
      laserReturns := fun j => if j = 0 then ⟨1000, 10⟩ else ⟨0, 0⟩ }
  gpsTimestamp := timestamp
  blank1 := 0
  blank2 := 0

/-- Scenario 3 of the specification, first payload: rotational positions 100, 200, ..., 1200,
timestamp 1000. -/
def firstSweepPayload : Payload := encodePacket (sweepPacket 100 100 1000)

/-- Scenario 3, second payload: rotational positions 10, 20, ..., 120, timestamp 2000; its
first firing is below the last firing of the first payload. -/
def secondSweepPayload : Payload := encodePacket (sweepPacket 10 10 2000)

/-- The state after the first payload of scenario 3, from the initial state. -/
def afterFirstSweep : vtkInternal :=
  ProcessHDLPacket (vtkInternal.new 0 exampleLibm) firstSweepPayload exampleLibm

/-- The state after both payloads of scenario 3. -/
def afterSecondSweep : vtkInternal :=
  ProcessHDLPacket afterFirstSweep secondSweepPayload exampleLibm

/-- The reader after construction, with the index of the empty capture built and the empty
capture open. -/
def emptyCaptureReader : vtkInternal :=
  Open (ReadFrameInformation (vtkInternal.new 0 exampleLibm) (some [])).1 (some [])

/-- A packet of block 0xEEFF with two azimuth decreases: the rotational positions are 300,
200, 100, 101, ..., 109.  Lasers 0 and 1 return in firing 0, laser 0 alone in the others. -/
def doubleWrapPacket : HDLDataPacket where
  firingData := fun i =>
    { blockIdentifier := 0xeeff
      rotationalPosition := if i = 0 then 300 else if i = 1 then 200 else 98 + i
      laserReturns := fun j => if j = 0 ∨ (j = 1 ∧ i = 0) then ⟨1000, 10⟩ else ⟨0, 0⟩ }
  gpsTimestamp := 1000
  blank1 := 0
  blank2 := 0

/-- The capture that consists of the payload of `doubleWrapPacket`. -/
def doubleWrapCapture : List Payload := [encodePacket doubleWrapPacket]

/-- The capture of scenario 3: the two payloads. -/
def twoSweepCapture : List Payload := [firstSweepPayload, secondSweepPayload]

/-- A packet of block 0xEEFF with an azimuth decrease at firing 6: the rotational positions are
100, 200, ..., 600 and then 10, 20, ..., 60.  Laser 0 alone returns. -/
def midWrapPacket : HDLDataPacket where
  firingData := fun i =>
    { blockIdentifier := 0xeeff
      rotationalPosition := if i < 6 then 100 * (i + 1) else 10 * (i - 5)
      laserReturns := fun j => if j = 0 then ⟨1000, 10⟩ else ⟨0, 0⟩ }
  gpsTimestamp := 1000
  blank1 := 0
  blank2 := 0

/-- The capture that consists of the payload of `midWrapPacket`. -/
def midWrapCapture : List Payload := [encodePacket midWrapPacket]

/-- The reader after construction, with the index of `midWrapCapture` built and the capture
open. -/
def midWrapReader : vtkInternal := indexedReader (vtkInternal.new 0 exampleLibm) midWrapCapture

/-- The records `DumpFrames(1, 1)` writes from `midWrapReader` (none if it writes no file). -/
def midWrapDump : List Payload := ((DumpFrames midWrapReader 1 1 true).2).getD []

/-- The reader of scenario 3: the index of `twoSweepCapture` built and the capture open. -/
def twoSweepReader : vtkInternal := indexedReader (vtkInternal.new 0 exampleLibm) twoSweepCapture

/-! ## Invariants of the assembler state -/

/-- Invariant 3 of the specification for one laser: `LastPointId[i]` is `-1` or the index of a
point of the frame under construction. -/
def lastPointIdValid (s : vtkInternal) (i : Nat) : Prop :=
  s.LastPointId i = -1 ∨
    (0 ≤ s.LastPointId i ∧ s.LastPointId i < (s.CurrentDataset.Points.length : Int))

/-- Invariant 3 of the specification, for the lasers `0..63`. -/
def lastPointIdsValid (s : vtkInternal) : Prop :=
  ∀ i, i < HDL_MAX_NUM_LASERS → lastPointIdValid s i

/-- A payload of 1206 bytes all of whose firings carry the rotational position 40000. -/
def overRangePayload : Payload := encodePacket (sweepPacket 40000 0 1000)


/-- Scenario 5 of the specification: the default correction of laser 5 with an azimuth
correction of 1.0 degree. -/
def correctedLaserFive : HDLLaserCorrection :=
  { (vtkInternal.new 0 exampleLibm).laser_corrections_ 5 with azimuthCorrection := 1 }


/-- The number of firings among `i, i + 1, ...` (`n` of them) whose rotational position is not
zero and below that of the firing before, `lastAzimuth` being the one before firing `i`. -/
def nonzeroAzimuthDecreases (dataPacket : HDLDataPacket) : Nat → Nat → Nat → Nat
  | 0, _, _ => 0
  | n + 1, i, lastAzimuth =>
    (if (dataPacket.firingData i).rotationalPosition ≠ 0 ∧
        (dataPacket.firingData i).rotationalPosition < lastAzimuth then 1 else 0)
      + nonzeroAzimuthDecreases dataPacket n (i + 1) (dataPacket.firingData i).rotationalPosition

/-- A packet of block 0xEEFF that wraps to the rotational position 0: the rotational positions
are 35990, 0, 10, 20, ..., 100.  Laser 0 alone returns. -/
def zeroWrapPacket : HDLDataPacket where
  firingData := fun i =>
    { blockIdentifier := 0xeeff
      rotationalPosition := if i = 0 then 35990 else 10 * (i - 1)
      laserReturns := fun j => if j = 0 then ⟨1000, 10⟩ else ⟨0, 0⟩ }
  gpsTimestamp := 1000
  blank1 := 0
  blank2 := 0

/-- The capture that consists of the payload of `zeroWrapPacket`. -/
def zeroWrapCapture : List Payload := [encodePacket zeroWrapPacket]


/-! ## The calibration file -/

/-- A `boost::property_tree::ptree`, the tree `read_xml` builds from an XML document: every
node holds its data, the text of the element, and its children with their keys, the element
names, in document order. -/
inductive ptree where
  | node (data : String) (children : List (String × ptree))

/-- The member function `data()` of a `ptree`. -/
def ptree.data : ptree → String
  | .node d _ => d

/-- The children a `BOOST_FOREACH` over a `ptree` visits. -/
def ptree.children : ptree → List (String × ptree)
  | .node _ c => c

/-- The member function `get_child(path)` of a `ptree`, for a path given by its keys: it
descends into the first child with each key and throws `ptree_bad_path`, here `none`, when
there is none. -/
def ptree.get_child : ptree → List String → Option ptree
  | t, [] => some t
  | t, key :: path =>
    match t.children.find? fun c => c.1 = key with
    | some c => c.2.get_child path
    | none => none

/-- The digits loop of `atoi`: the value of the leading decimal digits, after `acc`. -/
def atoi.digits : List Char → Nat → Nat
  | [], acc => acc
  | c :: cs, acc => if c.isDigit then atoi.digits cs (10 * acc + (c.toNat - 48)) else acc

/-- The function `atoi` of the C library: leading white space is skipped, an optional sign and
the decimal digits that follow are converted, and the result is `0` when there is no digit.
(Values outside the range of `int`, where the behaviour of `atoi` is undefined, are not
reduced.) -/
def atoi (text : String) : Int :=
  let cs := text.toList.dropWhile fun c => c = ' ' ∨ (9 ≤ c.toNat ∧ c.toNat ≤ 13)
  match cs with
  | '-' :: rest => - (atoi.digits rest 0 : Int)
  | '+' :: rest => (atoi.digits rest 0 : Int)
  | _ => (atoi.digits cs 0 : Int)

/-- The locals of the `px` loop body of `LoadCorrectionsFile`. -/
structure CalibrationLocals where
  index : Int
  azimuth : ℚ
  vertCorrection : ℚ
  distCorrection : ℚ
  vertOffsetCorrection : ℚ
  horizOffsetCorrection : ℚ

/-- Lines 905-916 of `LoadCorrectionsFile`: one iteration of the loop over the children of a
`px` node.  `atof` is the function of the C library, a parameter of the embedding. -/
def LoadCorrectionsFile.item (atof : String → ℚ) (e : CalibrationLocals) (item : String × ptree) :
    CalibrationLocals :=
  let e := if item.1 = "id_" then { e with index := atoi item.2.data } else e
  let e := if item.1 = "rotCorrection_" then { e with azimuth := atof item.2.data } else e
  let e := if item.1 = "vertCorrection_" then { e with vertCorrection := atof item.2.data } else e
  let e := if item.1 = "distCorrection_" then { e with distCorrection := atof item.2.data } else e
  let e :=
    if item.1 = "vertOffsetCorrection_" then { e with vertOffsetCorrection := atof item.2.data }
    else e
  if item.1 = "horizOffsetCorrection_" then { e with horizOffsetCorrection := atof item.2.data }
  else e

/-- Lines 896-917 of `LoadCorrectionsFile`: the locals after the loop over the children of
the `px` node `calibrationData`. -/
def LoadCorrectionsFile.locals (atof : String → ℚ) (calibrationData : ptree) :
    CalibrationLocals :=
  calibrationData.children.foldl (LoadCorrectionsFile.item atof)
    { index := -1, azimuth := 0, vertCorrection := 0, distCorrection := 0,
      vertOffsetCorrection := 0, horizOffsetCorrection := 0 }

/-- Lines 918-928 of `LoadCorrectionsFile`: the write to `laser_corrections_[index]`.  The
source does not compare `index` with the bounds of the table: an index of 64 or more writes
the entry of that number behind the table, a negative index writes before it, which is no
entry of `laser_corrections_` here. -/
def LoadCorrectionsFile.store (lm : Libm) (s : vtkInternal) (e : CalibrationLocals) :
    vtkInternal :=
  if e.index ≠ -1 then
    { s with
      laser_corrections_ := fun i =>
        if (i : Int) = e.index then
          { s.laser_corrections_ i with
            azimuthCorrection := e.azimuth
            verticalCorrection := e.vertCorrection
            distanceCorrection := ddiv e.distCorrection 100
            verticalOffsetCorrection := ddiv e.vertOffsetCorrection 100
            horizontalOffsetCorrection := ddiv e.horizOffsetCorrection 100
            cosVertCorrection := lm.cos (HDL_Grabber_toRadians lm e.vertCorrection)
            sinVertCorrection := lm.sin (HDL_Grabber_toRadians lm e.vertCorrection) }
        else s.laser_corrections_ i }
  else s

/-- Lines 891-930 of `LoadCorrectionsFile`: one iteration of the loop over the children of an
`item` node. -/
def LoadCorrectionsFile.px (atof : String → ℚ) (lm : Libm) (s : vtkInternal)
    (px : String × ptree) : vtkInternal :=
  if px.1 = "px" then LoadCorrectionsFile.store lm s (LoadCorrectionsFile.locals atof px.2) else s

/-- Lines 886-932 of `LoadCorrectionsFile`: one iteration of the loop over the children of
`points_`. -/
def LoadCorrectionsFile.points (atof : String → ℚ) (lm : Libm) (s : vtkInternal)
    (v : String × ptree) : vtkInternal :=
  if v.1 = "item" then v.2.children.foldl (LoadCorrectionsFile.px atof lm) s else s

/-- The method `vtkInternal::LoadCorrectionsFile`.  `file` is the tree `read_xml` builds from
the file, `none` when it throws; the result is `none` when `get_child` throws, which the
method does not catch. -/
def LoadCorrectionsFile (s : vtkInternal) (file : Option ptree) (atof : String → ℚ)
    (lm : Libm) : Option vtkInternal :=
  match file with
  | none => some s
  | some pt =>
    match pt.get_child ["boost_serialization", "DB", "points_"] with
    | none => none
    | some points_ =>
      some (SetCorrectionsCommon (points_.children.foldl (LoadCorrectionsFile.points atof lm) s))

/-- The `px` nodes the loops of `LoadCorrectionsFile` visit, in document order. -/
def LoadCorrectionsFile.visited (points_ : ptree) : List ptree :=
  (points_.children.filter fun v => v.1 = "item").flatMap fun v =>
    (v.2.children.filter fun px => px.1 = "px").map fun px => px.2

/-- The text of the last child of a node with the key `key`. -/
def ptree.lastText (t : ptree) (key : String) : Option String :=
  ((t.children.filter fun c => c.1 = key).getLast?).map fun c => c.2.data

/-- A stand-in for `atof` in the closed examples: it agrees with `atof` on decimal integers. -/
def exampleAtof (text : String) : ℚ := (atoi text : ℚ)

/-- A calibration document with the single entry `px` below
`boost_serialization.DB.points_.item`. -/
def calibrationDocument (px : List (String × ptree)) : ptree :=
  .node "" [("boost_serialization", .node "" [("DB", .node "" [("points_", .node ""
    [("count", .node "64" []), ("item_version", .node "1" []),
      ("item", .node "" [("px", .node "" px)])])])])]

/-- Scenario 6 of the specification: the entry of laser 0 with `distCorrection_ = 25`. -/
def distanceCorrectionDocument : ptree :=
  calibrationDocument [("id_", .node "0" []), ("distCorrection_", .node "25" [])]

/-- An entry whose `id_` is not a number. -/
def unparsableIdDocument : ptree :=
  calibrationDocument [("id_", .node "abc" []), ("vertCorrection_", .node "7" [])]

/-- An entry whose `id_` is the number of no laser. -/
def outOfRangeIdDocument : ptree :=
  calibrationDocument [("id_", .node "64" []), ("vertCorrection_", .node "7" [])]

/-- An entry without `id_`. -/
def missingIdDocument : ptree :=
  calibrationDocument [("vertCorrection_", .node "7" [])]


/-! ## The index of the specification -/

/-- A firing the index scan examines: the number of the record that contains it, which is the
reader position at the start of that record; the reader position `kept` that the scan holds
while it examines the record; the number of the firing in the packet; and its rotational
position. -/
structure ScannedFiring where
  record : Nat
  kept : Nat
  firing : Nat
  rotationalPosition : Nat
  deriving DecidableEq

/-- The firings of the payloads of 1206 bytes of a capture, in stream order.  `record` is the
number of the first record of the list.  The position `kept` is the position behind the last
payload of 1206 bytes before the record, records of another length being skipped without it
being updated. -/
def scannedFirings : List Payload → Nat → Nat → List ScannedFiring
  | [], _, _ => []
  | data :: rest, record, kept =>
    if data.length ≠ 1206 then scannedFirings rest (record + 1) kept
    else
      ((List.range HDL_FIRING_PER_PKT).map fun i =>
          { record := record, kept := kept, firing := i,
            rotationalPosition := ((reinterpretPacket data).firingData i).rotationalPosition })
        ++ scannedFirings rest (record + 1) (record + 1)

/-- The firings of a list whose rotational position is strictly less than that of the firing
before; `previous` is the rotational position before the first one. -/
def frameBoundaries : List ScannedFiring → Nat → List ScannedFiring
  | [], _ => []
  | f :: rest, previous =>
    (if f.rotationalPosition < previous then [f] else [])
      ++ frameBoundaries rest f.rotationalPosition

/-- The rotational position of the last firing of a list, `previous` for the empty list. -/
def lastRotationalPosition (firings : List ScannedFiring) (previous : Nat) : Nat :=
  (firings.getLast?.map fun f => f.rotationalPosition).getD previous

/-- A capture with a record of three bytes between the two payloads of scenario 3. -/
def strayRecordCapture : List Payload :=
  [firstSweepPayload, Payload.ofList [1, 2, 3], secondSweepPayload]


/-! ## Aggregate frames -/

/-- The six columns of a frame that `PushFiringData` appends in the same way in every branch:
position, intensity, laser_id, azimuth, distance_m and timestamp. -/
structure RawColumns where
  Points : List (ℚ × ℚ × ℚ)
  Intensity : List Nat
  LaserId : List Nat
  Azimuth : List Nat
  Distance : List ℚ
  Timestamp : List Nat
  deriving DecidableEq

/-- The raw columns of a frame. -/
def PolyData.raw (d : PolyData) : RawColumns :=
  { Points := d.Points, Intensity := d.Intensity, LaserId := d.LaserId, Azimuth := d.Azimuth,
    Distance := d.Distance, Timestamp := d.Timestamp }

/-- The columns of `a` followed by those of `b`. -/
def RawColumns.append (a b : RawColumns) : RawColumns :=
  { Points := a.Points ++ b.Points, Intensity := a.Intensity ++ b.Intensity,
    LaserId := a.LaserId ++ b.LaserId, Azimuth := a.Azimuth ++ b.Azimuth,
    Distance := a.Distance ++ b.Distance, Timestamp := a.Timestamp ++ b.Timestamp }

/-- The raw columns of the frames of a list, one after the other. -/
def concatRaw : List PolyData → RawColumns
  | [] => { Points := [], Intensity := [], LaserId := [], Azimuth := [], Distance := [],
            Timestamp := [] }
  | d :: rest => d.raw.append (concatRaw rest)

/-- The frames of an assembler state in the order of the stream: the emitted frames and the
frame under construction. -/
def framesOf (s : vtkInternal) : List PolyData := s.Datasets ++ [s.CurrentDataset]

/-- The relation between the state `a` of a run that started with `SplitCounter = n` and the
state `q` of the run on the same input that started with `SplitCounter = 0`.  They agree on
the inputs of the firing loop.  While `q` has emitted at most `n` frames, `a` has swallowed as
many splits and its frame under construction holds the raw columns of all frames of `q`;
afterwards the first frame of `a` holds those of the first `n + 1` frames of `q` and the later
frames correspond one to one. -/
structure Aggregates (n : Nat) (a q : vtkInternal) : Prop where
  LastAzimuth : a.LastAzimuth = q.LastAzimuth
  Skip : a.Skip = q.Skip
  Interp : a.Interp = q.Interp
  ApplyTransform : a.ApplyTransform = q.ApplyTransform
  PointsSkip : a.PointsSkip = q.PointsSkip
  LaserSelection : a.LaserSelection = q.LaserSelection
  laser_corrections_ : a.laser_corrections_ = q.laser_corrections_
  cos_lookup_table_ : a.cos_lookup_table_ = q.cos_lookup_table_
  sin_lookup_table_ : a.sin_lookup_table_ = q.sin_lookup_table_
  sequential : q.SplitCounter = 0
  frames :
    (q.Datasets.length ≤ n ∧ a.Datasets = [] ∧ a.SplitCounter = (n : Int) - q.Datasets.length ∧
      a.CurrentDataset.raw = concatRaw (framesOf q)) ∨
    (n < q.Datasets.length ∧ a.SplitCounter = 0 ∧
      a.Datasets.map PolyData.raw
        = concatRaw (q.Datasets.take (n + 1)) :: (q.Datasets.drop (n + 1)).map PolyData.raw ∧
      a.CurrentDataset.raw = q.CurrentDataset.raw)

/-- A packet of block 0xEEFF like `sweepPacket`, a third sweep: rotational positions
5, 10, ..., 60. -/
def thirdSweepPayload : Payload := encodePacket (sweepPacket 5 5 3000)

/-- The capture of scenario 3 followed by a third sweep: three frames of twelve points. -/
def threeSweepCapture : List Payload := [firstSweepPayload, secondSweepPayload, thirdSweepPayload]

/-- The reader with the index of `threeSweepCapture` built and the capture open. -/
def threeSweepReader : vtkInternal :=
  indexedReader (vtkInternal.new 0 exampleLibm) threeSweepCapture


/-! ## Which returns become points -/

/-- The 384 distances of a packet are all zero. -/
def HDLDataPacket.allDistancesZero (p : HDLDataPacket) : Prop :=
  ∀ i, i < HDL_FIRING_PER_PKT → ∀ j, j < HDL_LASER_PER_FIRING →
    ((p.firingData i).laserReturns j).distance = 0

/-- Every frame of a state, emitted or under construction, has no point. -/
def allFramesEmpty (s : vtkInternal) : Prop := ∀ d ∈ framesOf s, d.numPoints = 0

/-- The lasers of a firing for which `ProcessFiring` calls `PushFiringData`, in increasing
order: those with a non-zero distance that are selected. -/
def pushedLasers (sel : Nat → Bool) (firingData : HDLFiringData) (offset : Nat) : List Nat :=
  (List.range HDL_LASER_PER_FIRING).filter fun j =>
    decide ((firingData.laserReturns j).distance ≠ 0) && sel (j + offset)

/-- A packet with no return at all, whose rotational positions never decrease:
0, 10, ..., 110. -/
def silentPacket : HDLDataPacket where
  firingData := fun i =>
    { blockIdentifier := 0xeeff
      rotationalPosition := 10 * i
      laserReturns := fun _ => ⟨0, 0⟩ }
  gpsTimestamp := 1000
  blank1 := 0
  blank2 := 0

/-- A packet with no return at all whose rotational position decreases at firing 1:
300, 101, 102, ..., 111. -/
def silentWrapPacket : HDLDataPacket where
  firingData := fun i =>
    { blockIdentifier := 0xeeff
      rotationalPosition := if i = 0 then 300 else 100 + i
      laserReturns := fun _ => ⟨0, 0⟩ }
  gpsTimestamp := 1000
  blank1 := 0
  blank2 := 0

/-! ## Dual returns and their partners -/

/-- Line 1039 of `ProcessFiring`: the local `dual`. -/
def ProcessFiring.dual (s : vtkInternal) (firingData : HDLFiringData) : Bool :=
  decide (s.LastAzimuth = firingData.rotationalPosition)

/-- The state invariant behind invariant 4 of the specification: `FirstPointIdThisReturn` is
not negative, the laser-id column is as long as the point list, and `LastPointId[i]`, for
`i` in `0..63`, is `-1` or the index of a point of the frame under construction whose laser
id is `i`. -/
def dualInvariant (s : vtkInternal) : Prop :=
  0 ≤ s.FirstPointIdThisReturn ∧
  s.CurrentDataset.LaserId.length = s.CurrentDataset.Points.length ∧
  ∀ i, i < HDL_MAX_NUM_LASERS → s.LastPointId i = -1 ∨
    (0 ≤ s.LastPointId i ∧ s.LastPointId i < (s.CurrentDataset.Points.length : Int) ∧
      s.CurrentDataset.LaserId[(s.LastPointId i).toNat]? = some i)

/-- A packet in the layout of the 64-laser sensor: the firings alternate between block
0xEEFF and block 0xDDFF, and the two firings of a pair carry the same rotational position
(100, 100, 110, 110, ...).  Laser 0 of firing 0 and laser 0 of firing 1 (laser id 32) return;
nothing else does. -/
def upperLowerPacket : HDLDataPacket where
  firingData := fun i =>
    { blockIdentifier := if i % 2 = 0 then 0xeeff else 0xddff
      rotationalPosition := 100 + 10 * (i / 2)
      laserReturns := fun j =>
        if j = 0 ∧ i = 0 then ⟨1000, 40⟩ else if j = 0 ∧ i = 1 then ⟨2000, 80⟩ else ⟨0, 0⟩ }
  gpsTimestamp := 123456
  blank1 := 0
  blank2 := 0

/-- The state after firing 0 of `upperLowerPacket`, from the initial state. -/
def upperLowerFirst : vtkInternal :=
  ProcessHDLPacket.step upperLowerPacket 0 (0, 0, 0) exampleLibm 0 (vtkInternal.new 0 exampleLibm)

/-- The state after firing 1 of `upperLowerPacket`. -/
def upperLowerSecond : vtkInternal :=
  ProcessHDLPacket.step upperLowerPacket 0 (0, 0, 0) exampleLibm 1 upperLowerFirst

/-! ## Seeking against sequential decoding -/

/-- The nine point-data columns of two frames agree: position, intensity, laser_id, azimuth,
distance_m, timestamp, dual_flags, dual_intensity_delta and dual_distance_delta.  The vertex
cells, which `SplitFrame` writes when it emits a frame, are left out. -/
def PolyData.sameColumns (a b : PolyData) : Prop :=
  a.Points = b.Points ∧ a.Intensity = b.Intensity ∧ a.LaserId = b.LaserId ∧
  a.Azimuth = b.Azimuth ∧ a.Distance = b.Distance ∧ a.Timestamp = b.Timestamp ∧
  a.Flags = b.Flags ∧ a.IntensityDelta = b.IntensityDelta ∧ a.DistanceDelta = b.DistanceDelta

instance (a b : PolyData) : Decidable (a.sameColumns b) := by
  unfold PolyData.sameColumns
  infer_instance

/-- The rotational position of the first firing `GetFrame` processes when it starts at the
records `suffix` with `Skip = skip`: firing `skip` of the first payload of 1206 bytes. -/
def firstFiringRotation : List Payload → Nat → Option Nat
  | [], _ => none
  | data :: rest, skip =>
    if data.length ≠ 1206 then firstFiringRotation rest skip
    else some ((reinterpretPacket data).firingData skip).rotationalPosition

/-- The relation between the state `a` of a run that started behind a seek and the state `q`
of the sequential run on the same records, which has emitted the frames `D` before: they
agree on the frame under construction, on `LastPointId[0..63]`, on
`FirstPointIdThisReturn` and on the settings, both have `SplitCounter = 0`, and the frames
of `q` are `D` followed by those of `a`. -/
structure Seeks (D : List PolyData) (a q : vtkInternal) : Prop where
  Datasets : q.Datasets = D ++ a.Datasets
  CurrentDataset : a.CurrentDataset = q.CurrentDataset
  LastPointId : ∀ i, i < HDL_MAX_NUM_LASERS → a.LastPointId i = q.LastPointId i
  FirstPointIdThisReturn : a.FirstPointIdThisReturn = q.FirstPointIdThisReturn
  Interp : a.Interp = q.Interp
  ApplyTransform : a.ApplyTransform = q.ApplyTransform
  PointsSkip : a.PointsSkip = q.PointsSkip
  LaserSelection : a.LaserSelection = q.LaserSelection
  laser_corrections_ : a.laser_corrections_ = q.laser_corrections_
  cos_lookup_table_ : a.cos_lookup_table_ = q.cos_lookup_table_
  sin_lookup_table_ : a.sin_lookup_table_ = q.sin_lookup_table_
  seeking : a.SplitCounter = 0
  sequential : q.SplitCounter = 0

/-- The state `a` is fresh, as the constructor, `UnloadData` and a seek leave it: it holds no
frame, no point and no remembered point, and its `LastAzimuth` is 0.  It has the settings of
`q`, and both have `SplitCounter = 0` and `PointsSkip = 0`. -/
structure FreshFor (a q : vtkInternal) : Prop where
  Datasets : a.Datasets = []
  CurrentDataset : a.CurrentDataset = CreateData 0
  LastPointId : ∀ i, i < HDL_MAX_NUM_LASERS → a.LastPointId i = -1
  LastAzimuth : a.LastAzimuth = 0
  Interp : a.Interp = q.Interp
  ApplyTransform : a.ApplyTransform = q.ApplyTransform
  PointsSkip : a.PointsSkip = q.PointsSkip
  everyFiring : q.PointsSkip = 0
  LaserSelection : a.LaserSelection = q.LaserSelection
  laser_corrections_ : a.laser_corrections_ = q.laser_corrections_
  cos_lookup_table_ : a.cos_lookup_table_ = q.cos_lookup_table_
  sin_lookup_table_ : a.sin_lookup_table_ = q.sin_lookup_table_
  seeking : a.SplitCounter = 0
  sequential : q.SplitCounter = 0

/-- A packet of block 0xEEFF whose firings 0 and 1 carry the rotational position 0 and the
later firings `10 * i`; laser 0 returns at firing 0 (raw distance 1000, intensity 40) and at
firing 1 (raw distance 2000, intensity 80), nothing else returns. -/
def zeroStartPacket : HDLDataPacket where
  firingData := fun i =>
    { blockIdentifier := 0xeeff
      rotationalPosition := if i < 2 then 0 else 10 * i
      laserReturns := fun j =>
        if j = 0 ∧ i = 0 then ⟨1000, 40⟩ else if j = 0 ∧ i = 1 then ⟨2000, 80⟩ else ⟨0, 0⟩ }
  gpsTimestamp := 123456
  blank1 := 0
  blank2 := 0

/-- The capture that consists of the payload of `zeroStartPacket`: one frame. -/
def zeroStartCapture : List Payload := [encodePacket zeroStartPacket]

/-- The reader with the index of `zeroStartCapture` built and the capture open. -/
def zeroStartReader : vtkInternal :=
  indexedReader (vtkInternal.new 0 exampleLibm) zeroStartCapture

/-- The reader with the index of `doubleWrapCapture` built and the capture open. -/
def doubleWrapReader : vtkInternal :=
  indexedReader (vtkInternal.new 0 exampleLibm) doubleWrapCapture

/-- A packet of block 0xEEFF with the rotational positions 100, 10, 10, 10, 10, 50, 60, ...,
110: the one frame boundary is at firing 1.  Laser 0 returns at firing 0, at firing 2 (raw
distance 1000, intensity 40) and at firing 4 (raw distance 2000, intensity 80). -/
def skippedBoundaryPacket : HDLDataPacket where
  firingData := fun i =>
    { blockIdentifier := 0xeeff
      rotationalPosition := if i = 0 then 100 else if i < 5 then 10 else 10 * i
      laserReturns := fun j =>
        if j = 0 ∧ (i = 0 ∨ i = 2) then ⟨1000, 40⟩ else if j = 0 ∧ i = 4 then ⟨2000, 80⟩
        else ⟨0, 0⟩ }
  gpsTimestamp := 123456
  blank1 := 0
  blank2 := 0

/-- The capture that consists of the payload of `skippedBoundaryPacket`: two frames. -/
def skippedBoundaryCapture : List Payload := [encodePacket skippedBoundaryPacket]

/-- The initial state with `PointsSkip = 1`: every second firing is processed. -/
def everySecondFiring : vtkInternal := { vtkInternal.new 0 exampleLibm with PointsSkip := 1 }

/-- The reader with `PointsSkip = 1`, the index of `skippedBoundaryCapture` built and the
capture open. -/
def skippedBoundaryReader : vtkInternal := indexedReader everySecondFiring skippedBoundaryCapture

/-! ## Aggregate frames, all columns -/

/-- The columns of `a` followed by those of `b`. -/
def PolyData.append (a b : PolyData) : PolyData :=
  { Points := a.Points ++ b.Points, Verts := a.Verts ++ b.Verts,
    Intensity := a.Intensity ++ b.Intensity, LaserId := a.LaserId ++ b.LaserId,
    Azimuth := a.Azimuth ++ b.Azimuth, Distance := a.Distance ++ b.Distance,
    Timestamp := a.Timestamp ++ b.Timestamp, Flags := a.Flags ++ b.Flags,
    IntensityDelta := a.IntensityDelta ++ b.IntensityDelta,
    DistanceDelta := a.DistanceDelta ++ b.DistanceDelta }

/-- The frames of a list, one after the other: every column is the concatenation of the
columns of the frames. -/
def concatFrames : List PolyData → PolyData
  | [] => CreateData 0
  | d :: rest => d.append (concatFrames rest)

/-- No payload of 1206 bytes that a frame request reads holds more than one firing whose
rotational position is below that of the firing processed before it.  The request enters the
first payload of 1206 bytes with `Skip = skip` and `LastAzimuth = lastAzimuth`, and it
returns behind the payload in which it meets the last of the `frames` boundaries it waits
for; the payloads behind that one are not read. -/
def atMostOneBoundaryRead : List Payload → Nat → Nat → Nat → Bool
  | [], _, _, _ => true
  | data :: rest, skip, lastAzimuth, frames =>
    if data.length ≠ 1206 then atMostOneBoundaryRead rest skip lastAzimuth frames
    else
      decide (azimuthDecreases (reinterpretPacket data) (HDL_FIRING_PER_PKT - skip) skip
          lastAzimuth ≤ 1) &&
        (decide (frames ≤ azimuthDecreases (reinterpretPacket data) (HDL_FIRING_PER_PKT - skip)
            skip lastAzimuth) ||
          atMostOneBoundaryRead rest 0
            (if skip < HDL_FIRING_PER_PKT then
              ((reinterpretPacket data).firingData (HDL_FIRING_PER_PKT - 1)).rotationalPosition
            else lastAzimuth)
            (frames - azimuthDecreases (reinterpretPacket data) (HDL_FIRING_PER_PKT - skip)
              skip lastAzimuth))

/-- The frame under construction of a run `a` that swallows frame splits, against the run `q`
on the same input that emits them, `P` being the columns of the frames `q` has emitted: the
nine columns of the frame of `a` are those of `P` followed by those of the frame of `q`;
`FirstPointIdThisReturn` of `a` is that of `q` moved by the number of points of `P`; and
`LastPointId[i]` of `a`, for `i` in `0..63`, is that of `q` moved likewise, or `q` has
forgotten the point at a frame split and `a` remembers a point of `P`. -/
structure Merging (P : PolyData) (a q : vtkInternal) : Prop where
  columns : a.CurrentDataset.sameColumns (P.append q.CurrentDataset)
  emitted : P.columnsAligned
  current : q.CurrentDataset.columnsAligned
  FirstPointIdThisReturn :
    a.FirstPointIdThisReturn = q.FirstPointIdThisReturn + (P.Points.length : Int)
  LastPointId : ∀ i, i < HDL_MAX_NUM_LASERS →
    (a.LastPointId i = q.LastPointId i + (P.Points.length : Int) ∧
      (0 ≤ q.LastPointId i ∨ P.Points.length = 0)) ∨
    (q.LastPointId i = -1 ∧ a.LastPointId i < (P.Points.length : Int) ∧
      0 ≤ q.FirstPointIdThisReturn)
  valid : lastPointIdsValid q
  LaserSelection : a.LaserSelection = q.LaserSelection
  laser_corrections_ : a.laser_corrections_ = q.laser_corrections_
  cos_lookup_table_ : a.cos_lookup_table_ = q.cos_lookup_table_
  sin_lookup_table_ : a.sin_lookup_table_ = q.sin_lookup_table_

/-- The relation between the state `a` of a run that started with `SplitCounter = n` and the
state `q` of the run on the same input that started with `SplitCounter = 0`, both with
`PointsSkip = 0`.  While `q` has emitted at most `n` frames, `a` has swallowed as many splits
and its frame under construction holds all columns of all frames of `q`; afterwards the first
frame `a` has emitted holds the columns of the first `n + 1` frames of `q`. -/
structure Merges (n : Nat) (a q : vtkInternal) : Prop where
  LastAzimuth : a.LastAzimuth = q.LastAzimuth
  Skip : a.Skip = q.Skip
  Interp : a.Interp = q.Interp
  ApplyTransform : a.ApplyTransform = q.ApplyTransform
  PointsSkip : a.PointsSkip = q.PointsSkip
  everyFiring : q.PointsSkip = 0
  sequential : q.SplitCounter = 0
  frames :
    (q.Datasets.length ≤ n ∧ a.Datasets = [] ∧ a.SplitCounter = (n : Int) - q.Datasets.length ∧
      Merging (concatFrames q.Datasets) a q) ∨
    (n < q.Datasets.length ∧
      ∃ d, a.Datasets.head? = some d ∧ d.sameColumns (concatFrames (q.Datasets.take (n + 1))))

/-! # Theorems -/

theorem setValue_length {α : Type} (col : List α) (id : Int) (v : α) :
    (setValue col id v).length = col.length := by
  unfold setValue
  split_ifs <;> simp

theorem insertRaw_columnLengths (d : PolyData) (laserId azimuth timestamp : Nat)
    (laserReturn : HDLLaserReturn) (point : ℚ × ℚ × ℚ) (distanceM : ℚ) :
    (PushFiringData.insertRaw d laserId azimuth timestamp laserReturn point
      distanceM).columnLengths
      = [d.Points.length + 1, d.Intensity.length + 1, d.LaserId.length + 1,
          d.Azimuth.length + 1, d.Distance.length + 1, d.Timestamp.length + 1,
          d.Flags.length, d.IntensityDelta.length, d.DistanceDelta.length] := by
  simp [PushFiringData.insertRaw, PolyData.columnLengths]

theorem insertDoubled_columnLengths (d : PolyData) :
    (PushFiringData.insertDoubled d).columnLengths
      = [d.Points.length, d.Intensity.length, d.LaserId.length, d.Azimuth.length,
          d.Distance.length, d.Timestamp.length, d.Flags.length + 1,
          d.IntensityDelta.length + 1, d.DistanceDelta.length + 1] := by
  simp [PushFiringData.insertDoubled, PolyData.columnLengths]

theorem reconcile_columnLengths (d : PolyData) (dualPointId intensity : Int) (distanceM : ℚ) :
    (PushFiringData.reconcile d dualPointId intensity distanceM).columnLengths
      = [d.Points.length, d.Intensity.length, d.LaserId.length, d.Azimuth.length,
          d.Distance.length, d.Timestamp.length, d.Flags.length + 1,
          d.IntensityDelta.length + 1, d.DistanceDelta.length + 1] := by
  simp [PushFiringData.reconcile, PolyData.columnLengths, setValue_length]

section PushFiringData
variable (s : vtkInternal) (laserId azimuth timestamp : Nat) (laserReturn : HDLLaserReturn)
  (correction : HDLLaserCorrection) (azimuthAdjustment : Nat) (translation : ℚ × ℚ × ℚ)
  (dualReturn : Bool) (lm : Libm)

theorem PushFiringData_Datasets :
    (PushFiringData s laserId azimuth timestamp laserReturn correction azimuthAdjustment
      translation dualReturn lm).Datasets = s.Datasets := rfl

theorem PushFiringData_columnLengths :
    (PushFiringData s laserId azimuth timestamp laserReturn correction azimuthAdjustment
      translation dualReturn lm).CurrentDataset.columnLengths
      = s.CurrentDataset.columnLengths.map (· + 1) := by
  unfold PushFiringData
  simp only []
  split_ifs
  · rw [insertDoubled_columnLengths]
    simp [PushFiringData.insertRaw, PolyData.columnLengths]
  · rw [reconcile_columnLengths]
    simp [PushFiringData.insertRaw, PolyData.columnLengths]
  · rw [insertDoubled_columnLengths]
    simp [PushFiringData.insertRaw, PolyData.columnLengths]

theorem PushFiringData_columnsAligned (h : s.CurrentDataset.columnsAligned) :
    (PushFiringData s laserId azimuth timestamp laserReturn correction azimuthAdjustment
      translation dualReturn lm).CurrentDataset.columnsAligned := by
  have h1 := PushFiringData_columnLengths s laserId azimuth timestamp laserReturn correction
    azimuthAdjustment translation dualReturn lm
  unfold PolyData.columnsAligned at h ⊢
  rw [h1, h]
  have h2 := congrArg (fun l => l.headD 0) h1
  simp only [PolyData.columnLengths, List.map_cons, List.headD_cons] at h2
  rw [h2]
  simp [List.replicate]

end PushFiringData

/-! ## Members that decoding leaves alone -/

theorem sameSettings_refl (s : vtkInternal) : sameSettings s s :=
  ⟨rfl, rfl, rfl, rfl, rfl, rfl, rfl, rfl, rfl, rfl, rfl⟩

theorem sameSettings_trans {s t u : vtkInternal} (h1 : sameSettings s t)
    (h2 : sameSettings t u) : sameSettings s u :=
  ⟨h2.Interp.trans h1.Interp, h2.FilePositions.trans h1.FilePositions,
    h2.Skips.trans h1.Skips, h2.Reader.trans h1.Reader,
    h2.NumberOfTrailingFrames.trans h1.NumberOfTrailingFrames,
    h2.ApplyTransform.trans h1.ApplyTransform, h2.PointsSkip.trans h1.PointsSkip,
    h2.LaserSelection.trans h1.LaserSelection,
    h2.cos_lookup_table_.trans h1.cos_lookup_table_,
    h2.sin_lookup_table_.trans h1.sin_lookup_table_,
    h2.laser_corrections_.trans h1.laser_corrections_⟩

/-- A property that every `PushFiringData` call preserves is preserved by the laser loop. -/
theorem ProcessFiring_loop_preserves (P : vtkInternal → Prop)
    (hP : ∀ (s : vtkInternal) (laserId azimuth timestamp : Nat) (laserReturn : HDLLaserReturn)
      (correction : HDLLaserCorrection) (azimuthAdjustment : Nat) (translation : ℚ × ℚ × ℚ)
      (dualReturn : Bool) (lm : Libm), P s →
      P (PushFiringData s laserId azimuth timestamp laserReturn correction azimuthAdjustment
        translation dualReturn lm))
    (firingData : HDLFiringData) (offset gpsTime azimuthOffset : Nat)
    (translation : ℚ × ℚ × ℚ) (dual : Bool) (lm : Libm) (n : Nat) :
    ∀ (j : Nat) (s : vtkInternal), P s →
      P (ProcessFiring.loop firingData offset gpsTime azimuthOffset translation dual lm n j s) := by
  induction n with
  | zero => intro j s h; exact h
  | succ n ih =>
    intro j s h
    simp only [ProcessFiring.loop]
    apply ih
    split_ifs
    · exact hP _ _ _ _ _ _ _ _ _ _ h
    · exact h

/-- A property preserved by `PushFiringData` that does not depend on `FirstPointIdThisReturn`
is preserved by `ProcessFiring`. -/
theorem ProcessFiring_preserves (P : vtkInternal → Prop)
    (hP : ∀ (s : vtkInternal) (laserId azimuth timestamp : Nat) (laserReturn : HDLLaserReturn)
      (correction : HDLLaserCorrection) (azimuthAdjustment : Nat) (translation : ℚ × ℚ × ℚ)
      (dualReturn : Bool) (lm : Libm), P s →
      P (PushFiringData s laserId azimuth timestamp laserReturn correction azimuthAdjustment
        translation dualReturn lm))
    (hF : ∀ (s : vtkInternal) (v : Int), P s → P { s with FirstPointIdThisReturn := v })
    (s : vtkInternal) (firingData : HDLFiringData) (offset gpsTime azimuthOffset : Nat)
    (translation : ℚ × ℚ × ℚ) (lm : Libm) (h : P s) :
    P (ProcessFiring s firingData offset gpsTime azimuthOffset translation lm) := by
  unfold ProcessFiring
  apply ProcessFiring_loop_preserves P hP
  split_ifs
  · exact hF _ _ h
  · exact h

/-- A property preserved by `PushFiringData`, by the frame split, and by writes to
`FirstPointIdThisReturn` and `LastAzimuth` is preserved by one iteration of the firing loop. -/
theorem ProcessHDLPacket_step_preserves (P : vtkInternal → Prop)
    (hP : ∀ (s : vtkInternal) (laserId azimuth timestamp : Nat) (laserReturn : HDLLaserReturn)
      (correction : HDLLaserCorrection) (azimuthAdjustment : Nat) (translation : ℚ × ℚ × ℚ)
      (dualReturn : Bool) (lm : Libm), P s →
      P (PushFiringData s laserId azimuth timestamp laserReturn correction azimuthAdjustment
        translation dualReturn lm))
    (hF : ∀ (s : vtkInternal) (v : Int), P s → P { s with FirstPointIdThisReturn := v })
    (hA : ∀ (s : vtkInternal) (v : Nat), P s → P { s with LastAzimuth := v })
    (hS : ∀ (s : vtkInternal), P s → P (SplitFrame s false))
    (dataPacket : HDLDataPacket) (azimuthOffset : Nat) (translation : ℚ × ℚ × ℚ) (lm : Libm)
    (i : Nat) (s : vtkInternal) (h : P s) :
    P (ProcessHDLPacket.step dataPacket azimuthOffset translation lm i s) := by
  unfold ProcessHDLPacket.step
  apply hA
  unfold ProcessHDLPacket.fire
  have h1 : P (if (dataPacket.firingData i).rotationalPosition < s.LastAzimuth
      then SplitFrame s false else s) := by
    split_ifs
    · exact hS _ h
    · exact h
  simp only []
  split_ifs
  all_goals first
    | exact ProcessFiring_preserves P hP hF _ _ _ _ _ _ _ (hS _ h)
    | exact ProcessFiring_preserves P hP hF _ _ _ _ _ _ _ h
    | exact hS _ h
    | exact h

/-- The same for the firing loop. -/
theorem ProcessHDLPacket_loop_preserves (P : vtkInternal → Prop)
    (hP : ∀ (s : vtkInternal) (laserId azimuth timestamp : Nat) (laserReturn : HDLLaserReturn)
      (correction : HDLLaserCorrection) (azimuthAdjustment : Nat) (translation : ℚ × ℚ × ℚ)
      (dualReturn : Bool) (lm : Libm), P s →
      P (PushFiringData s laserId azimuth timestamp laserReturn correction azimuthAdjustment
        translation dualReturn lm))
    (hF : ∀ (s : vtkInternal) (v : Int), P s → P { s with FirstPointIdThisReturn := v })
    (hA : ∀ (s : vtkInternal) (v : Nat), P s → P { s with LastAzimuth := v })
    (hS : ∀ (s : vtkInternal), P s → P (SplitFrame s false))
    (dataPacket : HDLDataPacket) (azimuthOffset : Nat) (translation : ℚ × ℚ × ℚ) (lm : Libm)
    (n : Nat) : ∀ (i : Nat) (s : vtkInternal), P s →
      P (ProcessHDLPacket.loop dataPacket azimuthOffset translation lm n i s) := by
  induction n with
  | zero => intro i s h; exact h
  | succ n ih =>
    intro i s h
    simp only [ProcessHDLPacket.loop]
    exact ih _ _ (ProcessHDLPacket_step_preserves P hP hF hA hS _ _ _ _ _ _ h)

/-- The same for `ProcessHDLPacket`, which also writes `Skip`. -/
theorem ProcessHDLPacket_preserves (P : vtkInternal → Prop)
    (hP : ∀ (s : vtkInternal) (laserId azimuth timestamp : Nat) (laserReturn : HDLLaserReturn)
      (correction : HDLLaserCorrection) (azimuthAdjustment : Nat) (translation : ℚ × ℚ × ℚ)
      (dualReturn : Bool) (lm : Libm), P s →
      P (PushFiringData s laserId azimuth timestamp laserReturn correction azimuthAdjustment
        translation dualReturn lm))
    (hF : ∀ (s : vtkInternal) (v : Int), P s → P { s with FirstPointIdThisReturn := v })
    (hA : ∀ (s : vtkInternal) (v : Nat), P s → P { s with LastAzimuth := v })
    (hS : ∀ (s : vtkInternal), P s → P (SplitFrame s false))
    (hK : ∀ (s : vtkInternal) (v : Nat), P s → P { s with Skip := v })
    (s : vtkInternal) (data : Payload) (lm : Libm) (h : P s) :
    P (ProcessHDLPacket s data lm) := by
  unfold ProcessHDLPacket
  split_ifs
  · exact h
  · exact ProcessHDLPacket_loop_preserves P hP hF hA hS _ _ _ _ _ _ _ (hK _ _ h)

/-- The same for a whole capture. -/
theorem decodeAll_preserves (P : vtkInternal → Prop)
    (hP : ∀ (s : vtkInternal) (laserId azimuth timestamp : Nat) (laserReturn : HDLLaserReturn)
      (correction : HDLLaserCorrection) (azimuthAdjustment : Nat) (translation : ℚ × ℚ × ℚ)
      (dualReturn : Bool) (lm : Libm), P s →
      P (PushFiringData s laserId azimuth timestamp laserReturn correction azimuthAdjustment
        translation dualReturn lm))
    (hF : ∀ (s : vtkInternal) (v : Int), P s → P { s with FirstPointIdThisReturn := v })
    (hA : ∀ (s : vtkInternal) (v : Nat), P s → P { s with LastAzimuth := v })
    (hS : ∀ (s : vtkInternal), P s → P (SplitFrame s false))
    (hK : ∀ (s : vtkInternal) (v : Nat), P s → P { s with Skip := v })
    (lm : Libm) (packets : List Payload) :
    ∀ (s : vtkInternal), P s → P (decodeAll s packets lm) := by
  induction packets with
  | nil => intro s h; exact h
  | cons data rest ih =>
    intro s h
    simp only [decodeAll, List.foldl_cons]
    exact ih _ (ProcessHDLPacket_preserves P hP hF hA hS hK _ _ _ h)

/-! ## Frame columns keep one length -/

theorem CreateData_columnsAligned (n : Nat) : (CreateData n).columnsAligned := by
  simp [PolyData.columnsAligned, PolyData.columnLengths, CreateData, List.replicate]

theorem SplitFrame_framesAligned (s : vtkInternal) (force : Bool) (h : framesAligned s) :
    framesAligned (SplitFrame s force) := by
  unfold SplitFrame
  split_ifs
  · exact h
  · refine ⟨CreateData_columnsAligned 0, ?_⟩
    intro d hd
    simp only [List.mem_append, List.mem_singleton] at hd
    rcases hd with hd | hd
    · exact h.2 d hd
    · subst hd
      exact h.1

theorem PushFiringData_framesAligned (s : vtkInternal) (laserId azimuth timestamp : Nat)
    (laserReturn : HDLLaserReturn) (correction : HDLLaserCorrection) (azimuthAdjustment : Nat)
    (translation : ℚ × ℚ × ℚ) (dualReturn : Bool) (lm : Libm) (h : framesAligned s) :
    framesAligned (PushFiringData s laserId azimuth timestamp laserReturn correction
      azimuthAdjustment translation dualReturn lm) :=
  ⟨PushFiringData_columnsAligned s laserId azimuth timestamp laserReturn correction
    azimuthAdjustment translation dualReturn lm h.1, h.2⟩

theorem decodeAll_framesAligned (s : vtkInternal) (packets : List Payload) (lm : Libm)
    (h : framesAligned s) : framesAligned (decodeAll s packets lm) :=
  decodeAll_preserves framesAligned PushFiringData_framesAligned (fun _ _ h => h)
    (fun _ _ h => h) (fun s h => SplitFrame_framesAligned s false h) (fun _ _ h => h) lm
    packets s h

theorem new_framesAligned (firstPointIdThisReturn : Int) (lm : Libm) :
    framesAligned (vtkInternal.new firstPointIdThisReturn lm) :=
  ⟨CreateData_columnsAligned 0, fun _ hd => absurd hd (List.not_mem_nil _)⟩


/-! ## Dual-return flags -/

theorem testBit_land_bitNot32 (x flag k : Nat) :
    (x &&& bitNot32 flag).testBit k = (x.testBit k && (decide (k < 32) && !flag.testBit k)) := by
  unfold bitNot32
  rw [Nat.testBit_land, Nat.testBit_xor, Nat.testBit_two_pow_sub_one, Nat.testBit_mod_two_pow]
  by_cases hk : k < 32 <;> simp [hk]

theorem getValue_append_of_lt {α : Type} (col : List α) (x dflt : α) (id : Int) (h0 : 0 ≤ id)
    (h1 : id < col.length) : getValue (col ++ [x]) id dflt = getValue col id dflt := by
  unfold getValue
  have h2 : id.toNat < col.length := by omega
  simp [List.getD_eq_getElem?_getD, List.getElem?_append_left h2]

/-- A point without a partner: `PushFiringData` appends the raw columns and then
`DUAL_DOUBLED` with zero deltas. -/
theorem PushFiringData_Flags_doubled (s : vtkInternal) (laserId azimuth timestamp : Nat)
    (laserReturn : HDLLaserReturn) (correction : HDLLaserCorrection) (azimuthAdjustment : Nat)
    (translation : ℚ × ℚ × ℚ) (dualReturn : Bool) (lm : Libm)
    (h : dualReturn = false ∨ s.LastPointId laserId < s.FirstPointIdThisReturn) :
    (PushFiringData s laserId azimuth timestamp laserReturn correction azimuthAdjustment
      translation dualReturn lm).CurrentDataset
      = PushFiringData.insertDoubled (PushFiringData.insertRaw s.CurrentDataset laserId azimuth
          timestamp laserReturn
          (PushFiringData.point s (PushFiringData.effectiveAzimuth azimuth azimuthAdjustment)
            laserReturn correction translation lm)
          (PushFiringData.distanceM laserReturn correction)) := by
  unfold PushFiringData
  simp only []
  rcases h with h | h
  · simp [h]
  · simp [h]

theorem PushFiringData_reconciled (s : vtkInternal) (laserId azimuth timestamp : Nat)
    (laserReturn : HDLLaserReturn) (correction : HDLLaserCorrection) (azimuthAdjustment : Nat)
    (translation : ℚ × ℚ × ℚ) (dualReturn : Bool) (lm : Libm)
    (h : dualReturn = true ∧ ¬ s.LastPointId laserId < s.FirstPointIdThisReturn) :
    (PushFiringData s laserId azimuth timestamp laserReturn correction azimuthAdjustment
      translation dualReturn lm).CurrentDataset
      = PushFiringData.reconcile (PushFiringData.insertRaw s.CurrentDataset laserId azimuth
          timestamp laserReturn
          (PushFiringData.point s (PushFiringData.effectiveAzimuth azimuth azimuthAdjustment)
            laserReturn correction translation lm)
          (PushFiringData.distanceM laserReturn correction))
          (s.LastPointId laserId) laserReturn.intensity
          (PushFiringData.distanceM laserReturn correction) := by
  unfold PushFiringData
  simp [h.1, h.2]

/-- C2: the dual-return flags written by `PushFiringData`.  Without a partner (not a dual
return, or `prev = LastPointId[laserId]` below `FirstPointIdThisReturn`) the flag column
gets `DUAL_DOUBLED` appended and is otherwise unchanged.  With a partner, the entry at `prev`
has the intensity bit (`DUAL_INTENSITY_HIGH` if the stored intensity is smaller than the new
one, else `DUAL_INTENSITY_LOW`) and the distance bit (`DUAL_DISTANCE_FAR` if the stored
distance is smaller than the new one, else `DUAL_DISTANCE_NEAR`) cleared, no other entry
changes, and the appended flags are exactly those two bits.  Clearing a flag resets its bits
and keeps all others; for a valid `prev` the values compared are those stored at `prev`. -/
theorem C2_push_firing_dual_flags (s : vtkInternal) (laserId azimuth timestamp : Nat)
    (laserReturn : HDLLaserReturn) (correction : HDLLaserCorrection) (azimuthAdjustment : Nat)
    (translation : ℚ × ℚ × ℚ) (dualReturn : Bool) (lm : Libm) :
    let prev := s.LastPointId laserId
    let d := s.CurrentDataset
    let result := (PushFiringData s laserId azimuth timestamp laserReturn correction
      azimuthAdjustment translation dualReturn lm).CurrentDataset
    let distanceM := PushFiringData.distanceM laserReturn correction
    let prevIntensity : Nat := getValue (d.Intensity ++ [laserReturn.intensity]) prev 0
    let prevDistance : ℚ := getValue (d.Distance ++ [distanceM]) prev 0
    let clearedIntensity :=
      if prevIntensity < laserReturn.intensity then DUAL_INTENSITY_HIGH else DUAL_INTENSITY_LOW
    let clearedDistance :=
      if prevDistance < distanceM then DUAL_DISTANCE_FAR else DUAL_DISTANCE_NEAR
    ((dualReturn = false ∨ prev < s.FirstPointIdThisReturn) →
        result.Flags = d.Flags ++ [DUAL_DOUBLED]) ∧
    ((dualReturn = true ∧ ¬ prev < s.FirstPointIdThisReturn) →
        result.Flags
          = setValue d.Flags prev
              (getValue d.Flags prev 0 &&& bitNot32 clearedIntensity &&& bitNot32 clearedDistance)
            ++ [clearedIntensity ||| clearedDistance]) ∧
    ((0 ≤ prev ∧ prev < d.Intensity.length ∧ prev < d.Distance.length) →
        prevIntensity = getValue d.Intensity prev 0 ∧
        prevDistance = getValue d.Distance prev 0) ∧
    (∀ x flag k : Nat,
        (x &&& bitNot32 flag).testBit k
          = (x.testBit k && (decide (k < 32) && !flag.testBit k))) := by
  intro prev d result distanceM prevIntensity prevDistance clearedIntensity clearedDistance
  refine ⟨?_, ?_, ?_, testBit_land_bitNot32⟩
  · intro h
    have h1 := PushFiringData_Flags_doubled s laserId azimuth timestamp laserReturn correction
      azimuthAdjustment translation dualReturn lm h
    simp only [result, d, h1]
    rfl
  · intro h
    have h1 := PushFiringData_reconciled s laserId azimuth timestamp laserReturn correction
      azimuthAdjustment translation dualReturn lm h
    simp only [result, h1, PushFiringData.reconcile, PushFiringData.insertRaw]
    have e1 : ((getValue (s.CurrentDataset.Intensity ++ [laserReturn.intensity])
        (s.LastPointId laserId) 0 : Nat) : Int) < (laserReturn.intensity : Int)
        ↔ prevIntensity < laserReturn.intensity := by
      simp only [prevIntensity, d, prev]
      exact Int.ofNat_lt
    by_cases c1 : prevIntensity < laserReturn.intensity <;>
      by_cases c2 : prevDistance < distanceM <;>
      simp only [e1, c1, c2, clearedIntensity, clearedDistance, if_true, if_false,
        prevDistance, distanceM, d, prev] <;>
      simp [DUAL_INTENSITY_HIGH, DUAL_INTENSITY_LOW, DUAL_DISTANCE_FAR, DUAL_DISTANCE_NEAR]
  · intro h
    exact ⟨getValue_append_of_lt _ _ _ _ h.1 h.2.1, getValue_append_of_lt _ _ _ _ h.1 h.2.2⟩

/-- C2 (witness): scenario 4.  After both firings both points are present, `flags[0] = 5`
(`DUAL_INTENSITY_HIGH` and `DUAL_DISTANCE_FAR` cleared) and `flags[1] = 10` (exactly those
two set); the second push is an instance of the reconciling branch of the theorem. -/
theorem C2_push_firing_dual_flags_witness :
    dualReturnSecond.CurrentDataset.Points.length = 2 ∧
    dualReturnSecond.CurrentDataset.Flags = [5, 10] ∧
    dualReturnFirst.CurrentDataset.Flags = [15] ∧
    (true = true ∧ ¬ dualReturnFirst.LastPointId 0 < dualReturnFirst.FirstPointIdThisReturn) ∧
    (PushFiringData dualReturnFirst 0 18000 123456 ⟨2000, 80⟩
        (dualReturnFirst.laser_corrections_ 0) 0 (0, 0, 0) true exampleLibm).CurrentDataset.Flags
      = [5, 10] := by
  have h : true = true ∧
      ¬ dualReturnFirst.LastPointId 0 < dualReturnFirst.FirstPointIdThisReturn := by decide!
  have key := (C2_push_firing_dual_flags dualReturnFirst 0 18000 123456 ⟨2000, 80⟩
    (dualReturnFirst.laser_corrections_ 0) 0 (0, 0, 0) true exampleLibm).2.1 h
  refine ⟨by decide!, by decide!, by decide!, h, ?_⟩
  rw [key]
  decide!

/-! ## Dual-return deltas -/

theorem toShort_of_bounds (x : Int) (h0 : -32768 ≤ x) (h1 : x ≤ 32767) : toShort x = x := by
  unfold toShort
  omega

/-- C3 (as stated, refuted): with raw distances 500 and 501 for the two returns of laser 0
(default calibration, initial state) the second push takes the reconciling branch, the
stored distances are 1 and `501 * 0.002`, and the two distance deltas add up to `2^-52`,
not to zero. -/
theorem C3_distance_deltas_do_not_cancel :
    ¬ nearbyReturnsFirst.LastPointId 0 < nearbyReturnsFirst.FirstPointIdThisReturn ∧
    nearbyReturnsSecond.CurrentDataset.Distance = [1, 4512606826625237 / 4503599627370496] ∧
    nearbyReturnsSecond.CurrentDataset.DistanceDelta
      = [-2251799813685 / 2251799813685248, 4503599627371 / 4503599627370496] ∧
    (-2251799813685 / 2251799813685248 + 4503599627371 / 4503599627370496 : ℚ)
      = 1 / 4503599627370496 ∧
    nearbyReturnsSecond.CurrentDataset.DistanceDelta.sum ≠ 0 := by
  refine ⟨by decide!, by decide!, by decide!, by norm_num, by decide!⟩

/-- C3 (amended): in the reconciling branch of `PushFiringData`, for intensities in
`0..255`, the intensity delta at `prev` becomes `2 * prevIntensity - sumI` and the appended
one is `2 * intensity - sumI` with `sumI = prevIntensity + intensity`; none of the three
`short` results overflows, and the two deltas add up to zero.  The distance delta at `prev`
becomes `prevDistance - meanD` and the appended one `distanceM - meanD`, with
`meanD = 0.5 * (prevDistance + distanceM)`, each operation rounded to `double`; the two add
up to zero when those operations are exact.  In the other two branches both appended deltas
are `0` and no stored delta changes. -/
theorem C3_push_firing_dual_deltas (s : vtkInternal) (laserId azimuth timestamp : Nat)
    (laserReturn : HDLLaserReturn) (correction : HDLLaserCorrection) (azimuthAdjustment : Nat)
    (translation : ℚ × ℚ × ℚ) (dualReturn : Bool) (lm : Libm) :
    let prev := s.LastPointId laserId
    let d := s.CurrentDataset
    let result := (PushFiringData s laserId azimuth timestamp laserReturn correction
      azimuthAdjustment translation dualReturn lm).CurrentDataset
    let distanceM := PushFiringData.distanceM laserReturn correction
    let prevIntensity : Nat := getValue (d.Intensity ++ [laserReturn.intensity]) prev 0
    let prevDistance : ℚ := getValue (d.Distance ++ [distanceM]) prev 0
    let sumI : Int := (prevIntensity : Int) + (laserReturn.intensity : Int)
    let meanD : ℚ := dmul 0.5 (dadd prevDistance distanceM)
    ((dualReturn = true ∧ ¬ prev < s.FirstPointIdThisReturn) →
        (prevIntensity ≤ 255 → laserReturn.intensity ≤ 255 →
          result.IntensityDelta
              = setValue d.IntensityDelta prev (2 * (prevIntensity : Int) - sumI)
                ++ [2 * (laserReturn.intensity : Int) - sumI] ∧
          toShort sumI = sumI ∧
          toShort (2 * (prevIntensity : Int) - sumI) = 2 * (prevIntensity : Int) - sumI ∧
          toShort (2 * (laserReturn.intensity : Int) - sumI)
              = 2 * (laserReturn.intensity : Int) - sumI ∧
          (2 * (prevIntensity : Int) - sumI) + (2 * (laserReturn.intensity : Int) - sumI) = 0) ∧
        result.DistanceDelta
            = setValue d.DistanceDelta prev (dsub prevDistance meanD)
              ++ [dsub distanceM meanD] ∧
        ((dadd prevDistance distanceM = prevDistance + distanceM ∧
            meanD = 0.5 * (prevDistance + distanceM) ∧
            dsub prevDistance meanD = prevDistance - meanD ∧
            dsub distanceM meanD = distanceM - meanD) →
          dsub prevDistance meanD + dsub distanceM meanD = 0)) ∧
    ((dualReturn = false ∨ prev < s.FirstPointIdThisReturn) →
        result.IntensityDelta = d.IntensityDelta ++ [0] ∧
        result.DistanceDelta = d.DistanceDelta ++ [0]) := by
  intro prev d result distanceM prevIntensity prevDistance sumI meanD
  constructor
  · intro h
    have h1 := PushFiringData_reconciled s laserId azimuth timestamp laserReturn correction
      azimuthAdjustment translation dualReturn lm h
    refine ⟨?_, ?_, ?_⟩
    · intro hp hi
      have b1 : toShort sumI = sumI := toShort_of_bounds _ (by omega) (by omega)
      have b2 : toShort (2 * (prevIntensity : Int) - sumI) = 2 * (prevIntensity : Int) - sumI :=
        toShort_of_bounds _ (by omega) (by omega)
      have b3 : toShort (2 * (laserReturn.intensity : Int) - sumI)
          = 2 * (laserReturn.intensity : Int) - sumI :=
        toShort_of_bounds _ (by omega) (by omega)
      refine ⟨?_, b1, b2, b3, by omega⟩
      simp only [result, h1, PushFiringData.reconcile, PushFiringData.insertRaw]
      rw [← b2, ← b3, ← b1]
    · simp only [result, h1, PushFiringData.reconcile, PushFiringData.insertRaw]
    · rintro ⟨_, e2, e3, e4⟩
      rw [e3, e4, e2]
      ring
  · intro h
    have h1 := PushFiringData_Flags_doubled s laserId azimuth timestamp laserReturn correction
      azimuthAdjustment translation dualReturn lm h
    simp only [result, h1]
    exact ⟨rfl, rfl⟩

/-- C3 (witness): scenario 4.  The stored distances are 2.0 and 4.0, the intensity deltas
are -40 and 40, the distance deltas are -1.0 and 1.0, and the second push is an instance
of the reconciling branch of the theorem. -/
theorem C3_push_firing_dual_deltas_witness :
    dualReturnSecond.CurrentDataset.Distance = [2, 4] ∧
    dualReturnSecond.CurrentDataset.IntensityDelta = [-40, 40] ∧
    dualReturnSecond.CurrentDataset.DistanceDelta = [-1, 1] ∧
    (true = true ∧ ¬ dualReturnFirst.LastPointId 0 < dualReturnFirst.FirstPointIdThisReturn) ∧
    (PushFiringData dualReturnFirst 0 18000 123456 ⟨2000, 80⟩
        (dualReturnFirst.laser_corrections_ 0) 0 (0, 0, 0) true
        exampleLibm).CurrentDataset.DistanceDelta = [-1, 1] := by
  have h : true = true ∧
      ¬ dualReturnFirst.LastPointId 0 < dualReturnFirst.FirstPointIdThisReturn := by decide!
  have key := ((C3_push_firing_dual_deltas dualReturnFirst 0 18000 123456 ⟨2000, 80⟩
    (dualReturnFirst.laser_corrections_ 0) 0 (0, 0, 0) true exampleLibm).1 h).2.1
  refine ⟨by decide!, by decide!, by decide!, h, ?_⟩
  rw [key]
  decide!

/-! ## Column lengths: the claim -/

/-- C5: the nine columns of a frame always have the same length.  A freshly created frame
has aligned columns; every `PushFiringData` call, whatever branch it takes, lengthens each
of the nine columns by exactly one; the initial state has aligned frames; and from any state
with aligned frames, decoding any sequence of payloads leaves the frame under construction
and every emitted frame aligned. -/
theorem C5_frame_columns_identical_length :
    (∀ n : Nat, (CreateData n).columnsAligned) ∧
    (∀ (s : vtkInternal) (laserId azimuth timestamp : Nat) (laserReturn : HDLLaserReturn)
      (correction : HDLLaserCorrection) (azimuthAdjustment : Nat) (translation : ℚ × ℚ × ℚ)
      (dualReturn : Bool) (lm : Libm),
      (PushFiringData s laserId azimuth timestamp laserReturn correction azimuthAdjustment
        translation dualReturn lm).CurrentDataset.columnLengths
        = s.CurrentDataset.columnLengths.map (· + 1)) ∧
    (∀ (firstPointIdThisReturn : Int) (lm : Libm),
      framesAligned (vtkInternal.new firstPointIdThisReturn lm)) ∧
    (∀ (s : vtkInternal) (packets : List Payload) (lm : Libm),
      framesAligned s → framesAligned (decodeAll s packets lm)) :=
  ⟨CreateData_columnsAligned, PushFiringData_columnLengths, new_framesAligned,
    fun s packets lm h => decodeAll_framesAligned s packets lm h⟩

/-- C5 (witness): decoding a mis-sized payload and the payload of scenario 4 from the initial
state leaves all frames aligned. -/
theorem C5_frame_columns_identical_length_witness :
    framesAligned (vtkInternal.new 0 exampleLibm) ∧
    framesAligned (decodeAll (vtkInternal.new 0 exampleLibm) [Payload.ofList [1, 2, 3], encodePacket dualReturnPacket] exampleLibm) :=
  ⟨new_framesAligned 0 exampleLibm,
    C5_frame_columns_identical_length.2.2.2 (vtkInternal.new 0 exampleLibm) [Payload.ofList [1, 2, 3], encodePacket dualReturnPacket]
      exampleLibm (new_framesAligned 0 exampleLibm)⟩

/-! ## Mis-sized payloads -/

/-- C6: a payload whose length is not 1206 is skipped.  `ProcessHDLPacket` returns the state
it was given, and the index scan continues with all its locals (last azimuth, last
timestamp, index entries, recorded file position, diagnostics) as they were. -/
theorem C6_missized_payload_skipped (s : vtkInternal) (data : Payload) (lm : Libm)
    (h : data.length ≠ 1206) :
    ProcessHDLPacket s data lm = s ∧
    ∀ (rest : List Payload) (position : Nat) (st : ScanState),
      ReadFrameInformation.loop (data :: rest) position st
        = ReadFrameInformation.loop rest (position + 1) st := by
  constructor
  · unfold ProcessHDLPacket
    simp [h]
  · intro rest position st
    simp [ReadFrameInformation.loop, h]

/-- C6 (witness): a three-byte payload. -/
theorem C6_missized_payload_skipped_witness :
    (Payload.ofList [1, 2, 3]).length ≠ 1206 ∧
    ProcessHDLPacket (vtkInternal.new 0 exampleLibm) (Payload.ofList [1, 2, 3]) exampleLibm
      = vtkInternal.new 0 exampleLibm :=
  ⟨by decide, (C6_missized_payload_skipped (vtkInternal.new 0 exampleLibm)
    (Payload.ofList [1, 2, 3])
    exampleLibm (by decide)).1⟩

/-! ## The wire layout -/

theorem readU8_encodePacket_block (p : HDLDataPacket) (i r : Nat) (hi : i < 12) (hr : r < 100) :
    readU8 (encodePacket p) (i * 100 + r) = encodeFiringBlock (p.firingData i) r % 256 := by
  unfold readU8 encodePacket
  simp only []
  rw [if_pos (by omega), show (i * 100 + r) / 100 = i by omega,
    show (i * 100 + r) % 100 = r by omega]

theorem littleEndianByte_zero_one (v : Nat) :
    littleEndianByte v 0 % 256 + 256 * (littleEndianByte v 1 % 256) = v % 65536 := by
  unfold littleEndianByte
  simp only [pow_zero, pow_one, Nat.div_one, Nat.mod_mod]
  omega

theorem readU16_encodePacket_blockIdentifier (p : HDLDataPacket) (i : Nat) (hi : i < 12) :
    readU16 (encodePacket p) (i * 100) = (p.firingData i).blockIdentifier % 65536 := by
  unfold readU16
  rw [show i * 100 = i * 100 + 0 from rfl, Nat.add_assoc,
    readU8_encodePacket_block p i 0 hi (by omega),
    readU8_encodePacket_block p i (0 + 1) hi (by omega)]
  simp only [encodeFiringBlock]
  rw [if_pos (by omega), if_pos (by omega)]
  exact littleEndianByte_zero_one _

theorem readU16_encodePacket_rotationalPosition (p : HDLDataPacket) (i : Nat) (hi : i < 12) :
    readU16 (encodePacket p) (i * 100 + 2)
      = (p.firingData i).rotationalPosition % 65536 := by
  unfold readU16
  rw [Nat.add_assoc (i * 100) 2 1, readU8_encodePacket_block p i 2 hi (by omega),
    readU8_encodePacket_block p i (2 + 1) hi (by omega)]
  simp only [encodeFiringBlock]
  rw [if_neg (by omega), if_pos (by omega), if_neg (by omega), if_pos (by omega)]
  exact littleEndianByte_zero_one _

theorem readU16_encodePacket_distance (p : HDLDataPacket) (i j : Nat) (hi : i < 12)
    (hj : j < 32) :
    readU16 (encodePacket p) (i * 100 + 2 + 2 + j * 3)
      = ((p.firingData i).laserReturns j).distance % 65536 := by
  unfold readU16
  rw [show i * 100 + 2 + 2 + j * 3 = i * 100 + (4 + j * 3) by omega,
    Nat.add_assoc (i * 100) (4 + j * 3) 1,
    readU8_encodePacket_block p i (4 + j * 3) hi (by omega),
    readU8_encodePacket_block p i (4 + j * 3 + 1) hi (by omega)]
  simp only [encodeFiringBlock]
  rw [if_neg (by omega), if_neg (by omega), if_neg (by omega), if_neg (by omega),
    show (4 + j * 3 - (2 + 2)) / 3 = j by omega, show (4 + j * 3 - (2 + 2)) % 3 = 0 by omega,
    show (4 + j * 3 + 1 - (2 + 2)) / 3 = j by omega,
    show (4 + j * 3 + 1 - (2 + 2)) % 3 = 1 by omega]
  simp only [encodeLaserReturn]
  rw [if_pos (by omega), if_pos (by omega)]
  exact littleEndianByte_zero_one _

theorem readU8_encodePacket_intensity (p : HDLDataPacket) (i j : Nat) (hi : i < 12)
    (hj : j < 32) :
    readU8 (encodePacket p) (i * 100 + 2 + 2 + j * 3 + 2)
      = ((p.firingData i).laserReturns j).intensity % 256 := by
  rw [show i * 100 + 2 + 2 + j * 3 + 2 = i * 100 + (4 + j * 3 + 2) by omega,
    readU8_encodePacket_block p i (4 + j * 3 + 2) hi (by omega)]
  simp only [encodeFiringBlock]
  rw [if_neg (by omega), if_neg (by omega),
    show (4 + j * 3 + 2 - (2 + 2)) / 3 = j by omega,
    show (4 + j * 3 + 2 - (2 + 2)) % 3 = 2 by omega]
  simp only [encodeLaserReturn]
  rw [if_neg (by omega)]
  simp [littleEndianByte]

/-- The fields the source reads from an encoded packet, reduced to their wire widths. -/
theorem reinterpretPacket_encodePacket (p : HDLDataPacket) :
    (reinterpretPacket (encodePacket p)).gpsTimestamp = p.gpsTimestamp % 2 ^ 32 ∧
    (reinterpretPacket (encodePacket p)).blank1 = p.blank1 % 256 ∧
    (reinterpretPacket (encodePacket p)).blank2 = p.blank2 % 256 ∧
    ∀ i, i < 12 →
      ((reinterpretPacket (encodePacket p)).firingData i).blockIdentifier
        = (p.firingData i).blockIdentifier % 65536 ∧
      ((reinterpretPacket (encodePacket p)).firingData i).rotationalPosition
        = (p.firingData i).rotationalPosition % 65536 ∧
      ∀ j, j < 32 →
        (((reinterpretPacket (encodePacket p)).firingData i).laserReturns j).distance
          = ((p.firingData i).laserReturns j).distance % 65536 ∧
        (((reinterpretPacket (encodePacket p)).firingData i).laserReturns j).intensity
          = ((p.firingData i).laserReturns j).intensity % 256 := by
  refine ⟨?_, ?_, ?_, ?_⟩
  · show readU32 (encodePacket p) 1200 = _
    simp only [readU32, readU8, encodePacket, littleEndianByte]
    norm_num
    omega
  · show readU8 (encodePacket p) (1200 + 4) = _
    simp [readU8, encodePacket, littleEndianByte]
  · show readU8 (encodePacket p) (1200 + 4 + 1) = _
    simp [readU8, encodePacket, littleEndianByte]
  · intro i hi
    refine ⟨readU16_encodePacket_blockIdentifier p i hi,
      readU16_encodePacket_rotationalPosition p i hi, ?_⟩
    intro j hj
    exact ⟨readU16_encodePacket_distance p i j hi hj, readU8_encodePacket_intensity p i j hi hj⟩

/-- C7: the packed little-endian wire layout.  A packet whose fields have their wire
widths is encoded in exactly 1206 bytes, which is the size of the packed `HDLDataPacket`,
and the reinterpreting cast of the source reads every field of the encoding back.  The cast
reads, from any buffer, the block identifier of firing `i` at byte `100 * i`, its rotational
position at `100 * i + 2`, the distance of return `j` at `100 * i + 4 + 3 * j`, its intensity
at `100 * i + 6 + 3 * j`, and the timestamp at bytes 1200 to 1203; in the encoding, firing
block `i` occupies the 100 bytes from `100 * i`. -/
theorem C7_packet_wire_roundtrip (p : HDLDataPacket) (hwf : p.wellFormed) :
    (encodePacket p).length = 1206 ∧ sizeofHDLDataPacket = 1206 ∧
    (reinterpretPacket (encodePacket p)).gpsTimestamp = p.gpsTimestamp ∧
    (reinterpretPacket (encodePacket p)).blank1 = p.blank1 ∧
    (reinterpretPacket (encodePacket p)).blank2 = p.blank2 ∧
    (∀ i, i < 12 →
      ((reinterpretPacket (encodePacket p)).firingData i).blockIdentifier
        = (p.firingData i).blockIdentifier ∧
      ((reinterpretPacket (encodePacket p)).firingData i).rotationalPosition
        = (p.firingData i).rotationalPosition ∧
      ∀ j, j < 32 →
        (((reinterpretPacket (encodePacket p)).firingData i).laserReturns j).distance
          = ((p.firingData i).laserReturns j).distance ∧
        (((reinterpretPacket (encodePacket p)).firingData i).laserReturns j).intensity
          = ((p.firingData i).laserReturns j).intensity) ∧
    (∀ (data : Payload) (i j : Nat),
      ((reinterpretPacket data).firingData i).blockIdentifier = readU16 data (100 * i) ∧
      ((reinterpretPacket data).firingData i).rotationalPosition = readU16 data (100 * i + 2) ∧
      (((reinterpretPacket data).firingData i).laserReturns j).distance
        = readU16 data (100 * i + 4 + 3 * j) ∧
      (((reinterpretPacket data).firingData i).laserReturns j).intensity
        = readU8 data (100 * i + 6 + 3 * j) ∧
      (reinterpretPacket data).gpsTimestamp
        = readU8 data 1200 + 256 * readU8 data 1201 + 65536 * readU8 data 1202
          + 16777216 * readU8 data 1203) ∧
    (∀ i r, i < 12 → r < 100 →
      readU8 (encodePacket p) (100 * i + r) = encodeFiringBlock (p.firingData i) r % 256) := by
  obtain ⟨hts, hb1, hb2, hf⟩ := hwf
  obtain ⟨rts, rb1, rb2, rf⟩ := reinterpretPacket_encodePacket p
  refine ⟨rfl, rfl, ?_, ?_, ?_, ?_, ?_, ?_⟩
  · rw [rts, Nat.mod_eq_of_lt hts]
  · rw [rb1, Nat.mod_eq_of_lt hb1]
  · rw [rb2, Nat.mod_eq_of_lt hb2]
  · intro i hi
    obtain ⟨h1, h2, h3⟩ := hf i hi
    obtain ⟨r1, r2, r3⟩ := rf i hi
    refine ⟨by rw [r1, Nat.mod_eq_of_lt h1], by rw [r2, Nat.mod_eq_of_lt h2], ?_⟩
    intro j hj
    obtain ⟨h4, h5⟩ := h3 j hj
    obtain ⟨r4, r5⟩ := r3 j hj
    exact ⟨by rw [r4, Nat.mod_eq_of_lt h4], by rw [r5, Nat.mod_eq_of_lt h5]⟩
  · intro data i j
    refine ⟨?_, ?_, ?_, ?_, rfl⟩
    · show readU16 data (i * 100) = _
      rw [Nat.mul_comm]
    · show readU16 data (i * 100 + 2) = _
      rw [Nat.mul_comm]
    · show readU16 data (i * 100 + 2 + 2 + j * 3) = _
      rw [show i * 100 + 2 + 2 + j * 3 = 100 * i + 4 + 3 * j by omega]
    · show readU8 data (i * 100 + 2 + 2 + j * 3 + 2) = _
      rw [show i * 100 + 2 + 2 + j * 3 + 2 = 100 * i + 6 + 3 * j by omega]
  · intro i r hi hr
    rw [Nat.mul_comm]
    exact readU8_encodePacket_block p i r hi hr

theorem dualReturnPacket_wellFormed : dualReturnPacket.wellFormed := by
  unfold HDLDataPacket.wellFormed dualReturnPacket
  refine ⟨by norm_num, by norm_num, by norm_num, ?_⟩
  intro i _
  refine ⟨by norm_num, by norm_num, ?_⟩
  intro j _
  dsimp only
  split_ifs <;> simp

/-- C7 (witness): the packet of scenario 4 has the wire widths; its encoding has 1206
bytes and the cast reads its timestamp back. -/
theorem C7_packet_wire_roundtrip_witness :
    dualReturnPacket.wellFormed ∧
    (encodePacket dualReturnPacket).length = 1206 ∧
    (reinterpretPacket (encodePacket dualReturnPacket)).gpsTimestamp = 123456 :=
  ⟨dualReturnPacket_wellFormed,
    (C7_packet_wire_roundtrip dualReturnPacket dualReturnPacket_wellFormed).1,
    (C7_packet_wire_roundtrip dualReturnPacket dualReturnPacket_wellFormed).2.2.1⟩

/-! ## Frame boundaries -/

theorem ProcessHDLPacket_loop_succ_right (dataPacket : HDLDataPacket) (azimuthOffset : Nat)
    (translation : ℚ × ℚ × ℚ) (lm : Libm) (n : Nat) :
    ∀ (i : Nat) (s : vtkInternal),
      ProcessHDLPacket.loop dataPacket azimuthOffset translation lm (n + 1) i s
        = ProcessHDLPacket.step dataPacket azimuthOffset translation lm (i + n)
            (ProcessHDLPacket.loop dataPacket azimuthOffset translation lm n i s) := by
  induction n with
  | zero => intro i s; rfl
  | succ n ih =>
    intro i s
    rw [ProcessHDLPacket.loop, ih (i + 1), ProcessHDLPacket.loop]
    rw [show i + 1 + n = i + (n + 1) by omega]

theorem PushFiringData_Points (s : vtkInternal) (laserId azimuth timestamp : Nat)
    (laserReturn : HDLLaserReturn) (correction : HDLLaserCorrection) (azimuthAdjustment : Nat)
    (translation : ℚ × ℚ × ℚ) (dualReturn : Bool) (lm : Libm) :
    (PushFiringData s laserId azimuth timestamp laserReturn correction azimuthAdjustment
      translation dualReturn lm).CurrentDataset.Points
      = s.CurrentDataset.Points ++
        [PushFiringData.point s (PushFiringData.effectiveAzimuth azimuth azimuthAdjustment)
          laserReturn correction translation lm] := by
  unfold PushFiringData
  simp only []
  split_ifs <;> rfl

theorem SplitFrame_of_SplitCounter (s : vtkInternal) (h : s.SplitCounter = 0) :
    SplitFrame s false
      = { s with
          LastPointId := fun n => if n < HDL_MAX_NUM_LASERS then -1 else s.LastPointId n
          Datasets := s.Datasets ++
            [{ s.CurrentDataset with Verts := NewVertexCells s.CurrentDataset.Points.length }]
          CurrentDataset := CreateData 0 } := by
  unfold SplitFrame
  rw [if_neg]
  rw [h]
  simp

/-- A property that `ProcessFiring` preserves from `s` on is preserved by `fire`. -/
theorem ProcessHDLPacket_fire_preserves (P : vtkInternal → Prop) (dataPacket : HDLDataPacket)
    (azimuthOffset : Nat) (translation : ℚ × ℚ × ℚ) (lm : Libm) (i : Nat) (s : vtkInternal)
    (h : P s)
    (hP : ∀ offset, P (ProcessFiring s (dataPacket.firingData i) offset dataPacket.gpsTimestamp
      azimuthOffset translation lm)) :
    P (ProcessHDLPacket.fire dataPacket azimuthOffset translation lm i s) := by
  unfold ProcessHDLPacket.fire
  simp only []
  by_cases hc : s.PointsSkip = 0 ∨ Int.tmod (i : Int) (s.PointsSkip + 1) = 0
  · rw [if_pos hc]
    exact hP _
  · rw [if_neg hc]
    exact h

theorem ProcessHDLPacket_fire_Datasets (dataPacket : HDLDataPacket) (azimuthOffset : Nat)
    (translation : ℚ × ℚ × ℚ) (lm : Libm) (i : Nat) (s : vtkInternal) :
    (ProcessHDLPacket.fire dataPacket azimuthOffset translation lm i s).Datasets = s.Datasets := by
  refine ProcessHDLPacket_fire_preserves (fun t => t.Datasets = s.Datasets) _ _ _ _ _ s rfl ?_
  intro offset
  exact ProcessFiring_preserves (fun t => t.Datasets = s.Datasets)
    (fun _ _ _ _ _ _ _ _ _ _ h => h) (fun _ _ h => h) s _ _ _ _ _ _ rfl

theorem ProcessHDLPacket_fire_Points_prefix (dataPacket : HDLDataPacket) (azimuthOffset : Nat)
    (translation : ℚ × ℚ × ℚ) (lm : Libm) (i : Nat) (s : vtkInternal) :
    s.CurrentDataset.Points <+:
      (ProcessHDLPacket.fire dataPacket azimuthOffset translation lm i s).CurrentDataset.Points := by
  refine ProcessHDLPacket_fire_preserves
    (fun t => s.CurrentDataset.Points <+: t.CurrentDataset.Points) _ _ _ _ _ s
    (List.prefix_refl _) ?_
  intro offset
  refine ProcessFiring_preserves (fun t => s.CurrentDataset.Points <+: t.CurrentDataset.Points)
    ?_ (fun _ _ h => h) s _ _ _ _ _ _ (List.prefix_refl _)
  intro t laserId azimuth timestamp laserReturn correction azimuthAdjustment translation
    dualReturn lm h
  rw [PushFiringData_Points]
  exact h.trans (List.prefix_append _ _)

theorem ProcessHDLPacket_loop_SplitCounter (dataPacket : HDLDataPacket) (azimuthOffset : Nat)
    (translation : ℚ × ℚ × ℚ) (lm : Libm) (n i : Nat) (s : vtkInternal)
    (h : s.SplitCounter = 0) :
    (ProcessHDLPacket.loop dataPacket azimuthOffset translation lm n i s).SplitCounter = 0 := by
  refine ProcessHDLPacket_loop_preserves (fun t => t.SplitCounter = 0)
    (fun _ _ _ _ _ _ _ _ _ _ h => h) (fun _ _ h => h) (fun _ _ h => h) ?_ _ _ _ _ n i s h
  intro t ht
  rw [SplitFrame_of_SplitCounter t ht]
  exact ht

theorem ProcessHDLPacket_loop_LastAzimuth (dataPacket : HDLDataPacket) (azimuthOffset : Nat)
    (translation : ℚ × ℚ × ℚ) (lm : Libm) (n i : Nat) (s : vtkInternal) :
    (ProcessHDLPacket.loop dataPacket azimuthOffset translation lm n i s).LastAzimuth
      = if n = 0 then s.LastAzimuth else (dataPacket.firingData (i + n - 1)).rotationalPosition := by
  cases n with
  | zero => rfl
  | succ n =>
    rw [ProcessHDLPacket_loop_succ_right]
    simp only [ProcessHDLPacket.step, Nat.add_one_ne_zero, if_false]
    rw [show i + (n + 1) - 1 = i + n by omega]

theorem ProcessHDLPacket_step_boundary (dataPacket : HDLDataPacket) (azimuthOffset : Nat)
    (translation : ℚ × ℚ × ℚ) (lm : Libm) (i : Nat) (b : vtkInternal)
    (hb : b.SplitCounter = 0) :
    let a := ProcessHDLPacket.step dataPacket azimuthOffset translation lm i b
    let rot := (dataPacket.firingData i).rotationalPosition
    (rot < b.LastAzimuth →
      a.Datasets = b.Datasets ++
        [{ b.CurrentDataset with Verts := NewVertexCells b.CurrentDataset.Points.length }] ∧
      (SplitFrame b false).CurrentDataset = CreateData 0 ∧
      a.CurrentDataset
        = (ProcessHDLPacket.fire dataPacket azimuthOffset translation lm i
            (SplitFrame b false)).CurrentDataset) ∧
    (¬ rot < b.LastAzimuth →
      a.Datasets = b.Datasets ∧
      a.CurrentDataset
        = (ProcessHDLPacket.fire dataPacket azimuthOffset translation lm i b).CurrentDataset ∧
      b.CurrentDataset.Points <+: a.CurrentDataset.Points) := by
  intro a rot
  constructor
  · intro h
    have ha : a = { ProcessHDLPacket.fire dataPacket azimuthOffset translation lm i
        (SplitFrame b false) with LastAzimuth := rot } := by
      simp only [a, ProcessHDLPacket.step]
      rw [if_pos h]
    refine ⟨?_, ?_, ?_⟩
    · rw [ha]
      show (ProcessHDLPacket.fire dataPacket azimuthOffset translation lm i
        (SplitFrame b false)).Datasets = _
      rw [ProcessHDLPacket_fire_Datasets, SplitFrame_of_SplitCounter b hb]
    · rw [SplitFrame_of_SplitCounter b hb]
    · rw [ha]
  · intro h
    have ha : a = { ProcessHDLPacket.fire dataPacket azimuthOffset translation lm i b with
        LastAzimuth := rot } := by
      simp only [a, ProcessHDLPacket.step]
      rw [if_neg h]
    refine ⟨?_, ?_, ?_⟩
    · rw [ha]
      exact ProcessHDLPacket_fire_Datasets _ _ _ _ _ _
    · rw [ha]
    · rw [ha]
      exact ProcessHDLPacket_fire_Points_prefix _ _ _ _ _ _

/-- C1: frame boundaries in `ProcessHDLPacket`, with `SplitCounter = 0`, on a payload of
1206 bytes.  For a firing `i` with `Skip ≤ i < 12`, let `b` and `a` be the states just before
and just after firing `i` (`a` is one loop iteration applied to `b`, the first `b` is the
entry state with `Skip` cleared, and the state after firing 11 is the result).  `LastAzimuth`
in `b` is the rotational position of the firing processed before (the entry value for
`i = Skip`).  A frame is completed at firing `i` (one more data set in `Datasets`) exactly
when the rotational position of firing `i` is below that `LastAzimuth`; the completed frame
is then the frame under construction in `b`, with its vertex cells rebuilt, and the points
of firing `i` are pushed onto a fresh empty frame.  Otherwise nothing is emitted and the
frame under construction keeps its points.  `LastAzimuth` is 0 in the initial state. -/
theorem C1_frame_boundary_at_azimuth_decrease (s : vtkInternal) (data : Payload) (lm : Libm)
    (i : Nat) (hlen : data.length = 1206) (hsc : s.SplitCounter = 0) (h1 : s.Skip ≤ i)
    (h2 : i < 12) :
    let dataPacket := reinterpretPacket data
    let o := ComputeOrientation s dataPacket.gpsTimestamp 0 (0, 0, 0) lm
    let b := ProcessHDLPacket.beforeFiring s data lm i
    let a := ProcessHDLPacket.beforeFiring s data lm (i + 1)
    let rot := (dataPacket.firingData i).rotationalPosition
    ProcessHDLPacket s data lm = ProcessHDLPacket.beforeFiring s data lm 12 ∧
    ProcessHDLPacket.beforeFiring s data lm s.Skip = { s with Skip := 0 } ∧
    a = ProcessHDLPacket.step dataPacket o.1 o.2 lm i b ∧
    b.LastAzimuth
      = (if i = s.Skip then s.LastAzimuth
          else (dataPacket.firingData (i - 1)).rotationalPosition) ∧
    (a.Datasets.length = b.Datasets.length + 1 ↔ rot < b.LastAzimuth) ∧
    (rot < b.LastAzimuth →
      a.Datasets = b.Datasets ++
        [{ b.CurrentDataset with Verts := NewVertexCells b.CurrentDataset.Points.length }] ∧
      (SplitFrame b false).CurrentDataset = CreateData 0 ∧
      a.CurrentDataset
        = (ProcessHDLPacket.fire dataPacket o.1 o.2 lm i (SplitFrame b false)).CurrentDataset) ∧
    (¬ rot < b.LastAzimuth →
      a.Datasets = b.Datasets ∧
      a.CurrentDataset = (ProcessHDLPacket.fire dataPacket o.1 o.2 lm i b).CurrentDataset ∧
      b.CurrentDataset.Points <+: a.CurrentDataset.Points) ∧
    (∀ firstPointIdThisReturn : Int,
      (vtkInternal.new firstPointIdThisReturn lm).LastAzimuth = 0) := by
  intro dataPacket o b a rot
  have hb : b.SplitCounter = 0 :=
    ProcessHDLPacket_loop_SplitCounter _ _ _ _ _ _ _ hsc
  have hstep : a = ProcessHDLPacket.step dataPacket o.1 o.2 lm i b := by
    simp only [a, b, ProcessHDLPacket.beforeFiring]
    rw [show i + 1 - s.Skip = (i - s.Skip) + 1 by omega, ProcessHDLPacket_loop_succ_right,
      show s.Skip + (i - s.Skip) = i by omega]
  have key := ProcessHDLPacket_step_boundary dataPacket o.1 o.2 lm i b hb
  rw [← hstep] at key
  refine ⟨?_, ?_, hstep, ?_, ?_, key.1, key.2, fun _ => rfl⟩
  · unfold ProcessHDLPacket
    rw [if_neg (by simp [hlen])]
    rfl
  · simp only [ProcessHDLPacket.beforeFiring, Nat.sub_self, ProcessHDLPacket.loop]
  · simp only [b, ProcessHDLPacket.beforeFiring]
    rw [ProcessHDLPacket_loop_LastAzimuth]
    by_cases hi : i = s.Skip
    · simp [hi]
    · rw [if_neg (by omega), if_neg hi, show s.Skip + (i - s.Skip) - 1 = i - 1 by omega]
  · constructor
    · intro hl
      by_contra hn
      rw [(key.2 hn).1] at hl
      omega
    · intro hr
      rw [(key.1 hr).1]
      simp

theorem sweepPacket_wellFormed (first step timestamp : Nat) (h : first + step * 11 < 65536)
    (hts : timestamp < 2 ^ 32) : (sweepPacket first step timestamp).wellFormed := by
  unfold HDLDataPacket.wellFormed sweepPacket
  refine ⟨hts, by norm_num, by norm_num, ?_⟩
  intro i hi
  refine ⟨by norm_num, ?_, ?_⟩
  · have : step * i ≤ step * 11 := Nat.mul_le_mul_left _ (by omega)
    show first + step * i < 65536
    omega
  · intro j _
    dsimp only
    split_ifs <;> simp

/-- C1 (witness): scenario 3.  The first firing of the second payload (rotational position
10) is below the last firing of the first payload (1200).  The two payloads complete
exactly one frame; its twelve points all carry the timestamp of the first payload, and the
twelve points of the second payload are in the frame under construction.  The theorem is
applied to the second payload at firing 0. -/
theorem C1_frame_boundary_at_azimuth_decrease_witness :
    secondSweepPayload.length = 1206 ∧ afterFirstSweep.SplitCounter = 0 ∧
    afterFirstSweep.Skip ≤ 0 ∧ 0 < 12 ∧
    afterFirstSweep.Datasets.length = 0 ∧
    afterFirstSweep.LastAzimuth = 1200 ∧
    afterSecondSweep.Datasets.length = 1 ∧
    afterSecondSweep.Datasets.map (fun d => d.Timestamp) = [List.replicate 12 1000] ∧
    afterSecondSweep.CurrentDataset.Timestamp = List.replicate 12 2000 ∧
    ((ProcessHDLPacket.beforeFiring afterFirstSweep secondSweepPayload exampleLibm 1).Datasets.length
        = (ProcessHDLPacket.beforeFiring afterFirstSweep secondSweepPayload
            exampleLibm 0).Datasets.length + 1 ↔
      ((reinterpretPacket secondSweepPayload).firingData 0).rotationalPosition
        < (ProcessHDLPacket.beforeFiring afterFirstSweep secondSweepPayload
            exampleLibm 0).LastAzimuth) := by
  have hlen : secondSweepPayload.length = 1206 := rfl
  have hsc : afterFirstSweep.SplitCounter = 0 := by decide!
  have hskip : afterFirstSweep.Skip ≤ 0 := by decide!
  exact ⟨hlen, hsc, hskip, by decide, by decide!, by decide!, by decide!, by decide!, by decide!,
    (C1_frame_boundary_at_azimuth_decrease afterFirstSweep secondSweepPayload exampleLibm 0
      hlen hsc hskip (by decide)).2.2.2.2.1⟩

/-! ## The number of frames -/

/-- C9 (as stated, refuted): the index of a capture without packets has one entry, so
`GetNumberOfFrames` is 1 and not 0. -/
theorem C9_empty_capture_has_one_frame :
    (ReadFrameInformation (vtkInternal.new 0 exampleLibm) (some [])).2 = 1 ∧
    GetNumberOfFrames (ReadFrameInformation (vtkInternal.new 0 exampleLibm) (some [])).1 ≠ 0 := by
  constructor
  · rfl
  · decide

theorem ReadFrameInformation_firings_length (dataPacket : HDLDataPacket) (n : Nat) :
    ∀ (i : Nat) (st : ScanState),
      st.filePositions.length ≤
        (ReadFrameInformation.firings dataPacket n i st).filePositions.length := by
  induction n with
  | zero => intro i st; exact le_refl _
  | succ n ih =>
    intro i st
    simp only [ReadFrameInformation.firings]
    refine le_trans ?_ (ih _ _)
    split_ifs <;> simp

theorem ReadFrameInformation_loop_length (packets : List Payload) :
    ∀ (position : Nat) (st : ScanState),
      st.filePositions.length ≤
        (ReadFrameInformation.loop packets position st).filePositions.length := by
  induction packets with
  | nil => intro position st; exact le_refl _
  | cons data rest ih =>
    intro position st
    simp only [ReadFrameInformation.loop]
    split_ifs
    · exact ih _ _
    · refine le_trans ?_ (ih _ _)
      simp only [ReadFrameInformation.packet]
      refine le_trans ?_ (ReadFrameInformation_firings_length _ _ _ _)
      split_ifs <;> simp

/-- C9 (amended): for a capture that opens and contains no packets, the index built holds
the single entry (position before the first packet, skip 0), so `GetNumberOfFrames` is 1.
Every capture that opens gets at least that entry; the number of frames is 0 only while
no index has been built (in the initial state), and a capture that cannot be opened
leaves the state as it is. -/
theorem C9_number_of_frames_of_empty_capture (s : vtkInternal) (packets : List Payload)
    (lm : Libm) (firstPointIdThisReturn : Int) :
    (ReadFrameInformation s (some [])).1.FilePositions = [0] ∧
    (ReadFrameInformation s (some [])).1.Skips = [0] ∧
    GetNumberOfFrames (ReadFrameInformation s (some [])).1 = 1 ∧
    (ReadFrameInformation s (some [])).2 = 1 ∧
    1 ≤ GetNumberOfFrames (ReadFrameInformation s (some packets)).1 ∧
    GetNumberOfFrames (vtkInternal.new firstPointIdThisReturn lm) = 0 ∧
    ReadFrameInformation s none = (s, 0) := by
  refine ⟨rfl, rfl, rfl, rfl, ?_, rfl, rfl⟩
  have h := ReadFrameInformation_loop_length packets 0
    { lastAzimuth := 0, lastTimestamp := 0, filePositions := [0], skips := [0],
      lastFilePosition := 0, missed := [] }
  simp only [GetNumberOfFrames, ReadFrameInformation, ReadFrameInformation.scan]
  simp only [List.length_singleton] at h
  exact_mod_cast h

/-! ## Out-of-range frame requests -/

/-- C10 (the code at the failing input): with the index of the empty capture built
(`GetNumberOfFrames` is 1) and the capture open, `GetFrame(1)` reports no error and returns a
data set, although frame 1 does not exist; `GetFrame(-1)` and `GetFrame(2)` are rejected,
and `RequestData` rejects time step 1. -/
theorem C10_get_frame_accepts_number_of_frames :
    GetNumberOfFrames emptyCaptureReader = 1 ∧
    (GetFrame emptyCaptureReader 1 exampleLibm).error = none ∧
    (GetFrame emptyCaptureReader 1 exampleLibm).frame = some (CreateData 0) ∧
    (GetFrame emptyCaptureReader (-1) exampleLibm).error = some "Invalid frame requested" ∧
    (GetFrame emptyCaptureReader 2 exampleLibm).error = some "Invalid frame requested" ∧
    (GetFrame emptyCaptureReader 2 exampleLibm).frame = none ∧
    (RequestData emptyCaptureReader 1 (some []) 1 exampleLibm).2 = (some (CreateData 0), 0) := by
  refine ⟨by decide, by decide, by decide, by decide, by decide, by decide, by decide⟩


/-! ## Counting points -/

theorem ProcessFiring_loop_counts (firingData : HDLFiringData) (offset gpsTime : Nat)
    (azimuthOffset : Nat) (translation : ℚ × ℚ × ℚ) (dual : Bool) (lm : Libm) (n : Nat) :
    ∀ (j : Nat) (s : vtkInternal),
      (ProcessFiring.loop firingData offset gpsTime azimuthOffset translation dual lm n j
          s).CurrentDataset.Points.length
        = s.CurrentDataset.Points.length + firingPoints s.LaserSelection firingData offset n j ∧
      (ProcessFiring.loop firingData offset gpsTime azimuthOffset translation dual lm n j
          s).LaserSelection = s.LaserSelection := by
  induction n with
  | zero => intro j s; exact ⟨rfl, rfl⟩
  | succ n ih =>
    intro j s
    simp only [ProcessFiring.loop, firingPoints]
    by_cases hc : (firingData.laserReturns j).distance ≠ 0 ∧
        s.LaserSelection ((j + offset) % 256) = true
    · rw [if_pos hc, if_pos hc]
      obtain ⟨h1, h2⟩ := ih (j + 1) (PushFiringData s ((j + offset) % 256)
        firingData.rotationalPosition gpsTime (firingData.laserReturns j)
        (s.laser_corrections_ (j + offset)) (azimuthOffset % 65536) translation dual lm)
      rw [h1, h2, PushFiringData_Points]
      refine ⟨?_, rfl⟩
      show (s.CurrentDataset.Points ++ _).length + firingPoints s.LaserSelection _ _ _ _ = _
      rw [List.length_append, List.length_singleton]
      omega
    · rw [if_neg hc, if_neg hc]
      obtain ⟨h1, h2⟩ := ih (j + 1) s
      rw [h1, h2]
      exact ⟨by omega, rfl⟩

theorem ProcessHDLPacket_fire_counts (dataPacket : HDLDataPacket) (azimuthOffset : Nat)
    (translation : ℚ × ℚ × ℚ) (lm : Libm) (i : Nat) (s : vtkInternal) :
    (ProcessHDLPacket.fire dataPacket azimuthOffset translation lm i s).CurrentDataset.numPoints
      = s.CurrentDataset.numPoints + firePoints s.LaserSelection s.PointsSkip dataPacket i := by
  unfold ProcessHDLPacket.fire firePoints PolyData.numPoints
  simp only []
  by_cases hc : s.PointsSkip = 0 ∨ Int.tmod (i : Int) (s.PointsSkip + 1) = 0
  · rw [if_pos hc, if_pos hc]
    unfold ProcessFiring
    simp only []
    rw [(ProcessFiring_loop_counts _ _ _ _ _ _ _ _ _ _).1]
    split_ifs <;> rfl
  · rw [if_neg hc, if_neg hc]
    rfl

theorem SplitFrame_countSettings (sel : Nat → Bool) (pointsSkip : Int) (s : vtkInternal)
    (h : countSettings sel pointsSkip s) : countSettings sel pointsSkip (SplitFrame s false) := by
  rw [SplitFrame_of_SplitCounter s h.2.2]
  exact h

theorem ProcessHDLPacket_step_countSettings (sel : Nat → Bool) (pointsSkip : Int)
    (dataPacket : HDLDataPacket) (azimuthOffset : Nat) (translation : ℚ × ℚ × ℚ) (lm : Libm)
    (i : Nat) (s : vtkInternal) (h : countSettings sel pointsSkip s) :
    countSettings sel pointsSkip
      (ProcessHDLPacket.step dataPacket azimuthOffset translation lm i s) :=
  ProcessHDLPacket_step_preserves (countSettings sel pointsSkip)
    (fun _ _ _ _ _ _ _ _ _ _ h => h) (fun _ _ h => h) (fun _ _ h => h)
    (SplitFrame_countSettings sel pointsSkip) _ _ _ _ _ _ h

theorem ProcessHDLPacket_step_counts (dataPacket : HDLDataPacket) (azimuthOffset : Nat)
    (translation : ℚ × ℚ × ℚ) (lm : Libm) (i : Nat) (s : vtkInternal)
    (hs : s.SplitCounter = 0) :
    countsOf (ProcessHDLPacket.step dataPacket azimuthOffset translation lm i s)
      = countStep s.LaserSelection s.PointsSkip dataPacket i (countsOf s) := by
  unfold ProcessHDLPacket.step countStep
  simp only []
  by_cases hc : (dataPacket.firingData i).rotationalPosition < s.LastAzimuth
  · rw [if_pos hc]
    have hc2 : (dataPacket.firingData i).rotationalPosition < (countsOf s).lastAzimuth := hc
    rw [if_pos hc2]
    unfold countsOf
    simp only [ProcessHDLPacket_fire_Datasets, ProcessHDLPacket_fire_counts]
    rw [SplitFrame_of_SplitCounter s hs]
    simp [PolyData.numPoints, CreateData]
  · rw [if_neg hc]
    have hc2 : ¬ (dataPacket.firingData i).rotationalPosition < (countsOf s).lastAzimuth := hc
    rw [if_neg hc2]
    unfold countsOf
    simp only [ProcessHDLPacket_fire_Datasets, ProcessHDLPacket_fire_counts]

theorem ProcessHDLPacket_loop_counts (sel : Nat → Bool) (pointsSkip : Int)
    (dataPacket : HDLDataPacket) (azimuthOffset : Nat) (translation : ℚ × ℚ × ℚ) (lm : Libm)
    (n : Nat) : ∀ (i : Nat) (s : vtkInternal), countSettings sel pointsSkip s →
      countsOf (ProcessHDLPacket.loop dataPacket azimuthOffset translation lm n i s)
          = countLoop sel pointsSkip dataPacket n i (countsOf s) ∧
      countSettings sel pointsSkip
        (ProcessHDLPacket.loop dataPacket azimuthOffset translation lm n i s) := by
  induction n with
  | zero => intro i s h; exact ⟨rfl, h⟩
  | succ n ih =>
    intro i s h
    simp only [ProcessHDLPacket.loop, countLoop]
    have h1 := ProcessHDLPacket_step_countSettings sel pointsSkip dataPacket azimuthOffset
      translation lm i s h
    obtain ⟨e, h2⟩ := ih (i + 1) _ h1
    refine ⟨?_, h2⟩
    rw [e, ProcessHDLPacket_step_counts _ _ _ _ _ _ h.2.2, h.1, h.2.1]

/-- `ProcessHDLPacket` on the counts: a mis-sized payload changes nothing, `Skip` included;
another one runs the firing loop from `Skip` and clears `Skip`. -/
theorem ProcessHDLPacket_counts (sel : Nat → Bool) (pointsSkip : Int) (s : vtkInternal)
    (data : Payload) (lm : Libm) (h : countSettings sel pointsSkip s) :
    countSettings sel pointsSkip (ProcessHDLPacket s data lm) ∧
    (data.length ≠ 1206 → ProcessHDLPacket s data lm = s) ∧
    (¬ data.length ≠ 1206 →
      countsOf (ProcessHDLPacket s data lm)
          = countLoop sel pointsSkip (reinterpretPacket data) (HDL_FIRING_PER_PKT - s.Skip) s.Skip
              (countsOf s) ∧
      (ProcessHDLPacket s data lm).Skip = 0) := by
  by_cases hl : data.length ≠ 1206
  · have e : ProcessHDLPacket s data lm = s := by
      unfold ProcessHDLPacket
      rw [if_pos hl]
    rw [e]
    exact ⟨h, fun _ => rfl, fun hn => absurd hl hn⟩
  · have e : ProcessHDLPacket s data lm
        = ProcessHDLPacket.decoded s (reinterpretPacket data) lm := by
      unfold ProcessHDLPacket
      rw [if_neg hl]
    rw [e]
    unfold ProcessHDLPacket.decoded
    simp only []
    have h0 : countSettings sel pointsSkip { s with Skip := 0 } := h
    obtain ⟨e1, h1⟩ := ProcessHDLPacket_loop_counts sel pointsSkip (reinterpretPacket data)
      (ComputeOrientation s (reinterpretPacket data).gpsTimestamp 0 (0, 0, 0) lm).1
      (ComputeOrientation s (reinterpretPacket data).gpsTimestamp 0 (0, 0, 0) lm).2 lm
      (HDL_FIRING_PER_PKT - s.Skip) s.Skip { s with Skip := 0 } h0
    refine ⟨h1, fun hn => absurd hn hl, fun _ => ⟨e1, ?_⟩⟩
    exact ProcessHDLPacket_loop_preserves (fun t => t.Skip = 0)
      (fun _ _ _ _ _ _ _ _ _ _ h => h) (fun _ _ h => h) (fun _ _ h => h)
      (fun t ht => by
        unfold SplitFrame
        split_ifs <;> exact ht) _ _ _ _ _ _ _ rfl

theorem decodeAll_counts (sel : Nat → Bool) (pointsSkip : Int) (lm : Libm)
    (packets : List Payload) : ∀ (s : vtkInternal), countSettings sel pointsSkip s →
      countsOf (decodeAll s packets lm) = countAll sel pointsSkip packets s.Skip (countsOf s) := by
  induction packets with
  | nil => intro s _; rfl
  | cons data rest ih =>
    intro s h
    simp only [decodeAll, List.foldl_cons, countAll]
    obtain ⟨h1, h2, h3⟩ := ProcessHDLPacket_counts sel pointsSkip s data lm h
    have e := ih (ProcessHDLPacket s data lm) h1
    simp only [decodeAll] at e
    rw [e]
    by_cases hl : data.length ≠ 1206
    · rw [if_pos hl, h2 hl]
    · rw [if_neg hl, (h3 hl).1, (h3 hl).2]

theorem totalPoints_eq (s : vtkInternal) : totalPoints s = (countsOf s).total := rfl

theorem advanceReader_countSettings (sel : Nat → Bool) (pointsSkip : Int) (s : vtkInternal)
    (h : countSettings sel pointsSkip s) : countSettings sel pointsSkip (advanceReader s) := h

theorem SplitFrame_counts (s : vtkInternal) (hs : s.SplitCounter = 0) :
    countsOf (SplitFrame s false)
      = { emitted := (countsOf s).emitted ++ [(countsOf s).current], current := 0,
          lastAzimuth := (countsOf s).lastAzimuth } := by
  rw [SplitFrame_of_SplitCounter s hs]
  simp [countsOf, PolyData.numPoints, CreateData]

theorem GetFrame_loop_counts (sel : Nat → Bool) (pointsSkip : Int) (lm : Libm)
    (rest : List Payload) : ∀ (s : vtkInternal), countSettings sel pointsSkip s →
      countsOf (GetFrame.loop lm rest s)
        = countGetFrame sel pointsSkip rest s.Skip (countsOf s) := by
  induction rest with
  | nil =>
    intro s h
    simp only [GetFrame.loop, countGetFrame]
    exact SplitFrame_counts s h.2.2
  | cons data rest ih =>
    intro s h
    simp only [GetFrame.loop, countGetFrame]
    have ha := advanceReader_countSettings sel pointsSkip s h
    obtain ⟨h1, h2, h3⟩ := ProcessHDLPacket_counts sel pointsSkip (advanceReader s) data lm ha
    have hlen : ∀ t : vtkInternal, t.Datasets.length = (countsOf t).emitted.length := by
      intro t
      simp [countsOf]
    by_cases hl : data.length ≠ 1206
    · rw [if_pos hl, h2 hl]
      have e0 : countsOf (advanceReader s) = countsOf s := rfl
      rw [hlen, e0]
      by_cases he : (countsOf s).emitted.length ≠ 0
      · rw [if_pos he, if_pos he, e0]
      · rw [if_neg he, if_neg he, ih _ ha]
        rfl
    · rw [if_neg hl, hlen, (h3 hl).1]
      have e0 : countsOf (advanceReader s) = countsOf s := rfl
      have e1 : (advanceReader s).Skip = s.Skip := rfl
      rw [e0, e1]
      by_cases he : (countLoop sel pointsSkip (reinterpretPacket data)
          (HDL_FIRING_PER_PKT - s.Skip) s.Skip (countsOf s)).emitted.length ≠ 0
      · rw [if_pos he, if_pos he, (h3 hl).1, e0, e1]
      · rw [if_neg he, if_neg he, ih _ h1, (h3 hl).1, (h3 hl).2, e0, e1]

/-! ## Frames emitted earlier are carried along -/

theorem countStep_prepend (sel : Nat → Bool) (pointsSkip : Int) (dataPacket : HDLDataPacket)
    (i : Nat) (e : List Nat) (a : FrameCounts) :
    countStep sel pointsSkip dataPacket i (FrameCounts.prepend e a)
      = FrameCounts.prepend e (countStep sel pointsSkip dataPacket i a) := by
  unfold countStep FrameCounts.prepend
  simp only []
  split_ifs <;> simp

theorem countLoop_prepend (sel : Nat → Bool) (pointsSkip : Int) (dataPacket : HDLDataPacket)
    (e : List Nat) (n : Nat) : ∀ (i : Nat) (a : FrameCounts),
      countLoop sel pointsSkip dataPacket n i (FrameCounts.prepend e a)
        = FrameCounts.prepend e (countLoop sel pointsSkip dataPacket n i a) := by
  induction n with
  | zero => intro i a; rfl
  | succ n ih =>
    intro i a
    simp only [countLoop]
    rw [countStep_prepend, ih]

theorem countAll_prepend (sel : Nat → Bool) (pointsSkip : Int) (e : List Nat)
    (rest : List Payload) : ∀ (skip : Nat) (a : FrameCounts),
      countAll sel pointsSkip rest skip (FrameCounts.prepend e a)
        = FrameCounts.prepend e (countAll sel pointsSkip rest skip a) := by
  induction rest with
  | nil => intro skip a; rfl
  | cons data rest ih =>
    intro skip a
    simp only [countAll]
    split_ifs
    · exact ih _ _
    · rw [countLoop_prepend, ih]

theorem total_prepend (e : List Nat) (a : FrameCounts) :
    (FrameCounts.prepend e a).total = e.sum + a.total := by
  simp [FrameCounts.prepend, FrameCounts.total, List.sum_append, Nat.add_assoc]

theorem countLoop_lastAzimuth (sel : Nat → Bool) (pointsSkip : Int) (dataPacket : HDLDataPacket)
    (n : Nat) : ∀ (i : Nat) (a : FrameCounts),
      (countLoop sel pointsSkip dataPacket (n + 1) i a).lastAzimuth
        = (dataPacket.firingData (i + n)).rotationalPosition := by
  induction n with
  | zero =>
    intro i a
    simp only [countLoop, countStep]
    split_ifs <;> rfl
  | succ n ih =>
    intro i a
    rw [countLoop, ih (i + 1), show i + 1 + n = i + (n + 1) by omega]

/-! ## One packet of the scan -/

/-- The firings `i0, i0 + 1, ...` of a packet (`n` of them) seen by the assembler, from a
state without emitted frames, and by the index scan.  Without an azimuth decrease no frame
is emitted and no entry is added.  With exactly one, at firing `i`, the scan adds the entry
`(pending, i)`, and the counts are those of a fresh run that starts at firing `i`, with one
frame emitted before; the fresh run emits nothing. -/
theorem packet_single_boundary (sel : Nat → Bool) (pointsSkip : Int) (dataPacket : HDLDataPacket)
    (pending : List Payload) (n : Nat) : ∀ (i0 c la : Nat),
      (azimuthDecreases dataPacket n i0 la = 0 →
        (countLoop sel pointsSkip dataPacket n i0
          { emitted := [], current := c, lastAzimuth := la }).emitted = [] ∧
        scanFirings dataPacket pending n i0 la = []) ∧
      (azimuthDecreases dataPacket n i0 la = 1 →
        ∃ i c1, i0 ≤ i ∧ i < i0 + n ∧
          scanFirings dataPacket pending n i0 la = [(pending, i)] ∧
          countLoop sel pointsSkip dataPacket n i0
              { emitted := [], current := c, lastAzimuth := la }
            = FrameCounts.prepend [c1]
                (countLoop sel pointsSkip dataPacket (i0 + n - i) i
                  { emitted := [], current := 0, lastAzimuth := 0 }) ∧
          (countLoop sel pointsSkip dataPacket (i0 + n - i) i
            { emitted := [], current := 0, lastAzimuth := 0 }).emitted = []) := by
  induction n with
  | zero =>
    intro i0 c la
    constructor
    · intro _
      exact ⟨rfl, rfl⟩
    · intro h
      simp [azimuthDecreases] at h
  | succ n ih =>
    intro i0 c la
    by_cases hd : (dataPacket.firingData i0).rotationalPosition < la
    · have hstep : countStep sel pointsSkip dataPacket i0
          { emitted := [], current := c, lastAzimuth := la }
          = FrameCounts.prepend [c]
              { emitted := [], current := firePoints sel pointsSkip dataPacket i0,
                lastAzimuth := (dataPacket.firingData i0).rotationalPosition } := by
        simp [countStep, hd, FrameCounts.prepend]
      have hfresh : countStep sel pointsSkip dataPacket i0
          { emitted := [], current := 0, lastAzimuth := 0 }
          = { emitted := [], current := firePoints sel pointsSkip dataPacket i0,
              lastAzimuth := (dataPacket.firingData i0).rotationalPosition } := by
        simp [countStep]
      constructor
      · intro h
        simp [azimuthDecreases, hd] at h
      · intro h
        have h0 : azimuthDecreases dataPacket n (i0 + 1)
            (dataPacket.firingData i0).rotationalPosition = 0 := by
          simp only [azimuthDecreases, if_pos hd] at h
          omega
        obtain ⟨k1, k2⟩ := (ih (i0 + 1) (firePoints sel pointsSkip dataPacket i0)
          (dataPacket.firingData i0).rotationalPosition).1 h0
        refine ⟨i0, c, le_refl _, by omega, ?_, ?_, ?_⟩
        · simp only [scanFirings, if_pos hd, k2]
          rfl
        · rw [show i0 + (n + 1) - i0 = n + 1 by omega]
          simp only [countLoop]
          rw [hstep, hfresh, countLoop_prepend]
        · rw [show i0 + (n + 1) - i0 = n + 1 by omega]
          simp only [countLoop]
          rw [hfresh]
          exact k1
    · have hstep : countStep sel pointsSkip dataPacket i0
          { emitted := [], current := c, lastAzimuth := la }
          = { emitted := [], current := c + firePoints sel pointsSkip dataPacket i0,
              lastAzimuth := (dataPacket.firingData i0).rotationalPosition } := by
        simp [countStep, hd]
      have hsame : azimuthDecreases dataPacket (n + 1) i0 la
          = azimuthDecreases dataPacket n (i0 + 1)
              (dataPacket.firingData i0).rotationalPosition := by
        simp [azimuthDecreases, hd]
      have hscan : scanFirings dataPacket pending (n + 1) i0 la
          = scanFirings dataPacket pending n (i0 + 1)
              (dataPacket.firingData i0).rotationalPosition := by
        simp [scanFirings, hd]
      rw [hsame, hscan]
      simp only [countLoop]
      rw [hstep]
      obtain ⟨k0, k1⟩ := ih (i0 + 1) (c + firePoints sel pointsSkip dataPacket i0)
        (dataPacket.firingData i0).rotationalPosition
      refine ⟨k0, ?_⟩
      intro h
      obtain ⟨i, c1, b1, b2, b3, b4, b5⟩ := k1 h
      refine ⟨i, c1, by omega, by omega, b3, ?_, ?_⟩
      · rw [show i0 + (n + 1) - i = i0 + 1 + n - i by omega]
        exact b4
      · rw [show i0 + (n + 1) - i = i0 + 1 + n - i by omega]
        exact b5

/-! ## The frames of the index partition the capture -/

theorem countGetFrame_skip_missized (sel : Nat → Bool) (pointsSkip : Int) (rest : List Payload)
    (skip : Nat) (a : FrameCounts) (ha : a.emitted = []) (inv : List Payload) :
    (∀ x ∈ inv, x.length ≠ 1206) →
      countGetFrame sel pointsSkip (inv ++ rest) skip a
        = countGetFrame sel pointsSkip rest skip a := by
  induction inv with
  | nil => intro _; rfl
  | cons x inv ih =>
    intro h
    rw [List.cons_append, countGetFrame, if_pos (h x (List.mem_cons_self _ _)),
      if_neg (by simp [ha])]
    exact ih (fun y hy => h y (List.mem_cons_of_mem _ hy))

theorem frameCounts_eta (a : FrameCounts) (ha : a.emitted = []) :
    a = { emitted := [], current := a.current, lastAzimuth := a.lastAzimuth } := by
  cases a
  simp only at ha
  subst ha
  rfl

/-- Under `atMostOneBoundaryPerPacket`, the frame `GetFrame` is completing from a state
without emitted frames, together with the frames `GetFrame` returns for the index entries
the scan adds from here on, has as many points as decoding the remaining records. -/
theorem frames_partition (sel : Nat → Bool) (pointsSkip : Int) (rest : List Payload) :
    ∀ (pending : List Payload) (a : FrameCounts),
      (∃ inv, pending = inv ++ rest ∧ ∀ x ∈ inv, x.length ≠ 1206) → a.emitted = [] →
      atMostOneBoundaryPerPacket rest a.lastAzimuth = true →
      ((countGetFrame sel pointsSkip rest 0 a).emitted.getLast?).getD 0
          + ((scanSuffixes rest pending a.lastAzimuth).map
              fun e => frameCount sel pointsSkip e.1 e.2).sum
        = (countAll sel pointsSkip rest 0 a).total := by
  induction rest with
  | nil =>
    intro pending a _ ha _
    simp [countGetFrame, scanSuffixes, countAll, FrameCounts.total, ha]
  | cons data rest ih =>
    intro pending a hp ha hs
    obtain ⟨inv, hinv, hbad⟩ := hp
    by_cases hl : data.length ≠ 1206
    · simp only [countGetFrame, scanSuffixes, countAll, atMostOneBoundaryPerPacket,
        if_pos hl] at hs ⊢
      rw [if_neg (by simp [ha])]
      refine ih pending a ⟨inv ++ [data], by simp [hinv], ?_⟩ ha hs
      intro x hx
      simp only [List.mem_append, List.mem_singleton] at hx
      rcases hx with hx | hx
      · exact hbad x hx
      · rw [hx]
        exact hl
    · simp only [countGetFrame, scanSuffixes, countAll, atMostOneBoundaryPerPacket, if_neg hl,
        Bool.and_eq_true, decide_eq_true_eq] at hs ⊢
      obtain ⟨hD, hs2⟩ := hs
      simp only [HDL_FIRING_PER_PKT, Nat.sub_zero] at hD hs2 ⊢
      have hla : ∀ b : FrameCounts,
          (countLoop sel pointsSkip (reinterpretPacket data) 12 0 b).lastAzimuth
            = ((reinterpretPacket data).firingData (12 - 1)).rotationalPosition :=
        fun b => countLoop_lastAzimuth sel pointsSkip (reinterpretPacket data) 11 0 b
      have heta := frameCounts_eta a ha
      obtain ⟨p0, p1⟩ := packet_single_boundary sel pointsSkip (reinterpretPacket data) pending
        12 0 a.current a.lastAzimuth
      rw [← heta] at p0 p1
      rcases Nat.le_one_iff_eq_zero_or_eq_one.mp hD with h0 | h1
      · obtain ⟨k1, k2⟩ := p0 h0
        rw [if_neg (by simp [k1]), k2, List.nil_append]
        have := ih rest (countLoop sel pointsSkip (reinterpretPacket data) 12 0 a)
          ⟨[], rfl, fun _ hx => absurd hx (List.not_mem_nil _)⟩ k1 (by rw [hla]; exact hs2)
        rw [hla] at this
        exact this
      · obtain ⟨i, c1, _, hi, k1, k2, k3⟩ := p1 h1
        simp only [Nat.zero_add] at hi k2 k3
        have hne : (countLoop sel pointsSkip (reinterpretPacket data) 12 0 a).emitted.length
            ≠ 0 := by
          rw [k2]
          simp [FrameCounts.prepend]
        rw [if_pos hne, k1, List.singleton_append, List.map_cons, List.sum_cons]
        have hlast : ((countLoop sel pointsSkip (reinterpretPacket data) 12 0
            a).emitted.getLast?).getD 0 = c1 := by
          rw [k2]
          simp [FrameCounts.prepend, k3]
        rw [hlast]
        have hfc : frameCount sel pointsSkip pending i
            = ((countGetFrame sel pointsSkip rest 0
                (countLoop sel pointsSkip (reinterpretPacket data) (12 - i) i
                  { emitted := [], current := 0, lastAzimuth := 0 })).emitted.getLast?).getD
                0 := by
          unfold frameCount
          rw [hinv, countGetFrame_skip_missized _ _ _ _ _ rfl inv hbad, countGetFrame,
            if_neg hl]
          simp only [HDL_FIRING_PER_PKT]
          rw [if_neg (by simp [k3])]
        have hla2 : (countLoop sel pointsSkip (reinterpretPacket data) (12 - i) i
            { emitted := [], current := 0, lastAzimuth := 0 }).lastAzimuth
            = ((reinterpretPacket data).firingData (12 - 1)).rotationalPosition := by
          have := countLoop_lastAzimuth sel pointsSkip (reinterpretPacket data) (11 - i) i
            { emitted := [], current := 0, lastAzimuth := 0 }
          rw [show 11 - i + 1 = 12 - i by omega, show i + (11 - i) = 12 - 1 by omega] at this
          exact this
        have key := ih rest (countLoop sel pointsSkip (reinterpretPacket data) (12 - i) i
          { emitted := [], current := 0, lastAzimuth := 0 })
          ⟨[], rfl, fun _ hx => absurd hx (List.not_mem_nil _)⟩ k3 (by rw [hla2]; exact hs2)
        rw [hla2] at key
        rw [hfc, k2, countAll_prepend, total_prepend, ← key]
        simp only [List.sum_cons, List.sum_nil]
        omega

/-! ## The index in terms of the records that follow each entry -/

theorem entriesOf_append (capture : List Payload) (fp sk fp2 sk2 : List Nat)
    (h : fp.length = sk.length) :
    entriesOf capture (fp ++ fp2) (sk ++ sk2)
      = entriesOf capture fp sk ++ entriesOf capture fp2 sk2 := by
  unfold entriesOf
  rw [List.zip_append h, List.map_append]

theorem scan_firings_entries (dataPacket : HDLDataPacket) (capture : List Payload) (n : Nat) :
    ∀ (i : Nat) (st : ScanState), st.filePositions.length = st.skips.length →
      (ReadFrameInformation.firings dataPacket n i st).filePositions.length
          = (ReadFrameInformation.firings dataPacket n i st).skips.length ∧
      (ReadFrameInformation.firings dataPacket n i st).lastFilePosition = st.lastFilePosition ∧
      entriesOf capture (ReadFrameInformation.firings dataPacket n i st).filePositions
          (ReadFrameInformation.firings dataPacket n i st).skips
        = entriesOf capture st.filePositions st.skips
          ++ scanFirings dataPacket (capture.drop st.lastFilePosition) n i st.lastAzimuth := by
  induction n with
  | zero =>
    intro i st h
    simp [ReadFrameInformation.firings, scanFirings, h]
  | succ n ih =>
    intro i st h
    simp only [ReadFrameInformation.firings, scanFirings]
    by_cases hd : (dataPacket.firingData i).rotationalPosition < st.lastAzimuth
    · rw [if_pos hd, if_pos hd]
      obtain ⟨h1, h2, h3⟩ := ih (i + 1)
        { lastAzimuth := (dataPacket.firingData i).rotationalPosition
          lastTimestamp := st.lastTimestamp
          filePositions := st.filePositions ++ [st.lastFilePosition]
          skips := st.skips ++ [i]
          lastFilePosition := st.lastFilePosition
          missed := st.missed } (by simp [h])
      refine ⟨h1, h2, ?_⟩
      rw [h3, entriesOf_append _ _ _ _ _ h, List.append_assoc]
      rfl
    · rw [if_neg hd, if_neg hd]
      obtain ⟨h1, h2, h3⟩ := ih (i + 1)
        { st with lastAzimuth := (dataPacket.firingData i).rotationalPosition } h
      refine ⟨h1, h2, ?_⟩
      rw [h3]
      rfl

theorem scan_firings_lastAzimuth (dataPacket : HDLDataPacket) (n : Nat) :
    ∀ (i : Nat) (st : ScanState),
      (ReadFrameInformation.firings dataPacket (n + 1) i st).lastAzimuth
        = (dataPacket.firingData (i + n)).rotationalPosition := by
  induction n with
  | zero =>
    intro i st
    rfl
  | succ n ih =>
    intro i st
    rw [ReadFrameInformation.firings, ih (i + 1), show i + 1 + n = i + (n + 1) by omega]

theorem scan_loop_entries (capture : List Payload) (rest : List Payload) :
    ∀ (position : Nat) (st : ScanState), capture.drop position = rest →
      st.filePositions.length = st.skips.length →
      (ReadFrameInformation.loop rest position st).filePositions.length
          = (ReadFrameInformation.loop rest position st).skips.length ∧
      entriesOf capture (ReadFrameInformation.loop rest position st).filePositions
          (ReadFrameInformation.loop rest position st).skips
        = entriesOf capture st.filePositions st.skips
          ++ scanSuffixes rest (capture.drop st.lastFilePosition) st.lastAzimuth := by
  induction rest with
  | nil =>
    intro position st _ h
    simp [ReadFrameInformation.loop, scanSuffixes, h]
  | cons data rest ih =>
    intro position st hdrop h
    have hnext : capture.drop (position + 1) = rest := by
      rw [← List.drop_drop, hdrop]
      rfl
    simp only [ReadFrameInformation.loop, scanSuffixes]
    by_cases hl : data.length ≠ 1206
    · rw [if_pos hl, if_pos hl]
      exact ih (position + 1) st hnext h
    · rw [if_neg hl, if_neg hl]
      have hst1 : ∀ st1 : ScanState, st1.filePositions = st.filePositions →
          st1.skips = st.skips → st1.lastFilePosition = st.lastFilePosition →
          st1.lastAzimuth = st.lastAzimuth →
          (ReadFrameInformation.loop rest (position + 1)
            { ReadFrameInformation.firings (reinterpretPacket data) HDL_FIRING_PER_PKT 0 st1 with
              lastTimestamp := (reinterpretPacket data).gpsTimestamp
              lastFilePosition := position + 1 }).filePositions.length
            = (ReadFrameInformation.loop rest (position + 1)
            { ReadFrameInformation.firings (reinterpretPacket data) HDL_FIRING_PER_PKT 0 st1 with
              lastTimestamp := (reinterpretPacket data).gpsTimestamp
              lastFilePosition := position + 1 }).skips.length ∧
          entriesOf capture (ReadFrameInformation.loop rest (position + 1)
            { ReadFrameInformation.firings (reinterpretPacket data) HDL_FIRING_PER_PKT 0 st1 with
              lastTimestamp := (reinterpretPacket data).gpsTimestamp
              lastFilePosition := position + 1 }).filePositions
            (ReadFrameInformation.loop rest (position + 1)
            { ReadFrameInformation.firings (reinterpretPacket data) HDL_FIRING_PER_PKT 0 st1 with
              lastTimestamp := (reinterpretPacket data).gpsTimestamp
              lastFilePosition := position + 1 }).skips
            = entriesOf capture st.filePositions st.skips
              ++ (scanFirings (reinterpretPacket data) (capture.drop st.lastFilePosition)
                    HDL_FIRING_PER_PKT 0 st.lastAzimuth
                ++ scanSuffixes rest rest
                    ((reinterpretPacket data).firingData
                      (HDL_FIRING_PER_PKT - 1)).rotationalPosition) := by
        intro st1 e1 e2 e3 e4
        have hlen1 : st1.filePositions.length = st1.skips.length := by rw [e1, e2, h]
        obtain ⟨f1, f2, f3⟩ := scan_firings_entries (reinterpretPacket data) capture
          HDL_FIRING_PER_PKT 0 st1 hlen1
        have f4 := scan_firings_lastAzimuth (reinterpretPacket data) 11 0 st1
        obtain ⟨g1, g2⟩ := ih (position + 1)
          { ReadFrameInformation.firings (reinterpretPacket data) HDL_FIRING_PER_PKT 0 st1 with
            lastTimestamp := (reinterpretPacket data).gpsTimestamp
            lastFilePosition := position + 1 } hnext f1
        refine ⟨g1, ?_⟩
        rw [g2]
        simp only [f3, e1, e2, e3, e4, hnext, List.append_assoc]
        have f5 : (ReadFrameInformation.firings (reinterpretPacket data) HDL_FIRING_PER_PKT 0
            st1).lastAzimuth
            = ((reinterpretPacket data).firingData (HDL_FIRING_PER_PKT - 1)).rotationalPosition :=
          f4
        rw [f5]
      unfold ReadFrameInformation.packet
      simp only []
      split_ifs
      · exact hst1 _ rfl rfl rfl rfl
      · exact hst1 _ rfl rfl rfl rfl

/-! ## Frame requests on an indexed reader -/

theorem GetFrame_loop_readerSettings (capture : List Payload) (fp sk : List Nat)
    (sel : Nat → Bool) (pointsSkip : Int) (lm : Libm) (rest : List Payload) :
    ∀ (s : vtkInternal), readerSettings capture fp sk sel pointsSkip s →
      readerSettings capture fp sk sel pointsSkip (GetFrame.loop lm rest s) := by
  have hsplit : ∀ t : vtkInternal, readerSettings capture fp sk sel pointsSkip t →
      readerSettings capture fp sk sel pointsSkip (SplitFrame t false) := by
    intro t ht
    rw [SplitFrame_of_SplitCounter t ht.2.2.2.2.2]
    exact ht
  induction rest with
  | nil =>
    intro s h
    exact hsplit s h
  | cons data rest ih =>
    intro s h
    simp only [GetFrame.loop]
    have ha : readerSettings capture fp sk sel pointsSkip (advanceReader s) := by
      obtain ⟨⟨p, hp⟩, h2⟩ := h
      refine ⟨⟨p + 1, ?_⟩, h2⟩
      simp [advanceReader, hp]
    have h1 : readerSettings capture fp sk sel pointsSkip
        (ProcessHDLPacket (advanceReader s) data lm) :=
      ProcessHDLPacket_preserves (readerSettings capture fp sk sel pointsSkip)
        (fun _ _ _ _ _ _ _ _ _ _ h => h) (fun _ _ h => h) (fun _ _ h => h) hsplit
        (fun _ _ h => h) _ _ _ ha
    split_ifs
    · exact h1
    · exact ih _ h1

/-- `GetFrame` for a frame number `n ≤ FilePositions.size()` on an open reader with
`SplitCounter = 0`: the number of points returned, and the settings afterwards. -/
theorem GetFrame_frame_count (capture : List Payload) (fp sk : List Nat) (sel : Nat → Bool)
    (pointsSkip : Int) (lm : Libm) (s : vtkInternal) (n : Nat)
    (h : readerSettings capture fp sk sel pointsSkip s) (hn : n ≤ fp.length) :
    framePoints (GetFrame s (n : Int) lm).frame
        = frameCount sel pointsSkip (capture.drop (fp.getD n 0)) (sk.getD n 0) ∧
    readerSettings capture fp sk sel pointsSkip (GetFrame s (n : Int) lm).state := by
  obtain ⟨⟨p, hp⟩, hfp, hsk, hcs⟩ := h
  have hp2 : (UnloadData s).Reader = some { packets := capture, position := p } := hp
  have hguard : ¬ ((n : Int) < 0 ∨ ((UnloadData s).FilePositions.length : Int) < (n : Int)) := by
    have : (UnloadData s).FilePositions = fp := hfp
    rw [this]
    omega
  have hstart : readerSettings capture fp sk sel pointsSkip
      { UnloadData s with
        Reader := some (({ packets := capture, position := p } :
          vtkPacketFileReader).SetFilePosition (fp.getD n 0))
        Skip := sk.getD n 0 } :=
    ⟨⟨fp.getD n 0, rfl⟩, hfp, hsk, hcs⟩
  have hres : GetFrame s (n : Int) lm
      = ⟨GetFrame.loop lm (capture.drop (fp.getD n 0))
          { UnloadData s with
            Reader := some (({ packets := capture, position := p } :
              vtkPacketFileReader).SetFilePosition (fp.getD n 0))
            Skip := sk.getD n 0 },
        (GetFrame.loop lm (capture.drop (fp.getD n 0))
          { UnloadData s with
            Reader := some (({ packets := capture, position := p } :
              vtkPacketFileReader).SetFilePosition (fp.getD n 0))
            Skip := sk.getD n 0 }).Datasets.getLast?, none⟩ := by
    unfold GetFrame
    simp only [hp2, if_neg hguard, Int.toNat_ofNat]
    have e1 : (UnloadData s).FilePositions = fp := hfp
    have e2 : (UnloadData s).Skips = sk := hsk
    rw [e1, e2]
    rfl
  rw [hres]
  refine ⟨?_, GetFrame_loop_readerSettings capture fp sk sel pointsSkip lm _ _ hstart⟩
  have hc := GetFrame_loop_counts sel pointsSkip lm (capture.drop (fp.getD n 0)) _ hstart.2.2.2
  simp only [framePoints, frameCount]
  have hmap : ∀ t : vtkInternal, (t.Datasets.getLast?.map PolyData.numPoints)
      = (countsOf t).emitted.getLast? := by
    intro t
    simp [countsOf]
  rw [hmap, hc]
  rfl

theorem requestFrames_counts (capture : List Payload) (fp sk : List Nat) (sel : Nat → Bool)
    (pointsSkip : Int) (lm : Libm) (ns : List Nat) :
    ∀ (s : vtkInternal), readerSettings capture fp sk sel pointsSkip s →
      (∀ n ∈ ns, n ≤ fp.length) →
      (requestFrames lm (ns.map Int.ofNat) s).map framePoints
        = ns.map fun n => frameCount sel pointsSkip (capture.drop (fp.getD n 0))
            (sk.getD n 0) := by
  induction ns with
  | nil => intro s _ _; rfl
  | cons n ns ih =>
    intro s h hn
    obtain ⟨h1, h2⟩ := GetFrame_frame_count capture fp sk sel pointsSkip lm s n h
      (hn n (List.mem_cons_self _ _))
    simp only [List.map_cons, requestFrames]
    have e : (Int.ofNat n) = (n : Int) := rfl
    rw [e, h1, ih _ h2 (fun m hm => hn m (List.mem_cons_of_mem _ hm))]

theorem map_range_getD_eq_zip {β : Type} (g : Nat → Nat → β) :
    ∀ (fp sk : List Nat), fp.length = sk.length →
      (List.range fp.length).map (fun n => g (fp.getD n 0) (sk.getD n 0))
        = (List.zip fp sk).map fun e => g e.1 e.2 := by
  intro fp
  induction fp with
  | nil => intro sk _; rfl
  | cons x xs ih =>
    intro sk h
    cases sk with
    | nil => simp at h
    | cons y ys =>
      simp only [List.length_cons, Nat.succ.injEq] at h
      rw [List.length_cons, List.range_succ_eq_map, List.map_cons, List.map_map, List.zip_cons_cons,
        List.map_cons, ← ih ys h]
      rfl

theorem indexedReader_readerSettings (s0 : vtkInternal) (capture : List Payload)
    (hsc : s0.SplitCounter = 0) :
    readerSettings capture (ReadFrameInformation.scan capture).filePositions
      (ReadFrameInformation.scan capture).skips s0.LaserSelection s0.PointsSkip
      (indexedReader s0 capture) :=
  ⟨⟨0, rfl⟩, rfl, rfl, rfl, rfl, hsc⟩

/-- The frames of the index together have the points of the capture. -/
theorem indexed_frames_sum (sel : Nat → Bool) (pointsSkip : Int) (capture : List Payload)
    (hone : atMostOneBoundaryPerPacket capture 0 = true) :
    (ReadFrameInformation.scan capture).filePositions.length
        = (ReadFrameInformation.scan capture).skips.length ∧
    ((List.range (ReadFrameInformation.scan capture).filePositions.length).map fun n =>
        frameCount sel pointsSkip
          (capture.drop ((ReadFrameInformation.scan capture).filePositions.getD n 0))
          ((ReadFrameInformation.scan capture).skips.getD n 0)).sum
      = (countAll sel pointsSkip capture 0
          { emitted := [], current := 0, lastAzimuth := 0 }).total := by
  obtain ⟨h1, h2⟩ := scan_loop_entries capture capture 0
    { lastAzimuth := 0, lastTimestamp := 0, filePositions := [0], skips := [0],
      lastFilePosition := 0, missed := [] } rfl rfl
  refine ⟨h1, ?_⟩
  have h3 := map_range_getD_eq_zip
    (fun q k => frameCount sel pointsSkip (capture.drop q) k)
    (ReadFrameInformation.scan capture).filePositions
    (ReadFrameInformation.scan capture).skips h1
  rw [h3]
  have h4 : ((List.zip (ReadFrameInformation.scan capture).filePositions
      (ReadFrameInformation.scan capture).skips).map
        fun e => frameCount sel pointsSkip (capture.drop e.1) e.2)
      = (entriesOf capture (ReadFrameInformation.scan capture).filePositions
          (ReadFrameInformation.scan capture).skips).map
            fun e => frameCount sel pointsSkip e.1 e.2 := by
    simp [entriesOf, List.map_map, Function.comp]
  rw [h4]
  have h5 : entriesOf capture (ReadFrameInformation.scan capture).filePositions
      (ReadFrameInformation.scan capture).skips
      = (capture, 0) :: scanSuffixes capture capture 0 := h2
  rw [h5, List.map_cons, List.sum_cons]
  exact frames_partition sel pointsSkip capture capture
    { emitted := [], current := 0, lastAzimuth := 0 }
    ⟨[], rfl, fun _ hx => absurd hx (List.not_mem_nil _)⟩ rfl hone

/-- C4 (as stated, refuted): the capture that consists of the payload of `doubleWrapPacket`
has two azimuth decreases in one packet.  Its index has three frames; `GetFrame(0)` returns
the last data set the packet completed, the frame of 1 point instead of the frame of 2
points, so the frames requested through the index have 1 + 1 + 10 = 12 points, while
sequential decoding yields frames of 2, 1 and 10 points, 13 in all. -/
theorem C4_point_counts_differ_with_two_boundaries_in_a_packet :
    GetNumberOfFrames (indexedReader (vtkInternal.new 0 exampleLibm) doubleWrapCapture) = 3 ∧
    (requestFrames exampleLibm [0, 1, 2]
      (indexedReader (vtkInternal.new 0 exampleLibm) doubleWrapCapture)).map framePoints
      = [1, 1, 10] ∧
    (decodeAll (vtkInternal.new 0 exampleLibm) doubleWrapCapture
      exampleLibm).Datasets.map PolyData.numPoints = [2, 1] ∧
    (decodeAll (vtkInternal.new 0 exampleLibm) doubleWrapCapture
      exampleLibm).CurrentDataset.numPoints = 10 ∧
    ((requestFrames exampleLibm [0, 1, 2]
      (indexedReader (vtkInternal.new 0 exampleLibm) doubleWrapCapture)).map framePoints).sum
      ≠ totalPoints (decodeAll (vtkInternal.new 0 exampleLibm) doubleWrapCapture exampleLibm) := by
  refine ⟨by decide!, by decide!, by decide!, by decide!, by decide!⟩

/-- C4 (amended): for every capture in which no payload of 1206 bytes contains more than one
firing whose rotational position is below that of the firing scanned before it, with
`SplitCounter = 0`: after the index is built and the capture is opened, the frames returned
by `GetFrame(0)`, ..., `GetFrame(N - 1)`, requested one after the other with
`N = GetNumberOfFrames()`, together have as many points as decoding every payload in order
yields (emitted frames and the frame under construction), from any state `fresh` that has the
same laser selection and `PointsSkip`, `SplitCounter = 0`, `Skip = 0`, no frame and
`LastAzimuth = 0`, such as the reader after `UnloadData`. -/
theorem C4_indexed_frames_partition_points (s0 : vtkInternal) (capture : List Payload)
    (lm : Libm) (fresh : vtkInternal) (hsc : s0.SplitCounter = 0)
    (hone : atMostOneBoundaryPerPacket capture 0 = true)
    (hsel : fresh.LaserSelection = s0.LaserSelection) (hps : fresh.PointsSkip = s0.PointsSkip)
    (hfsc : fresh.SplitCounter = 0) (hskip : fresh.Skip = 0)
    (hempty : countsOf fresh = { emitted := [], current := 0, lastAzimuth := 0 }) :
    ((requestFrames lm
        ((List.range (GetNumberOfFrames (indexedReader s0 capture)).toNat).map Int.ofNat)
        (indexedReader s0 capture)).map framePoints).sum
      = totalPoints (decodeAll fresh capture lm) := by
  have hN : (GetNumberOfFrames (indexedReader s0 capture)).toNat
      = (ReadFrameInformation.scan capture).filePositions.length := by
    simp [GetNumberOfFrames, indexedReader, Open, Close, ReadFrameInformation]
  rw [hN, requestFrames_counts capture _ _ s0.LaserSelection s0.PointsSkip lm _ _
    (indexedReader_readerSettings s0 capture hsc)
    (fun n hn => le_of_lt (List.mem_range.mp hn)),
    (indexed_frames_sum s0.LaserSelection s0.PointsSkip capture hone).2, totalPoints_eq,
    decodeAll_counts s0.LaserSelection s0.PointsSkip lm capture fresh ⟨hsel, hps, hfsc⟩,
    hskip, hempty]

/-- C4 (witness): scenario 3.  No payload has two boundaries, the index has two frames, each
request returns 12 points, and sequential decoding from the initial state yields 24. -/
theorem C4_indexed_frames_partition_points_witness :
    (vtkInternal.new 0 exampleLibm).SplitCounter = 0 ∧
    atMostOneBoundaryPerPacket twoSweepCapture 0 = true ∧
    GetNumberOfFrames (indexedReader (vtkInternal.new 0 exampleLibm) twoSweepCapture) = 2 ∧
    (requestFrames exampleLibm [0, 1]
      (indexedReader (vtkInternal.new 0 exampleLibm) twoSweepCapture)).map framePoints
      = [12, 12] ∧
    ((requestFrames exampleLibm
        ((List.range (GetNumberOfFrames
          (indexedReader (vtkInternal.new 0 exampleLibm) twoSweepCapture)).toNat).map Int.ofNat)
        (indexedReader (vtkInternal.new 0 exampleLibm) twoSweepCapture)).map framePoints).sum
      = totalPoints (decodeAll (vtkInternal.new 0 exampleLibm) twoSweepCapture exampleLibm) := by
  have hone : atMostOneBoundaryPerPacket twoSweepCapture 0 = true := by decide!
  exact ⟨rfl, hone, by decide!, by decide!,
    C4_indexed_frames_partition_points (vtkInternal.new 0 exampleLibm) twoSweepCapture
      exampleLibm (vtkInternal.new 0 exampleLibm) rfl hone rfl rfl rfl rfl rfl⟩

/-! ## The assembler does not look at the reader or the index -/

theorem ProcessFiring_loop_withIndex (reader : Option vtkPacketFileReader) (fp sk : List Nat)
    (firingData : HDLFiringData) (offset gpsTime azimuthOffset : Nat)
    (translation : ℚ × ℚ × ℚ) (dual : Bool) (lm : Libm) (n : Nat) :
    ∀ (j : Nat) (s : vtkInternal),
      ProcessFiring.loop firingData offset gpsTime azimuthOffset translation dual lm n j
          (withIndex reader fp sk s)
        = withIndex reader fp sk
            (ProcessFiring.loop firingData offset gpsTime azimuthOffset translation dual lm n j
              s) := by
  induction n with
  | zero => intro j s; rfl
  | succ n ih =>
    intro j s
    simp only [ProcessFiring.loop]
    have e : (withIndex reader fp sk s).LaserSelection = s.LaserSelection := rfl
    rw [e]
    by_cases hc : (firingData.laserReturns j).distance ≠ 0 ∧
        s.LaserSelection ((j + offset) % 256) = true
    · rw [if_pos hc, if_pos hc]
      exact ih (j + 1) (PushFiringData s ((j + offset) % 256) firingData.rotationalPosition
        gpsTime (firingData.laserReturns j) (s.laser_corrections_ (j + offset))
        (azimuthOffset % 65536) translation dual lm)
    · rw [if_neg hc, if_neg hc]
      exact ih _ _

theorem ProcessFiring_withIndex (reader : Option vtkPacketFileReader) (fp sk : List Nat)
    (s : vtkInternal) (firingData : HDLFiringData) (offset gpsTime azimuthOffset : Nat)
    (translation : ℚ × ℚ × ℚ) (lm : Libm) :
    ProcessFiring (withIndex reader fp sk s) firingData offset gpsTime azimuthOffset translation lm
      = withIndex reader fp sk
          (ProcessFiring s firingData offset gpsTime azimuthOffset translation lm) := by
  unfold ProcessFiring
  simp only []
  have e : (withIndex reader fp sk s).LastAzimuth = s.LastAzimuth := rfl
  rw [e]
  by_cases hd : decide (s.LastAzimuth = firingData.rotationalPosition) = false
  · rw [if_pos hd, if_pos hd]
    exact ProcessFiring_loop_withIndex reader fp sk firingData offset gpsTime azimuthOffset
      translation _ lm HDL_LASER_PER_FIRING 0
      { s with FirstPointIdThisReturn := (s.CurrentDataset.Points.length : Int) }
  · rw [if_neg hd, if_neg hd]
    exact ProcessFiring_loop_withIndex _ _ _ _ _ _ _ _ _ _ _ _ _

theorem SplitFrame_withIndex (reader : Option vtkPacketFileReader) (fp sk : List Nat)
    (s : vtkInternal) (force : Bool) :
    SplitFrame (withIndex reader fp sk s) force = withIndex reader fp sk (SplitFrame s force) := by
  unfold SplitFrame
  have e : (withIndex reader fp sk s).SplitCounter = s.SplitCounter := rfl
  rw [e]
  split_ifs <;> rfl

theorem ProcessHDLPacket_fire_withIndex (reader : Option vtkPacketFileReader) (fp sk : List Nat)
    (dataPacket : HDLDataPacket) (azimuthOffset : Nat) (translation : ℚ × ℚ × ℚ) (lm : Libm)
    (i : Nat) (s : vtkInternal) :
    ProcessHDLPacket.fire dataPacket azimuthOffset translation lm i (withIndex reader fp sk s)
      = withIndex reader fp sk
          (ProcessHDLPacket.fire dataPacket azimuthOffset translation lm i s) := by
  unfold ProcessHDLPacket.fire
  simp only []
  have e : (withIndex reader fp sk s).PointsSkip = s.PointsSkip := rfl
  rw [e]
  by_cases hc : s.PointsSkip = 0 ∨ Int.tmod (i : Int) (s.PointsSkip + 1) = 0
  · rw [if_pos hc, if_pos hc]
    exact ProcessFiring_withIndex _ _ _ _ _ _ _ _ _ _
  · rw [if_neg hc, if_neg hc]

theorem ProcessHDLPacket_step_withIndex (reader : Option vtkPacketFileReader) (fp sk : List Nat)
    (dataPacket : HDLDataPacket) (azimuthOffset : Nat) (translation : ℚ × ℚ × ℚ) (lm : Libm)
    (i : Nat) (s : vtkInternal) :
    ProcessHDLPacket.step dataPacket azimuthOffset translation lm i (withIndex reader fp sk s)
      = withIndex reader fp sk
          (ProcessHDLPacket.step dataPacket azimuthOffset translation lm i s) := by
  unfold ProcessHDLPacket.step
  simp only []
  have e : (withIndex reader fp sk s).LastAzimuth = s.LastAzimuth := rfl
  rw [e]
  by_cases hd : (dataPacket.firingData i).rotationalPosition < s.LastAzimuth
  · rw [if_pos hd, if_pos hd, SplitFrame_withIndex, ProcessHDLPacket_fire_withIndex]
    rfl
  · rw [if_neg hd, if_neg hd, ProcessHDLPacket_fire_withIndex]
    rfl

theorem ProcessHDLPacket_loop_withIndex (reader : Option vtkPacketFileReader) (fp sk : List Nat)
    (dataPacket : HDLDataPacket) (azimuthOffset : Nat) (translation : ℚ × ℚ × ℚ) (lm : Libm)
    (n : Nat) : ∀ (i : Nat) (s : vtkInternal),
      ProcessHDLPacket.loop dataPacket azimuthOffset translation lm n i (withIndex reader fp sk s)
        = withIndex reader fp sk
            (ProcessHDLPacket.loop dataPacket azimuthOffset translation lm n i s) := by
  induction n with
  | zero => intro i s; rfl
  | succ n ih =>
    intro i s
    simp only [ProcessHDLPacket.loop]
    rw [ProcessHDLPacket_step_withIndex, ih]

theorem ProcessHDLPacket_withIndex (reader : Option vtkPacketFileReader) (fp sk : List Nat)
    (s : vtkInternal) (data : Payload) (lm : Libm) :
    ProcessHDLPacket (withIndex reader fp sk s) data lm
      = withIndex reader fp sk (ProcessHDLPacket s data lm) := by
  unfold ProcessHDLPacket
  by_cases hl : data.length ≠ 1206
  · rw [if_pos hl, if_pos hl]
  · rw [if_neg hl, if_neg hl]
    exact ProcessHDLPacket_loop_withIndex reader fp sk (reinterpretPacket data)
      (ComputeOrientation s (reinterpretPacket data).gpsTimestamp 0 (0, 0, 0) lm).1
      (ComputeOrientation s (reinterpretPacket data).gpsTimestamp 0 (0, 0, 0) lm).2 lm
      (HDL_FIRING_PER_PKT - s.Skip) s.Skip { s with Skip := 0 }

theorem GetFrame_loop_withIndex (lm : Libm) (rest : List Payload) :
    ∀ (reader : Option vtkPacketFileReader) (fp sk : List Nat) (s : vtkInternal),
      (GetFrame.loop lm rest (withIndex reader fp sk s)).Datasets
        = (GetFrame.loop lm rest s).Datasets := by
  induction rest with
  | nil =>
    intro reader fp sk s
    simp only [GetFrame.loop]
    rw [SplitFrame_withIndex]
    rfl
  | cons data rest ih =>
    intro reader fp sk s
    simp only [GetFrame.loop]
    have e1 : advanceReader (withIndex reader fp sk s)
        = withIndex (reader.map fun r => { r with position := r.position + 1 }) fp sk s := rfl
    have e2 : advanceReader s
        = withIndex (s.Reader.map fun r => { r with position := r.position + 1 })
            s.FilePositions s.Skips s := rfl
    have e3 : ProcessHDLPacket (advanceReader s) data lm
        = withIndex (s.Reader.map fun r => { r with position := r.position + 1 })
            s.FilePositions s.Skips (ProcessHDLPacket s data lm) := by
      rw [e2, ProcessHDLPacket_withIndex]
    rw [e1, ProcessHDLPacket_withIndex, e3]
    have e4 : ∀ (r : Option vtkPacketFileReader) (a b : List Nat) (t : vtkInternal),
        (withIndex r a b t).Datasets = t.Datasets := fun _ _ _ _ => rfl
    rw [e4, e4]
    by_cases hd : (ProcessHDLPacket s data lm).Datasets.length ≠ 0
    · rw [if_pos hd, if_pos hd, e4, e4]
    · rw [if_neg hd, if_neg hd, ih, ih]

/-! ## Dumping the last frame -/

theorem scan_firings_no_decrease (dataPacket : HDLDataPacket) (n : Nat) :
    ∀ (i : Nat) (st : ScanState), azimuthDecreases dataPacket n i st.lastAzimuth = 0 →
      (ReadFrameInformation.firings dataPacket n i st).filePositions = st.filePositions ∧
      (ReadFrameInformation.firings dataPacket n i st).skips = st.skips := by
  induction n with
  | zero => intro i st _; exact ⟨rfl, rfl⟩
  | succ n ih =>
    intro i st h
    simp only [azimuthDecreases] at h
    have hd : ¬ (dataPacket.firingData i).rotationalPosition < st.lastAzimuth := by
      intro hc
      rw [if_pos hc] at h
      omega
    rw [if_neg hd, Nat.zero_add] at h
    simp only [ReadFrameInformation.firings, if_neg hd]
    exact ih (i + 1) { st with lastAzimuth := (dataPacket.firingData i).rotationalPosition } h

theorem scan_loop_never_decreases (rest : List Payload) :
    ∀ (position : Nat) (st : ScanState), azimuthNeverDecreases rest st.lastAzimuth = true →
      (ReadFrameInformation.loop rest position st).filePositions = st.filePositions ∧
      (ReadFrameInformation.loop rest position st).skips = st.skips := by
  induction rest with
  | nil => intro position st _; exact ⟨rfl, rfl⟩
  | cons data rest ih =>
    intro position st h
    simp only [ReadFrameInformation.loop]
    by_cases hl : data.length ≠ 1206
    · simp only [azimuthNeverDecreases, if_pos hl] at h
      rw [if_pos hl]
      exact ih _ _ h
    · simp only [azimuthNeverDecreases, if_neg hl, Bool.and_eq_true, decide_eq_true_eq] at h
      rw [if_neg hl]
      have key : ∀ st1 : ScanState, st1.lastAzimuth = st.lastAzimuth →
          st1.filePositions = st.filePositions → st1.skips = st.skips →
          (ReadFrameInformation.loop rest (position + 1)
            { ReadFrameInformation.firings (reinterpretPacket data) HDL_FIRING_PER_PKT 0 st1 with
              lastTimestamp := (reinterpretPacket data).gpsTimestamp
              lastFilePosition := position + 1 }).filePositions = st.filePositions ∧
          (ReadFrameInformation.loop rest (position + 1)
            { ReadFrameInformation.firings (reinterpretPacket data) HDL_FIRING_PER_PKT 0 st1 with
              lastTimestamp := (reinterpretPacket data).gpsTimestamp
              lastFilePosition := position + 1 }).skips = st.skips := by
        intro st1 e1 e2 e3
        obtain ⟨f1, f2⟩ := scan_firings_no_decrease (reinterpretPacket data)
          HDL_FIRING_PER_PKT 0 st1 (by rw [e1]; exact h.1)
        have f3 : (ReadFrameInformation.firings (reinterpretPacket data) HDL_FIRING_PER_PKT 0
            st1).lastAzimuth
            = ((reinterpretPacket data).firingData (HDL_FIRING_PER_PKT - 1)).rotationalPosition :=
          scan_firings_lastAzimuth (reinterpretPacket data) 11 0 st1
        obtain ⟨g1, g2⟩ := ih (position + 1)
          { ReadFrameInformation.firings (reinterpretPacket data) HDL_FIRING_PER_PKT 0 st1 with
            lastTimestamp := (reinterpretPacket data).gpsTimestamp
            lastFilePosition := position + 1 } (by rw [← f3] at h; exact h.2)
        exact ⟨by rw [g1]; exact f1.trans e2, by rw [g2]; exact f2.trans e3⟩
      unfold ReadFrameInformation.packet
      simp only []
      split_ifs
      · exact key _ rfl rfl rfl
      · exact key _ rfl rfl rfl

theorem dump_firings_no_decrease (dataPacket : HDLDataPacket) (endFrame : Int) (n : Nat) :
    ∀ (i : Nat) (st : DumpState), azimuthDecreases dataPacket n i st.lastAzimuth = 0 →
      (DumpFrames.firings dataPacket endFrame n i st).currentFrame = st.currentFrame ∧
      (DumpFrames.firings dataPacket endFrame n i st).written = st.written ∧
      (DumpFrames.firings dataPacket endFrame n i st).lastAzimuth
        = (if n = 0 then st.lastAzimuth
            else (dataPacket.firingData (i + n - 1)).rotationalPosition) := by
  induction n with
  | zero => intro i st _; exact ⟨rfl, rfl, rfl⟩
  | succ n ih =>
    intro i st h
    simp only [azimuthDecreases] at h
    have hd : ¬ (dataPacket.firingData i).rotationalPosition < st.lastAzimuth := by
      intro hc
      rw [if_pos hc] at h
      omega
    rw [if_neg hd, Nat.zero_add] at h
    have hd2 : ¬ ((dataPacket.firingData i).rotationalPosition ≠ 0 ∧
        (dataPacket.firingData i).rotationalPosition < st.lastAzimuth) := fun hc => hd hc.2
    simp only [DumpFrames.firings, if_neg hd2]
    obtain ⟨h1, h2, h3⟩ := ih (i + 1)
      { st with lastAzimuth := (dataPacket.firingData i).rotationalPosition } h
    refine ⟨h1, h2, ?_⟩
    rw [h3, if_neg (Nat.succ_ne_zero n)]
    by_cases hn : n = 0
    · subst hn
      simp
    · rw [if_neg hn, show i + 1 + n - 1 = i + (n + 1) - 1 by omega]

theorem dump_loop_never_decreases (endFrame : Int) (rest : List Payload) :
    ∀ (st : DumpState), (∀ d ∈ rest, d.length = 1206) →
      azimuthNeverDecreases rest st.lastAzimuth = true → st.currentFrame ≤ endFrame →
      (DumpFrames.loop endFrame rest 0 st).written = st.written ++ rest := by
  induction rest with
  | nil => intro st _ _ _; simp [DumpFrames.loop]
  | cons data rest ih =>
    intro st hv h hc
    have hl : data.length = 1206 := hv data (List.mem_cons_self _ _)
    simp only [azimuthNeverDecreases, hl, ne_eq, not_true_eq_false, if_false,
      Bool.and_eq_true, decide_eq_true_eq] at h
    simp only [DumpFrames.loop]
    rw [if_pos hc]
    unfold DumpFrames.packet
    simp only [hl, if_true, HDL_FIRING_PER_PKT, Nat.sub_zero]
    simp only [HDL_FIRING_PER_PKT] at h
    obtain ⟨h1, h2, h3⟩ := dump_firings_no_decrease (reinterpretPacket data) endFrame 12 0
      { lastAzimuth := st.lastAzimuth, currentFrame := st.currentFrame,
        written := st.written ++ [data], consumed := st.consumed + 1 } h.1
    rw [ih _ (fun d hd => hv d (List.mem_cons_of_mem _ hd))
      (by rw [h3]; exact h.2) (by rw [h1]; exact hc), h2]
    simp

theorem GetFrame_eq (s : vtkInternal) (capture : List Payload) (p n : Nat) (lm : Libm)
    (hr : s.Reader = some { packets := capture, position := p })
    (hn : n ≤ s.FilePositions.length) :
    (GetFrame s (n : Int) lm).frame
        = (GetFrame.loop lm (capture.drop (s.FilePositions.getD n 0))
            (withIndex (some { packets := capture, position := s.FilePositions.getD n 0 })
              s.FilePositions s.Skips
              { UnloadData s with Skip := s.Skips.getD n 0 })).Datasets.getLast? ∧
    (GetFrame s (n : Int) lm).error = none := by
  have hp2 : (UnloadData s).Reader = some { packets := capture, position := p } := hr
  have hguard : ¬ ((n : Int) < 0 ∨ ((UnloadData s).FilePositions.length : Int) < (n : Int)) := by
    have : (UnloadData s).FilePositions = s.FilePositions := rfl
    rw [this]
    omega
  unfold GetFrame
  simp only [hp2, if_neg hguard, Int.toNat_ofNat]
  constructor <;> first | rfl | trivial

/-- C8 (as stated, refuted): the capture that consists of the payload of `midWrapPacket` has
two frames, and frame 1 starts at firing 6 of its only packet.  `DumpFrames(1, 1)` writes
that whole packet; the written capture has two frames when indexed, and the frame returned
for it (azimuths 100 to 600, the firings before the boundary) is not the frame 1 of the
original capture (azimuths 10 to 60). -/
theorem C8_dump_contains_neighbouring_frames :
    GetNumberOfFrames midWrapReader = 2 ∧
    midWrapDump.length = 1 ∧
    GetNumberOfFrames (indexedReader (vtkInternal.new 0 exampleLibm) midWrapDump) = 2 ∧
    (GetFrame (indexedReader (vtkInternal.new 0 exampleLibm) midWrapDump) 0
      exampleLibm).frame.map (fun d => d.Azimuth) = some [100, 200, 300, 400, 500, 600] ∧
    (GetFrame midWrapReader 1 exampleLibm).frame.map (fun d => d.Azimuth)
      = some [10, 20, 30, 40, 50, 60] := by
  refine ⟨by decide!, by decide!, by decide!, by decide!, by decide!⟩

/-- C8 (amended): let frame `k` of an open reader start at a packet boundary
(`Skips[k] = 0`) at the records `out = capture.drop FilePositions[k]`, let all of these
records have 1206 bytes, and let no firing in them have a rotational position below that of
the firing before it (frame `k` runs to the end of the capture).  Then `DumpFrames(k, k)`
writes exactly the records `out`; the written capture, indexed and opened, has exactly one
frame; and `GetFrame(0)` on it returns the same frame, in every column, as `GetFrame(k)` on
the original capture. -/
theorem C8_dump_of_last_frame_round_trips (s : vtkInternal) (capture : List Payload)
    (p k : Nat) (lm : Libm)
    (hr : s.Reader = some { packets := capture, position := p })
    (hk : k < s.FilePositions.length) (hskip : s.Skips.getD k 0 = 0)
    (hvalid : ∀ d ∈ capture.drop (s.FilePositions.getD k 0), d.length = 1206)
    (hmono : azimuthNeverDecreases (capture.drop (s.FilePositions.getD k 0)) 0 = true) :
    (DumpFrames s (k : Int) (k : Int) true).2 = some (capture.drop (s.FilePositions.getD k 0)) ∧
    GetNumberOfFrames (indexedReader s (capture.drop (s.FilePositions.getD k 0))) = 1 ∧
    (GetFrame s (k : Int) lm).error = none ∧
    (GetFrame (indexedReader s (capture.drop (s.FilePositions.getD k 0))) 0 lm).frame
      = (GetFrame s (k : Int) lm).frame := by
  obtain ⟨f1, f2⟩ := scan_loop_never_decreases (capture.drop (s.FilePositions.getD k 0)) 0
    { lastAzimuth := 0, lastTimestamp := 0, filePositions := [0], skips := [0],
      lastFilePosition := 0, missed := [] } hmono
  have hfp : (indexedReader s (capture.drop (s.FilePositions.getD k 0))).FilePositions = [0] := f1
  have hsk : (indexedReader s (capture.drop (s.FilePositions.getD k 0))).Skips = [0] := f2
  obtain ⟨g1, g2⟩ := GetFrame_eq s capture p k lm hr (le_of_lt hk)
  obtain ⟨g3, _⟩ := GetFrame_eq (indexedReader s (capture.drop (s.FilePositions.getD k 0)))
    (capture.drop (s.FilePositions.getD k 0)) 0 0 lm rfl (Nat.zero_le _)
  refine ⟨?_, ?_, g2, ?_⟩
  · have hd := dump_loop_never_decreases (k : Int) (capture.drop (s.FilePositions.getD k 0))
      { lastAzimuth := 0, currentFrame := (k : Int), written := [], consumed := 0 } hvalid hmono
      (le_refl _)
    simp only [List.nil_append] at hd
    have e : (DumpFrames s (k : Int) (k : Int) true).2
        = some (DumpFrames.loop (k : Int) (capture.drop (s.FilePositions.getD k 0))
            (s.Skips.getD k 0)
            { lastAzimuth := 0, currentFrame := (k : Int), written := [], consumed := 0 }).written := by
      unfold DumpFrames
      simp only [hr, Int.toNat_ofNat]
      rfl
    rw [e, hskip, hd]
  · show (((indexedReader s (capture.drop (s.FilePositions.getD k 0))).FilePositions.length
      : Nat) : Int) = 1
    rw [hfp]
    rfl
  · have e0 : ((0 : Nat) : Int) = 0 := rfl
    rw [← e0, g3, g1, hfp, hsk, hskip]
    simp only [List.getD_cons_zero, List.drop_zero]
    have eA : ({ UnloadData (indexedReader s (capture.drop (s.FilePositions.getD k 0))) with
        Skip := 0 } : vtkInternal)
        = withIndex (some { packets := capture.drop (s.FilePositions.getD k 0), position := 0 })
            [0] [0] { UnloadData s with Skip := 0 } := by
      simp only [withIndex, UnloadData, indexedReader, Open, Close, ReadFrameInformation]
      rw [show (ReadFrameInformation.scan (capture.drop (s.FilePositions.getD k 0))).filePositions
        = [0] from f1,
        show (ReadFrameInformation.scan (capture.drop (s.FilePositions.getD k 0))).skips
        = [0] from f2]
    rw [eA, GetFrame_loop_withIndex, GetFrame_loop_withIndex, GetFrame_loop_withIndex]

/-- C8 (witness): scenario 3, frame 1.  It starts with the second payload, at skip 0, and
runs to the end of the capture; the dump consists of the second payload, has one frame when
indexed, and that frame is the frame 1 of the original capture. -/
theorem C8_dump_of_last_frame_round_trips_witness :
    twoSweepReader.Reader = some { packets := twoSweepCapture, position := 0 } ∧
    1 < twoSweepReader.FilePositions.length ∧ twoSweepReader.Skips.getD 1 0 = 0 ∧
    (∀ d ∈ twoSweepCapture.drop (twoSweepReader.FilePositions.getD 1 0), d.length = 1206) ∧
    azimuthNeverDecreases (twoSweepCapture.drop (twoSweepReader.FilePositions.getD 1 0)) 0
      = true ∧
    twoSweepCapture.drop (twoSweepReader.FilePositions.getD 1 0) = [secondSweepPayload] ∧
    GetNumberOfFrames
      (indexedReader twoSweepReader
        (twoSweepCapture.drop (twoSweepReader.FilePositions.getD 1 0))) = 1 ∧
    (GetFrame (indexedReader twoSweepReader
        (twoSweepCapture.drop (twoSweepReader.FilePositions.getD 1 0))) 0 exampleLibm).frame
      = (GetFrame twoSweepReader ((1 : Nat) : Int) exampleLibm).frame := by
  have hr : twoSweepReader.Reader = some { packets := twoSweepCapture, position := 0 } := rfl
  have hk : 1 < twoSweepReader.FilePositions.length := by decide!
  have hskip : twoSweepReader.Skips.getD 1 0 = 0 := by decide!
  have hq : twoSweepReader.FilePositions.getD 1 0 = 1 := by decide!
  have hdrop : twoSweepCapture.drop (twoSweepReader.FilePositions.getD 1 0)
      = [secondSweepPayload] := by
    rw [hq]
    rfl
  have hvalid : ∀ d ∈ twoSweepCapture.drop (twoSweepReader.FilePositions.getD 1 0),
      d.length = 1206 := by
    rw [hdrop]
    intro d hd
    rw [List.mem_singleton.mp hd]
    rfl
  have hmono : azimuthNeverDecreases
      (twoSweepCapture.drop (twoSweepReader.FilePositions.getD 1 0)) 0 = true := by
    rw [hdrop]
    decide!
  have key := C8_dump_of_last_frame_round_trips twoSweepReader twoSweepCapture 0 1 exampleLibm
    hr hk hskip hvalid hmono
  exact ⟨hr, hk, hskip, hvalid, hmono, hdrop, key.2.1, key.2.2.2⟩

/-! ## The range of `LastAzimuth` -/

theorem readU8_lt (data : Payload) (off : Nat) : readU8 data off < 256 :=
  Nat.mod_lt _ (by norm_num)

theorem readU16_lt (data : Payload) (off : Nat) : readU16 data off < 65536 := by
  have h0 := readU8_lt data off
  have h1 := readU8_lt data (off + 1)
  unfold readU16
  omega

theorem rotationalPosition_lt (data : Payload) (i : Nat) :
    ((reinterpretPacket data).firingData i).rotationalPosition < 65536 :=
  readU16_lt _ _

/-- After `ProcessHDLPacket`, `LastAzimuth` is below any bound that holds for it before and
for the rotational positions of the firings of the payload. -/
theorem ProcessHDLPacket_LastAzimuth_lt (s : vtkInternal) (data : Payload) (lm : Libm)
    (bound : Nat) (hs : s.LastAzimuth < bound)
    (hdata : ∀ i, i < HDL_FIRING_PER_PKT →
      ((reinterpretPacket data).firingData i).rotationalPosition < bound) :
    (ProcessHDLPacket s data lm).LastAzimuth < bound := by
  unfold ProcessHDLPacket
  split_ifs with hlen
  · exact hs
  · unfold ProcessHDLPacket.decoded
    simp only []
    rw [ProcessHDLPacket_loop_LastAzimuth]
    split_ifs with hn
    · exact hs
    · apply hdata
      unfold HDL_FIRING_PER_PKT at hn ⊢
      omega

/-- After a payload of 1206 bytes is processed from its first firing, `LastAzimuth` is the
rotational position of its last firing. -/
theorem ProcessHDLPacket_LastAzimuth (s : vtkInternal) (data : Payload) (lm : Libm)
    (hlen : data.length = 1206) (hskip : s.Skip < HDL_FIRING_PER_PKT) :
    (ProcessHDLPacket s data lm).LastAzimuth
      = ((reinterpretPacket data).firingData (HDL_FIRING_PER_PKT - 1)).rotationalPosition := by
  unfold ProcessHDLPacket
  rw [if_neg (by simp [hlen])]
  unfold ProcessHDLPacket.decoded
  simp only []
  rw [ProcessHDLPacket_loop_LastAzimuth]
  unfold HDL_FIRING_PER_PKT at hskip ⊢
  rw [if_neg (by omega)]
  congr 2
  omega

theorem SplitFrame_LastAzimuth (s : vtkInternal) (force : Bool) :
    (SplitFrame s force).LastAzimuth = s.LastAzimuth := by
  unfold SplitFrame
  split_ifs <;> rfl

theorem new_LastAzimuth (firstPointIdThisReturn : Int) (lm : Libm) :
    (vtkInternal.new firstPointIdThisReturn lm).LastAzimuth = 0 := rfl

/-- C11, as stated, fails: a payload of 1206 bytes whose firings carry the rotational position
40000 leaves `LastAzimuth = 40000`, which is not below 36000. -/
theorem C11_last_azimuth_leaves_range :
    overRangePayload.length = 1206 ∧
    (vtkInternal.new 0 exampleLibm).LastAzimuth < 36000 ∧
    (ProcessHDLPacket (vtkInternal.new 0 exampleLibm) overRangePayload exampleLibm).LastAzimuth
      = 40000 ∧
    ¬ (ProcessHDLPacket (vtkInternal.new 0 exampleLibm) overRangePayload exampleLibm).LastAzimuth
      < 36000 := by
  have h : (ProcessHDLPacket (vtkInternal.new 0 exampleLibm) overRangePayload
      exampleLibm).LastAzimuth = 40000 := by
    rw [ProcessHDLPacket_LastAzimuth _ _ _ rfl (by decide)]
    decide
  refine ⟨rfl, by decide, h, ?_⟩
  rw [h]
  decide

/-- C11, amended: `LastAzimuth` is `0` in the initial state and after `UnloadData`, the frame
split leaves it unchanged, and `ProcessHDLPacket` keeps it below 36000 when the firings of the
payload carry rotational positions below 36000 (the field is not validated; for an arbitrary
payload `LastAzimuth` stays below 65536). -/
theorem C11_last_azimuth_in_range (s : vtkInternal) (data : Payload) (lm : Libm)
    (hs : s.LastAzimuth < 36000)
    (hdata : ∀ i, i < HDL_FIRING_PER_PKT →
      ((reinterpretPacket data).firingData i).rotationalPosition < 36000) :
    (∀ firstPointIdThisReturn : Int, (vtkInternal.new firstPointIdThisReturn lm).LastAzimuth = 0) ∧
    (ProcessHDLPacket s data lm).LastAzimuth < 36000 ∧
    (∀ force : Bool, (SplitFrame s force).LastAzimuth < 36000) ∧
    (UnloadData s).LastAzimuth = 0 ∧
    (∀ (t : vtkInternal) (anyData : Payload), t.LastAzimuth < 65536 →
      (ProcessHDLPacket t anyData lm).LastAzimuth < 65536) :=
  ⟨fun _ => rfl, ProcessHDLPacket_LastAzimuth_lt s data lm 36000 hs hdata,
    fun force => by rw [SplitFrame_LastAzimuth]; exact hs, rfl,
    fun t anyData ht =>
      ProcessHDLPacket_LastAzimuth_lt t anyData lm 65536 ht
        (fun i _ => rotationalPosition_lt anyData i)⟩

theorem firstSweepPayload_rotationalPosition (i : Nat) (hi : i < HDL_FIRING_PER_PKT) :
    ((reinterpretPacket firstSweepPayload).firingData i).rotationalPosition < 36000 := by
  unfold HDL_FIRING_PER_PKT at hi
  interval_cases i <;> decide

theorem C11_last_azimuth_in_range_witness :
    (vtkInternal.new 0 exampleLibm).LastAzimuth < 36000 ∧
    (∀ i, i < HDL_FIRING_PER_PKT →
      ((reinterpretPacket firstSweepPayload).firingData i).rotationalPosition < 36000) ∧
    (ProcessHDLPacket (vtkInternal.new 0 exampleLibm) firstSweepPayload exampleLibm).LastAzimuth
      < 36000 :=
  ⟨by decide, firstSweepPayload_rotationalPosition,
    (C11_last_azimuth_in_range (vtkInternal.new 0 exampleLibm) firstSweepPayload exampleLibm
      (by decide) firstSweepPayload_rotationalPosition).2.1⟩
/-! ## `LastPointId` points into the frame under construction -/

theorem PushFiringData_lastPointIdsValid (s : vtkInternal) (laserId azimuth timestamp : Nat)
    (laserReturn : HDLLaserReturn) (correction : HDLLaserCorrection) (azimuthAdjustment : Nat)
    (translation : ℚ × ℚ × ℚ) (dualReturn : Bool) (lm : Libm) (h : lastPointIdsValid s) :
    lastPointIdsValid (PushFiringData s laserId azimuth timestamp laserReturn correction
      azimuthAdjustment translation dualReturn lm) := by
  intro i hi
  have hp := PushFiringData_Points s laserId azimuth timestamp laserReturn correction
    azimuthAdjustment translation dualReturn lm
  unfold lastPointIdValid
  rw [hp]
  have hl : (PushFiringData s laserId azimuth timestamp laserReturn correction
      azimuthAdjustment translation dualReturn lm).LastPointId i
      = if i = laserId then (s.CurrentDataset.Points.length : Int) else s.LastPointId i := rfl
  rw [hl]
  simp only [List.length_append, List.length_singleton, Nat.cast_add, Nat.cast_one]
  split_ifs with hil
  · right
    omega
  · rcases h i hi with h1 | ⟨h1, h2⟩
    · left; exact h1
    · right; omega

theorem SplitFrame_lastPointIdsValid (s : vtkInternal) (force : Bool)
    (h : lastPointIdsValid s) : lastPointIdsValid (SplitFrame s force) := by
  unfold SplitFrame
  split_ifs with hc
  · exact h
  · intro i hi
    left
    show (if i < HDL_MAX_NUM_LASERS then (-1 : Int) else s.LastPointId i) = -1
    rw [if_pos hi]

theorem UnloadData_lastPointIdsValid (s : vtkInternal) : lastPointIdsValid (UnloadData s) := by
  intro i hi
  left
  show (if i < HDL_MAX_NUM_LASERS then (-1 : Int) else s.LastPointId i) = -1
  rw [if_pos hi]

theorem new_lastPointIdsValid (firstPointIdThisReturn : Int) (lm : Libm) :
    lastPointIdsValid (vtkInternal.new firstPointIdThisReturn lm) :=
  UnloadData_lastPointIdsValid _

theorem decodeAll_lastPointIdsValid (s : vtkInternal) (packets : List Payload) (lm : Libm)
    (h : lastPointIdsValid s) : lastPointIdsValid (decodeAll s packets lm) :=
  decodeAll_preserves lastPointIdsValid
    (fun s _ _ _ _ _ _ _ _ _ h => PushFiringData_lastPointIdsValid s _ _ _ _ _ _ _ _ _ h)
    (fun _ _ h => h) (fun _ _ h => h) (fun s h => SplitFrame_lastPointIdsValid s false h)
    (fun _ _ h => h) lm packets s h

/-- C12: every `LastPointId[i]`, `i` in `0..63`, is `-1` or an index below the point count of
the frame under construction.  This holds in the initial state and after `UnloadData`, and it
is preserved by `PushFiringData`, by `SplitFrame` (forced or not, whatever `SplitCounter`
holds), and so by decoding any sequence of payloads. -/
theorem C12_last_point_id_valid (s : vtkInternal) (h : lastPointIdsValid s) :
    (∀ (firstPointIdThisReturn : Int) (lm : Libm),
      lastPointIdsValid (vtkInternal.new firstPointIdThisReturn lm)) ∧
    (∀ (laserId azimuth timestamp : Nat) (laserReturn : HDLLaserReturn)
      (correction : HDLLaserCorrection) (azimuthAdjustment : Nat) (translation : ℚ × ℚ × ℚ)
      (dualReturn : Bool) (lm : Libm),
      lastPointIdsValid (PushFiringData s laserId azimuth timestamp laserReturn correction
        azimuthAdjustment translation dualReturn lm)) ∧
    (∀ force : Bool, lastPointIdsValid (SplitFrame s force)) ∧
    lastPointIdsValid (UnloadData s) ∧
    (∀ (packets : List Payload) (lm : Libm), lastPointIdsValid (decodeAll s packets lm)) :=
  ⟨new_lastPointIdsValid,
    fun _ _ _ _ _ _ _ _ _ => PushFiringData_lastPointIdsValid s _ _ _ _ _ _ _ _ _ h,
    fun force => SplitFrame_lastPointIdsValid s force h,
    UnloadData_lastPointIdsValid s,
    fun packets lm => decodeAll_lastPointIdsValid s packets lm h⟩

theorem C12_last_point_id_valid_witness :
    lastPointIdsValid dualReturnFirst ∧
    dualReturnFirst.LastPointId 0 = 0 ∧
    dualReturnFirst.CurrentDataset.Points.length = 1 ∧
    lastPointIdsValid (PushFiringData dualReturnFirst 0 18000 123456 ⟨2000, 80⟩
      (dualReturnFirst.laser_corrections_ 0) 0 (0, 0, 0) true exampleLibm) ∧
    lastPointIdsValid (SplitFrame dualReturnFirst false) := by
  have h : lastPointIdsValid dualReturnFirst := by
    intro i hi
    unfold HDL_MAX_NUM_LASERS at hi
    unfold lastPointIdValid
    interval_cases i <;> decide!
  exact ⟨h, by decide!, by decide!,
    (C12_last_point_id_valid dualReturnFirst h).2.1 0 18000 123456 ⟨2000, 80⟩
      (dualReturnFirst.laser_corrections_ 0) 0 (0, 0, 0) true exampleLibm,
    (C12_last_point_id_valid dualReturnFirst h).2.2.1 false⟩

/-! ## The default calibration -/

theorem toDouble_zero : toDouble 0 = 0 := by
  simp [toDouble, roundToPrecision]

theorem dmul_zero_left (x : ℚ) : dmul 0 x = 0 := by
  simp [dmul, toDouble_zero]

/-- The entry of laser `i` after `LoadHDL32Corrections`, for `i < 32`. -/
theorem LoadHDL32Corrections_lower (s : vtkInternal) (lm : Libm) (i : Nat)
    (hi : i < HDL_LASER_PER_FIRING) :
    (LoadHDL32Corrections s lm).laser_corrections_ i
      = { azimuthCorrection := 0
          verticalCorrection := hdl32VerticalCorrections.getD i 0
          distanceCorrection := 0
          verticalOffsetCorrection := 0
          horizontalOffsetCorrection := 0
          sinVertCorrection := lm.sin (HDL_Grabber_toRadians lm (hdl32VerticalCorrections.getD i 0))
          cosVertCorrection := lm.cos (HDL_Grabber_toRadians lm (hdl32VerticalCorrections.getD i 0))
          sinVertOffsetCorrection := 0
          cosVertOffsetCorrection := 0 } := by
  have h64 : i < HDL_MAX_NUM_LASERS := by
    unfold HDL_LASER_PER_FIRING at hi
    unfold HDL_MAX_NUM_LASERS
    omega
  simp only [LoadHDL32Corrections, SetCorrectionsCommon, if_pos h64, if_pos hi, dmul_zero_left]

/-- The entry of laser `i` after `LoadHDL32Corrections`, for `32 ≤ i < 64`. -/
theorem LoadHDL32Corrections_upper (s : vtkInternal) (lm : Libm) (i : Nat)
    (hi : HDL_LASER_PER_FIRING ≤ i) (h64 : i < HDL_MAX_NUM_LASERS) :
    (LoadHDL32Corrections s lm).laser_corrections_ i
      = { azimuthCorrection := 0
          verticalCorrection := 0
          distanceCorrection := 0
          verticalOffsetCorrection := 0
          horizontalOffsetCorrection := 0
          sinVertCorrection := 0
          cosVertCorrection := 1
          sinVertOffsetCorrection := 0
          cosVertOffsetCorrection := 0 } := by
  simp only [LoadHDL32Corrections, SetCorrectionsCommon, if_pos h64, if_neg (not_lt.mpr hi),
    dmul_zero_left]

/-- The entries behind the table are not written. -/
theorem LoadHDL32Corrections_outside (s : vtkInternal) (lm : Libm) (i : Nat)
    (h64 : ¬ i < HDL_MAX_NUM_LASERS) :
    (LoadHDL32Corrections s lm).laser_corrections_ i = s.laser_corrections_ i := by
  have h32 : ¬ i < HDL_LASER_PER_FIRING := by
    unfold HDL_MAX_NUM_LASERS at h64
    unfold HDL_LASER_PER_FIRING
    omega
  simp only [LoadHDL32Corrections, SetCorrectionsCommon, if_neg h64, if_neg h32]

theorem LoadHDL32Corrections_table_idem (s : vtkInternal) (lm : Libm) :
    (LoadHDL32Corrections (LoadHDL32Corrections s lm) lm).laser_corrections_
      = (LoadHDL32Corrections s lm).laser_corrections_ := by
  funext i
  by_cases h64 : i < HDL_MAX_NUM_LASERS
  · by_cases h32 : i < HDL_LASER_PER_FIRING
    · rw [LoadHDL32Corrections_lower _ _ _ h32, LoadHDL32Corrections_lower _ _ _ h32]
    · rw [LoadHDL32Corrections_upper _ _ _ (not_lt.mp h32) h64,
        LoadHDL32Corrections_upper _ _ _ (not_lt.mp h32) h64]
  · rw [LoadHDL32Corrections_outside _ _ _ h64, LoadHDL32Corrections_outside _ _ _ h64]

/-- C16: `LoadHDL32Corrections` is idempotent.  Applied to the state it has produced it yields
the same state, so the same calibration table in every source field and every derived
product; `sin` and `cos` are the fixed functions of `lm`. -/
theorem C16_load_hdl32_defaults_idempotent (s : vtkInternal) (lm : Libm) :
    LoadHDL32Corrections (LoadHDL32Corrections s lm) lm = LoadHDL32Corrections s lm := by
  have h := LoadHDL32Corrections_table_idem s lm
  have e : ∀ t : vtkInternal,
      LoadHDL32Corrections t lm
        = { t with laser_corrections_ := (LoadHDL32Corrections t lm).laser_corrections_ } :=
    fun t => rfl
  rw [e (LoadHDL32Corrections s lm), h]

/-- C15, as stated, fails: the vertical corrections of lasers 1, 5 and 7 are the constants
`-9.3299999`, `-6.6700001` and `-5.3299999` of the source, which are neither the numbers
`-9.33`, `-6.67`, `-5.33` nor the doubles nearest to them. -/
theorem C15_vertical_constants_differ :
    ((LoadHDL32Corrections (vtkInternal.new 0 exampleLibm) exampleLibm).laser_corrections_
      1).verticalCorrection = toDouble (-9.3299999) ∧
    toDouble (-9.3299999) ≠ toDouble (-9.33) ∧ toDouble (-9.3299999) ≠ -9.33 ∧
    ((LoadHDL32Corrections (vtkInternal.new 0 exampleLibm) exampleLibm).laser_corrections_
      5).verticalCorrection = toDouble (-6.6700001) ∧
    toDouble (-6.6700001) ≠ toDouble (-6.67) ∧ toDouble (-6.6700001) ≠ -6.67 ∧
    ((LoadHDL32Corrections (vtkInternal.new 0 exampleLibm) exampleLibm).laser_corrections_
      7).verticalCorrection = toDouble (-5.3299999) ∧
    toDouble (-5.3299999) ≠ toDouble (-5.33) ∧ toDouble (-5.3299999) ≠ -5.33 := by
  refine ⟨?_, by decide!, by decide!, ?_, by decide!, by decide!, ?_, by decide!, by decide!⟩
  · rw [LoadHDL32Corrections_lower _ _ 1 (by decide)]; rfl
  · rw [LoadHDL32Corrections_lower _ _ 5 (by decide)]; rfl
  · rw [LoadHDL32Corrections_lower _ _ 7 (by decide)]; rfl

/-- C15, amended: after `LoadHDL32Corrections` the vertical corrections of lasers `0..31` are
the doubles of the constants written in the source, which at indices 1, 5 and 7 are
`-9.3299999`, `-6.6700001` and `-5.3299999`; lasers `32..63` have vertical correction 0 with
sine 0 and cosine 1; and for each of the 64 lasers the azimuth, distance, vertical-offset and
horizontal-offset corrections and the two offset products are 0. -/
theorem C15_hdl32_default_table (s : vtkInternal) (lm : Libm) (i : Nat)
    (hi : i < HDL_MAX_NUM_LASERS) :
    (∀ k, k < HDL_LASER_PER_FIRING →
      ((LoadHDL32Corrections s lm).laser_corrections_ k).verticalCorrection
        = (([-30.67, -9.3299999, -29.33, -8, -28, -6.6700001, -26.67, -5.3299999, -25.33, -4,
            -24, -2.6700001, -22.67, -1.33, -21.33, 0, -20, 1.33, -18.67, 2.6700001, -17.33, 4,
            -16, 5.3299999, -14.67, 6.6700001, -13.33, 8, -12, 9.3299999, -10.67,
            10.67] : List ℚ).map toDouble).getD k 0) ∧
    (List.map (fun k => ((LoadHDL32Corrections s lm).laser_corrections_ k).verticalCorrection)
        [0, 1, 2, 3, 4, 5, 6, 7, 30, 31]
      = [toDouble (-30.67), toDouble (-9.3299999), toDouble (-29.33), toDouble (-8),
          toDouble (-28), toDouble (-6.6700001), toDouble (-26.67), toDouble (-5.3299999),
          toDouble (-10.67), toDouble 10.67]) ∧
    (HDL_LASER_PER_FIRING ≤ i →
      ((LoadHDL32Corrections s lm).laser_corrections_ i).verticalCorrection = 0 ∧
      ((LoadHDL32Corrections s lm).laser_corrections_ i).sinVertCorrection = 0 ∧
      ((LoadHDL32Corrections s lm).laser_corrections_ i).cosVertCorrection = 1) ∧
    ((LoadHDL32Corrections s lm).laser_corrections_ i).azimuthCorrection = 0 ∧
    ((LoadHDL32Corrections s lm).laser_corrections_ i).distanceCorrection = 0 ∧
    ((LoadHDL32Corrections s lm).laser_corrections_ i).verticalOffsetCorrection = 0 ∧
    ((LoadHDL32Corrections s lm).laser_corrections_ i).horizontalOffsetCorrection = 0 ∧
    ((LoadHDL32Corrections s lm).laser_corrections_ i).sinVertOffsetCorrection = 0 ∧
    ((LoadHDL32Corrections s lm).laser_corrections_ i).cosVertOffsetCorrection = 0 := by
  refine ⟨?_, ?_, ?_, ?_⟩
  · intro k hk
    rw [LoadHDL32Corrections_lower _ _ k hk]
    rfl
  · simp only [List.map]
    rw [LoadHDL32Corrections_lower _ _ 0 (by decide), LoadHDL32Corrections_lower _ _ 1 (by decide),
      LoadHDL32Corrections_lower _ _ 2 (by decide), LoadHDL32Corrections_lower _ _ 3 (by decide),
      LoadHDL32Corrections_lower _ _ 4 (by decide), LoadHDL32Corrections_lower _ _ 5 (by decide),
      LoadHDL32Corrections_lower _ _ 6 (by decide), LoadHDL32Corrections_lower _ _ 7 (by decide),
      LoadHDL32Corrections_lower _ _ 30 (by decide),
      LoadHDL32Corrections_lower _ _ 31 (by decide)]
    rfl
  · intro h32
    rw [LoadHDL32Corrections_upper _ _ i h32 hi]
    exact ⟨rfl, rfl, rfl⟩
  · by_cases h32 : i < HDL_LASER_PER_FIRING
    · rw [LoadHDL32Corrections_lower _ _ i h32]
      exact ⟨rfl, rfl, rfl, rfl, rfl, rfl⟩
    · rw [LoadHDL32Corrections_upper _ _ i (not_lt.mp h32) hi]
      exact ⟨rfl, rfl, rfl, rfl, rfl, rfl⟩

theorem C15_hdl32_default_table_witness :
    40 < HDL_MAX_NUM_LASERS ∧
    ((LoadHDL32Corrections (vtkInternal.new 0 exampleLibm) exampleLibm).laser_corrections_
      40).cosVertCorrection = 1 ∧
    ((LoadHDL32Corrections (vtkInternal.new 0 exampleLibm) exampleLibm).laser_corrections_
      40).sinVertOffsetCorrection = 0 :=
  ⟨by decide,
    ((C15_hdl32_default_table (vtkInternal.new 0 exampleLibm) exampleLibm 40 (by decide)).2.2.1
      (by decide)).2.2,
    (C15_hdl32_default_table (vtkInternal.new 0 exampleLibm) exampleLibm 40
      (by decide)).2.2.2.2.2.2.2.1⟩
/-! ## The source of the azimuth sine and cosine -/

theorem effectiveAzimuth_eq (azimuth azimuthAdjustment : Nat) :
    PushFiringData.effectiveAzimuth azimuth azimuthAdjustment
      = (azimuth + azimuthAdjustment) % 36000 := by
  unfold PushFiringData.effectiveAzimuth
  have h : (azimuth + azimuthAdjustment) % 36000 < 36000 := Nat.mod_lt _ (by norm_num)
  omega

/-- C19: `PushFiringData` takes `cosAzimuth` and `sinAzimuth` from the lookup tables at index
`az = (azimuth + azimuthAdjustment) mod 36000` when the azimuth correction of the laser is `0`;
otherwise it evaluates the library cosine and sine at
`(az / 100 - azimuthCorrection) * pi / 180`, whatever the tables hold.  These are the values
that enter the appended point. -/
theorem C19_azimuth_trig_source (s : vtkInternal) (laserId azimuth timestamp : Nat)
    (laserReturn : HDLLaserReturn) (correction : HDLLaserCorrection) (azimuthAdjustment : Nat)
    (translation : ℚ × ℚ × ℚ) (dualReturn : Bool) (lm : Libm) :
    let az := (azimuth + azimuthAdjustment) % 36000
    let cs := PushFiringData.cosSinAzimuth s az correction lm
    let distanceM := dadd (dmul laserReturn.distance (toDouble 0.002)) correction.distanceCorrection
    let xyDistance :=
      dsub (dmul distanceM correction.cosVertCorrection) correction.sinVertOffsetCorrection
    (PushFiringData s laserId azimuth timestamp laserReturn correction azimuthAdjustment
        translation dualReturn lm).CurrentDataset.Points
      = s.CurrentDataset.Points ++
        [(toFloat (dadd (dsub (dmul xyDistance cs.2)
              (dmul correction.horizontalOffsetCorrection cs.1)) translation.1),
          toFloat (dadd (dadd (dmul xyDistance cs.1)
              (dmul correction.horizontalOffsetCorrection cs.2)) translation.2.1),
          toFloat (dadd (dadd (dmul distanceM correction.sinVertCorrection)
              correction.cosVertOffsetCorrection) translation.2.2))] ∧
    (correction.azimuthCorrection = 0 →
      ∀ t : vtkInternal, PushFiringData.cosSinAzimuth t az correction lm
        = (t.cos_lookup_table_.getD az 0, t.sin_lookup_table_.getD az 0)) ∧
    (correction.azimuthCorrection ≠ 0 →
      ∀ t : vtkInternal, PushFiringData.cosSinAzimuth t az correction lm
        = (lm.cos (ddiv (dmul (dsub (ddiv az 100) correction.azimuthCorrection) lm.pi) 180),
            lm.sin (ddiv (dmul (dsub (ddiv az 100) correction.azimuthCorrection) lm.pi) 180))) := by
  refine ⟨?_, ?_, ?_⟩
  · rw [PushFiringData_Points, effectiveAzimuth_eq]
    rfl
  · intro h t
    simp only [PushFiringData.cosSinAzimuth, if_pos h]
  · intro h t
    simp only [PushFiringData.cosSinAzimuth, if_neg h, HDL_Grabber_toRadians]

theorem C19_azimuth_trig_source_witness :
    correctedLaserFive.azimuthCorrection ≠ 0 ∧
    dsub (ddiv ((18000 + 0) % 36000 : Nat) 100) correctedLaserFive.azimuthCorrection = 180 - 1 ∧
    ∀ t : vtkInternal,
      PushFiringData.cosSinAzimuth t ((18000 + 0) % 36000) correctedLaserFive exampleLibm
        = (exampleLibm.cos (ddiv (dmul (dsub (ddiv ((18000 + 0) % 36000 : Nat) 100)
              correctedLaserFive.azimuthCorrection) exampleLibm.pi) 180),
            exampleLibm.sin (ddiv (dmul (dsub (ddiv ((18000 + 0) % 36000 : Nat) 100)
              correctedLaserFive.azimuthCorrection) exampleLibm.pi) 180)) :=
  ⟨by decide!, by decide!,
    (C19_azimuth_trig_source (vtkInternal.new 0 exampleLibm) 5 18000 0 ⟨500, 10⟩
      correctedLaserFive 0 (0, 0, 0) false exampleLibm).2.2 (by decide!)⟩

/-! ## The boundary tests of the index scan and of `DumpFrames` -/

theorem scan_firings_skips_count (dataPacket : HDLDataPacket) (n : Nat) :
    ∀ (i : Nat) (st : ScanState),
      (ReadFrameInformation.firings dataPacket n i st).skips.length
        = st.skips.length + azimuthDecreases dataPacket n i st.lastAzimuth := by
  induction n with
  | zero => intro i st; rfl
  | succ n ih =>
    intro i st
    simp only [ReadFrameInformation.firings, azimuthDecreases]
    rw [ih]
    split_ifs <;> simp only [List.length_append, List.length_singleton] <;> omega

theorem dump_firings_currentFrame (dataPacket : HDLDataPacket) (endFrame : Int) (n : Nat) :
    ∀ (i : Nat) (st : DumpState),
      st.currentFrame + nonzeroAzimuthDecreases dataPacket n i st.lastAzimuth ≤ endFrame →
      (DumpFrames.firings dataPacket endFrame n i st).currentFrame
        = st.currentFrame + nonzeroAzimuthDecreases dataPacket n i st.lastAzimuth := by
  induction n with
  | zero => intro i st _; simp [DumpFrames.firings, nonzeroAzimuthDecreases]
  | succ n ih =>
    intro i st h
    simp only [DumpFrames.firings, nonzeroAzimuthDecreases] at h ⊢
    by_cases hb : (dataPacket.firingData i).rotationalPosition ≠ 0 ∧
        (dataPacket.firingData i).rotationalPosition < st.lastAzimuth
    · simp only [if_pos hb] at h ⊢
      push_cast at h
      have hle : ¬ endFrame < st.currentFrame + 1 := by omega
      rw [if_neg hle, ih]
      · push_cast; ring
      · show st.currentFrame + 1 + (nonzeroAzimuthDecreases dataPacket n (i + 1)
          (dataPacket.firingData i).rotationalPosition : Int) ≤ endFrame
        omega
    · simp only [if_neg hb] at h ⊢
      push_cast at h
      rw [ih]
      · push_cast; ring
      · show st.currentFrame + (nonzeroAzimuthDecreases dataPacket n (i + 1)
          (dataPacket.firingData i).rotationalPosition : Int) ≤ endFrame
        omega

/-- C17: `DumpFrames` does not count the frame boundaries that the index scan records.  In a
packet with the rotational positions 35990, 0, 10, ..., the wrap of a sweep that ends at
position 0, the scan of `ReadFrameInformation` records a frame boundary at firing 1 with the
test `rotationalPosition < lastAzimuth`, the one `ProcessHDLPacket` uses too, while the test
`rotationalPosition != 0 && rotationalPosition < lastAzimuth` of `DumpFrames` advances its
frame counter at no firing of the packet. -/
theorem C17_dump_misses_boundary_at_zero :
    (zeroWrapPacket.firingData 1).rotationalPosition
      < (zeroWrapPacket.firingData 0).rotationalPosition ∧
    (ReadFrameInformation.scan zeroWrapCapture).skips = [0, 1] ∧
    (DumpFrames.loop 5 zeroWrapCapture 0
      { lastAzimuth := 0, currentFrame := 0, written := [], consumed := 0 }).currentFrame = 0 ∧
    (ReadFrameInformation.firings zeroWrapPacket 1 1
      { lastAzimuth := 35990, lastTimestamp := 0, filePositions := [0], skips := [0],
        lastFilePosition := 0, missed := [] }).skips = [0, 1] ∧
    (DumpFrames.firings zeroWrapPacket 5 1 1
      { lastAzimuth := 35990, currentFrame := 0, written := [], consumed := 0 }).currentFrame
      = 0 := by
  refine ⟨by decide, by decide!, by decide!, by decide, by decide⟩

/-- The two boundary tests side by side: at a firing, with the same rotational position of
the firing before, `DumpFrames` advances its frame counter exactly when the rotational
position is not zero and is below that of the firing before, that is when the index scan
records a boundary there and the rotational position is not zero.  Both then continue with
the rotational position of this firing (`DumpFrames` unless its counter has passed
`endFrame`, where it stops), so that over any run of firings the counter advances by the
number of boundaries of the scan at a non-zero rotational position. -/
theorem DumpFrames_boundary_test (dataPacket : HDLDataPacket) (endFrame : Int) (i : Nat)
    (scan : ScanState) (dump : DumpState) (h : scan.lastAzimuth = dump.lastAzimuth) :
    let rot := (dataPacket.firingData i).rotationalPosition
    let scan1 := ReadFrameInformation.firings dataPacket 1 i scan
    let dump1 := DumpFrames.firings dataPacket endFrame 1 i dump
    (scan1.skips = scan.skips ++ (if rot < scan.lastAzimuth then [i] else [])) ∧
    (dump1.currentFrame
      = dump.currentFrame + (if rot ≠ 0 ∧ rot < dump.lastAzimuth then 1 else 0)) ∧
    (dump1.currentFrame = dump.currentFrame + 1 ↔
      (scan1.skips = scan.skips ++ [i] ∧ rot ≠ 0)) ∧
    scan1.lastAzimuth = rot ∧
    (dump1.currentFrame ≤ endFrame → dump1.lastAzimuth = rot) ∧
    (∀ n : Nat,
      (ReadFrameInformation.firings dataPacket n i scan).skips.length
        = scan.skips.length + azimuthDecreases dataPacket n i scan.lastAzimuth) ∧
    (∀ n : Nat,
      dump.currentFrame + nonzeroAzimuthDecreases dataPacket n i dump.lastAzimuth ≤ endFrame →
      (DumpFrames.firings dataPacket endFrame n i dump).currentFrame
        = dump.currentFrame + nonzeroAzimuthDecreases dataPacket n i dump.lastAzimuth) := by
  simp only [ReadFrameInformation.firings, DumpFrames.firings]
  refine ⟨?_, ?_, ?_, ?_, ?_, fun n => scan_firings_skips_count dataPacket n i scan,
    fun n => dump_firings_currentFrame dataPacket endFrame n i dump⟩
  · split_ifs <;> simp
  · split_ifs <;> simp
  · rw [h]
    by_cases h0 : (dataPacket.firingData i).rotationalPosition = 0
    · simp [h0]
    · by_cases hlt : (dataPacket.firingData i).rotationalPosition < dump.lastAzimuth
      · simp [h0, hlt]
        split_ifs <;> simp
      · simp [h0, hlt]
  · trivial
  · split_ifs with h1 h2
    · intro hle
      simp at hle
      omega
    · intro _; rfl
    · intro _; rfl

theorem DumpFrames_boundary_test_example :
    (35990 : Nat) = 35990 ∧
    ((DumpFrames.firings zeroWrapPacket 5 1 2
        { lastAzimuth := 35990, currentFrame := 0, written := [], consumed := 0 }).currentFrame
        = 0 + 1 ↔
      ((ReadFrameInformation.firings zeroWrapPacket 1 2
        { lastAzimuth := 35990, lastTimestamp := 0, filePositions := [0], skips := [0],
          lastFilePosition := 0, missed := [] }).skips = [0] ++ [2] ∧
        (zeroWrapPacket.firingData 2).rotationalPosition ≠ 0)) :=
  ⟨rfl,
    (DumpFrames_boundary_test zeroWrapPacket 5 2
      { lastAzimuth := 35990, lastTimestamp := 0, filePositions := [0], skips := [0],
        lastFilePosition := 0, missed := [] }
      { lastAzimuth := 35990, currentFrame := 0, written := [], consumed := 0 } rfl).2.2.1⟩

/-! ## The calibration file -/

/-- The loops of `LoadCorrectionsFile` store the locals of the visited `px` nodes in order. -/
theorem LoadCorrectionsFile_px_foldl (atof : String → ℚ) (lm : Libm)
    (l : List (String × ptree)) :
    ∀ s : vtkInternal, l.foldl (LoadCorrectionsFile.px atof lm) s
      = (((l.filter fun px => px.1 = "px").map fun px => px.2).map
          (LoadCorrectionsFile.locals atof)).foldl (LoadCorrectionsFile.store lm) s := by
  induction l with
  | nil => intro s; rfl
  | cons px rest ih =>
    intro s
    rw [List.foldl_cons, ih]
    by_cases h : px.1 = "px"
    · simp [List.filter_cons, h, LoadCorrectionsFile.px]
    · simp [List.filter_cons, h, LoadCorrectionsFile.px]

theorem LoadCorrectionsFile_points_foldl (atof : String → ℚ) (lm : Libm)
    (l : List (String × ptree)) :
    ∀ s : vtkInternal, l.foldl (LoadCorrectionsFile.points atof lm) s
      = ((LoadCorrectionsFile.visited (.node "" l)).map
          (LoadCorrectionsFile.locals atof)).foldl (LoadCorrectionsFile.store lm) s := by
  induction l with
  | nil => intro s; rfl
  | cons v rest ih =>
    intro s
    rw [List.foldl_cons, ih]
    by_cases h : v.1 = "item"
    · simp [LoadCorrectionsFile.visited, ptree.children, List.filter_cons, h,
        LoadCorrectionsFile.points, LoadCorrectionsFile_px_foldl]
    · simp [LoadCorrectionsFile.visited, ptree.children, List.filter_cons, h,
        LoadCorrectionsFile.points]

theorem visited_node (points_ : ptree) :
    LoadCorrectionsFile.visited (.node "" points_.children)
      = LoadCorrectionsFile.visited points_ := rfl

/-- `LoadCorrectionsFile` on a document that has the path `boost_serialization.DB.points_`. -/
theorem LoadCorrectionsFile_eq (s : vtkInternal) (pt points_ : ptree) (atof : String → ℚ)
    (lm : Libm) (hpath : pt.get_child ["boost_serialization", "DB", "points_"] = some points_) :
    LoadCorrectionsFile s (some pt) atof lm
      = some (SetCorrectionsCommon
          (((LoadCorrectionsFile.visited points_).map
            (LoadCorrectionsFile.locals atof)).foldl (LoadCorrectionsFile.store lm) s)) := by
  simp only [LoadCorrectionsFile, hpath]
  rw [LoadCorrectionsFile_points_foldl, visited_node]

/-- The entry the store writes. -/
theorem store_written (lm : Libm) (s : vtkInternal) (e : CalibrationLocals) (k : Nat)
    (hk : e.index = k) :
    (LoadCorrectionsFile.store lm s e).laser_corrections_ k
      = { s.laser_corrections_ k with
          azimuthCorrection := e.azimuth
          verticalCorrection := e.vertCorrection
          distanceCorrection := ddiv e.distCorrection 100
          verticalOffsetCorrection := ddiv e.vertOffsetCorrection 100
          horizontalOffsetCorrection := ddiv e.horizOffsetCorrection 100
          cosVertCorrection := lm.cos (HDL_Grabber_toRadians lm e.vertCorrection)
          sinVertCorrection := lm.sin (HDL_Grabber_toRadians lm e.vertCorrection) } := by
  have h1 : e.index ≠ -1 := by rw [hk]; omega
  unfold LoadCorrectionsFile.store
  rw [if_pos h1]
  simp only [hk, if_true]

/-- The store leaves the other entries unchanged. -/
theorem store_other (lm : Libm) (s : vtkInternal) (e : CalibrationLocals) (k : Nat)
    (hk : e.index ≠ k) :
    (LoadCorrectionsFile.store lm s e).laser_corrections_ k = s.laser_corrections_ k := by
  unfold LoadCorrectionsFile.store
  split_ifs with h1
  · simp only [if_neg (Ne.symm hk)]
  · rfl

theorem store_foldl_other (lm : Libm) (k : Nat) (post : List CalibrationLocals) :
    ∀ s : vtkInternal, (∀ q ∈ post, q.index ≠ k) →
      (post.foldl (LoadCorrectionsFile.store lm) s).laser_corrections_ k
        = s.laser_corrections_ k := by
  induction post with
  | nil => intro s _; rfl
  | cons q rest ih =>
    intro s h
    rw [List.foldl_cons, ih _ (fun r hr => h r (List.mem_cons_of_mem _ hr)),
      store_other lm s q k (h q (List.mem_cons_self _ _))]

/-- `SetCorrectionsCommon` writes the two offset products only. -/
theorem SetCorrectionsCommon_sources (s : vtkInternal) (k : Nat) :
    ((SetCorrectionsCommon s).laser_corrections_ k).azimuthCorrection
      = (s.laser_corrections_ k).azimuthCorrection ∧
    ((SetCorrectionsCommon s).laser_corrections_ k).verticalCorrection
      = (s.laser_corrections_ k).verticalCorrection ∧
    ((SetCorrectionsCommon s).laser_corrections_ k).distanceCorrection
      = (s.laser_corrections_ k).distanceCorrection ∧
    ((SetCorrectionsCommon s).laser_corrections_ k).verticalOffsetCorrection
      = (s.laser_corrections_ k).verticalOffsetCorrection ∧
    ((SetCorrectionsCommon s).laser_corrections_ k).horizontalOffsetCorrection
      = (s.laser_corrections_ k).horizontalOffsetCorrection ∧
    ((SetCorrectionsCommon s).laser_corrections_ k).sinVertCorrection
      = (s.laser_corrections_ k).sinVertCorrection ∧
    ((SetCorrectionsCommon s).laser_corrections_ k).cosVertCorrection
      = (s.laser_corrections_ k).cosVertCorrection := by
  unfold SetCorrectionsCommon
  simp only []
  split_ifs <;> exact ⟨rfl, rfl, rfl, rfl, rfl, rfl, rfl⟩

theorem item_fields (atof : String → ℚ) (e : CalibrationLocals) (c : String × ptree) :
    (LoadCorrectionsFile.item atof e c).distCorrection
      = (if c.1 = "distCorrection_" then atof c.2.data else e.distCorrection) ∧
    (LoadCorrectionsFile.item atof e c).vertOffsetCorrection
      = (if c.1 = "vertOffsetCorrection_" then atof c.2.data else e.vertOffsetCorrection) ∧
    (LoadCorrectionsFile.item atof e c).horizOffsetCorrection
      = (if c.1 = "horizOffsetCorrection_" then atof c.2.data else e.horizOffsetCorrection) ∧
    (LoadCorrectionsFile.item atof e c).index
      = (if c.1 = "id_" then atoi c.2.data else e.index) := by
  refine ⟨?_, ?_, ?_, ?_⟩
  · simp only [LoadCorrectionsFile.item, apply_ite CalibrationLocals.distCorrection, ite_self]
  · simp only [LoadCorrectionsFile.item, apply_ite CalibrationLocals.vertOffsetCorrection,
      ite_self]
  · simp only [LoadCorrectionsFile.item, apply_ite CalibrationLocals.horizOffsetCorrection,
      ite_self]
  · simp only [LoadCorrectionsFile.item, apply_ite CalibrationLocals.index, ite_self]

/-- The locals of a `px` node hold the values of the last child with each key. -/
theorem locals_lastText (atof : String → ℚ) (calibrationData : ptree) :
    (LoadCorrectionsFile.locals atof calibrationData).distCorrection
      = ((calibrationData.lastText "distCorrection_").map atof).getD 0 ∧
    (LoadCorrectionsFile.locals atof calibrationData).vertOffsetCorrection
      = ((calibrationData.lastText "vertOffsetCorrection_").map atof).getD 0 ∧
    (LoadCorrectionsFile.locals atof calibrationData).horizOffsetCorrection
      = ((calibrationData.lastText "horizOffsetCorrection_").map atof).getD 0 ∧
    (LoadCorrectionsFile.locals atof calibrationData).index
      = ((calibrationData.lastText "id_").map atoi).getD (-1) := by
  unfold LoadCorrectionsFile.locals ptree.lastText
  induction calibrationData.children using List.reverseRecOn with
  | nil => exact ⟨rfl, rfl, rfl, rfl⟩
  | append_singleton l c ih =>
    rw [List.foldl_append, List.foldl_cons, List.foldl_nil]
    obtain ⟨h1, h2, h3, h4⟩ := ih
    obtain ⟨e1, e2, e3, e4⟩ := item_fields atof
      (List.foldl (LoadCorrectionsFile.item atof)
        { index := -1, azimuth := 0, vertCorrection := 0, distCorrection := 0,
          vertOffsetCorrection := 0, horizOffsetCorrection := 0 } l) c
    rw [e1, e2, e3, e4, h1, h2, h3, h4]
    simp only [List.filter_append, List.filter_cons, List.filter_nil]
    refine ⟨?_, ?_, ?_, ?_⟩
    · by_cases hc : c.1 = "distCorrection_"
      · simp [hc]
      · simp [hc]
    · by_cases hc : c.1 = "vertOffsetCorrection_"
      · simp [hc]
      · simp [hc]
    · by_cases hc : c.1 = "horizOffsetCorrection_"
      · simp [hc]
      · simp [hc]
    · by_cases hc : c.1 = "id_"
      · simp [hc]
      · simp [hc]

/-- The six columns that every branch of `PushFiringData` appends in the same way. -/
theorem PushFiringData_raw_columns (s : vtkInternal) (laserId azimuth timestamp : Nat)
    (laserReturn : HDLLaserReturn) (correction : HDLLaserCorrection) (azimuthAdjustment : Nat)
    (translation : ℚ × ℚ × ℚ) (dualReturn : Bool) (lm : Libm) :
    (PushFiringData s laserId azimuth timestamp laserReturn correction azimuthAdjustment
      translation dualReturn lm).CurrentDataset.Intensity
      = s.CurrentDataset.Intensity ++ [laserReturn.intensity] ∧
    (PushFiringData s laserId azimuth timestamp laserReturn correction azimuthAdjustment
      translation dualReturn lm).CurrentDataset.LaserId
      = s.CurrentDataset.LaserId ++ [laserId] ∧
    (PushFiringData s laserId azimuth timestamp laserReturn correction azimuthAdjustment
      translation dualReturn lm).CurrentDataset.Azimuth
      = s.CurrentDataset.Azimuth ++ [azimuth] ∧
    (PushFiringData s laserId azimuth timestamp laserReturn correction azimuthAdjustment
      translation dualReturn lm).CurrentDataset.Distance
      = s.CurrentDataset.Distance ++ [PushFiringData.distanceM laserReturn correction] ∧
    (PushFiringData s laserId azimuth timestamp laserReturn correction azimuthAdjustment
      translation dualReturn lm).CurrentDataset.Timestamp
      = s.CurrentDataset.Timestamp ++ [timestamp] := by
  unfold PushFiringData
  simp only []
  split_ifs <;> exact ⟨rfl, rfl, rfl, rfl, rfl⟩

/-- C13: in `LoadCorrectionsFile`, the entry `laser_corrections_[k]` written for a `px` node
with `id_ = k` that no later `px` node overwrites holds the values of `distCorrection_`,
`vertOffsetCorrection_` and `horizOffsetCorrection_` divided by `100.0` (`0` where the node has
no such child); and `PushFiringData` appends `distance * 0.002 + distanceCorrection` to the
distance column for every raw distance. -/
theorem C13_xml_distance_units (s : vtkInternal) (pt points_ px : ptree)
    (pre post : List ptree) (k : Nat) (atof : String → ℚ) (lm : Libm)
    (hpath : pt.get_child ["boost_serialization", "DB", "points_"] = some points_)
    (hvisited : LoadCorrectionsFile.visited points_ = pre ++ px :: post)
    (hk : (LoadCorrectionsFile.locals atof px).index = k)
    (hpost : ∀ q ∈ post, (LoadCorrectionsFile.locals atof q).index ≠ k) :
    (∃ s1, LoadCorrectionsFile s (some pt) atof lm = some s1 ∧
      (s1.laser_corrections_ k).distanceCorrection
        = ddiv (((px.lastText "distCorrection_").map atof).getD 0) 100 ∧
      (s1.laser_corrections_ k).verticalOffsetCorrection
        = ddiv (((px.lastText "vertOffsetCorrection_").map atof).getD 0) 100 ∧
      (s1.laser_corrections_ k).horizontalOffsetCorrection
        = ddiv (((px.lastText "horizOffsetCorrection_").map atof).getD 0) 100) ∧
    (∀ (t : vtkInternal) (laserId azimuth timestamp : Nat) (laserReturn : HDLLaserReturn)
      (correction : HDLLaserCorrection) (azimuthAdjustment : Nat) (translation : ℚ × ℚ × ℚ)
      (dualReturn : Bool),
      (PushFiringData t laserId azimuth timestamp laserReturn correction azimuthAdjustment
        translation dualReturn lm).CurrentDataset.Distance
        = t.CurrentDataset.Distance ++
          [dadd (dmul (laserReturn.distance : ℚ) (toDouble 0.002))
            correction.distanceCorrection]) := by
  refine ⟨⟨_, LoadCorrectionsFile_eq s pt points_ atof lm hpath, ?_⟩, ?_⟩
  · obtain ⟨c1, c2, c3, c4, c5, c6, c7⟩ := SetCorrectionsCommon_sources
      (((LoadCorrectionsFile.visited points_).map
        (LoadCorrectionsFile.locals atof)).foldl (LoadCorrectionsFile.store lm) s) k
    rw [c3, c4, c5, hvisited, List.map_append, List.map_cons, List.foldl_append,
      List.foldl_cons]
    rw [store_foldl_other lm k _ _ (by
      intro q hq
      obtain ⟨r, hr, rfl⟩ := List.mem_map.mp hq
      exact hpost r hr)]
    rw [store_written lm _ _ k hk]
    obtain ⟨e1, e2, e3, -⟩ := locals_lastText atof px
    exact ⟨by rw [← e1], by rw [← e2], by rw [← e3]⟩
  · intro t laserId azimuth timestamp laserReturn correction azimuthAdjustment translation
      dualReturn
    exact (PushFiringData_raw_columns t laserId azimuth timestamp laserReturn correction
      azimuthAdjustment translation dualReturn lm).2.2.2.1

set_option maxRecDepth 100000 in
theorem C13_xml_distance_units_witness :
    distanceCorrectionDocument.get_child ["boost_serialization", "DB", "points_"]
      = some (.node "" [("count", .node "64" []), ("item_version", .node "1" []),
          ("item", .node "" [("px", .node "" [("id_", .node "0" []),
            ("distCorrection_", .node "25" [])])])]) ∧
    (LoadCorrectionsFile.locals exampleAtof
      (.node "" [("id_", .node "0" []), ("distCorrection_", .node "25" [])])).index = (0 : Nat) ∧
    (∃ s1, LoadCorrectionsFile (vtkInternal.new 0 exampleLibm) (some distanceCorrectionDocument)
        exampleAtof exampleLibm = some s1 ∧
      (s1.laser_corrections_ 0).distanceCorrection
        = ddiv ((((ptree.node "" [("id_", .node "0" []),
            ("distCorrection_", .node "25" [])]).lastText "distCorrection_").map
              exampleAtof).getD 0) 100 ∧
      (s1.laser_corrections_ 0).verticalOffsetCorrection
        = ddiv ((((ptree.node "" [("id_", .node "0" []),
            ("distCorrection_", .node "25" [])]).lastText "vertOffsetCorrection_").map
              exampleAtof).getD 0) 100 ∧
      (s1.laser_corrections_ 0).horizontalOffsetCorrection
        = ddiv ((((ptree.node "" [("id_", .node "0" []),
            ("distCorrection_", .node "25" [])]).lastText "horizOffsetCorrection_").map
              exampleAtof).getD 0) 100) ∧
    ddiv ((((ptree.node "" [("id_", .node "0" []),
      ("distCorrection_", .node "25" [])]).lastText "distCorrection_").map
        exampleAtof).getD 0) 100 = 1 / 4 ∧
    dadd (dmul ((500 : Nat) : ℚ) (toDouble 0.002)) (1 / 4) = 5 / 4 ∧
    ((LoadCorrectionsFile (vtkInternal.new 0 exampleLibm) (some distanceCorrectionDocument)
        exampleAtof exampleLibm).map fun s1 =>
          (PushFiringData s1 0 18000 1000 ⟨500, 10⟩ (s1.laser_corrections_ 0) 0 (0, 0, 0) false
            exampleLibm).CurrentDataset.Distance) = some [5 / 4] :=
  ⟨rfl, by decide,
    (C13_xml_distance_units (vtkInternal.new 0 exampleLibm) distanceCorrectionDocument
      (.node "" [("count", .node "64" []), ("item_version", .node "1" []),
          ("item", .node "" [("px", .node "" [("id_", .node "0" []),
            ("distCorrection_", .node "25" [])])])])
      (.node "" [("id_", .node "0" []), ("distCorrection_", .node "25" [])]) [] [] 0
      exampleAtof exampleLibm rfl rfl (by decide) (by simp)).1,
    by decide!, by decide!, by decide!⟩

/-- An entry whose locals keep `index = -1` is dropped. -/
theorem store_dropped (lm : Libm) (s : vtkInternal) (e : CalibrationLocals)
    (h : e.index = -1) : LoadCorrectionsFile.store lm s e = s := by
  unfold LoadCorrectionsFile.store
  rw [if_neg (by simp [h])]

set_option maxRecDepth 100000 in
/-- C14 on three documents.  An entry without `id_` is dropped.  An entry whose `id_` is the
text `abc` is not dropped: `atoi` yields `0` for it, and the entry overwrites the calibration
of laser 0 (its vertical correction becomes 7).  An entry with `id_ = 64` is stored at
index 64, which is outside the table of `HDL_MAX_NUM_LASERS = 64` entries. -/
theorem C14_unparsable_or_out_of_range_id_is_stored :
    (LoadCorrectionsFile.locals exampleAtof
      (.node "" [("vertCorrection_", .node "7" [])])).index = -1 ∧
    LoadCorrectionsFile.store exampleLibm (vtkInternal.new 0 exampleLibm)
      (LoadCorrectionsFile.locals exampleAtof (.node "" [("vertCorrection_", .node "7" [])]))
      = vtkInternal.new 0 exampleLibm ∧
    atoi "abc" = 0 ∧
    (LoadCorrectionsFile.locals exampleAtof
      (.node "" [("id_", .node "abc" []), ("vertCorrection_", .node "7" [])])).index = 0 ∧
    ((vtkInternal.new 0 exampleLibm).laser_corrections_ 0).verticalCorrection
      = toDouble (-30.67) ∧
    ((LoadCorrectionsFile (vtkInternal.new 0 exampleLibm) (some unparsableIdDocument)
        exampleAtof exampleLibm).map fun s1 => (s1.laser_corrections_ 0).verticalCorrection)
      = some 7 ∧
    (LoadCorrectionsFile.locals exampleAtof
      (.node "" [("id_", .node "64" []), ("vertCorrection_", .node "7" [])])).index = 64 ∧
    ¬ (64 < HDL_MAX_NUM_LASERS) ∧
    ((LoadCorrectionsFile (vtkInternal.new 0 exampleLibm) (some outOfRangeIdDocument)
        exampleAtof exampleLibm).map fun s1 => (s1.laser_corrections_ 64).verticalCorrection)
      = some 7 :=
  ⟨by decide, store_dropped _ _ _ (by decide), by decide, by decide, by decide!, by decide!,
    by decide, by decide, by decide!⟩

/-! ## The index built by the scan -/

theorem lastRotationalPosition_cons (f : ScannedFiring) (rest : List ScannedFiring)
    (previous : Nat) :
    lastRotationalPosition (f :: rest) previous
      = lastRotationalPosition rest f.rotationalPosition := by
  cases rest with
  | nil => rfl
  | cons g more =>
    unfold lastRotationalPosition
    rw [List.getLast?_cons_cons, List.getLast?_eq_getLast _ (List.cons_ne_nil _ _)]
    rfl

theorem frameBoundaries_append (a : List ScannedFiring) :
    ∀ (b : List ScannedFiring) (previous : Nat),
      frameBoundaries (a ++ b) previous
        = frameBoundaries a previous ++ frameBoundaries b (lastRotationalPosition a previous) := by
  induction a with
  | nil => intro b previous; rfl
  | cons f rest ih =>
    intro b previous
    show frameBoundaries (f :: (rest ++ b)) previous = _
    rw [frameBoundaries, frameBoundaries, ih, lastRotationalPosition_cons, List.append_assoc]

/-- The entries the firing loop of the scan appends are the boundaries among its firings. -/
theorem scan_firings_index (dataPacket : HDLDataPacket) (record : Nat) (n : Nat) :
    ∀ (i : Nat) (st : ScanState),
      (ReadFrameInformation.firings dataPacket n i st).filePositions
        = st.filePositions ++ (frameBoundaries ((List.range' i n).map fun j =>
            { record := record, kept := st.lastFilePosition, firing := j,
              rotationalPosition := (dataPacket.firingData j).rotationalPosition })
            st.lastAzimuth).map (fun f => f.kept) ∧
      (ReadFrameInformation.firings dataPacket n i st).skips
        = st.skips ++ (frameBoundaries ((List.range' i n).map fun j =>
            { record := record, kept := st.lastFilePosition, firing := j,
              rotationalPosition := (dataPacket.firingData j).rotationalPosition })
            st.lastAzimuth).map (fun f => f.firing) ∧
      (ReadFrameInformation.firings dataPacket n i st).lastFilePosition
        = st.lastFilePosition := by
  induction n with
  | zero => intro i st; simp [ReadFrameInformation.firings, frameBoundaries]
  | succ n ih =>
    intro i st
    simp only [ReadFrameInformation.firings, List.range'_succ, List.map_cons, frameBoundaries]
    obtain ⟨h1, h2, h3⟩ := ih (i + 1)
      { (if (dataPacket.firingData i).rotationalPosition < st.lastAzimuth then
            { st with
              filePositions := st.filePositions ++ [st.lastFilePosition]
              skips := st.skips ++ [i] }
          else st) with lastAzimuth := (dataPacket.firingData i).rotationalPosition }
    rw [h1, h2, h3]
    by_cases hb : (dataPacket.firingData i).rotationalPosition < st.lastAzimuth
    · simp [hb]
    · simp [hb]

/-- The entries the packet loop of the scan appends are the boundaries among the firings of
the records it reads. -/
theorem scan_loop_index (rest : List Payload) :
    ∀ (position : Nat) (st : ScanState),
      (ReadFrameInformation.loop rest position st).filePositions
        = st.filePositions ++ (frameBoundaries (scannedFirings rest position st.lastFilePosition)
            st.lastAzimuth).map (fun f => f.kept) ∧
      (ReadFrameInformation.loop rest position st).skips
        = st.skips ++ (frameBoundaries (scannedFirings rest position st.lastFilePosition)
            st.lastAzimuth).map (fun f => f.firing) := by
  induction rest with
  | nil => intro position st; simp [ReadFrameInformation.loop, scannedFirings, frameBoundaries]
  | cons data rest ih =>
    intro position st
    by_cases hlen : data.length ≠ 1206
    · simp only [ReadFrameInformation.loop, scannedFirings, if_pos hlen]
      exact ih _ _
    · simp only [ReadFrameInformation.loop, scannedFirings, if_neg hlen]
      obtain ⟨h1, h2⟩ := ih (position + 1)
        (ReadFrameInformation.packet (reinterpretPacket data) position st)
      rw [h1, h2, frameBoundaries_append]
      have ha : (ReadFrameInformation.packet (reinterpretPacket data) position st).lastAzimuth
          = lastRotationalPosition
              ((List.range HDL_FIRING_PER_PKT).map fun i =>
                { record := position, kept := st.lastFilePosition, firing := i,
                  rotationalPosition :=
                    ((reinterpretPacket data).firingData i).rotationalPosition })
              st.lastAzimuth := by
        simp only [ReadFrameInformation.packet]
        exact scan_firings_lastAzimuth (reinterpretPacket data) 11 0 _
      have hp : (ReadFrameInformation.packet (reinterpretPacket data) position st).lastFilePosition
          = position + 1 := rfl
      rw [ha, hp]
      obtain ⟨f1, f2, -⟩ := scan_firings_index (reinterpretPacket data) position
        HDL_FIRING_PER_PKT 0
        (if 600 < ((reinterpretPacket data).gpsTimestamp + 2 ^ 32 - st.lastTimestamp) % 2 ^ 32 ∧
            st.lastTimestamp ≠ 0 then
          { st with missed := st.missed ++
              [⌊dadd (ddiv (((reinterpretPacket data).gpsTimestamp + 2 ^ 32 - st.lastTimestamp)
                % 2 ^ 32 : Nat) 553) 0.5⌋] }
        else st)
      have e0 : ∀ t : ScanState, (if 600 < ((reinterpretPacket data).gpsTimestamp + 2 ^ 32
            - st.lastTimestamp) % 2 ^ 32 ∧ st.lastTimestamp ≠ 0 then
          { st with missed := st.missed ++
              [⌊dadd (ddiv (((reinterpretPacket data).gpsTimestamp + 2 ^ 32 - st.lastTimestamp)
                % 2 ^ 32 : Nat) 553) 0.5⌋] }
        else st) = t → t.filePositions = st.filePositions ∧ t.skips = st.skips ∧
          t.lastFilePosition = st.lastFilePosition ∧ t.lastAzimuth = st.lastAzimuth := by
        intro t ht
        subst ht
        split_ifs <;> exact ⟨rfl, rfl, rfl, rfl⟩
      obtain ⟨g1, g2, g3, g4⟩ := e0 _ rfl
      rw [g1, g3, g4] at f1
      rw [g2, g3, g4] at f2
      have hr : List.range HDL_FIRING_PER_PKT = List.range' 0 HDL_FIRING_PER_PKT :=
        List.range_eq_range' _
      constructor
      · have : (ReadFrameInformation.packet (reinterpretPacket data) position st).filePositions
            = (ReadFrameInformation.firings (reinterpretPacket data) HDL_FIRING_PER_PKT 0
                (if 600 < ((reinterpretPacket data).gpsTimestamp + 2 ^ 32 - st.lastTimestamp)
                    % 2 ^ 32 ∧ st.lastTimestamp ≠ 0 then
                  { st with missed := st.missed ++
                      [⌊dadd (ddiv (((reinterpretPacket data).gpsTimestamp + 2 ^ 32
                        - st.lastTimestamp) % 2 ^ 32 : Nat) 553) 0.5⌋] }
                else st)).filePositions := rfl
        rw [this, f1, hr, List.map_append, List.append_assoc]
      · have : (ReadFrameInformation.packet (reinterpretPacket data) position st).skips
            = (ReadFrameInformation.firings (reinterpretPacket data) HDL_FIRING_PER_PKT 0
                (if 600 < ((reinterpretPacket data).gpsTimestamp + 2 ^ 32 - st.lastTimestamp)
                    % 2 ^ 32 ∧ st.lastTimestamp ≠ 0 then
                  { st with missed := st.missed ++
                      [⌊dadd (ddiv (((reinterpretPacket data).gpsTimestamp + 2 ^ 32
                        - st.lastTimestamp) % 2 ^ 32 : Nat) 553) 0.5⌋] }
                else st)).skips := rfl
        rw [this, f2, hr, List.map_append, List.append_assoc]

/-- What the fields of a scanned firing are in a capture: its record has 1206 bytes and holds
the firing; the kept position is not behind the record, every record from the kept position
up to the record has another length than 1206, and the kept position is the start of the
capture or the position behind a record of 1206 bytes. -/
theorem scannedFirings_mem (capture : List Payload) (rest : List Payload) :
    ∀ (pre : List Payload) (kept : Nat), capture = pre ++ rest → kept ≤ pre.length →
      (∀ j, kept ≤ j → j < pre.length → ∃ d, capture[j]? = some d ∧ d.length ≠ 1206) →
      (kept = 0 ∨ ∃ d, capture[kept - 1]? = some d ∧ d.length = 1206) →
      ∀ f ∈ scannedFirings rest pre.length kept,
        f.firing < HDL_FIRING_PER_PKT ∧
        (∃ data, capture[f.record]? = some data ∧ data.length = 1206 ∧
          f.rotationalPosition
            = ((reinterpretPacket data).firingData f.firing).rotationalPosition) ∧
        f.kept ≤ f.record ∧
        (∀ j, f.kept ≤ j → j < f.record → ∃ d, capture[j]? = some d ∧ d.length ≠ 1206) ∧
        (f.kept = 0 ∨ ∃ d, capture[f.kept - 1]? = some d ∧ d.length = 1206) := by
  induction rest with
  | nil => intro pre kept _ _ _ _ f hf; simp [scannedFirings] at hf
  | cons data rest ih =>
    intro pre kept hcap hkept hgap hbefore f hf
    have hdata : capture[pre.length]? = some data := by
      rw [hcap, List.getElem?_append_right (le_refl _), Nat.sub_self]
      exact List.getElem?_cons_zero
    have hcap1 : capture = (pre ++ [data]) ++ rest := by simp [hcap]
    have hlen1 : (pre ++ [data]).length = pre.length + 1 := by simp
    by_cases hlen : data.length ≠ 1206
    · simp only [scannedFirings, if_pos hlen] at hf
      rw [← hlen1] at hf
      refine ih (pre ++ [data]) kept hcap1 (by omega) ?_ hbefore f hf
      intro j hj1 hj2
      by_cases hj : j < pre.length
      · exact hgap j hj1 hj
      · have : j = pre.length := by omega
        subst this
        exact ⟨data, hdata, hlen⟩
    · simp only [scannedFirings, if_neg hlen, List.mem_append, List.mem_map, List.mem_range] at hf
      rcases hf with ⟨i, hi, rfl⟩ | hf
      · exact ⟨hi, ⟨data, hdata, not_not.mp hlen, rfl⟩, hkept, hgap, hbefore⟩
      · rw [← hlen1] at hf
        refine ih (pre ++ [data]) (pre ++ [data]).length hcap1 (le_refl _) ?_ ?_ f hf
        · intro j hj1 hj2
          omega
        · right
          refine ⟨data, ?_, not_not.mp hlen⟩
          rw [hlen1, Nat.add_sub_cancel]
          exact hdata

/-- In a capture whose records all have 1206 bytes the kept position of every scanned firing
is the start of its record. -/
theorem scannedFirings_kept (rest : List Payload) (h : ∀ d ∈ rest, d.length = 1206) :
    ∀ (record : Nat), ∀ f ∈ scannedFirings rest record record, f.kept = f.record := by
  induction rest with
  | nil => intro record f hf; simp [scannedFirings] at hf
  | cons data rest ih =>
    intro record f hf
    have hlen : ¬ data.length ≠ 1206 := not_not.mpr (h data (List.mem_cons_self _ _))
    simp only [scannedFirings, if_neg hlen, List.mem_append, List.mem_map, List.mem_range] at hf
    rcases hf with ⟨i, _, rfl⟩ | hf
    · rfl
    · exact ih (fun d hd => h d (List.mem_cons_of_mem _ hd)) _ f hf

/-- C20, as stated, fails: in a capture with a record of three bytes between two payloads of
1206 bytes, the frame boundary at firing 0 of the third record is entered with file position 1,
the start of the record of three bytes, and not with position 2, the start of the packet that
contains the firing. -/
theorem C20_index_position_before_stray_record :
    (ReadFrameInformation (vtkInternal.new 0 exampleLibm) (some strayRecordCapture)).1.FilePositions
      = [0, 1] ∧
    (ReadFrameInformation (vtkInternal.new 0 exampleLibm) (some strayRecordCapture)).1.Skips
      = [0, 0] ∧
    (frameBoundaries (scannedFirings strayRecordCapture 0 0) 0).map
      (fun f => (f.record, f.firing)) = [(2, 0)] ∧
    (strayRecordCapture[1]?.map fun d => d.length) = some 3 ∧
    (strayRecordCapture[2]?.map fun d => d.length) = some 1206 := by
  refine ⟨by decide!, by decide!, by decide!, by decide, by decide⟩

/-- C20, amended: the index built by the scan is the entry `(0, 0)`, position before the first
packet and skip 0, followed in stream order by one entry `(p, i)` for each firing `i` of each
payload of 1206 bytes whose rotational position is strictly less than that of the firing
scanned before it (seeded 0).  In such an entry `i` is the number of the firing in its packet
and `p` is the reader position kept from the end of the last payload of 1206 bytes scanned
before (the start of the capture if there is none): every record between `p` and the packet
that contains the firing has another length, and `p` is the start of that packet when all
records have 1206 bytes.  The two lists have the same length, which the scan returns. -/
theorem C20_index_entries (s : vtkInternal) (capture : List Payload) :
    (ReadFrameInformation s (some capture)).1.FilePositions
      = 0 :: (frameBoundaries (scannedFirings capture 0 0) 0).map (fun f => f.kept) ∧
    (ReadFrameInformation s (some capture)).1.Skips
      = 0 :: (frameBoundaries (scannedFirings capture 0 0) 0).map (fun f => f.firing) ∧
    (ReadFrameInformation s (some capture)).1.FilePositions.length
      = (ReadFrameInformation s (some capture)).1.Skips.length ∧
    (ReadFrameInformation s (some capture)).2
      = (ReadFrameInformation s (some capture)).1.FilePositions.length ∧
    (∀ f ∈ scannedFirings capture 0 0,
      f.firing < HDL_FIRING_PER_PKT ∧
      (∃ data, capture[f.record]? = some data ∧ data.length = 1206 ∧
        f.rotationalPosition
          = ((reinterpretPacket data).firingData f.firing).rotationalPosition) ∧
      f.kept ≤ f.record ∧
      (∀ j, f.kept ≤ j → j < f.record → ∃ d, capture[j]? = some d ∧ d.length ≠ 1206) ∧
      (f.kept = 0 ∨ ∃ d, capture[f.kept - 1]? = some d ∧ d.length = 1206)) ∧
    ((∀ d ∈ capture, d.length = 1206) →
      ∀ f ∈ scannedFirings capture 0 0, f.kept = f.record) := by
  obtain ⟨h1, h2⟩ := scan_loop_index capture 0
    { lastAzimuth := 0, lastTimestamp := 0, filePositions := [0], skips := [0],
      lastFilePosition := 0, missed := [] }
  have e1 : (ReadFrameInformation s (some capture)).1.FilePositions
      = 0 :: (frameBoundaries (scannedFirings capture 0 0) 0).map (fun f => f.kept) := h1
  have e2 : (ReadFrameInformation s (some capture)).1.Skips
      = 0 :: (frameBoundaries (scannedFirings capture 0 0) 0).map (fun f => f.firing) := h2
  refine ⟨e1, e2, ?_, rfl, ?_, fun h => scannedFirings_kept capture h 0⟩
  · rw [e1, e2]
    simp
  · exact scannedFirings_mem capture capture [] 0 rfl (le_refl _)
      (fun j _ hj => absurd hj (Nat.not_lt_zero _)) (Or.inl rfl)

theorem C20_index_entries_witness :
    (∀ d ∈ twoSweepCapture, d.length = 1206) ∧
    (ReadFrameInformation (vtkInternal.new 0 exampleLibm) (some twoSweepCapture)).1.FilePositions
      = 0 :: (frameBoundaries (scannedFirings twoSweepCapture 0 0) 0).map (fun f => f.kept) ∧
    (frameBoundaries (scannedFirings twoSweepCapture 0 0) 0).map (fun f => (f.kept, f.firing))
      = [(1, 0)] ∧
    (∀ f ∈ scannedFirings twoSweepCapture 0 0, f.kept = f.record) :=
  ⟨by decide,
    (C20_index_entries (vtkInternal.new 0 exampleLibm) twoSweepCapture).1,
    by decide!,
    (C20_index_entries (vtkInternal.new 0 exampleLibm) twoSweepCapture).2.2.2.2.2 (by decide)⟩

/-! ## Aggregate frames -/

theorem RawColumns_append_assoc (a b c : RawColumns) :
    (a.append b).append c = a.append (b.append c) := by
  simp [RawColumns.append, List.append_assoc]

theorem RawColumns_append_empty (a : RawColumns) :
    a.append (concatRaw []) = a := by
  cases a
  simp [RawColumns.append, concatRaw]

theorem RawColumns_empty_append (a : RawColumns) :
    (concatRaw []).append a = a := by
  cases a
  simp [RawColumns.append, concatRaw]

theorem concatRaw_append (xs : List PolyData) :
    ∀ ys : List PolyData, concatRaw (xs ++ ys) = (concatRaw xs).append (concatRaw ys) := by
  induction xs with
  | nil => intro ys; rw [List.nil_append, RawColumns_empty_append]
  | cons d rest ih =>
    intro ys
    rw [List.cons_append, concatRaw, concatRaw, ih, RawColumns_append_assoc]

theorem concatRaw_singleton (d : PolyData) : concatRaw [d] = d.raw := by
  rw [concatRaw, RawColumns_append_empty]

theorem concatRaw_framesOf (s : vtkInternal) :
    concatRaw (framesOf s) = (concatRaw s.Datasets).append s.CurrentDataset.raw := by
  rw [framesOf, concatRaw_append, concatRaw_singleton]

theorem raw_CreateData_zero : (CreateData 0).raw = concatRaw [] := rfl

/-- The point `PushFiringData` inserts depends on the state through the two tables only. -/
theorem point_congr (a q : vtkInternal) (hc : a.cos_lookup_table_ = q.cos_lookup_table_)
    (hs : a.sin_lookup_table_ = q.sin_lookup_table_) (azimuth : Nat)
    (laserReturn : HDLLaserReturn) (correction : HDLLaserCorrection) (translation : ℚ × ℚ × ℚ)
    (lm : Libm) :
    PushFiringData.point a azimuth laserReturn correction translation lm
      = PushFiringData.point q azimuth laserReturn correction translation lm := by
  simp only [PushFiringData.point, PushFiringData.cosSinAzimuth, hc, hs]

/-- The raw columns after `PushFiringData`. -/
theorem PushFiringData_raw (s : vtkInternal) (laserId azimuth timestamp : Nat)
    (laserReturn : HDLLaserReturn) (correction : HDLLaserCorrection) (azimuthAdjustment : Nat)
    (translation : ℚ × ℚ × ℚ) (dualReturn : Bool) (lm : Libm) :
    (PushFiringData s laserId azimuth timestamp laserReturn correction azimuthAdjustment
      translation dualReturn lm).CurrentDataset.raw
      = s.CurrentDataset.raw.append
          { Points := [PushFiringData.point s
              (PushFiringData.effectiveAzimuth azimuth azimuthAdjustment) laserReturn correction
              translation lm]
            Intensity := [laserReturn.intensity]
            LaserId := [laserId]
            Azimuth := [azimuth]
            Distance := [PushFiringData.distanceM laserReturn correction]
            Timestamp := [timestamp] } := by
  obtain ⟨h1, h2, h3, h4, h5⟩ := PushFiringData_raw_columns s laserId azimuth timestamp
    laserReturn correction azimuthAdjustment translation dualReturn lm
  have h0 := PushFiringData_Points s laserId azimuth timestamp laserReturn correction
    azimuthAdjustment translation dualReturn lm
  simp only [PolyData.raw, RawColumns.append, h0, h1, h2, h3, h4, h5]

theorem Aggregates_PushFiringData (n : Nat) (a q : vtkInternal) (h : Aggregates n a q)
    (laserId azimuth timestamp : Nat) (laserReturn : HDLLaserReturn)
    (correction : HDLLaserCorrection) (azimuthAdjustment : Nat) (translation : ℚ × ℚ × ℚ)
    (dualA dualQ : Bool) (lm : Libm) :
    Aggregates n
      (PushFiringData a laserId azimuth timestamp laserReturn correction azimuthAdjustment
        translation dualA lm)
      (PushFiringData q laserId azimuth timestamp laserReturn correction azimuthAdjustment
        translation dualQ lm) := by
  have ha := PushFiringData_raw a laserId azimuth timestamp laserReturn correction
    azimuthAdjustment translation dualA lm
  have hq := PushFiringData_raw q laserId azimuth timestamp laserReturn correction
    azimuthAdjustment translation dualQ lm
  rw [point_congr a q h.cos_lookup_table_ h.sin_lookup_table_] at ha
  refine ⟨h.LastAzimuth, h.Skip, h.Interp, h.ApplyTransform, h.PointsSkip, h.LaserSelection,
    h.laser_corrections_, h.cos_lookup_table_, h.sin_lookup_table_, h.sequential, ?_⟩
  rcases h.frames with ⟨h1, h2, h3, h4⟩ | ⟨h1, h2, h3, h4⟩
  · left
    refine ⟨h1, h2, h3, ?_⟩
    rw [ha, h4, concatRaw_framesOf, concatRaw_framesOf, hq, RawColumns_append_assoc]
    rfl
  · right
    refine ⟨h1, h2, h3, ?_⟩
    rw [ha, hq, h4]

theorem Aggregates_ProcessFiring_loop (n : Nat) (firingData : HDLFiringData)
    (offset gpsTime azimuthOffset : Nat) (translation : ℚ × ℚ × ℚ) (dualA dualQ : Bool)
    (lm : Libm) (m : Nat) :
    ∀ (j : Nat) (a q : vtkInternal), Aggregates n a q →
      Aggregates n
        (ProcessFiring.loop firingData offset gpsTime azimuthOffset translation dualA lm m j a)
        (ProcessFiring.loop firingData offset gpsTime azimuthOffset translation dualQ lm m j q) := by
  induction m with
  | zero => intro j a q h; exact h
  | succ m ih =>
    intro j a q h
    simp only [ProcessFiring.loop]
    apply ih
    rw [h.LaserSelection, h.laser_corrections_]
    split_ifs
    · exact Aggregates_PushFiringData n a q h _ _ _ _ _ _ _ _ _ _
    · exact h

theorem Aggregates_FirstPointIdThisReturn (n : Nat) (a q : vtkInternal) (h : Aggregates n a q)
    (va vq : Int) :
    Aggregates n { a with FirstPointIdThisReturn := va } { q with FirstPointIdThisReturn := vq } :=
  ⟨h.LastAzimuth, h.Skip, h.Interp, h.ApplyTransform, h.PointsSkip, h.LaserSelection,
    h.laser_corrections_, h.cos_lookup_table_, h.sin_lookup_table_, h.sequential, h.frames⟩

theorem Aggregates_ProcessFiring (n : Nat) (a q : vtkInternal) (h : Aggregates n a q)
    (firingData : HDLFiringData) (offset gpsTime azimuthOffset : Nat)
    (translation : ℚ × ℚ × ℚ) (lm : Libm) :
    Aggregates n (ProcessFiring a firingData offset gpsTime azimuthOffset translation lm)
      (ProcessFiring q firingData offset gpsTime azimuthOffset translation lm) := by
  unfold ProcessFiring
  apply Aggregates_ProcessFiring_loop
  split_ifs <;>
    exact ⟨h.LastAzimuth, h.Skip, h.Interp, h.ApplyTransform, h.PointsSkip, h.LaserSelection,
      h.laser_corrections_, h.cos_lookup_table_, h.sin_lookup_table_, h.sequential, h.frames⟩

theorem raw_with_Verts (d : PolyData) (verts : List Nat) :
    PolyData.raw { d with Verts := verts } = d.raw := rfl

theorem Aggregates_SplitFrame (n : Nat) (a q : vtkInternal) (h : Aggregates n a q) :
    Aggregates n (SplitFrame a false) (SplitFrame q false) := by
  have hq : SplitFrame q false
      = { q with
          LastPointId := fun k => if k < HDL_MAX_NUM_LASERS then -1 else q.LastPointId k
          Datasets := q.Datasets ++
            [{ q.CurrentDataset with Verts := NewVertexCells q.CurrentDataset.Points.length }]
          CurrentDataset := CreateData 0 } := SplitFrame_of_SplitCounter q h.sequential
  rcases h.frames with ⟨h1, h2, h3, h4⟩ | ⟨h1, h2, h3, h4⟩
  · by_cases hc : 0 < a.SplitCounter
    · have ha : SplitFrame a false = { a with SplitCounter := a.SplitCounter - 1 } := by
        unfold SplitFrame
        rw [if_pos ⟨hc, rfl⟩]
      rw [ha, hq]
      refine ⟨h.LastAzimuth, h.Skip, h.Interp, h.ApplyTransform, h.PointsSkip,
        h.LaserSelection, h.laser_corrections_, h.cos_lookup_table_, h.sin_lookup_table_,
        h.sequential, Or.inl ⟨?_, h2, ?_, ?_⟩⟩
      · show (q.Datasets ++ [_]).length ≤ n
        rw [List.length_append, List.length_singleton]
        omega
      · show a.SplitCounter - 1 = (n : Int) - ((q.Datasets ++ [_]).length : Nat)
        rw [List.length_append, List.length_singleton]
        push_cast
        omega
      · show a.CurrentDataset.raw = concatRaw ((q.Datasets ++ [_]) ++ [CreateData 0])
        rw [concatRaw_append, concatRaw_singleton, raw_CreateData_zero, RawColumns_append_empty,
          concatRaw_append, concatRaw_singleton, h4, concatRaw_framesOf]
        rfl
    · have ha : SplitFrame a false
          = { a with
              LastPointId := fun k => if k < HDL_MAX_NUM_LASERS then -1 else a.LastPointId k
              Datasets := a.Datasets ++
                [{ a.CurrentDataset with
                    Verts := NewVertexCells a.CurrentDataset.Points.length }]
              CurrentDataset := CreateData 0 } := by
        unfold SplitFrame
        rw [if_neg (fun hh => hc hh.1)]
      rw [ha, hq]
      have hlen : q.Datasets.length = n := by omega
      refine ⟨h.LastAzimuth, h.Skip, h.Interp, h.ApplyTransform, h.PointsSkip,
        h.LaserSelection, h.laser_corrections_, h.cos_lookup_table_, h.sin_lookup_table_,
        h.sequential, Or.inr ⟨?_, ?_, ?_, rfl⟩⟩
      · show n < (q.Datasets ++ [_]).length
        rw [List.length_append, List.length_singleton]
        omega
      · show a.SplitCounter = 0
        omega
      · show List.map PolyData.raw (a.Datasets ++ [_])
          = concatRaw (List.take (n + 1) (q.Datasets ++ [_]))
            :: List.map PolyData.raw (List.drop (n + 1) (q.Datasets ++ [_]))
        rw [h2, List.take_of_length_le (by simp [hlen]), List.drop_of_length_le (by simp [hlen])]
        simp only [List.nil_append, List.map_cons, List.map_nil]
        rw [concatRaw_append, concatRaw_singleton]
        show [a.CurrentDataset.raw] = [(concatRaw q.Datasets).append q.CurrentDataset.raw]
        rw [h4, concatRaw_framesOf]
  · have ha : SplitFrame a false
        = { a with
            LastPointId := fun k => if k < HDL_MAX_NUM_LASERS then -1 else a.LastPointId k
            Datasets := a.Datasets ++
              [{ a.CurrentDataset with
                  Verts := NewVertexCells a.CurrentDataset.Points.length }]
            CurrentDataset := CreateData 0 } := SplitFrame_of_SplitCounter a h2
    rw [ha, hq]
    refine ⟨h.LastAzimuth, h.Skip, h.Interp, h.ApplyTransform, h.PointsSkip,
      h.LaserSelection, h.laser_corrections_, h.cos_lookup_table_, h.sin_lookup_table_,
      h.sequential, Or.inr ⟨?_, h2, ?_, rfl⟩⟩
    · show n < (q.Datasets ++ [_]).length
      rw [List.length_append, List.length_singleton]
      omega
    · show List.map PolyData.raw (a.Datasets ++ [_])
        = concatRaw (List.take (n + 1) (q.Datasets ++ [_]))
          :: List.map PolyData.raw (List.drop (n + 1) (q.Datasets ++ [_]))
      rw [List.map_append, h3, List.take_append_of_le_length (by omega),
        List.drop_append_of_le_length (by omega)]
      simp only [List.map_append, List.map_cons, List.map_nil, List.cons_append]
      show _ :: (_ ++ [a.CurrentDataset.raw]) = _ :: (_ ++ [q.CurrentDataset.raw])
      rw [h4]

theorem Aggregates_fire (n : Nat) (a q : vtkInternal) (h : Aggregates n a q)
    (dataPacket : HDLDataPacket) (azimuthOffset : Nat) (translation : ℚ × ℚ × ℚ) (lm : Libm)
    (i : Nat) :
    Aggregates n (ProcessHDLPacket.fire dataPacket azimuthOffset translation lm i a)
      (ProcessHDLPacket.fire dataPacket azimuthOffset translation lm i q) := by
  unfold ProcessHDLPacket.fire
  simp only [h.PointsSkip]
  by_cases hp : q.PointsSkip = 0 ∨ Int.tmod (i : Int) (q.PointsSkip + 1) = 0
  · rw [if_pos hp, if_pos hp]
    exact Aggregates_ProcessFiring n a q h _ _ _ _ _ _
  · rw [if_neg hp, if_neg hp]
    exact h

theorem Aggregates_step (n : Nat) (a q : vtkInternal) (h : Aggregates n a q)
    (dataPacket : HDLDataPacket) (azimuthOffset : Nat) (translation : ℚ × ℚ × ℚ) (lm : Libm)
    (i : Nat) :
    Aggregates n (ProcessHDLPacket.step dataPacket azimuthOffset translation lm i a)
      (ProcessHDLPacket.step dataPacket azimuthOffset translation lm i q) := by
  have h1 : Aggregates n
      (if (dataPacket.firingData i).rotationalPosition < a.LastAzimuth
        then SplitFrame a false else a)
      (if (dataPacket.firingData i).rotationalPosition < q.LastAzimuth
        then SplitFrame q false else q) := by
    rw [h.LastAzimuth]
    split_ifs
    · exact Aggregates_SplitFrame n a q h
    · exact h
  have h2 := Aggregates_fire n _ _ h1 dataPacket azimuthOffset translation lm i
  exact ⟨rfl, h2.Skip, h2.Interp, h2.ApplyTransform, h2.PointsSkip, h2.LaserSelection,
    h2.laser_corrections_, h2.cos_lookup_table_, h2.sin_lookup_table_, h2.sequential, h2.frames⟩

theorem Aggregates_loop (n : Nat) (dataPacket : HDLDataPacket) (azimuthOffset : Nat)
    (translation : ℚ × ℚ × ℚ) (lm : Libm) (m : Nat) :
    ∀ (i : Nat) (a q : vtkInternal), Aggregates n a q →
      Aggregates n (ProcessHDLPacket.loop dataPacket azimuthOffset translation lm m i a)
        (ProcessHDLPacket.loop dataPacket azimuthOffset translation lm m i q) := by
  induction m with
  | zero => intro i a q h; exact h
  | succ m ih =>
    intro i a q h
    simp only [ProcessHDLPacket.loop]
    exact ih _ _ _ (Aggregates_step n a q h _ _ _ _ _)

theorem ComputeOrientation_congr (a q : vtkInternal) (hi : a.Interp = q.Interp)
    (ht : a.ApplyTransform = q.ApplyTransform) (timestamp azimuthOffset : Nat)
    (translation : ℚ × ℚ × ℚ) (lm : Libm) :
    ComputeOrientation a timestamp azimuthOffset translation lm
      = ComputeOrientation q timestamp azimuthOffset translation lm := by
  unfold ComputeOrientation
  rw [hi, ht]

theorem Aggregates_ProcessHDLPacket (n : Nat) (a q : vtkInternal) (h : Aggregates n a q)
    (data : Payload) (lm : Libm) :
    Aggregates n (ProcessHDLPacket a data lm) (ProcessHDLPacket q data lm) := by
  unfold ProcessHDLPacket
  split_ifs
  · exact h
  · unfold ProcessHDLPacket.decoded
    simp only []
    rw [ComputeOrientation_congr a q h.Interp h.ApplyTransform, h.Skip]
    apply Aggregates_loop
    exact ⟨h.LastAzimuth, rfl, h.Interp, h.ApplyTransform, h.PointsSkip, h.LaserSelection,
      h.laser_corrections_, h.cos_lookup_table_, h.sin_lookup_table_, h.sequential, h.frames⟩

theorem Aggregates_advanceReader (n : Nat) (a q : vtkInternal) (h : Aggregates n a q) :
    Aggregates n (advanceReader a) q :=
  ⟨h.LastAzimuth, h.Skip, h.Interp, h.ApplyTransform, h.PointsSkip, h.LaserSelection,
    h.laser_corrections_, h.cos_lookup_table_, h.sin_lookup_table_, h.sequential, h.frames⟩

/-- The firing loop emits at most one frame for each firing whose rotational position is below
that of the firing before. -/
theorem ProcessHDLPacket_loop_Datasets_length (dataPacket : HDLDataPacket) (azimuthOffset : Nat)
    (translation : ℚ × ℚ × ℚ) (lm : Libm) (m : Nat) :
    ∀ (i : Nat) (s : vtkInternal),
      (ProcessHDLPacket.loop dataPacket azimuthOffset translation lm m i s).Datasets.length
        ≤ s.Datasets.length + azimuthDecreases dataPacket m i s.LastAzimuth := by
  induction m with
  | zero => intro i s; exact le_refl _
  | succ m ih =>
    intro i s
    simp only [ProcessHDLPacket.loop, azimuthDecreases]
    refine le_trans (ih _ _) ?_
    have h1 : (ProcessHDLPacket.step dataPacket azimuthOffset translation lm i s).LastAzimuth
        = (dataPacket.firingData i).rotationalPosition := rfl
    have h2 : (ProcessHDLPacket.step dataPacket azimuthOffset translation lm i s).Datasets.length
        ≤ s.Datasets.length
          + (if (dataPacket.firingData i).rotationalPosition < s.LastAzimuth then 1 else 0) := by
      show (ProcessHDLPacket.fire dataPacket azimuthOffset translation lm i _).Datasets.length ≤ _
      rw [ProcessHDLPacket_fire_Datasets]
      split_ifs with hb
      · unfold SplitFrame
        split_ifs
        · exact Nat.le_succ _
        · simp
      · exact le_refl _
    rw [h1]
    omega

theorem SplitFrame_keeps_Datasets (s : vtkInternal) (force : Bool) :
    s.Datasets <+: (SplitFrame s force).Datasets := by
  unfold SplitFrame
  split_ifs
  · exact List.prefix_refl _
  · exact List.prefix_append _ _

/-- Decoding further payloads keeps the frames already emitted. -/
theorem decodeAll_keeps_Datasets (s : vtkInternal) (packets : List Payload) (lm : Libm) :
    s.Datasets <+: (decodeAll s packets lm).Datasets :=
  decodeAll_preserves (fun t => s.Datasets <+: t.Datasets)
    (fun _ _ _ _ _ _ _ _ _ _ h => h) (fun _ _ h => h) (fun _ _ h => h)
    (fun t h => List.IsPrefix.trans h (SplitFrame_keeps_Datasets t false))
    (fun _ _ h => h) lm packets s (List.prefix_refl _)

/-- `ProcessHDLPacket` leaves `Skip = 0` behind a payload of 1206 bytes. -/
theorem ProcessHDLPacket_Skip (s : vtkInternal) (data : Payload) (lm : Libm)
    (hlen : data.length = 1206) : (ProcessHDLPacket s data lm).Skip = 0 := by
  unfold ProcessHDLPacket
  rw [if_neg (by simp [hlen])]
  unfold ProcessHDLPacket.decoded
  exact ProcessHDLPacket_loop_preserves (fun t => t.Skip = 0)
    (fun _ _ _ _ _ _ _ _ _ _ h => h) (fun _ _ h => h) (fun _ _ h => h)
    (fun t h => by
      unfold SplitFrame
      split_ifs <;> exact h) _ _ _ _ _ _ _ rfl

theorem ProcessHDLPacket_LastAzimuth_eq (s : vtkInternal) (data : Payload) (lm : Libm)
    (hlen : data.length = 1206) :
    (ProcessHDLPacket s data lm).LastAzimuth
      = if s.Skip < HDL_FIRING_PER_PKT then
          ((reinterpretPacket data).firingData (HDL_FIRING_PER_PKT - 1)).rotationalPosition
        else s.LastAzimuth := by
  split_ifs with hskip
  · exact ProcessHDLPacket_LastAzimuth s data lm hlen hskip
  · unfold ProcessHDLPacket
    rw [if_neg (by simp [hlen])]
    unfold ProcessHDLPacket.decoded
    simp only []
    rw [ProcessHDLPacket_loop_LastAzimuth, if_pos (by omega)]

theorem ProcessHDLPacket_Datasets_length (s : vtkInternal) (data : Payload) (lm : Libm)
    (hlen : data.length = 1206) :
    (ProcessHDLPacket s data lm).Datasets.length
      ≤ s.Datasets.length
        + azimuthDecreases (reinterpretPacket data) (HDL_FIRING_PER_PKT - s.Skip) s.Skip
            s.LastAzimuth := by
  unfold ProcessHDLPacket
  rw [if_neg (by simp [hlen])]
  unfold ProcessHDLPacket.decoded
  exact ProcessHDLPacket_loop_Datasets_length _ _ _ _ _ _ _

/-! ## Which returns become points -/

/-- The laser loop of `ProcessFiring` appends the laser ids of the returns with a non-zero
distance whose laser is selected, in increasing order. -/
theorem ProcessFiring_loop_LaserId (firingData : HDLFiringData) (offset gpsTime : Nat)
    (azimuthOffset : Nat) (translation : ℚ × ℚ × ℚ) (dual : Bool) (lm : Libm) (n : Nat) :
    ∀ (j : Nat) (s : vtkInternal),
      (ProcessFiring.loop firingData offset gpsTime azimuthOffset translation dual lm n j
          s).CurrentDataset.LaserId
        = s.CurrentDataset.LaserId ++
          ((List.range' j n).filter fun k =>
            decide ((firingData.laserReturns k).distance ≠ 0) &&
              s.LaserSelection ((k + offset) % 256)).map (fun k => (k + offset) % 256) := by
  induction n with
  | zero => intro j s; simp [ProcessFiring.loop]
  | succ n ih =>
    intro j s
    simp only [ProcessFiring.loop, List.range'_succ, List.filter_cons]
    by_cases hc : (firingData.laserReturns j).distance ≠ 0 ∧
        s.LaserSelection ((j + offset) % 256) = true
    · rw [if_pos hc, ih]
      have hb : (decide ((firingData.laserReturns j).distance ≠ 0) &&
          s.LaserSelection ((j + offset) % 256)) = true := by
        simp [hc.1, hc.2]
      rw [if_pos hb, (PushFiringData_raw_columns _ _ _ _ _ _ _ _ _ _).2.1]
      simp only [List.map_cons, List.append_assoc, List.singleton_append]
      rfl
    · rw [if_neg hc, ih]
      have hb : ¬ (decide ((firingData.laserReturns j).distance ≠ 0) &&
          s.LaserSelection ((j + offset) % 256)) = true := by
        intro h
        simp only [Bool.and_eq_true, decide_eq_true_eq] at h
        exact hc h
      rw [if_neg hb]

theorem pushedLasers_lt (sel : Nat → Bool) (firingData : HDLFiringData) (offset : Nat) :
    ∀ j ∈ pushedLasers sel firingData offset, j < HDL_LASER_PER_FIRING := by
  intro j hj
  exact List.mem_range.mp (List.mem_filter.mp hj).1

theorem pushedLasers_mem (sel : Nat → Bool) (firingData : HDLFiringData) (offset j : Nat) :
    j ∈ pushedLasers sel firingData offset ↔
      j < HDL_LASER_PER_FIRING ∧ (firingData.laserReturns j).distance ≠ 0 ∧
        sel (j + offset) = true := by
  simp [pushedLasers, List.mem_filter, List.mem_range]

/-- `ProcessFiring` for an offset of 0 or 32. -/
theorem ProcessFiring_LaserId (s : vtkInternal) (firingData : HDLFiringData)
    (offset gpsTime azimuthOffset : Nat) (translation : ℚ × ℚ × ℚ) (lm : Libm)
    (hoff : offset = 0 ∨ offset = 32) :
    (ProcessFiring s firingData offset gpsTime azimuthOffset translation lm).CurrentDataset.LaserId
      = s.CurrentDataset.LaserId ++
        (pushedLasers s.LaserSelection firingData offset).map (fun j => j + offset) ∧
    (ProcessFiring s firingData offset gpsTime azimuthOffset translation
        lm).CurrentDataset.Points.length
      = s.CurrentDataset.Points.length
        + (pushedLasers s.LaserSelection firingData offset).length := by
  have hmod : ∀ k, k < HDL_LASER_PER_FIRING → (k + offset) % 256 = k + offset := by
    intro k hk
    unfold HDL_LASER_PER_FIRING at hk
    rcases hoff with h | h <;> subst h <;> omega
  have hsel : ∀ t : vtkInternal, t.LaserSelection = s.LaserSelection →
      ((List.range' 0 HDL_LASER_PER_FIRING).filter fun k =>
        decide ((firingData.laserReturns k).distance ≠ 0) &&
          t.LaserSelection ((k + offset) % 256))
        = pushedLasers s.LaserSelection firingData offset := by
    intro t ht
    rw [pushedLasers, List.range_eq_range']
    apply List.filter_congr
    intro k hk
    rw [ht, hmod k (by simpa using hk)]
  have hmap : (pushedLasers s.LaserSelection firingData offset).map (fun k => (k + offset) % 256)
      = (pushedLasers s.LaserSelection firingData offset).map (fun j => j + offset) := by
    apply List.map_congr_left
    intro k hk
    exact hmod k (pushedLasers_lt _ _ _ k hk)
  have hcount : ∀ (n j : Nat) (sel : Nat → Bool),
      firingPoints sel firingData offset n j
        = ((List.range' j n).filter fun k =>
            decide ((firingData.laserReturns k).distance ≠ 0) &&
              sel ((k + offset) % 256)).length := by
    intro n
    induction n with
    | zero => intro j sel; rfl
    | succ n ih =>
      intro j sel
      simp only [firingPoints, List.range'_succ, List.filter_cons, ih]
      by_cases hc : (firingData.laserReturns j).distance ≠ 0 ∧ sel ((j + offset) % 256) = true
      · have hb : (decide ((firingData.laserReturns j).distance ≠ 0) &&
            sel ((j + offset) % 256)) = true := by simp [hc.1, hc.2]
        rw [if_pos hc, if_pos hb, List.length_cons]
        omega
      · have hb : ¬ (decide ((firingData.laserReturns j).distance ≠ 0) &&
            sel ((j + offset) % 256)) = true := by
          intro h
          simp only [Bool.and_eq_true, decide_eq_true_eq] at h
          exact hc h
        rw [if_neg hc, if_neg hb]
        omega
  unfold ProcessFiring
  simp only []
  constructor
  · rw [ProcessFiring_loop_LaserId]
    split_ifs
    · rw [hsel _ rfl, hmap]
    · rw [hsel _ rfl, hmap]
  · rw [(ProcessFiring_loop_counts _ _ _ _ _ _ _ _ _ _).1, hcount]
    split_ifs
    · rw [hsel _ rfl]
    · rw [hsel _ rfl]

/-- The laser loop changes nothing when the distances of its lasers are zero. -/
theorem ProcessFiring_loop_silent (firingData : HDLFiringData) (offset gpsTime : Nat)
    (azimuthOffset : Nat) (translation : ℚ × ℚ × ℚ) (dual : Bool) (lm : Libm) (n : Nat) :
    ∀ (j : Nat) (s : vtkInternal),
      (∀ k, j ≤ k → k < j + n → (firingData.laserReturns k).distance = 0) →
      ProcessFiring.loop firingData offset gpsTime azimuthOffset translation dual lm n j s
        = s := by
  induction n with
  | zero => intro j s _; rfl
  | succ n ih =>
    intro j s h
    simp only [ProcessFiring.loop]
    rw [if_neg (fun hc => hc.1 (h j (le_refl _) (by omega)))]
    exact ih (j + 1) s (fun k hk1 hk2 => h k (by omega) (by omega))

theorem framesOf_FirstPointIdThisReturn (s : vtkInternal) (v : Int) :
    framesOf { s with FirstPointIdThisReturn := v } = framesOf s := rfl

/-- A firing without returns leaves the frames as they are. -/
theorem ProcessHDLPacket_fire_silent (dataPacket : HDLDataPacket) (azimuthOffset : Nat)
    (translation : ℚ × ℚ × ℚ) (lm : Libm) (i : Nat) (s : vtkInternal)
    (h : ∀ j, j < HDL_LASER_PER_FIRING → ((dataPacket.firingData i).laserReturns j).distance = 0) :
    framesOf (ProcessHDLPacket.fire dataPacket azimuthOffset translation lm i s) = framesOf s ∧
    (ProcessHDLPacket.fire dataPacket azimuthOffset translation lm i s).SplitCounter
      = s.SplitCounter := by
  unfold ProcessHDLPacket.fire ProcessFiring
  simp only []
  split_ifs <;>
    first
    | exact ⟨rfl, rfl⟩
    | (rw [ProcessFiring_loop_silent _ _ _ _ _ _ _ _ _ _
        (fun k _ hk => h k (by simpa using hk))]
       exact ⟨rfl, rfl⟩)

theorem SplitFrame_allFramesEmpty (s : vtkInternal) (force : Bool) (h : allFramesEmpty s) :
    allFramesEmpty (SplitFrame s force) := by
  unfold SplitFrame
  split_ifs
  · exact h
  · intro d hd
    simp only [framesOf, List.mem_append, List.mem_singleton] at hd
    rcases hd with (hd | hd) | hd
    · exact h d (by simp [framesOf, hd])
    · rw [hd]
      exact h s.CurrentDataset (by simp [framesOf])
    · rw [hd]
      rfl

theorem ProcessHDLPacket_loop_silent (dataPacket : HDLDataPacket) (azimuthOffset : Nat)
    (translation : ℚ × ℚ × ℚ) (lm : Libm) (hz : dataPacket.allDistancesZero) (n : Nat) :
    ∀ (i : Nat) (s : vtkInternal), i + n ≤ HDL_FIRING_PER_PKT → allFramesEmpty s →
      allFramesEmpty (ProcessHDLPacket.loop dataPacket azimuthOffset translation lm n i s) := by
  induction n with
  | zero => intro i s _ h; exact h
  | succ n ih =>
    intro i s hi h
    simp only [ProcessHDLPacket.loop]
    apply ih (i + 1) _ (by omega)
    have h1 : allFramesEmpty (if (dataPacket.firingData i).rotationalPosition < s.LastAzimuth
        then SplitFrame s false else s) := by
      split_ifs
      · exact SplitFrame_allFramesEmpty s false h
      · exact h
    have h2 := (ProcessHDLPacket_fire_silent dataPacket azimuthOffset translation lm i
      (if (dataPacket.firingData i).rotationalPosition < s.LastAzimuth
        then SplitFrame s false else s) (hz i (by omega))).1
    intro d hd
    have hd2 : d ∈ framesOf (ProcessHDLPacket.fire dataPacket azimuthOffset translation lm i
        (if (dataPacket.firingData i).rotationalPosition < s.LastAzimuth
          then SplitFrame s false else s)) := hd
    rw [h2] at hd2
    exact h1 d hd2

/-- A payload of 1206 bytes whose distances are all zero appends no point. -/
theorem ProcessHDLPacket_silent (s : vtkInternal) (data : Payload) (lm : Libm)
    (hz : (reinterpretPacket data).allDistancesZero) (h : allFramesEmpty s) :
    allFramesEmpty (ProcessHDLPacket s data lm) := by
  unfold ProcessHDLPacket
  split_ifs
  · exact h
  · unfold ProcessHDLPacket.decoded
    simp only []
    by_cases hs : s.Skip ≤ HDL_FIRING_PER_PKT
    · exact ProcessHDLPacket_loop_silent _ _ _ _ hz _ _ _ (by omega) h
    · have : HDL_FIRING_PER_PKT - s.Skip = 0 := by omega
      rw [this]
      exact h

/-- The total number of points is unchanged by such a payload. -/
theorem ProcessHDLPacket_loop_totalPoints (dataPacket : HDLDataPacket) (azimuthOffset : Nat)
    (translation : ℚ × ℚ × ℚ) (lm : Libm) (hz : dataPacket.allDistancesZero) (n : Nat) :
    ∀ (i : Nat) (s : vtkInternal), i + n ≤ HDL_FIRING_PER_PKT →
      totalPoints (ProcessHDLPacket.loop dataPacket azimuthOffset translation lm n i s)
        = totalPoints s := by
  have hT : ∀ t : vtkInternal, totalPoints t = ((framesOf t).map PolyData.numPoints).sum := by
    intro t
    simp [totalPoints, framesOf]
  induction n with
  | zero => intro i s _; rfl
  | succ n ih =>
    intro i s hi
    simp only [ProcessHDLPacket.loop]
    rw [ih (i + 1) _ (by omega)]
    have h2 := (ProcessHDLPacket_fire_silent dataPacket azimuthOffset translation lm i
      (if (dataPacket.firingData i).rotationalPosition < s.LastAzimuth
        then SplitFrame s false else s) (hz i (by omega))).1
    have e : framesOf (ProcessHDLPacket.step dataPacket azimuthOffset translation lm i s)
        = framesOf (ProcessHDLPacket.fire dataPacket azimuthOffset translation lm i
            (if (dataPacket.firingData i).rotationalPosition < s.LastAzimuth
              then SplitFrame s false else s)) := rfl
    rw [hT, e, h2, ← hT]
    split_ifs
    · unfold SplitFrame
      split_ifs
      · rfl
      · simp [totalPoints, PolyData.numPoints, CreateData]
    · rfl

theorem ProcessHDLPacket_SplitCounter (s : vtkInternal) (data : Payload) (lm : Libm)
    (h : s.SplitCounter = 0) : (ProcessHDLPacket s data lm).SplitCounter = 0 :=
  ProcessHDLPacket_preserves (fun t => t.SplitCounter = 0)
    (fun _ _ _ _ _ _ _ _ _ _ h => h) (fun _ _ h => h) (fun _ _ h => h)
    (fun t ht => by rw [SplitFrame_of_SplitCounter t ht]; exact ht)
    (fun _ _ h => h) s data lm h

/-- A firing that is processed appends the selected returns of non-zero distance with the
offset of its block. -/
theorem ProcessHDLPacket_fire_LaserId (dataPacket : HDLDataPacket) (azimuthOffset : Nat)
    (translation : ℚ × ℚ × ℚ) (lm : Libm) (i : Nat) (s : vtkInternal)
    (hp : s.PointsSkip = 0 ∨ Int.tmod (i : Int) (s.PointsSkip + 1) = 0) (offset : Nat)
    (hoff : offset = if (dataPacket.firingData i).blockIdentifier = BLOCK_0_TO_31 then 0 else 32) :
    (ProcessHDLPacket.fire dataPacket azimuthOffset translation lm i s).CurrentDataset.LaserId
      = s.CurrentDataset.LaserId ++
        (pushedLasers s.LaserSelection (dataPacket.firingData i) offset).map
          (fun j => j + offset) ∧
    (ProcessHDLPacket.fire dataPacket azimuthOffset translation lm i s).CurrentDataset.Points.length
      = s.CurrentDataset.Points.length
        + (pushedLasers s.LaserSelection (dataPacket.firingData i) offset).length := by
  unfold ProcessHDLPacket.fire
  simp only []
  rw [if_pos hp, ← hoff]
  exact ProcessFiring_LaserId s _ offset _ _ _ _ (by
    rw [hoff]
    split_ifs
    · exact Or.inl rfl
    · exact Or.inr rfl)


/-- The payload of a packet whose distances are all zero holds zero distances. -/
theorem encodePacket_allDistancesZero (p : HDLDataPacket) (h : p.allDistancesZero) :
    (reinterpretPacket (encodePacket p)).allDistancesZero := by
  intro i hi j hj
  rw [((reinterpretPacket_encodePacket p).2.2.2 i hi).2.2 j hj |>.1, h i hi j hj]

theorem allFramesEmpty_current (t : vtkInternal) (h : allFramesEmpty t) :
    t.CurrentDataset.numPoints = 0 :=
  h t.CurrentDataset (List.mem_append_right _ (List.mem_singleton_self _))

/-- The frame a final `SplitFrame()` emits. -/
theorem SplitFrame_getLast (t : vtkInternal) (h : t.SplitCounter = 0) :
    (SplitFrame t false).Datasets.getLast?
      = some { t.CurrentDataset with Verts := NewVertexCells t.CurrentDataset.Points.length } := by
  rw [SplitFrame_of_SplitCounter t h]
  simp

/-- The index starts with the entry `(0, 0)`. -/
theorem scan_first_entry (capture : List Payload) :
    (ReadFrameInformation.scan capture).filePositions.getD 0 0 = 0 ∧
    (ReadFrameInformation.scan capture).skips.getD 0 0 = 0 ∧
    (ReadFrameInformation.scan capture).filePositions.length
      = (ReadFrameInformation.scan capture).skips.length := by
  obtain ⟨h1, h2⟩ := scan_loop_index capture 0
    { lastAzimuth := 0, lastTimestamp := 0, filePositions := [0], skips := [0],
      lastFilePosition := 0, missed := [] }
  unfold ReadFrameInformation.scan
  rw [h1, h2]
  simp

/-- The skips of the index of a capture that consists of one payload of 1206 bytes. -/
theorem scan_single_skips (data : Payload) (hlen : data.length = 1206) :
    (ReadFrameInformation.scan [data]).skips.length
      = 1 + azimuthDecreases (reinterpretPacket data) HDL_FIRING_PER_PKT 0 0 := by
  have e : (ReadFrameInformation.scan [data]).skips
      = (ReadFrameInformation.firings (reinterpretPacket data) HDL_FIRING_PER_PKT 0
          { lastAzimuth := 0, lastTimestamp := 0, filePositions := [0], skips := [0],
            lastFilePosition := 0, missed := [] }).skips := by
    simp [ReadFrameInformation.scan, ReadFrameInformation.loop, ReadFrameInformation.packet, hlen]
  rw [e, scan_firings_skips_count]
  rfl

/-- C21, amended: `ProcessFiring` calls `PushFiringData` for laser `j` of `0..31` exactly when
the distance of return `j` is not zero and laser `j + offset` is selected, for the offset 0 of
block 0xEEFF and 32 of block 0xDDFF; it appends one point for each such `j`, in increasing
`j`, with laser id `j + offset` below 64.  A payload of 1206 bytes whose 384 distances are all
zero therefore appends no point to any frame, and every frame decoded from a capture that
consists of it is empty; the capture yields exactly one frame when no rotational position of
the packet is below that of the firing before it. -/
theorem C21_returns_pushed (s : vtkInternal) (firingData : HDLFiringData)
    (gpsTime azimuthOffset : Nat) (translation : ℚ × ℚ × ℚ) (lm : Libm) (data : Payload)
    (firstPointIdThisReturn : Int) :
    (∀ offset, offset = 0 ∨ offset = 32 →
      (∀ j, j ∈ pushedLasers s.LaserSelection firingData offset ↔
        j < HDL_LASER_PER_FIRING ∧ (firingData.laserReturns j).distance ≠ 0 ∧
          s.LaserSelection (j + offset) = true) ∧
      (ProcessFiring s firingData offset gpsTime azimuthOffset translation
          lm).CurrentDataset.LaserId
        = s.CurrentDataset.LaserId ++
          (pushedLasers s.LaserSelection firingData offset).map (fun j => j + offset) ∧
      (ProcessFiring s firingData offset gpsTime azimuthOffset translation
          lm).CurrentDataset.Points.length
        = s.CurrentDataset.Points.length
          + (pushedLasers s.LaserSelection firingData offset).length ∧
      (∀ j ∈ pushedLasers s.LaserSelection firingData offset, j + offset < HDL_MAX_NUM_LASERS)) ∧
    (∀ (dataPacket : HDLDataPacket) (i : Nat),
      (s.PointsSkip = 0 ∨ Int.tmod (i : Int) (s.PointsSkip + 1) = 0) →
      ((dataPacket.firingData i).blockIdentifier = BLOCK_0_TO_31 →
        (ProcessHDLPacket.fire dataPacket azimuthOffset translation lm i s).CurrentDataset.LaserId
          = s.CurrentDataset.LaserId ++
            (pushedLasers s.LaserSelection (dataPacket.firingData i) 0).map (fun j => j + 0)) ∧
      ((dataPacket.firingData i).blockIdentifier = BLOCK_32_TO_63 →
        (ProcessHDLPacket.fire dataPacket azimuthOffset translation lm i s).CurrentDataset.LaserId
          = s.CurrentDataset.LaserId ++
            (pushedLasers s.LaserSelection (dataPacket.firingData i) 32).map
              (fun j => j + 32))) ∧
    (data.length = 1206 → (reinterpretPacket data).allDistancesZero →
      totalPoints (ProcessHDLPacket s data lm) = totalPoints s ∧
      allFramesEmpty (decodeAll (vtkInternal.new firstPointIdThisReturn lm) [data] lm) ∧
      (∀ d, (GetFrame (indexedReader (vtkInternal.new firstPointIdThisReturn lm) [data]) 0
          lm).frame = some d → d.numPoints = 0) ∧
      (azimuthDecreases (reinterpretPacket data) HDL_FIRING_PER_PKT 0 0 = 0 →
        (ReadFrameInformation (vtkInternal.new firstPointIdThisReturn lm) (some [data])).2 = 1 ∧
        (decodeAll (vtkInternal.new firstPointIdThisReturn lm) [data] lm).Datasets = [] ∧
        (decodeAll (vtkInternal.new firstPointIdThisReturn lm) [data]
          lm).CurrentDataset.numPoints = 0 ∧
        ∃ d, (GetFrame (indexedReader (vtkInternal.new firstPointIdThisReturn lm) [data]) 0
            lm).frame = some d ∧ d.numPoints = 0 ∧
          (GetFrame (indexedReader (vtkInternal.new firstPointIdThisReturn lm) [data]) 0
            lm).error = none)) := by
  have hnew : allFramesEmpty (vtkInternal.new firstPointIdThisReturn lm) := by
    intro d hd
    have : d = CreateData 0 := by simpa [framesOf, vtkInternal.new, UnloadData] using hd
    rw [this]
    rfl
  refine ⟨?_, ?_, ?_⟩
  · intro offset hoff
    refine ⟨fun j => pushedLasers_mem _ _ _ j, (ProcessFiring_LaserId s firingData offset gpsTime
      azimuthOffset translation lm hoff).1, (ProcessFiring_LaserId s firingData offset gpsTime
      azimuthOffset translation lm hoff).2, ?_⟩
    intro j hj
    have := pushedLasers_lt _ _ _ j hj
    unfold HDL_LASER_PER_FIRING at this
    unfold HDL_MAX_NUM_LASERS
    rcases hoff with h | h <;> subst h <;> omega
  · intro dataPacket i hp
    constructor
    · intro hb
      exact (ProcessHDLPacket_fire_LaserId dataPacket azimuthOffset translation lm i s hp 0
        (by rw [if_pos hb])).1
    · intro hb
      exact (ProcessHDLPacket_fire_LaserId dataPacket azimuthOffset translation lm i s hp 32
        (by rw [if_neg (by rw [hb]; decide)])).1
  · intro hlen hz
    have hdec : decodeAll (vtkInternal.new firstPointIdThisReturn lm) [data] lm
        = ProcessHDLPacket (vtkInternal.new firstPointIdThisReturn lm) data lm := rfl
    have hempty := ProcessHDLPacket_silent (vtkInternal.new firstPointIdThisReturn lm) data lm
      hz hnew
    have hr : (indexedReader (vtkInternal.new firstPointIdThisReturn lm) [data]).Reader
        = some { packets := [data], position := 0 } := rfl
    have hfp : (indexedReader (vtkInternal.new firstPointIdThisReturn lm) [data]).FilePositions
        = (ReadFrameInformation.scan [data]).filePositions := rfl
    have hsk : (indexedReader (vtkInternal.new firstPointIdThisReturn lm) [data]).Skips
        = (ReadFrameInformation.scan [data]).skips := rfl
    obtain ⟨hp0, hs0, hls⟩ := scan_first_entry [data]
    have hG : (GetFrame (indexedReader (vtkInternal.new firstPointIdThisReturn lm) [data]) 0
          lm).frame
        = (GetFrame.loop lm [data]
            (withIndex (some { packets := [data], position := 0 })
              (ReadFrameInformation.scan [data]).filePositions
              (ReadFrameInformation.scan [data]).skips
              { UnloadData (indexedReader (vtkInternal.new firstPointIdThisReturn lm) [data])
                  with Skip := 0 })).Datasets.getLast? ∧
        (GetFrame (indexedReader (vtkInternal.new firstPointIdThisReturn lm) [data]) 0
          lm).error = none := by
      have := GetFrame_eq (indexedReader (vtkInternal.new firstPointIdThisReturn lm) [data])
        [data] 0 0 lm hr (Nat.zero_le _)
      rw [hfp, hsk, hp0, hs0] at this
      exact this
    have hstart : allFramesEmpty
        (withIndex (some { packets := [data], position := 0 })
          (ReadFrameInformation.scan [data]).filePositions
          (ReadFrameInformation.scan [data]).skips
          { UnloadData (indexedReader (vtkInternal.new firstPointIdThisReturn lm) [data])
              with Skip := 0 }) := by
      intro d hd
      have : d = CreateData 0 := by simpa [framesOf, UnloadData, withIndex] using hd
      rw [this]
      rfl
    have hafter := ProcessHDLPacket_silent (advanceReader
        (withIndex (some { packets := [data], position := 0 })
          (ReadFrameInformation.scan [data]).filePositions
          (ReadFrameInformation.scan [data]).skips
          { UnloadData (indexedReader (vtkInternal.new firstPointIdThisReturn lm) [data])
              with Skip := 0 })) data lm hz hstart
    have hloop : allFramesEmpty (GetFrame.loop lm [data]
        (withIndex (some { packets := [data], position := 0 })
          (ReadFrameInformation.scan [data]).filePositions
          (ReadFrameInformation.scan [data]).skips
          { UnloadData (indexedReader (vtkInternal.new firstPointIdThisReturn lm) [data])
              with Skip := 0 })) := by
      simp only [GetFrame.loop]
      split_ifs
      · exact hafter
      · exact SplitFrame_allFramesEmpty _ false hafter
    refine ⟨?_, by rw [hdec]; exact hempty, ?_, ?_⟩
    · unfold ProcessHDLPacket
      rw [if_neg (by simp [hlen])]
      unfold ProcessHDLPacket.decoded
      simp only []
      by_cases hs : s.Skip ≤ HDL_FIRING_PER_PKT
      · exact ProcessHDLPacket_loop_totalPoints _ _ _ _ hz _ _ _ (by omega)
      · have : HDL_FIRING_PER_PKT - s.Skip = 0 := by omega
        rw [this]
        rfl
    · intro d hd
      rw [hG.1] at hd
      exact hloop d (by
        simp only [framesOf, List.mem_append]
        exact Or.inl (List.mem_of_getLast?_eq_some hd))
    · intro hrot
      have hD : (ProcessHDLPacket (vtkInternal.new firstPointIdThisReturn lm) data
          lm).Datasets = [] := by
        have := ProcessHDLPacket_Datasets_length (vtkInternal.new firstPointIdThisReturn lm)
          data lm hlen
        have e1 : (vtkInternal.new firstPointIdThisReturn lm).Datasets = [] := rfl
        have e2 : (vtkInternal.new firstPointIdThisReturn lm).Skip = 0 := rfl
        have e3 : (vtkInternal.new firstPointIdThisReturn lm).LastAzimuth = 0 := rfl
        rw [e1, e2, e3, Nat.sub_zero, hrot] at this
        exact List.length_eq_zero.mp (Nat.le_zero.mp this)
      refine ⟨?_, by rw [hdec]; exact hD, ?_, ?_⟩
      · show ((ReadFrameInformation.scan [data]).filePositions.length : Int) = 1
        rw [hls, scan_single_skips data hlen, hrot]
        rfl
      · rw [hdec]
        exact allFramesEmpty_current _ hempty
      · have hD2 : (ProcessHDLPacket (advanceReader
            (withIndex (some { packets := [data], position := 0 })
              (ReadFrameInformation.scan [data]).filePositions
              (ReadFrameInformation.scan [data]).skips
              { UnloadData (indexedReader (vtkInternal.new firstPointIdThisReturn lm) [data])
                  with Skip := 0 })) data lm).Datasets = [] := by
          have := ProcessHDLPacket_Datasets_length (advanceReader
            (withIndex (some { packets := [data], position := 0 })
              (ReadFrameInformation.scan [data]).filePositions
              (ReadFrameInformation.scan [data]).skips
              { UnloadData (indexedReader (vtkInternal.new firstPointIdThisReturn lm) [data])
                  with Skip := 0 })) data lm hlen
          have e1 : (advanceReader
            (withIndex (some { packets := [data], position := 0 })
              (ReadFrameInformation.scan [data]).filePositions
              (ReadFrameInformation.scan [data]).skips
              { UnloadData (indexedReader (vtkInternal.new firstPointIdThisReturn lm) [data])
                  with Skip := 0 })).Datasets = [] := rfl
          have e2 : (advanceReader
            (withIndex (some { packets := [data], position := 0 })
              (ReadFrameInformation.scan [data]).filePositions
              (ReadFrameInformation.scan [data]).skips
              { UnloadData (indexedReader (vtkInternal.new firstPointIdThisReturn lm) [data])
                  with Skip := 0 })).Skip = 0 := rfl
          have e3 : (advanceReader
            (withIndex (some { packets := [data], position := 0 })
              (ReadFrameInformation.scan [data]).filePositions
              (ReadFrameInformation.scan [data]).skips
              { UnloadData (indexedReader (vtkInternal.new firstPointIdThisReturn lm) [data])
                  with Skip := 0 })).LastAzimuth = 0 := rfl
          rw [e1, e2, e3, Nat.sub_zero, hrot] at this
          exact List.length_eq_zero.mp (Nat.le_zero.mp this)
        have hSC : (ProcessHDLPacket (advanceReader
            (withIndex (some { packets := [data], position := 0 })
              (ReadFrameInformation.scan [data]).filePositions
              (ReadFrameInformation.scan [data]).skips
              { UnloadData (indexedReader (vtkInternal.new firstPointIdThisReturn lm) [data])
                  with Skip := 0 })) data lm).SplitCounter = 0 :=
          ProcessHDLPacket_SplitCounter _ data lm rfl
        have hres : GetFrame.loop lm [data]
            (withIndex (some { packets := [data], position := 0 })
              (ReadFrameInformation.scan [data]).filePositions
              (ReadFrameInformation.scan [data]).skips
              { UnloadData (indexedReader (vtkInternal.new firstPointIdThisReturn lm) [data])
                  with Skip := 0 })
            = SplitFrame (ProcessHDLPacket (advanceReader
                (withIndex (some { packets := [data], position := 0 })
                  (ReadFrameInformation.scan [data]).filePositions
                  (ReadFrameInformation.scan [data]).skips
                  { UnloadData (indexedReader (vtkInternal.new firstPointIdThisReturn lm) [data])
                      with Skip := 0 })) data lm) false := by
          simp only [GetFrame.loop]
          rw [if_neg (by rw [hD2]; simp)]
        rw [hG.1, hres]
        refine ⟨_, SplitFrame_getLast _ hSC, ?_, hG.2⟩
        exact allFramesEmpty_current _ hafter

theorem silentPacket_allDistancesZero :
    (reinterpretPacket (encodePacket silentPacket)).allDistancesZero :=
  encodePacket_allDistancesZero silentPacket (fun _ _ _ _ => rfl)

set_option maxRecDepth 100000 in
theorem C21_returns_pushed_witness :
    ((0 : Nat) = 0 ∨ (0 : Nat) = 32) ∧
    pushedLasers (vtkInternal.new 0 exampleLibm).LaserSelection (dualReturnPacket.firingData 0) 0
      = [0] ∧
    (ProcessFiring (vtkInternal.new 0 exampleLibm) (dualReturnPacket.firingData 0) 0 123456 0
        (0, 0, 0) exampleLibm).CurrentDataset.LaserId
      = (vtkInternal.new 0 exampleLibm).CurrentDataset.LaserId ++
        (pushedLasers (vtkInternal.new 0 exampleLibm).LaserSelection
          (dualReturnPacket.firingData 0) 0).map (fun j => j + 0) ∧
    (encodePacket silentPacket).length = 1206 ∧
    (reinterpretPacket (encodePacket silentPacket)).allDistancesZero ∧
    azimuthDecreases (reinterpretPacket (encodePacket silentPacket)) HDL_FIRING_PER_PKT 0 0 = 0 ∧
    (ReadFrameInformation (vtkInternal.new 0 exampleLibm)
      (some [encodePacket silentPacket])).2 = 1 ∧
    (∃ d, (GetFrame (indexedReader (vtkInternal.new 0 exampleLibm) [encodePacket silentPacket]) 0
        exampleLibm).frame = some d ∧ d.numPoints = 0 ∧
      (GetFrame (indexedReader (vtkInternal.new 0 exampleLibm) [encodePacket silentPacket]) 0
        exampleLibm).error = none) := by
  have hrot : azimuthDecreases (reinterpretPacket (encodePacket silentPacket))
      HDL_FIRING_PER_PKT 0 0 = 0 := by decide
  have h := C21_returns_pushed (vtkInternal.new 0 exampleLibm) (dualReturnPacket.firingData 0)
    123456 0 (0, 0, 0) exampleLibm (encodePacket silentPacket) 0
  exact ⟨Or.inl rfl, by decide, (h.1 0 (Or.inl rfl)).2.1, rfl, silentPacket_allDistancesZero,
    hrot, ((h.2.2 rfl silentPacket_allDistancesZero).2.2.2 hrot).1,
    ((h.2.2 rfl silentPacket_allDistancesZero).2.2.2 hrot).2.2.2⟩

set_option maxRecDepth 100000 in
/-- C21, as stated, fails in its last part: a payload of 1206 bytes whose distances are all zero
and whose rotational position decreases at firing 1 makes a capture of two frames, not one. -/
theorem C21_silent_packet_with_wrap_gives_two_frames :
    (encodePacket silentWrapPacket).length = 1206 ∧
    (reinterpretPacket (encodePacket silentWrapPacket)).allDistancesZero ∧
    (ReadFrameInformation (vtkInternal.new 0 exampleLibm)
      (some [encodePacket silentWrapPacket])).2 = 2 ∧
    ((framesOf (decodeAll (vtkInternal.new 0 exampleLibm) [encodePacket silentWrapPacket]
      exampleLibm)).map PolyData.numPoints) = [0, 0] := by
  refine ⟨rfl, encodePacket_allDistancesZero silentWrapPacket (fun _ _ _ _ => rfl),
    by decide!, by decide!⟩

/-! ## The effective azimuth indexes the tables -/

theorem SetCorrectionsCommon_tables (s : vtkInternal) :
    (SetCorrectionsCommon s).cos_lookup_table_ = s.cos_lookup_table_ ∧
    (SetCorrectionsCommon s).sin_lookup_table_ = s.sin_lookup_table_ := ⟨rfl, rfl⟩

theorem flatMap_singleton_cast (l : List Nat) :
    (l.flatMap fun a => [(a : ℚ)]) = List.map (fun (a : Nat) => (a : ℚ)) l := by
  induction l with
  | nil => rfl
  | cons a rest ih => rw [List.flatMap_cons, ih]; rfl

theorem range_cast (n : Nat) :
    (do let a ← List.range n; pure (a : ℚ) : List ℚ)
      = List.map (fun (a : Nat) => (a : ℚ)) (List.range n) := by
  simp [flatMap_singleton_cast]

/-- The tables of the initial state: `InitTables` fills the 36001 entries. -/
theorem new_tables (firstPointIdThisReturn : Int) (lm : Libm) :
    (vtkInternal.new firstPointIdThisReturn lm).cos_lookup_table_
      = (List.range HDL_NUM_ROT_ANGLES).map
          (fun (i : Nat) => lm.cos (HDL_Grabber_toRadians lm (ddiv (i : ℚ) 100))) ∧
    (vtkInternal.new firstPointIdThisReturn lm).sin_lookup_table_
      = (List.range HDL_NUM_ROT_ANGLES).map
          (fun (i : Nat) => lm.sin (HDL_Grabber_toRadians lm (ddiv (i : ℚ) 100))) := by
  constructor
  · simp only [vtkInternal.new, UnloadData, Init, LoadHDL32Corrections, SetCorrectionsCommon,
      InitTables, and_self, if_true]
    rw [range_cast, List.map_map]
    simp only [Function.comp_def]
  · simp only [vtkInternal.new, UnloadData, Init, LoadHDL32Corrections, SetCorrectionsCommon,
      InitTables, and_self, if_true]
    rw [range_cast, List.map_map]
    simp only [Function.comp_def]

/-- Decoding payloads does not write the tables. -/
theorem decodeAll_tables (s : vtkInternal) (packets : List Payload) (lm : Libm) :
    (decodeAll s packets lm).cos_lookup_table_ = s.cos_lookup_table_ ∧
    (decodeAll s packets lm).sin_lookup_table_ = s.sin_lookup_table_ :=
  decodeAll_preserves
    (fun t => t.cos_lookup_table_ = s.cos_lookup_table_ ∧
      t.sin_lookup_table_ = s.sin_lookup_table_)
    (fun _ _ _ _ _ _ _ _ _ _ h => h) (fun _ _ h => h) (fun _ _ h => h)
    (fun t h => by
      unfold SplitFrame
      split_ifs <;> exact h)
    (fun _ _ h => h) lm packets s ⟨rfl, rfl⟩

/-- C23: for 16-bit `azimuth` and `azimuthAdjustment`, the effective azimuth
`(azimuth + azimuthAdjustment) mod 36000` of `PushFiringData`, whose sum is formed in `int`
without overflow, is below 36000, is unchanged when
stored back into the `unsigned short`, and is an index of an entry of both tables, which hold
`HDL_NUM_ROT_ANGLES = 36001` entries in the initial state and after decoding any payloads; the
table read yields the entry computed for that angle and not the out-of-bounds default. -/
theorem C23_effective_azimuth_indexes_tables (azimuth azimuthAdjustment : Nat)
    (ha : azimuth < 65536) (hadj : azimuthAdjustment < 65536) (firstPointIdThisReturn : Int)
    (lm : Libm) (packets : List Payload) :
    azimuth + azimuthAdjustment < 2 ^ 31 ∧
    PushFiringData.effectiveAzimuth azimuth azimuthAdjustment
      = (azimuth + azimuthAdjustment) % 36000 ∧
    PushFiringData.effectiveAzimuth azimuth azimuthAdjustment < 36000 ∧
    (azimuth + azimuthAdjustment) % 36000 % 65536 = (azimuth + azimuthAdjustment) % 36000 ∧
    (decodeAll (vtkInternal.new firstPointIdThisReturn lm) packets lm).cos_lookup_table_.length
      = 36001 ∧
    (decodeAll (vtkInternal.new firstPointIdThisReturn lm) packets lm).sin_lookup_table_.length
      = 36001 ∧
    (decodeAll (vtkInternal.new firstPointIdThisReturn lm) packets lm).cos_lookup_table_[
        PushFiringData.effectiveAzimuth azimuth azimuthAdjustment]?
      = some (lm.cos (HDL_Grabber_toRadians lm
          (ddiv (PushFiringData.effectiveAzimuth azimuth azimuthAdjustment : Nat) 100))) ∧
    (decodeAll (vtkInternal.new firstPointIdThisReturn lm) packets lm).sin_lookup_table_[
        PushFiringData.effectiveAzimuth azimuth azimuthAdjustment]?
      = some (lm.sin (HDL_Grabber_toRadians lm
          (ddiv (PushFiringData.effectiveAzimuth azimuth azimuthAdjustment : Nat) 100))) := by
  have h0 : (azimuth + azimuthAdjustment) % 36000 < 36000 := Nat.mod_lt _ (by norm_num)
  have h1 := effectiveAzimuth_eq azimuth azimuthAdjustment
  obtain ⟨hc, hs⟩ := decodeAll_tables (vtkInternal.new firstPointIdThisReturn lm) packets lm
  obtain ⟨nc, ns⟩ := new_tables firstPointIdThisReturn lm
  have hlt : PushFiringData.effectiveAzimuth azimuth azimuthAdjustment < HDL_NUM_ROT_ANGLES := by
    rw [h1]
    unfold HDL_NUM_ROT_ANGLES
    omega
  refine ⟨by omega, h1, by rw [h1]; exact h0, by omega, ?_, ?_, ?_, ?_⟩
  · rw [hc, nc, List.length_map, List.length_range]; rfl
  · rw [hs, ns, List.length_map, List.length_range]; rfl
  · rw [hc, nc, List.getElem?_map, List.getElem?_range hlt]
    rfl
  · rw [hs, ns, List.getElem?_map, List.getElem?_range hlt]
    rfl

theorem C23_effective_azimuth_indexes_tables_witness :
    (65535 : Nat) < 65536 ∧
    PushFiringData.effectiveAzimuth 65535 65535 = 23070 ∧
    PushFiringData.effectiveAzimuth 65535 65535 < 36000 ∧
    (decodeAll (vtkInternal.new 0 exampleLibm) [firstSweepPayload]
      exampleLibm).cos_lookup_table_.length = 36001 :=
  ⟨by decide, by decide,
    (C23_effective_azimuth_indexes_tables 65535 65535 (by decide) (by decide) 0 exampleLibm
      [firstSweepPayload]).2.2.1,
    (C23_effective_azimuth_indexes_tables 65535 65535 (by decide) (by decide) 0 exampleLibm
      [firstSweepPayload]).2.2.2.2.1⟩

/-! ## Dual returns and their partners -/

/-- A property that `PushFiringData` and the write of the point count to
`FirstPointIdThisReturn` preserve is preserved by `ProcessFiring`. -/
theorem ProcessFiring_maintains (P : vtkInternal → Prop)
    (hP : ∀ (s : vtkInternal) (laserId azimuth timestamp : Nat) (laserReturn : HDLLaserReturn)
      (correction : HDLLaserCorrection) (azimuthAdjustment : Nat) (translation : ℚ × ℚ × ℚ)
      (dualReturn : Bool) (lm : Libm), P s →
      P (PushFiringData s laserId azimuth timestamp laserReturn correction azimuthAdjustment
        translation dualReturn lm))
    (hF : ∀ (s : vtkInternal), P s →
      P { s with FirstPointIdThisReturn := (s.CurrentDataset.Points.length : Int) })
    (s : vtkInternal) (firingData : HDLFiringData) (offset gpsTime azimuthOffset : Nat)
    (translation : ℚ × ℚ × ℚ) (lm : Libm) (h : P s) :
    P (ProcessFiring s firingData offset gpsTime azimuthOffset translation lm) := by
  unfold ProcessFiring
  apply ProcessFiring_loop_preserves P hP
  split_ifs
  · exact hF _ h
  · exact h

/-- The same for one iteration of the firing loop. -/
theorem ProcessHDLPacket_step_maintains (P : vtkInternal → Prop)
    (hP : ∀ (s : vtkInternal) (laserId azimuth timestamp : Nat) (laserReturn : HDLLaserReturn)
      (correction : HDLLaserCorrection) (azimuthAdjustment : Nat) (translation : ℚ × ℚ × ℚ)
      (dualReturn : Bool) (lm : Libm), P s →
      P (PushFiringData s laserId azimuth timestamp laserReturn correction azimuthAdjustment
        translation dualReturn lm))
    (hF : ∀ (s : vtkInternal), P s →
      P { s with FirstPointIdThisReturn := (s.CurrentDataset.Points.length : Int) })
    (hA : ∀ (s : vtkInternal) (v : Nat), P s → P { s with LastAzimuth := v })
    (hS : ∀ (s : vtkInternal), P s → P (SplitFrame s false))
    (dataPacket : HDLDataPacket) (azimuthOffset : Nat) (translation : ℚ × ℚ × ℚ) (lm : Libm)
    (i : Nat) (s : vtkInternal) (h : P s) :
    P (ProcessHDLPacket.step dataPacket azimuthOffset translation lm i s) := by
  unfold ProcessHDLPacket.step
  apply hA
  unfold ProcessHDLPacket.fire
  simp only []
  split_ifs
  all_goals first
    | exact ProcessFiring_maintains P hP hF _ _ _ _ _ _ _ (hS _ h)
    | exact ProcessFiring_maintains P hP hF _ _ _ _ _ _ _ h
    | exact hS _ h
    | exact h

/-- The same for the firing loop. -/
theorem ProcessHDLPacket_loop_maintains (P : vtkInternal → Prop)
    (hP : ∀ (s : vtkInternal) (laserId azimuth timestamp : Nat) (laserReturn : HDLLaserReturn)
      (correction : HDLLaserCorrection) (azimuthAdjustment : Nat) (translation : ℚ × ℚ × ℚ)
      (dualReturn : Bool) (lm : Libm), P s →
      P (PushFiringData s laserId azimuth timestamp laserReturn correction azimuthAdjustment
        translation dualReturn lm))
    (hF : ∀ (s : vtkInternal), P s →
      P { s with FirstPointIdThisReturn := (s.CurrentDataset.Points.length : Int) })
    (hA : ∀ (s : vtkInternal) (v : Nat), P s → P { s with LastAzimuth := v })
    (hS : ∀ (s : vtkInternal), P s → P (SplitFrame s false))
    (dataPacket : HDLDataPacket) (azimuthOffset : Nat) (translation : ℚ × ℚ × ℚ) (lm : Libm)
    (n : Nat) : ∀ (i : Nat) (s : vtkInternal), P s →
      P (ProcessHDLPacket.loop dataPacket azimuthOffset translation lm n i s) := by
  induction n with
  | zero => intro i s h; exact h
  | succ n ih =>
    intro i s h
    simp only [ProcessHDLPacket.loop]
    exact ih _ _ (ProcessHDLPacket_step_maintains P hP hF hA hS _ _ _ _ _ _ h)

/-- The same for `ProcessHDLPacket`, which also writes `Skip`. -/
theorem ProcessHDLPacket_maintains (P : vtkInternal → Prop)
    (hP : ∀ (s : vtkInternal) (laserId azimuth timestamp : Nat) (laserReturn : HDLLaserReturn)
      (correction : HDLLaserCorrection) (azimuthAdjustment : Nat) (translation : ℚ × ℚ × ℚ)
      (dualReturn : Bool) (lm : Libm), P s →
      P (PushFiringData s laserId azimuth timestamp laserReturn correction azimuthAdjustment
        translation dualReturn lm))
    (hF : ∀ (s : vtkInternal), P s →
      P { s with FirstPointIdThisReturn := (s.CurrentDataset.Points.length : Int) })
    (hA : ∀ (s : vtkInternal) (v : Nat), P s → P { s with LastAzimuth := v })
    (hS : ∀ (s : vtkInternal), P s → P (SplitFrame s false))
    (hK : ∀ (s : vtkInternal) (v : Nat), P s → P { s with Skip := v })
    (s : vtkInternal) (data : Payload) (lm : Libm) (h : P s) :
    P (ProcessHDLPacket s data lm) := by
  unfold ProcessHDLPacket
  split_ifs
  · exact h
  · exact ProcessHDLPacket_loop_maintains P hP hF hA hS _ _ _ _ _ _ _ (hK _ _ h)

/-- The same for a whole capture. -/
theorem decodeAll_maintains (P : vtkInternal → Prop)
    (hP : ∀ (s : vtkInternal) (laserId azimuth timestamp : Nat) (laserReturn : HDLLaserReturn)
      (correction : HDLLaserCorrection) (azimuthAdjustment : Nat) (translation : ℚ × ℚ × ℚ)
      (dualReturn : Bool) (lm : Libm), P s →
      P (PushFiringData s laserId azimuth timestamp laserReturn correction azimuthAdjustment
        translation dualReturn lm))
    (hF : ∀ (s : vtkInternal), P s →
      P { s with FirstPointIdThisReturn := (s.CurrentDataset.Points.length : Int) })
    (hA : ∀ (s : vtkInternal) (v : Nat), P s → P { s with LastAzimuth := v })
    (hS : ∀ (s : vtkInternal), P s → P (SplitFrame s false))
    (hK : ∀ (s : vtkInternal) (v : Nat), P s → P { s with Skip := v })
    (lm : Libm) (packets : List Payload) :
    ∀ (s : vtkInternal), P s → P (decodeAll s packets lm) := by
  induction packets with
  | nil => intro s h; exact h
  | cons data rest ih =>
    intro s h
    simp only [decodeAll, List.foldl_cons]
    exact ih _ (ProcessHDLPacket_maintains P hP hF hA hS hK _ _ _ h)

/-- `PushFiringData` keeps the invariant: the new point carries the laser id under which its
index is remembered. -/
theorem PushFiringData_dualInvariant (s : vtkInternal) (laserId azimuth timestamp : Nat)
    (laserReturn : HDLLaserReturn) (correction : HDLLaserCorrection) (azimuthAdjustment : Nat)
    (translation : ℚ × ℚ × ℚ) (dualReturn : Bool) (lm : Libm) (h : dualInvariant s) :
    dualInvariant (PushFiringData s laserId azimuth timestamp laserReturn correction
      azimuthAdjustment translation dualReturn lm) := by
  obtain ⟨h0, hlen, hl⟩ := h
  have hp := PushFiringData_Points s laserId azimuth timestamp laserReturn correction
    azimuthAdjustment translation dualReturn lm
  have hc := (PushFiringData_raw_columns s laserId azimuth timestamp laserReturn correction
    azimuthAdjustment translation dualReturn lm).2.1
  have hid : ∀ i, (PushFiringData s laserId azimuth timestamp laserReturn correction
      azimuthAdjustment translation dualReturn lm).LastPointId i
      = if i = laserId then (s.CurrentDataset.Points.length : Int) else s.LastPointId i :=
    fun _ => rfl
  refine ⟨h0, ?_, ?_⟩
  · rw [hp, hc, List.length_append, List.length_append, hlen]; rfl
  · intro i hi
    rw [hid, hp, hc]
    simp only [List.length_append, List.length_singleton, Nat.cast_add, Nat.cast_one]
    split_ifs with hil
    · right
      refine ⟨by omega, by omega, ?_⟩
      rw [Int.toNat_ofNat, ← hlen, hil]
      simp
    · rcases hl i hi with h1 | ⟨h1, h2, h3⟩
      · left; exact h1
      · right
        refine ⟨h1, by omega, ?_⟩
        rw [List.getElem?_append_left (by omega)]
        exact h3

theorem CreateData_dualInvariant (s : vtkInternal) (h0 : 0 ≤ s.FirstPointIdThisReturn)
    (hc : s.CurrentDataset = CreateData 0)
    (hl : ∀ i, i < HDL_MAX_NUM_LASERS → s.LastPointId i = -1) : dualInvariant s :=
  ⟨h0, by rw [hc]; rfl, fun i hi => Or.inl (hl i hi)⟩

theorem SplitFrame_dualInvariant (s : vtkInternal) (force : Bool) (h : dualInvariant s) :
    dualInvariant (SplitFrame s force) := by
  unfold SplitFrame
  split_ifs with hc
  · exact h
  · exact CreateData_dualInvariant _ h.1 rfl (fun _ hi => if_pos hi)

theorem UnloadData_dualInvariant (s : vtkInternal) (h : 0 ≤ s.FirstPointIdThisReturn) :
    dualInvariant (UnloadData s) :=
  CreateData_dualInvariant _ h rfl (fun _ hi => if_pos hi)

theorem new_dualInvariant (lm : Libm) : dualInvariant (vtkInternal.new 0 lm) :=
  CreateData_dualInvariant _ (le_refl _) rfl (fun _ hi => if_pos hi)

theorem ProcessFiring_dualInvariant (s : vtkInternal) (firingData : HDLFiringData)
    (offset gpsTime azimuthOffset : Nat) (translation : ℚ × ℚ × ℚ) (lm : Libm)
    (h : dualInvariant s) :
    dualInvariant (ProcessFiring s firingData offset gpsTime azimuthOffset translation lm) :=
  ProcessFiring_maintains dualInvariant
    (fun s _ _ _ _ _ _ _ _ _ h => PushFiringData_dualInvariant s _ _ _ _ _ _ _ _ _ h)
    (fun _ h => ⟨Int.natCast_nonneg _, h.2⟩) s _ _ _ _ _ _ h

theorem ProcessHDLPacket_dualInvariant (s : vtkInternal) (data : Payload) (lm : Libm)
    (h : dualInvariant s) : dualInvariant (ProcessHDLPacket s data lm) :=
  ProcessHDLPacket_maintains dualInvariant
    (fun s _ _ _ _ _ _ _ _ _ h => PushFiringData_dualInvariant s _ _ _ _ _ _ _ _ _ h)
    (fun _ h => ⟨Int.natCast_nonneg _, h.2⟩) (fun _ _ h => h)
    (fun s h => SplitFrame_dualInvariant s false h) (fun _ _ h => h) s data lm h

theorem decodeAll_dualInvariant (s : vtkInternal) (packets : List Payload) (lm : Libm)
    (h : dualInvariant s) : dualInvariant (decodeAll s packets lm) :=
  decodeAll_maintains dualInvariant
    (fun s _ _ _ _ _ _ _ _ _ h => PushFiringData_dualInvariant s _ _ _ _ _ _ _ _ _ h)
    (fun _ h => ⟨Int.natCast_nonneg _, h.2⟩) (fun _ _ h => h)
    (fun s h => SplitFrame_dualInvariant s false h) (fun _ _ h => h) lm packets s h

theorem GetFrame_loop_dualInvariant (lm : Libm) (packets : List Payload) :
    ∀ (s : vtkInternal), dualInvariant s → dualInvariant (GetFrame.loop lm packets s) := by
  induction packets with
  | nil => intro s h; exact SplitFrame_dualInvariant s false h
  | cons data rest ih =>
    intro s h
    have h1 : dualInvariant (ProcessHDLPacket (advanceReader s) data lm) :=
      ProcessHDLPacket_dualInvariant _ data lm h
    simp only [GetFrame.loop]
    split_ifs
    · exact h1
    · exact ih _ h1

theorem GetFrameRange_loop_dualInvariant (lm : Libm) (packets : List Payload) :
    ∀ (s : vtkInternal), dualInvariant s → dualInvariant (GetFrameRange.loop lm packets s) := by
  induction packets with
  | nil => intro s h; exact SplitFrame_dualInvariant s true h
  | cons data rest ih =>
    intro s h
    have h1 : dualInvariant (ProcessHDLPacket (advanceReader s) data lm) :=
      ProcessHDLPacket_dualInvariant _ data lm h
    simp only [GetFrameRange.loop]
    split_ifs
    · exact h1
    · exact ih _ h1

theorem GetFrame_dualInvariant (s : vtkInternal) (frameNumber : Int) (lm : Libm)
    (h : dualInvariant s) : dualInvariant (GetFrame s frameNumber lm).state := by
  have hu : dualInvariant (UnloadData s) := UnloadData_dualInvariant s h.1
  unfold GetFrame
  simp only []
  split
  · exact hu
  · split_ifs
    · exact hu
    · exact GetFrame_loop_dualInvariant lm _ _ hu

theorem GetFrameRange_dualInvariant (s : vtkInternal) (startFrame numberOfFrames : Int)
    (lm : Libm) (h : dualInvariant s) :
    dualInvariant (GetFrameRange s startFrame numberOfFrames lm).state := by
  have hu : dualInvariant (UnloadData s) := UnloadData_dualInvariant s h.1
  unfold GetFrameRange
  simp only []
  split
  · exact hu
  · exact GetFrameRange_loop_dualInvariant lm _ _ hu

/-- The state at which firing `next` is processed after firing `i`: the frame split of line
1089, if taken, leaves `LastAzimuth` as firing `i` left it. -/
theorem ProcessFiring_dual_after_step (dataPacket : HDLDataPacket) (azimuthOffset : Nat)
    (translation : ℚ × ℚ × ℚ) (lm : Libm) (i : Nat) (s : vtkInternal) (next : HDLFiringData) :
    ProcessFiring.dual
        (if next.rotationalPosition
            < (ProcessHDLPacket.step dataPacket azimuthOffset translation lm i s).LastAzimuth
          then SplitFrame (ProcessHDLPacket.step dataPacket azimuthOffset translation lm i s) false
          else ProcessHDLPacket.step dataPacket azimuthOffset translation lm i s) next
      = decide ((dataPacket.firingData i).rotationalPosition = next.rotationalPosition) := by
  unfold ProcessFiring.dual
  split_ifs
  · rw [SplitFrame_LastAzimuth]; rfl
  · rfl

/-- C22, amended: in the initial state with `FirstPointIdThisReturn = 0` and in every state
reached from it by `PushFiringData`, `ProcessFiring`, `SplitFrame`, `UnloadData`,
`ProcessHDLPacket`, `GetFrame` and `GetFrameRange`, the invariant `dualInvariant` holds; so
whenever `PushFiringData` takes the reconcile branch for a laser id below 64, the index
`prev = LastPointId[laserId]` satisfies `0 ≤ prev < thisPointId`, it is an index of the frame
under construction, and the laser id stored at `prev` is the one being pushed.  A firing is
treated as a dual return exactly when its rotational position equals `LastAzimuth`, which
after any firing of a packet, processed or not, is the rotational position of that firing;
the block identifiers are not compared. -/
theorem C22_dual_return_partner (s : vtkInternal) (h : dualInvariant s) :
    (∀ lm : Libm, dualInvariant (vtkInternal.new 0 lm)) ∧
    (∀ (laserId azimuth timestamp : Nat) (laserReturn : HDLLaserReturn)
      (correction : HDLLaserCorrection) (azimuthAdjustment : Nat) (translation : ℚ × ℚ × ℚ)
      (dualReturn : Bool) (lm : Libm),
      dualInvariant (PushFiringData s laserId azimuth timestamp laserReturn correction
        azimuthAdjustment translation dualReturn lm)) ∧
    (∀ (firingData : HDLFiringData) (offset gpsTime azimuthOffset : Nat)
      (translation : ℚ × ℚ × ℚ) (lm : Libm),
      dualInvariant (ProcessFiring s firingData offset gpsTime azimuthOffset translation lm)) ∧
    (∀ force : Bool, dualInvariant (SplitFrame s force)) ∧
    dualInvariant (UnloadData s) ∧
    (∀ (data : Payload) (lm : Libm), dualInvariant (ProcessHDLPacket s data lm)) ∧
    (∀ (packets : List Payload) (lm : Libm), dualInvariant (decodeAll s packets lm)) ∧
    (∀ (frameNumber : Int) (lm : Libm), dualInvariant (GetFrame s frameNumber lm).state) ∧
    (∀ (startFrame numberOfFrames : Int) (lm : Libm),
      dualInvariant (GetFrameRange s startFrame numberOfFrames lm).state) ∧
    (∀ (laserId azimuth timestamp : Nat) (laserReturn : HDLLaserReturn)
      (correction : HDLLaserCorrection) (azimuthAdjustment : Nat) (translation : ℚ × ℚ × ℚ)
      (lm : Libm),
      laserId < HDL_MAX_NUM_LASERS → ¬ s.LastPointId laserId < s.FirstPointIdThisReturn →
      (PushFiringData s laserId azimuth timestamp laserReturn correction azimuthAdjustment
          translation true lm).CurrentDataset
        = PushFiringData.reconcile (PushFiringData.insertRaw s.CurrentDataset laserId azimuth
            timestamp laserReturn
            (PushFiringData.point s (PushFiringData.effectiveAzimuth azimuth azimuthAdjustment)
              laserReturn correction translation lm)
            (PushFiringData.distanceM laserReturn correction))
            (s.LastPointId laserId) laserReturn.intensity
            (PushFiringData.distanceM laserReturn correction) ∧
      0 ≤ s.LastPointId laserId ∧
      s.LastPointId laserId < (s.CurrentDataset.Points.length : Int) ∧
      s.CurrentDataset.LaserId[(s.LastPointId laserId).toNat]? = some laserId) ∧
    (∀ (firingData : HDLFiringData) (offset gpsTime azimuthOffset : Nat)
      (translation : ℚ × ℚ × ℚ) (lm : Libm),
      ProcessFiring s firingData offset gpsTime azimuthOffset translation lm
        = ProcessFiring.loop firingData offset gpsTime azimuthOffset translation
            (ProcessFiring.dual s firingData) lm HDL_LASER_PER_FIRING 0
            (if ProcessFiring.dual s firingData = false then
              { s with FirstPointIdThisReturn := (s.CurrentDataset.Points.length : Int) }
            else s) ∧
      (ProcessFiring.dual s firingData = true ↔
        firingData.rotationalPosition = s.LastAzimuth)) ∧
    (∀ (dataPacket : HDLDataPacket) (azimuthOffset : Nat) (translation : ℚ × ℚ × ℚ)
      (lm : Libm) (i : Nat) (next : HDLFiringData),
      (ProcessHDLPacket.step dataPacket azimuthOffset translation lm i s).LastAzimuth
        = (dataPacket.firingData i).rotationalPosition ∧
      (ProcessFiring.dual
          (if next.rotationalPosition
              < (ProcessHDLPacket.step dataPacket azimuthOffset translation lm i s).LastAzimuth
            then SplitFrame (ProcessHDLPacket.step dataPacket azimuthOffset translation lm i s)
              false
            else ProcessHDLPacket.step dataPacket azimuthOffset translation lm i s) next = true ↔
        next.rotationalPosition = (dataPacket.firingData i).rotationalPosition)) := by
  refine ⟨new_dualInvariant,
    fun _ _ _ _ _ _ _ _ _ => PushFiringData_dualInvariant s _ _ _ _ _ _ _ _ _ h,
    fun _ _ _ _ _ _ => ProcessFiring_dualInvariant s _ _ _ _ _ _ h,
    fun force => SplitFrame_dualInvariant s force h,
    UnloadData_dualInvariant s h.1,
    fun data lm => ProcessHDLPacket_dualInvariant s data lm h,
    fun packets lm => decodeAll_dualInvariant s packets lm h,
    fun n lm => GetFrame_dualInvariant s n lm h,
    fun a b lm => GetFrameRange_dualInvariant s a b lm h, ?_, ?_, ?_⟩
  · intro laserId azimuth timestamp laserReturn correction azimuthAdjustment translation lm
      hid hprev
    refine ⟨PushFiringData_reconciled s laserId azimuth timestamp laserReturn correction
      azimuthAdjustment translation true lm ⟨rfl, hprev⟩, ?_⟩
    rcases h.2.2 laserId hid with h1 | ⟨h1, h2, h3⟩
    · exfalso
      have := h.1
      omega
    · exact ⟨h1, h2, h3⟩
  · intro firingData offset gpsTime azimuthOffset translation lm
    refine ⟨rfl, ?_⟩
    unfold ProcessFiring.dual
    rw [decide_eq_true_iff]
    exact eq_comm
  · intro dataPacket azimuthOffset translation lm i next
    refine ⟨rfl, ?_⟩
    rw [ProcessFiring_dual_after_step, decide_eq_true_iff]
    exact eq_comm

set_option maxRecDepth 100000 in
theorem C22_dual_return_partner_witness :
    dualInvariant dualReturnFirst ∧
    ¬ dualReturnFirst.LastPointId 0 < dualReturnFirst.FirstPointIdThisReturn ∧
    dualReturnFirst.LastPointId 0 = 0 ∧
    dualReturnFirst.CurrentDataset.Points.length = 1 ∧
    (0 ≤ dualReturnFirst.LastPointId 0 ∧
      dualReturnFirst.LastPointId 0 < (dualReturnFirst.CurrentDataset.Points.length : Int) ∧
      dualReturnFirst.CurrentDataset.LaserId[(dualReturnFirst.LastPointId 0).toNat]? = some 0) ∧
    (ProcessFiring.dual dualReturnFirst (dualReturnPacket.firingData 1) = true ↔
      (dualReturnPacket.firingData 1).rotationalPosition = dualReturnFirst.LastAzimuth) := by
  have hinv : dualInvariant dualReturnFirst :=
    ProcessHDLPacket_step_maintains dualInvariant
      (fun s _ _ _ _ _ _ _ _ _ h => PushFiringData_dualInvariant s _ _ _ _ _ _ _ _ _ h)
      (fun _ h => ⟨Int.natCast_nonneg _, h.2⟩) (fun _ _ h => h)
      (fun s h => SplitFrame_dualInvariant s false h) _ _ _ _ _ _ (new_dualInvariant exampleLibm)
  have hprev : ¬ dualReturnFirst.LastPointId 0 < dualReturnFirst.FirstPointIdThisReturn := by
    decide
  have h := C22_dual_return_partner dualReturnFirst hinv
  exact ⟨hinv, hprev, by decide, by decide,
    (h.2.2.2.2.2.2.2.2.2.1 0 18000 123456 ⟨2000, 80⟩ (dualReturnFirst.laser_corrections_ 0) 0
      (0, 0, 0) exampleLibm (by decide) hprev).2,
    (h.2.2.2.2.2.2.2.2.2.2.1 (dualReturnPacket.firingData 1) 0 123456 0 (0, 0, 0)
      exampleLibm).2⟩

set_option maxRecDepth 100000 in
/-- C22, as stated, fails in its last part: in a packet whose firings 0 and 1 carry the same
rotational position under the block identifiers 0xEEFF and 0xDDFF, firing 1 is treated as a
dual return although the firing before it has another block identifier:
`FirstPointIdThisReturn` stays 0 with one point in the frame, and both points get
`DUAL_DOUBLED`.  A first firing with rotational position 0 is treated as a dual return in the
initial state, with no firing before it. -/
theorem C22_dual_across_block_identifiers :
    (upperLowerPacket.firingData 0).blockIdentifier = BLOCK_0_TO_31 ∧
    (upperLowerPacket.firingData 1).blockIdentifier = BLOCK_32_TO_63 ∧
    (upperLowerPacket.firingData 0).rotationalPosition
      = (upperLowerPacket.firingData 1).rotationalPosition ∧
    ProcessFiring.dual upperLowerFirst (upperLowerPacket.firingData 1) = true ∧
    upperLowerFirst.CurrentDataset.Points.length = 1 ∧
    upperLowerSecond.FirstPointIdThisReturn = 0 ∧
    upperLowerSecond.CurrentDataset.LaserId = [0, 32] ∧
    upperLowerSecond.CurrentDataset.Flags = [DUAL_DOUBLED, DUAL_DOUBLED] ∧
    ProcessFiring.dual (vtkInternal.new 0 exampleLibm) (silentPacket.firingData 0) = true := by
  refine ⟨rfl, rfl, rfl, by decide, by decide, by decide, by decide, by decide, by decide⟩

/-! ## Seeking against sequential decoding -/

theorem Seeks_PushFiringData (D : List PolyData) (a q : vtkInternal) (h : Seeks D a q)
    (laserId azimuth timestamp : Nat) (laserReturn : HDLLaserReturn)
    (correction : HDLLaserCorrection) (azimuthAdjustment : Nat) (translation : ℚ × ℚ × ℚ)
    (dual : Bool) (lm : Libm) (hl : laserId < HDL_MAX_NUM_LASERS) :
    Seeks D
      (PushFiringData a laserId azimuth timestamp laserReturn correction azimuthAdjustment
        translation dual lm)
      (PushFiringData q laserId azimuth timestamp laserReturn correction azimuthAdjustment
        translation dual lm) := by
  refine ⟨h.Datasets, ?_, ?_, h.FirstPointIdThisReturn, h.Interp, h.ApplyTransform,
    h.PointsSkip, h.LaserSelection, h.laser_corrections_, h.cos_lookup_table_,
    h.sin_lookup_table_, h.seeking, h.sequential⟩
  · unfold PushFiringData
    simp only []
    rw [point_congr a q h.cos_lookup_table_ h.sin_lookup_table_, h.CurrentDataset,
      h.LastPointId laserId hl, h.FirstPointIdThisReturn]
  · intro i hi
    show (if i = laserId then (a.CurrentDataset.Points.length : Int) else a.LastPointId i)
      = (if i = laserId then (q.CurrentDataset.Points.length : Int) else q.LastPointId i)
    rw [h.CurrentDataset, h.LastPointId i hi]

theorem Seeks_ProcessFiring_loop (D : List PolyData) (firingData : HDLFiringData)
    (offset gpsTime azimuthOffset : Nat) (translation : ℚ × ℚ × ℚ) (dual : Bool)
    (lm : Libm) (ho : offset ≤ 32) (m : Nat) :
    ∀ (j : Nat) (a q : vtkInternal), j + m ≤ HDL_LASER_PER_FIRING → Seeks D a q →
      Seeks D
        (ProcessFiring.loop firingData offset gpsTime azimuthOffset translation dual lm m j a)
        (ProcessFiring.loop firingData offset gpsTime azimuthOffset translation dual lm m j q) := by
  induction m with
  | zero => intro j a q _ h; exact h
  | succ m ih =>
    intro j a q hj h
    simp only [ProcessFiring.loop]
    apply ih _ _ _ (by omega)
    rw [h.LaserSelection, h.laser_corrections_]
    split_ifs
    · refine Seeks_PushFiringData D a q h _ _ _ _ _ _ _ _ _ ?_
      unfold HDL_LASER_PER_FIRING at hj
      unfold HDL_MAX_NUM_LASERS
      omega
    · exact h

/-- `ProcessFiring` on two related states that take the same decision on `dual`; when the
firing is not a dual return, `FirstPointIdThisReturn` need not agree before. -/
theorem Seeks_ProcessFiring (D : List PolyData) (a q : vtkInternal) (v : Int)
    (firingData : HDLFiringData) (offset gpsTime azimuthOffset : Nat)
    (translation : ℚ × ℚ × ℚ) (lm : Libm) (ho : offset ≤ 32)
    (h : Seeks D { a with FirstPointIdThisReturn := v } { q with FirstPointIdThisReturn := v })
    (hd : ProcessFiring.dual a firingData = ProcessFiring.dual q firingData)
    (hf : ProcessFiring.dual q firingData = true →
      a.FirstPointIdThisReturn = q.FirstPointIdThisReturn) :
    Seeks D (ProcessFiring a firingData offset gpsTime azimuthOffset translation lm)
      (ProcessFiring q firingData offset gpsTime azimuthOffset translation lm) := by
  have hc : a.CurrentDataset = q.CurrentDataset := h.CurrentDataset
  have e : ∀ s : vtkInternal,
      ProcessFiring s firingData offset gpsTime azimuthOffset translation lm
        = ProcessFiring.loop firingData offset gpsTime azimuthOffset translation
            (ProcessFiring.dual s firingData) lm HDL_LASER_PER_FIRING 0
            (if ProcessFiring.dual s firingData = false then
              { s with FirstPointIdThisReturn := (s.CurrentDataset.Points.length : Int) }
            else s) := fun _ => rfl
  rw [e a, e q, hd]
  apply Seeks_ProcessFiring_loop D _ _ _ _ _ _ _ ho _ _ _ _ (by simp)
  cases hq : ProcessFiring.dual q firingData with
  | false =>
    simp only [if_true]
    exact ⟨h.Datasets, h.CurrentDataset, h.LastPointId, by rw [hc], h.Interp,
      h.ApplyTransform, h.PointsSkip, h.LaserSelection, h.laser_corrections_,
      h.cos_lookup_table_, h.sin_lookup_table_, h.seeking, h.sequential⟩
  | true =>
    simp only [Bool.true_eq_false, if_false]
    exact ⟨h.Datasets, h.CurrentDataset, h.LastPointId, hf hq, h.Interp,
      h.ApplyTransform, h.PointsSkip, h.LaserSelection, h.laser_corrections_,
      h.cos_lookup_table_, h.sin_lookup_table_, h.seeking, h.sequential⟩

theorem Seeks_forget_first (D : List PolyData) (a q : vtkInternal) (v : Int)
    (h : Seeks D a q) :
    Seeks D { a with FirstPointIdThisReturn := v } { q with FirstPointIdThisReturn := v } :=
  ⟨h.Datasets, h.CurrentDataset, h.LastPointId, rfl, h.Interp, h.ApplyTransform,
    h.PointsSkip, h.LaserSelection, h.laser_corrections_, h.cos_lookup_table_,
    h.sin_lookup_table_, h.seeking, h.sequential⟩

theorem Seeks_SplitFrame (D : List PolyData) (a q : vtkInternal) (h : Seeks D a q) :
    Seeks D (SplitFrame a false) (SplitFrame q false) := by
  rw [SplitFrame_of_SplitCounter q h.sequential, SplitFrame_of_SplitCounter a h.seeking]
  refine ⟨?_, rfl, ?_, h.FirstPointIdThisReturn, h.Interp, h.ApplyTransform,
    h.PointsSkip, h.LaserSelection, h.laser_corrections_, h.cos_lookup_table_,
    h.sin_lookup_table_, h.seeking, h.sequential⟩
  · show q.Datasets ++ [_] = D ++ (a.Datasets ++ [_])
    rw [h.Datasets, h.CurrentDataset, List.append_assoc]
  · intro i hi
    show (if i < HDL_MAX_NUM_LASERS then (-1 : Int) else a.LastPointId i)
      = (if i < HDL_MAX_NUM_LASERS then (-1 : Int) else q.LastPointId i)
    rw [if_pos hi, if_pos hi]

theorem fire_offset_le (firingData : HDLFiringData) :
    (if firingData.blockIdentifier = BLOCK_0_TO_31 then 0 else 32) ≤ 32 := by
  split_ifs <;> omega

theorem Seeks_fire (D : List PolyData) (a q : vtkInternal) (h : Seeks D a q)
    (hl : a.LastAzimuth = q.LastAzimuth)
    (dataPacket : HDLDataPacket) (azimuthOffset : Nat) (translation : ℚ × ℚ × ℚ) (lm : Libm)
    (i : Nat) :
    Seeks D (ProcessHDLPacket.fire dataPacket azimuthOffset translation lm i a)
      (ProcessHDLPacket.fire dataPacket azimuthOffset translation lm i q) := by
  unfold ProcessHDLPacket.fire
  simp only [h.PointsSkip]
  by_cases hp : q.PointsSkip = 0 ∨ Int.tmod (i : Int) (q.PointsSkip + 1) = 0
  · rw [if_pos hp, if_pos hp]
    refine Seeks_ProcessFiring D a q 0 _ _ _ _ _ _ (fire_offset_le _)
      (Seeks_forget_first D a q 0 h) ?_ (fun _ => h.FirstPointIdThisReturn)
    unfold ProcessFiring.dual
    rw [hl]
  · rw [if_neg hp, if_neg hp]
    exact h

theorem Seeks_with_LastAzimuth (D : List PolyData) (a q : vtkInternal) (va vq : Nat)
    (h : Seeks D a q) : Seeks D { a with LastAzimuth := va } { q with LastAzimuth := vq } :=
  ⟨h.Datasets, h.CurrentDataset, h.LastPointId, h.FirstPointIdThisReturn, h.Interp,
    h.ApplyTransform, h.PointsSkip, h.LaserSelection, h.laser_corrections_,
    h.cos_lookup_table_, h.sin_lookup_table_, h.seeking, h.sequential⟩

theorem Seeks_step (D : List PolyData) (a q : vtkInternal) (h : Seeks D a q)
    (hl : a.LastAzimuth = q.LastAzimuth)
    (dataPacket : HDLDataPacket) (azimuthOffset : Nat) (translation : ℚ × ℚ × ℚ) (lm : Libm)
    (i : Nat) :
    Seeks D (ProcessHDLPacket.step dataPacket azimuthOffset translation lm i a)
      (ProcessHDLPacket.step dataPacket azimuthOffset translation lm i q) := by
  have h1 : Seeks D
      (if (dataPacket.firingData i).rotationalPosition < a.LastAzimuth
        then SplitFrame a false else a)
      (if (dataPacket.firingData i).rotationalPosition < q.LastAzimuth
        then SplitFrame q false else q) ∧
      (if (dataPacket.firingData i).rotationalPosition < a.LastAzimuth
        then SplitFrame a false else a).LastAzimuth
      = (if (dataPacket.firingData i).rotationalPosition < q.LastAzimuth
        then SplitFrame q false else q).LastAzimuth := by
    rw [hl]
    split_ifs
    · exact ⟨Seeks_SplitFrame D a q h, by rw [SplitFrame_LastAzimuth, SplitFrame_LastAzimuth, hl]⟩
    · exact ⟨h, hl⟩
  exact Seeks_with_LastAzimuth D _ _ _ _
    (Seeks_fire D _ _ h1.1 h1.2 dataPacket azimuthOffset translation lm i)

theorem Seeks_loop (D : List PolyData) (dataPacket : HDLDataPacket) (azimuthOffset : Nat)
    (translation : ℚ × ℚ × ℚ) (lm : Libm) (m : Nat) :
    ∀ (i : Nat) (a q : vtkInternal), Seeks D a q → a.LastAzimuth = q.LastAzimuth →
      Seeks D (ProcessHDLPacket.loop dataPacket azimuthOffset translation lm m i a)
        (ProcessHDLPacket.loop dataPacket azimuthOffset translation lm m i q) ∧
      (ProcessHDLPacket.loop dataPacket azimuthOffset translation lm m i a).LastAzimuth
        = (ProcessHDLPacket.loop dataPacket azimuthOffset translation lm m i q).LastAzimuth := by
  induction m with
  | zero => intro i a q h hl; exact ⟨h, hl⟩
  | succ m ih =>
    intro i a q h hl
    simp only [ProcessHDLPacket.loop]
    exact ih _ _ _ (Seeks_step D a q h hl _ _ _ _ _) rfl

theorem Seeks_with_Skip (D : List PolyData) (a q : vtkInternal) (va vq : Nat)
    (h : Seeks D a q) : Seeks D { a with Skip := va } { q with Skip := vq } :=
  ⟨h.Datasets, h.CurrentDataset, h.LastPointId, h.FirstPointIdThisReturn, h.Interp,
    h.ApplyTransform, h.PointsSkip, h.LaserSelection, h.laser_corrections_,
    h.cos_lookup_table_, h.sin_lookup_table_, h.seeking, h.sequential⟩

theorem Seeks_ProcessHDLPacket (D : List PolyData) (a q : vtkInternal) (h : Seeks D a q)
    (hl : a.LastAzimuth = q.LastAzimuth) (hs : a.Skip = q.Skip) (data : Payload) (lm : Libm) :
    Seeks D (ProcessHDLPacket a data lm) (ProcessHDLPacket q data lm) ∧
    (ProcessHDLPacket a data lm).LastAzimuth = (ProcessHDLPacket q data lm).LastAzimuth ∧
    (ProcessHDLPacket a data lm).Skip = (ProcessHDLPacket q data lm).Skip := by
  by_cases hlen : data.length ≠ 1206
  · have e : ∀ s : vtkInternal, ProcessHDLPacket s data lm = s := by
      intro s
      unfold ProcessHDLPacket
      rw [if_pos hlen]
    rw [e a, e q]
    exact ⟨h, hl, hs⟩
  · have hlen1 : data.length = 1206 := not_not.mp hlen
    refine ⟨?_, ?_, by rw [ProcessHDLPacket_Skip a data lm hlen1,
      ProcessHDLPacket_Skip q data lm hlen1]⟩
    · unfold ProcessHDLPacket
      rw [if_neg hlen, if_neg hlen]
      unfold ProcessHDLPacket.decoded
      simp only []
      rw [ComputeOrientation_congr a q h.Interp h.ApplyTransform, hs]
      exact (Seeks_loop D _ _ _ _ _ _ _ _ (Seeks_with_Skip D a q 0 0 h) hl).1
    · rw [ProcessHDLPacket_LastAzimuth_eq a data lm hlen1,
        ProcessHDLPacket_LastAzimuth_eq q data lm hlen1, hs, hl]

theorem Seeks_advanceReader (D : List PolyData) (a q : vtkInternal) (h : Seeks D a q) :
    Seeks D (advanceReader a) q :=
  ⟨h.Datasets, h.CurrentDataset, h.LastPointId, h.FirstPointIdThisReturn, h.Interp,
    h.ApplyTransform, h.PointsSkip, h.LaserSelection, h.laser_corrections_,
    h.cos_lookup_table_, h.sin_lookup_table_, h.seeking, h.sequential⟩

theorem ProcessHDLPacket_loop_add (dataPacket : HDLDataPacket) (azimuthOffset : Nat)
    (translation : ℚ × ℚ × ℚ) (lm : Libm) (m n : Nat) :
    ∀ (i : Nat) (s : vtkInternal),
      ProcessHDLPacket.loop dataPacket azimuthOffset translation lm (m + n) i s
        = ProcessHDLPacket.loop dataPacket azimuthOffset translation lm n (i + m)
            (ProcessHDLPacket.loop dataPacket azimuthOffset translation lm m i s) := by
  induction m with
  | zero => intro i s; rw [Nat.zero_add]; rfl
  | succ m ih =>
    intro i s
    rw [show m + 1 + n = (m + n) + 1 by omega, ProcessHDLPacket.loop, ih (i + 1),
      ProcessHDLPacket.loop, show i + 1 + m = i + (m + 1) by omega]

/-- The settings that the firing loop reads are left as they are by it. -/
theorem ProcessHDLPacket_loop_settings (dataPacket : HDLDataPacket) (azimuthOffset : Nat)
    (translation : ℚ × ℚ × ℚ) (lm : Libm) (n i : Nat) (s : vtkInternal) :
    (ProcessHDLPacket.loop dataPacket azimuthOffset translation lm n i s).Interp = s.Interp ∧
    (ProcessHDLPacket.loop dataPacket azimuthOffset translation lm n i s).ApplyTransform
      = s.ApplyTransform ∧
    (ProcessHDLPacket.loop dataPacket azimuthOffset translation lm n i s).PointsSkip
      = s.PointsSkip ∧
    (ProcessHDLPacket.loop dataPacket azimuthOffset translation lm n i s).LaserSelection
      = s.LaserSelection ∧
    (ProcessHDLPacket.loop dataPacket azimuthOffset translation lm n i s).laser_corrections_
      = s.laser_corrections_ ∧
    (ProcessHDLPacket.loop dataPacket azimuthOffset translation lm n i s).cos_lookup_table_
      = s.cos_lookup_table_ ∧
    (ProcessHDLPacket.loop dataPacket azimuthOffset translation lm n i s).sin_lookup_table_
      = s.sin_lookup_table_ := by
  refine ProcessHDLPacket_loop_preserves
    (fun t => t.Interp = s.Interp ∧ t.ApplyTransform = s.ApplyTransform ∧
      t.PointsSkip = s.PointsSkip ∧ t.LaserSelection = s.LaserSelection ∧
      t.laser_corrections_ = s.laser_corrections_ ∧
      t.cos_lookup_table_ = s.cos_lookup_table_ ∧ t.sin_lookup_table_ = s.sin_lookup_table_)
    (fun _ _ _ _ _ _ _ _ _ _ h => h) (fun _ _ h => h) (fun _ _ h => h) ?_ _ _ _ _ n i s
    ⟨rfl, rfl, rfl, rfl, rfl, rfl, rfl⟩
  intro t ht
  unfold SplitFrame
  split_ifs <;> exact ht

/-- Without an azimuth decrease the firing loop emits no frame. -/
theorem ProcessHDLPacket_loop_no_decrease (dataPacket : HDLDataPacket) (azimuthOffset : Nat)
    (translation : ℚ × ℚ × ℚ) (lm : Libm) (n i : Nat) (s : vtkInternal)
    (h : azimuthDecreases dataPacket n i s.LastAzimuth = 0) :
    (ProcessHDLPacket.loop dataPacket azimuthOffset translation lm n i s).Datasets
      = s.Datasets := by
  have hp : s.Datasets
      <+: (ProcessHDLPacket.loop dataPacket azimuthOffset translation lm n i s).Datasets :=
    ProcessHDLPacket_loop_preserves (fun t => s.Datasets <+: t.Datasets)
      (fun _ _ _ _ _ _ _ _ _ _ h => h) (fun _ _ h => h) (fun _ _ h => h)
      (fun t h => List.IsPrefix.trans h (SplitFrame_keeps_Datasets t false))
      _ _ _ _ n i s (List.prefix_refl _)
  have hl := ProcessHDLPacket_loop_Datasets_length dataPacket azimuthOffset translation lm n i s
  rw [h] at hl
  exact (hp.eq_of_length_le hl).symm

theorem scanFirings_no_decrease (dataPacket : HDLDataPacket) (pending : List Payload)
    (n i0 la : Nat) (h : azimuthDecreases dataPacket n i0 la = 0) :
    scanFirings dataPacket pending n i0 la = [] :=
  ((packet_single_boundary (fun _ => true) 0 dataPacket pending n i0 0 la).1 h).2

/-- A run of firings with exactly one azimuth decrease, at firing `i`: no decrease before
it, none behind it, and the scan adds the one entry `(pending, i)`. -/
theorem single_decrease (dataPacket : HDLDataPacket) (pending : List Payload) (n : Nat) :
    ∀ (i0 la : Nat), azimuthDecreases dataPacket n i0 la = 1 →
      ∃ i, i0 ≤ i ∧ i < i0 + n ∧
        scanFirings dataPacket pending n i0 la = [(pending, i)] ∧
        azimuthDecreases dataPacket (i - i0) i0 la = 0 ∧
        (dataPacket.firingData i).rotationalPosition
          < (if i = i0 then la else (dataPacket.firingData (i - 1)).rotationalPosition) ∧
        azimuthDecreases dataPacket (i0 + n - (i + 1)) (i + 1)
          (dataPacket.firingData i).rotationalPosition = 0 := by
  induction n with
  | zero =>
    intro i0 la h
    simp [azimuthDecreases] at h
  | succ n ih =>
    intro i0 la h
    rw [azimuthDecreases] at h
    by_cases hd : (dataPacket.firingData i0).rotationalPosition < la
    · rw [if_pos hd] at h
      have h0 : azimuthDecreases dataPacket n (i0 + 1)
          (dataPacket.firingData i0).rotationalPosition = 0 := by omega
      refine ⟨i0, le_refl _, by omega, ?_, ?_, ?_, ?_⟩
      · rw [scanFirings, if_pos hd, scanFirings_no_decrease _ _ _ _ _ h0]
        rfl
      · rw [Nat.sub_self]
        rfl
      · rw [if_pos rfl]
        exact hd
      · rw [show i0 + (n + 1) - (i0 + 1) = n by omega]
        exact h0
    · rw [if_neg hd, Nat.zero_add] at h
      obtain ⟨i, h1, h2, h3, h4, h5, h6⟩ := ih (i0 + 1) _ h
      refine ⟨i, by omega, by omega, ?_, ?_, ?_, ?_⟩
      · rw [scanFirings, if_neg hd, h3]
        rfl
      · rw [show i - i0 = (i - (i0 + 1)) + 1 by omega, azimuthDecreases, if_neg hd, h4]
      · rw [if_neg (by omega)]
        by_cases hi : i = i0 + 1
        · rw [if_pos hi] at h5
          rw [hi, Nat.add_sub_cancel]
          rw [hi] at h5
          exact h5
        · rw [if_neg hi] at h5
          exact h5
      · rw [show i0 + (n + 1) - (i + 1) = i0 + 1 + n - (i + 1) by omega]
        exact h6

theorem sameColumns_with_Verts (d : PolyData) (verts : List Nat) :
    PolyData.sameColumns { d with Verts := verts } d :=
  ⟨rfl, rfl, rfl, rfl, rfl, rfl, rfl, rfl, rfl⟩

theorem sameColumns_refl (d : PolyData) : d.sameColumns d :=
  ⟨rfl, rfl, rfl, rfl, rfl, rfl, rfl, rfl, rfl⟩

/-- The packet loop of `GetFrame`, entered in step with the sequential run that has emitted
`D`, returns frame number `D.length` of the sequential run. -/
theorem GetFrame_loop_seeks (D : List PolyData) (lm : Libm) :
    ∀ (rest : List Payload) (a q : vtkInternal), Seeks D a q →
      a.LastAzimuth = q.LastAzimuth → a.Skip = 0 → q.Skip = 0 → a.Datasets = [] →
      atMostOneBoundaryPerPacket rest q.LastAzimuth = true →
      ∃ d d', (GetFrame.loop lm rest a).Datasets.getLast? = some d ∧
        (framesOf (decodeAll q rest lm))[D.length]? = some d' ∧ d.sameColumns d' := by
  intro rest
  induction rest with
  | nil =>
    intro a q h _ _ _ ha _
    refine ⟨{ a.CurrentDataset with Verts := NewVertexCells a.CurrentDataset.Points.length },
      q.CurrentDataset, ?_, ?_, ?_⟩
    · rw [GetFrame.loop, SplitFrame_of_SplitCounter a h.seeking]
      simp [ha]
    · show (q.Datasets ++ [q.CurrentDataset])[D.length]? = _
      rw [h.Datasets, ha, List.append_nil, List.getElem?_append_right (le_refl _), Nat.sub_self]
      rfl
    · rw [← h.CurrentDataset]
      exact sameColumns_with_Verts _ _
  | cons data rest ih =>
    intro a q h hl hsa hsq ha hone
    obtain ⟨h1, hl1, hs1⟩ := Seeks_ProcessHDLPacket D _ _ (Seeks_advanceReader D a q h)
      (show (advanceReader a).LastAzimuth = q.LastAzimuth from hl)
      (show (advanceReader a).Skip = q.Skip by rw [hsq]; exact hsa) data lm
    have hdec : decodeAll q (data :: rest) lm = decodeAll (ProcessHDLPacket q data lm) rest lm :=
      rfl
    rw [hdec]
    simp only [GetFrame.loop]
    by_cases hlen : data.length ≠ 1206
    · have e : ∀ s : vtkInternal, ProcessHDLPacket s data lm = s := by
        intro s
        unfold ProcessHDLPacket
        rw [if_pos hlen]
      rw [e (advanceReader a), e q] at *
      have hd : ¬ (advanceReader a).Datasets.length ≠ 0 := by
        show ¬ a.Datasets.length ≠ 0
        rw [ha]
        simp
      rw [if_neg hd]
      refine ih _ _ h1 hl hsa hsq ha ?_
      simpa only [atMostOneBoundaryPerPacket, if_pos hlen] using hone
    · have hlen1 : data.length = 1206 := not_not.mp hlen
      simp only [atMostOneBoundaryPerPacket, if_neg hlen, Bool.and_eq_true, decide_eq_true_eq]
        at hone
      by_cases hd : (ProcessHDLPacket (advanceReader a) data lm).Datasets.length ≠ 0
      · rw [if_pos hd]
        have hle := ProcessHDLPacket_Datasets_length (advanceReader a) data lm hlen1
        have e1 : (advanceReader a).Datasets = [] := ha
        have e2 : (advanceReader a).Skip = 0 := hsa
        have e3 : (advanceReader a).LastAzimuth = q.LastAzimuth := hl
        rw [e1, e2, e3, Nat.sub_zero] at hle
        obtain ⟨d, hd1⟩ : ∃ d, (ProcessHDLPacket (advanceReader a) data lm).Datasets = [d] := by
          match hm : (ProcessHDLPacket (advanceReader a) data lm).Datasets with
          | [] => rw [hm] at hd; exact absurd rfl hd
          | [d] => exact ⟨d, rfl⟩
          | _ :: _ :: _ =>
            rw [hm] at hle
            have := hone.1
            simp only [List.length_cons, List.length_nil] at hle
            omega
        refine ⟨d, d, by rw [hd1]; rfl, ?_, sameColumns_refl d⟩
        obtain ⟨t, ht⟩ := decodeAll_keeps_Datasets (ProcessHDLPacket q data lm) rest lm
        rw [framesOf, ← ht, h1.Datasets, hd1, List.append_assoc, List.append_assoc,
          List.getElem?_append_right (le_refl _), Nat.sub_self]
        exact List.getElem?_cons_zero
      · rw [if_neg hd]
        have hd0 : (ProcessHDLPacket (advanceReader a) data lm).Datasets = [] :=
          List.length_eq_zero.mp (not_not.mp hd)
        refine ih _ _ h1 hl1 (ProcessHDLPacket_Skip _ data lm hlen1)
          (ProcessHDLPacket_Skip q data lm hlen1) hd0 ?_
        rw [ProcessHDLPacket_LastAzimuth_eq q data lm hlen1, hsq,
          if_pos (by unfold HDL_FIRING_PER_PKT; omega)]
        exact hone.2

/-- The first firing behind a seek, when its rotational position is not 0: it is not a dual
return in either run, and from it on the two runs are in step.  In the sequential run the
firing either splits the frame or is the first firing of the capture. -/
theorem FreshFor_step (a q : vtkInternal) (hst : FreshFor a q) (dataPacket : HDLDataPacket)
    (azimuthOffset : Nat) (translation : ℚ × ℚ × ℚ) (lm : Libm) (i : Nat)
    (hrot : (dataPacket.firingData i).rotationalPosition ≠ 0)
    (hb : (dataPacket.firingData i).rotationalPosition < q.LastAzimuth ∨
      (q.LastAzimuth = 0 ∧ q.CurrentDataset = CreateData 0 ∧
        ∀ k, k < HDL_MAX_NUM_LASERS → q.LastPointId k = -1)) :
    ∃ D : List PolyData,
      D.length = q.Datasets.length
        + (if (dataPacket.firingData i).rotationalPosition < q.LastAzimuth then 1 else 0) ∧
      Seeks D (ProcessHDLPacket.step dataPacket azimuthOffset translation lm i a)
        (ProcessHDLPacket.step dataPacket azimuthOffset translation lm i q) ∧
      (ProcessHDLPacket.step dataPacket azimuthOffset translation lm i a).Datasets = [] := by
  have hpa : a.PointsSkip = 0 := by rw [hst.PointsSkip]; exact hst.everyFiring
  have hna : ¬ (dataPacket.firingData i).rotationalPosition < a.LastAzimuth := by
    rw [hst.LastAzimuth]
    exact Nat.not_lt_zero _
  have ea : ProcessHDLPacket.step dataPacket azimuthOffset translation lm i a
      = { ProcessFiring a (dataPacket.firingData i)
            (if (dataPacket.firingData i).blockIdentifier = BLOCK_0_TO_31 then 0 else 32)
            dataPacket.gpsTimestamp azimuthOffset translation lm with
          LastAzimuth := (dataPacket.firingData i).rotationalPosition } := by
    unfold ProcessHDLPacket.step ProcessHDLPacket.fire
    simp only [if_neg hna, hpa, true_or, if_true]
  have hda : ProcessFiring.dual a (dataPacket.firingData i) = false := by
    unfold ProcessFiring.dual
    rw [hst.LastAzimuth]
    exact decide_eq_false (Ne.symm hrot)
  have hempty : (ProcessHDLPacket.step dataPacket azimuthOffset translation lm i a).Datasets
      = [] := by
    show (ProcessHDLPacket.fire dataPacket azimuthOffset translation lm i _).Datasets = []
    rw [ProcessHDLPacket_fire_Datasets, if_neg hna]
    exact hst.Datasets
  by_cases hd : (dataPacket.firingData i).rotationalPosition < q.LastAzimuth
  · have hps : (SplitFrame q false).PointsSkip = 0 := by
      rw [SplitFrame_of_SplitCounter q hst.sequential]
      exact hst.everyFiring
    have eq : ProcessHDLPacket.step dataPacket azimuthOffset translation lm i q
        = { ProcessFiring (SplitFrame q false) (dataPacket.firingData i)
              (if (dataPacket.firingData i).blockIdentifier = BLOCK_0_TO_31 then 0 else 32)
              dataPacket.gpsTimestamp azimuthOffset translation lm with
            LastAzimuth := (dataPacket.firingData i).rotationalPosition } := by
      unfold ProcessHDLPacket.step ProcessHDLPacket.fire
      simp only [if_pos hd, hps, true_or, if_true]
    have hdq : ProcessFiring.dual (SplitFrame q false) (dataPacket.firingData i) = false := by
      unfold ProcessFiring.dual
      rw [SplitFrame_LastAzimuth]
      exact decide_eq_false (by omega)
    refine ⟨q.Datasets ++
      [{ q.CurrentDataset with Verts := NewVertexCells q.CurrentDataset.Points.length }],
      by rw [if_pos hd, List.length_append]; rfl, ?_, hempty⟩
    rw [ea, eq]
    apply Seeks_with_LastAzimuth
    refine Seeks_ProcessFiring _ a (SplitFrame q false) 0 _ _ _ _ _ _ (fire_offset_le _) ?_
      (by rw [hda, hdq]) (fun hq => by rw [hdq] at hq; exact absurd hq (by simp))
    rw [SplitFrame_of_SplitCounter q hst.sequential]
    refine ⟨?_, hst.CurrentDataset, ?_, rfl, hst.Interp, hst.ApplyTransform, hst.PointsSkip,
      hst.LaserSelection, hst.laser_corrections_, hst.cos_lookup_table_,
      hst.sin_lookup_table_, hst.seeking, hst.sequential⟩
    · show q.Datasets ++ [_] = (q.Datasets ++ [_]) ++ a.Datasets
      rw [hst.Datasets, List.append_nil]
    · intro k hk
      show a.LastPointId k = (if k < HDL_MAX_NUM_LASERS then (-1 : Int) else q.LastPointId k)
      rw [if_pos hk, hst.LastPointId k hk]
  · obtain ⟨hq0, hqc, hql⟩ : q.LastAzimuth = 0 ∧ q.CurrentDataset = CreateData 0 ∧
        ∀ k, k < HDL_MAX_NUM_LASERS → q.LastPointId k = -1 := by
      rcases hb with hb | hb
      · exact absurd hb hd
      · exact hb
    have eq : ProcessHDLPacket.step dataPacket azimuthOffset translation lm i q
        = { ProcessFiring q (dataPacket.firingData i)
              (if (dataPacket.firingData i).blockIdentifier = BLOCK_0_TO_31 then 0 else 32)
              dataPacket.gpsTimestamp azimuthOffset translation lm with
            LastAzimuth := (dataPacket.firingData i).rotationalPosition } := by
      unfold ProcessHDLPacket.step ProcessHDLPacket.fire
      simp only [if_neg hd, hst.everyFiring, true_or, if_true]
    have hdq : ProcessFiring.dual q (dataPacket.firingData i) = false := by
      unfold ProcessFiring.dual
      rw [hq0]
      exact decide_eq_false (Ne.symm hrot)
    refine ⟨q.Datasets, by rw [if_neg hd]; rfl, ?_, hempty⟩
    rw [ea, eq]
    apply Seeks_with_LastAzimuth
    refine Seeks_ProcessFiring _ a q 0 _ _ _ _ _ _ (fire_offset_le _) ?_
      (by rw [hda, hdq]) (fun hq => by rw [hdq] at hq; exact absurd hq (by simp))
    refine ⟨?_, ?_, ?_, rfl, hst.Interp, hst.ApplyTransform, hst.PointsSkip,
      hst.LaserSelection, hst.laser_corrections_, hst.cos_lookup_table_,
      hst.sin_lookup_table_, hst.seeking, hst.sequential⟩
    · show q.Datasets = q.Datasets ++ a.Datasets
      rw [hst.Datasets, List.append_nil]
    · show a.CurrentDataset = q.CurrentDataset
      rw [hst.CurrentDataset, hqc]
    · intro k hk
      show a.LastPointId k = q.LastPointId k
      rw [hst.LastPointId k hk, hql k hk]

/-- The packet that holds the first firing of a frame: `a` enters it behind a seek with
`Skip = i`, the sequential run `q` with `Skip = 0`; firing `i` is the only frame boundary of
the packet (or, for `i = 0` and a fresh `q`, there is none), and its rotational position is
not 0.  Behind the packet the two runs are in step. -/
theorem FreshFor_packet (a q : vtkInternal) (hst : FreshFor a q) (data : Payload)
    (lm : Libm) (i : Nat) (hlen : data.length = 1206) (hi : i < HDL_FIRING_PER_PKT)
    (hai : a.Skip = i) (hqs : q.Skip = 0)
    (h0 : azimuthDecreases (reinterpretPacket data) i 0 q.LastAzimuth = 0)
    (hrot : ((reinterpretPacket data).firingData i).rotationalPosition ≠ 0)
    (hb : ((reinterpretPacket data).firingData i).rotationalPosition
        < (if i = 0 then q.LastAzimuth
            else ((reinterpretPacket data).firingData (i - 1)).rotationalPosition) ∨
      (i = 0 ∧ q.LastAzimuth = 0 ∧ q.CurrentDataset = CreateData 0 ∧
        ∀ k, k < HDL_MAX_NUM_LASERS → q.LastPointId k = -1)) :
    ∃ D : List PolyData,
      D.length = q.Datasets.length
        + (if ((reinterpretPacket data).firingData i).rotationalPosition
            < (if i = 0 then q.LastAzimuth
                else ((reinterpretPacket data).firingData (i - 1)).rotationalPosition)
          then 1 else 0) ∧
      Seeks D (ProcessHDLPacket a data lm) (ProcessHDLPacket q data lm) ∧
      (ProcessHDLPacket a data lm).LastAzimuth = (ProcessHDLPacket q data lm).LastAzimuth := by
  have hne : ¬ data.length ≠ 1206 := not_not.mpr hlen
  have ea : ProcessHDLPacket a data lm
      = ProcessHDLPacket.loop (reinterpretPacket data)
          (ComputeOrientation q (reinterpretPacket data).gpsTimestamp 0 (0, 0, 0) lm).1
          (ComputeOrientation q (reinterpretPacket data).gpsTimestamp 0 (0, 0, 0) lm).2 lm
          (HDL_FIRING_PER_PKT - (i + 1)) (i + 1)
          (ProcessHDLPacket.step (reinterpretPacket data)
            (ComputeOrientation q (reinterpretPacket data).gpsTimestamp 0 (0, 0, 0) lm).1
            (ComputeOrientation q (reinterpretPacket data).gpsTimestamp 0 (0, 0, 0) lm).2 lm
            i { a with Skip := 0 }) := by
    unfold ProcessHDLPacket
    rw [if_neg hne]
    unfold ProcessHDLPacket.decoded
    simp only []
    rw [ComputeOrientation_congr a q hst.Interp hst.ApplyTransform, hai,
      show HDL_FIRING_PER_PKT - i = (HDL_FIRING_PER_PKT - (i + 1)) + 1 by omega,
      ProcessHDLPacket.loop]
  have eq : ProcessHDLPacket q data lm
      = ProcessHDLPacket.loop (reinterpretPacket data)
          (ComputeOrientation q (reinterpretPacket data).gpsTimestamp 0 (0, 0, 0) lm).1
          (ComputeOrientation q (reinterpretPacket data).gpsTimestamp 0 (0, 0, 0) lm).2 lm
          (HDL_FIRING_PER_PKT - (i + 1)) (i + 1)
          (ProcessHDLPacket.step (reinterpretPacket data)
            (ComputeOrientation q (reinterpretPacket data).gpsTimestamp 0 (0, 0, 0) lm).1
            (ComputeOrientation q (reinterpretPacket data).gpsTimestamp 0 (0, 0, 0) lm).2 lm
            i
            (ProcessHDLPacket.loop (reinterpretPacket data)
              (ComputeOrientation q (reinterpretPacket data).gpsTimestamp 0 (0, 0, 0) lm).1
              (ComputeOrientation q (reinterpretPacket data).gpsTimestamp 0 (0, 0, 0) lm).2 lm
              i 0 { q with Skip := 0 })) := by
    unfold ProcessHDLPacket
    rw [if_neg hne]
    unfold ProcessHDLPacket.decoded
    simp only []
    rw [hqs, show HDL_FIRING_PER_PKT - 0 = i + ((HDL_FIRING_PER_PKT - (i + 1)) + 1) by omega,
      ProcessHDLPacket_loop_add, Nat.zero_add, ProcessHDLPacket.loop]
  obtain ⟨s1, s2, s3, s4, s5, s6, s7⟩ := ProcessHDLPacket_loop_settings (reinterpretPacket data)
    (ComputeOrientation q (reinterpretPacket data).gpsTimestamp 0 (0, 0, 0) lm).1
    (ComputeOrientation q (reinterpretPacket data).gpsTimestamp 0 (0, 0, 0) lm).2 lm
    i 0 { q with Skip := 0 }
  have hsc := ProcessHDLPacket_loop_SplitCounter (reinterpretPacket data)
    (ComputeOrientation q (reinterpretPacket data).gpsTimestamp 0 (0, 0, 0) lm).1
    (ComputeOrientation q (reinterpretPacket data).gpsTimestamp 0 (0, 0, 0) lm).2 lm
    i 0 { q with Skip := 0 } hst.sequential
  have hla := ProcessHDLPacket_loop_LastAzimuth (reinterpretPacket data)
    (ComputeOrientation q (reinterpretPacket data).gpsTimestamp 0 (0, 0, 0) lm).1
    (ComputeOrientation q (reinterpretPacket data).gpsTimestamp 0 (0, 0, 0) lm).2 lm
    i 0 { q with Skip := 0 }
  rw [Nat.zero_add] at hla
  have hds := ProcessHDLPacket_loop_no_decrease (reinterpretPacket data)
    (ComputeOrientation q (reinterpretPacket data).gpsTimestamp 0 (0, 0, 0) lm).1
    (ComputeOrientation q (reinterpretPacket data).gpsTimestamp 0 (0, 0, 0) lm).2 lm
    i 0 { q with Skip := 0 } h0
  have hst1 : FreshFor { a with Skip := 0 }
      (ProcessHDLPacket.loop (reinterpretPacket data)
        (ComputeOrientation q (reinterpretPacket data).gpsTimestamp 0 (0, 0, 0) lm).1
        (ComputeOrientation q (reinterpretPacket data).gpsTimestamp 0 (0, 0, 0) lm).2 lm
        i 0 { q with Skip := 0 }) :=
    ⟨hst.Datasets, hst.CurrentDataset, hst.LastPointId, hst.LastAzimuth,
      hst.Interp.trans s1.symm, hst.ApplyTransform.trans s2.symm,
      hst.PointsSkip.trans s3.symm, s3.trans hst.everyFiring,
      hst.LaserSelection.trans s4.symm, hst.laser_corrections_.trans s5.symm,
      hst.cos_lookup_table_.trans s6.symm, hst.sin_lookup_table_.trans s7.symm,
      hst.seeking, hsc⟩
  have hb1 : ((reinterpretPacket data).firingData i).rotationalPosition
        < (ProcessHDLPacket.loop (reinterpretPacket data)
            (ComputeOrientation q (reinterpretPacket data).gpsTimestamp 0 (0, 0, 0) lm).1
            (ComputeOrientation q (reinterpretPacket data).gpsTimestamp 0 (0, 0, 0) lm).2 lm
            i 0 { q with Skip := 0 }).LastAzimuth ∨
      ((ProcessHDLPacket.loop (reinterpretPacket data)
            (ComputeOrientation q (reinterpretPacket data).gpsTimestamp 0 (0, 0, 0) lm).1
            (ComputeOrientation q (reinterpretPacket data).gpsTimestamp 0 (0, 0, 0) lm).2 lm
            i 0 { q with Skip := 0 }).LastAzimuth = 0 ∧
        (ProcessHDLPacket.loop (reinterpretPacket data)
            (ComputeOrientation q (reinterpretPacket data).gpsTimestamp 0 (0, 0, 0) lm).1
            (ComputeOrientation q (reinterpretPacket data).gpsTimestamp 0 (0, 0, 0) lm).2 lm
            i 0 { q with Skip := 0 }).CurrentDataset = CreateData 0 ∧
        ∀ k, k < HDL_MAX_NUM_LASERS →
          (ProcessHDLPacket.loop (reinterpretPacket data)
            (ComputeOrientation q (reinterpretPacket data).gpsTimestamp 0 (0, 0, 0) lm).1
            (ComputeOrientation q (reinterpretPacket data).gpsTimestamp 0 (0, 0, 0) lm).2 lm
            i 0 { q with Skip := 0 }).LastPointId k = -1) := by
    rcases hb with hb | ⟨hi0, hb⟩
    · left
      rw [hla]
      exact hb
    · right
      subst hi0
      exact hb
  obtain ⟨D, hD, hS, _⟩ := FreshFor_step _ _ hst1 (reinterpretPacket data)
    (ComputeOrientation q (reinterpretPacket data).gpsTimestamp 0 (0, 0, 0) lm).1
    (ComputeOrientation q (reinterpretPacket data).gpsTimestamp 0 (0, 0, 0) lm).2 lm i hrot hb1
  have hL := Seeks_loop D (reinterpretPacket data)
    (ComputeOrientation q (reinterpretPacket data).gpsTimestamp 0 (0, 0, 0) lm).1
    (ComputeOrientation q (reinterpretPacket data).gpsTimestamp 0 (0, 0, 0) lm).2 lm
    (HDL_FIRING_PER_PKT - (i + 1)) (i + 1) _ _ hS rfl
  refine ⟨D, ?_, ?_, ?_⟩
  · rw [hD, hds, hla]
  · rw [ea, eq]
    exact hL.1
  · rw [ea, eq]
    exact hL.2

/-- With `SplitCounter = 0` the firing loop emits one frame for each azimuth decrease. -/
theorem ProcessHDLPacket_loop_Datasets_length_eq (dataPacket : HDLDataPacket)
    (azimuthOffset : Nat) (translation : ℚ × ℚ × ℚ) (lm : Libm) (m : Nat) :
    ∀ (i : Nat) (s : vtkInternal), s.SplitCounter = 0 →
      (ProcessHDLPacket.loop dataPacket azimuthOffset translation lm m i s).Datasets.length
        = s.Datasets.length + azimuthDecreases dataPacket m i s.LastAzimuth := by
  induction m with
  | zero => intro i s _; rfl
  | succ m ih =>
    intro i s hs
    simp only [ProcessHDLPacket.loop, azimuthDecreases]
    have hsc : (ProcessHDLPacket.step dataPacket azimuthOffset translation lm i s).SplitCounter
        = 0 :=
      ProcessHDLPacket_loop_SplitCounter dataPacket azimuthOffset translation lm 1 i s hs
    rw [ih _ _ hsc]
    have h1 : (ProcessHDLPacket.step dataPacket azimuthOffset translation lm i s).LastAzimuth
        = (dataPacket.firingData i).rotationalPosition := rfl
    have h2 : (ProcessHDLPacket.step dataPacket azimuthOffset translation lm i s).Datasets.length
        = s.Datasets.length
          + (if (dataPacket.firingData i).rotationalPosition < s.LastAzimuth then 1 else 0) := by
      show (ProcessHDLPacket.fire dataPacket azimuthOffset translation lm i _).Datasets.length = _
      rw [ProcessHDLPacket_fire_Datasets]
      split_ifs with hb
      · rw [SplitFrame_of_SplitCounter s hs]
        simp
      · rfl
    rw [h1, h2]
    omega

theorem ProcessHDLPacket_Datasets_length_eq (s : vtkInternal) (data : Payload) (lm : Libm)
    (hlen : data.length = 1206) (hs : s.SplitCounter = 0) :
    (ProcessHDLPacket s data lm).Datasets.length
      = s.Datasets.length
        + azimuthDecreases (reinterpretPacket data) (HDL_FIRING_PER_PKT - s.Skip) s.Skip
            s.LastAzimuth := by
  unfold ProcessHDLPacket
  rw [if_neg (by simp [hlen])]
  unfold ProcessHDLPacket.decoded
  exact ProcessHDLPacket_loop_Datasets_length_eq _ _ _ _ _ _ _ hs

/-- The settings `FreshFor` compares are left as they are by `ProcessHDLPacket`. -/
theorem FreshFor_ProcessHDLPacket (a q : vtkInternal) (hst : FreshFor a q) (data : Payload)
    (lm : Libm) : FreshFor a (ProcessHDLPacket q data lm) := by
  unfold ProcessHDLPacket
  split_ifs
  · exact hst
  · unfold ProcessHDLPacket.decoded
    simp only []
    obtain ⟨s1, s2, s3, s4, s5, s6, s7⟩ := ProcessHDLPacket_loop_settings
      (reinterpretPacket data)
      (ComputeOrientation q (reinterpretPacket data).gpsTimestamp 0 (0, 0, 0) lm).1
      (ComputeOrientation q (reinterpretPacket data).gpsTimestamp 0 (0, 0, 0) lm).2 lm
      (HDL_FIRING_PER_PKT - q.Skip) q.Skip { q with Skip := 0 }
    have hsc := ProcessHDLPacket_loop_SplitCounter (reinterpretPacket data)
      (ComputeOrientation q (reinterpretPacket data).gpsTimestamp 0 (0, 0, 0) lm).1
      (ComputeOrientation q (reinterpretPacket data).gpsTimestamp 0 (0, 0, 0) lm).2 lm
      (HDL_FIRING_PER_PKT - q.Skip) q.Skip { q with Skip := 0 } hst.sequential
    exact ⟨hst.Datasets, hst.CurrentDataset, hst.LastPointId, hst.LastAzimuth,
      hst.Interp.trans s1.symm, hst.ApplyTransform.trans s2.symm,
      hst.PointsSkip.trans s3.symm, s3.trans hst.everyFiring,
      hst.LaserSelection.trans s4.symm, hst.laser_corrections_.trans s5.symm,
      hst.cos_lookup_table_.trans s6.symm, hst.sin_lookup_table_.trans s7.symm,
      hst.seeking, hsc⟩

theorem FreshFor_advanceReader (a q : vtkInternal) (hst : FreshFor a q) :
    FreshFor (advanceReader a) q :=
  ⟨hst.Datasets, hst.CurrentDataset, hst.LastPointId, hst.LastAzimuth, hst.Interp,
    hst.ApplyTransform, hst.PointsSkip, hst.everyFiring, hst.LaserSelection,
    hst.laser_corrections_, hst.cos_lookup_table_, hst.sin_lookup_table_, hst.seeking,
    hst.sequential⟩

theorem firstFiringRotation_skip_missized (rest : List Payload) (skip : Nat)
    (inv : List Payload) (h : ∀ x ∈ inv, x.length ≠ 1206) :
    firstFiringRotation (inv ++ rest) skip = firstFiringRotation rest skip := by
  induction inv with
  | nil => rfl
  | cons x inv ih =>
    rw [List.cons_append, firstFiringRotation, if_pos (h x (List.mem_cons_self _ _))]
    exact ih (fun y hy => h y (List.mem_cons_of_mem _ hy))

/-- The end of an iteration of the packet loop of `GetFrame`, in step with the sequential
run that has emitted `D`: the frame returned is frame number `D.length` of that run. -/
theorem GetFrame_loop_after_packet (D : List PolyData) (lm : Libm) (rest : List Payload)
    (a q : vtkInternal) (h : Seeks D a q) (hl : a.LastAzimuth = q.LastAzimuth)
    (hsa : a.Skip = 0) (hsq : q.Skip = 0) (hle : a.Datasets.length ≤ 1)
    (hone : atMostOneBoundaryPerPacket rest q.LastAzimuth = true) :
    ∃ d d', (if a.Datasets.length ≠ 0 then a else GetFrame.loop lm rest a).Datasets.getLast?
        = some d ∧
      (framesOf (decodeAll q rest lm))[D.length]? = some d' ∧ d.sameColumns d' := by
  by_cases hd : a.Datasets.length ≠ 0
  · rw [if_pos hd]
    obtain ⟨d, hd1⟩ : ∃ d, a.Datasets = [d] := by
      match hm : a.Datasets with
      | [] => rw [hm] at hd; exact absurd rfl hd
      | [d] => exact ⟨d, rfl⟩
      | _ :: _ :: _ =>
        rw [hm] at hle
        simp only [List.length_cons, List.length_nil] at hle
        omega
    refine ⟨d, d, by rw [hd1]; rfl, ?_, sameColumns_refl d⟩
    obtain ⟨t, ht⟩ := decodeAll_keeps_Datasets q rest lm
    rw [framesOf, ← ht, h.Datasets, hd1, List.append_assoc, List.append_assoc,
      List.getElem?_append_right (le_refl _), Nat.sub_self]
    exact List.getElem?_cons_zero
  · rw [if_neg hd]
    exact GetFrame_loop_seeks D lm rest a q h hl hsa hsq
      (List.length_eq_zero.mp (not_not.mp hd)) hone

/-- The frame `GetFrame` returns when it is entered behind a seek to the first firing of a
frame: the records `inv`, not of 1206 bytes, are passed over, `data` holds that firing at
index `i`, and the sequential run `q` stands before `data`. -/
theorem GetFrame_loop_boundary (lm : Libm) (data : Payload) (rest : List Payload)
    (q : vtkInternal) (i : Nat) (hlen : data.length = 1206) (hi : i < HDL_FIRING_PER_PKT)
    (hqs : q.Skip = 0)
    (h0 : azimuthDecreases (reinterpretPacket data) i 0 q.LastAzimuth = 0)
    (hrot : ((reinterpretPacket data).firingData i).rotationalPosition ≠ 0)
    (hb : ((reinterpretPacket data).firingData i).rotationalPosition
        < (if i = 0 then q.LastAzimuth
            else ((reinterpretPacket data).firingData (i - 1)).rotationalPosition) ∨
      (i = 0 ∧ q.LastAzimuth = 0 ∧ q.CurrentDataset = CreateData 0 ∧
        ∀ k, k < HDL_MAX_NUM_LASERS → q.LastPointId k = -1))
    (h1 : azimuthDecreases (reinterpretPacket data) (HDL_FIRING_PER_PKT - i) i 0 ≤ 1)
    (hone : atMostOneBoundaryPerPacket rest
      ((reinterpretPacket data).firingData (HDL_FIRING_PER_PKT - 1)).rotationalPosition = true)
    (inv : List Payload) (hinv : ∀ x ∈ inv, x.length ≠ 1206) :
    ∀ (a : vtkInternal), FreshFor a q → a.Skip = i →
      ∃ d d', (GetFrame.loop lm (inv ++ data :: rest) a).Datasets.getLast? = some d ∧
        (framesOf (decodeAll (ProcessHDLPacket q data lm) rest lm))[q.Datasets.length
          + (if ((reinterpretPacket data).firingData i).rotationalPosition
              < (if i = 0 then q.LastAzimuth
                  else ((reinterpretPacket data).firingData (i - 1)).rotationalPosition)
            then 1 else 0)]? = some d' ∧
        d.sameColumns d' := by
  induction inv with
  | nil =>
    intro a hst hai
    obtain ⟨D, hD, hS, hL⟩ := FreshFor_packet (advanceReader a) q
      (FreshFor_advanceReader a q hst) data lm i hlen hi hai hqs h0 hrot hb
    have hle := ProcessHDLPacket_Datasets_length (advanceReader a) data lm hlen
    have e1 : (advanceReader a).Datasets = [] := hst.Datasets
    have e2 : (advanceReader a).Skip = i := hai
    have e3 : (advanceReader a).LastAzimuth = 0 := hst.LastAzimuth
    rw [e1, e2, e3] at hle
    rw [List.nil_append, GetFrame.loop, ← hD]
    refine GetFrame_loop_after_packet D lm rest _ _ hS hL
      (ProcessHDLPacket_Skip _ data lm hlen) (ProcessHDLPacket_Skip q data lm hlen)
      (le_trans hle (by simpa using h1)) ?_
    rw [ProcessHDLPacket_LastAzimuth_eq q data lm hlen, hqs,
      if_pos (by unfold HDL_FIRING_PER_PKT; omega)]
    exact hone
  | cons x inv ih =>
    intro a hst hai
    have hx : x.length ≠ 1206 := hinv x (List.mem_cons_self _ _)
    have e : ProcessHDLPacket (advanceReader a) x lm = advanceReader a := by
      unfold ProcessHDLPacket
      rw [if_pos hx]
    have hd : (advanceReader a).Datasets = [] := hst.Datasets
    rw [List.cons_append, GetFrame.loop]
    simp only [e, hd, List.length_nil, ne_eq, not_true_eq_false, if_false]
    exact ih (fun y hy => hinv y (List.mem_cons_of_mem _ hy)) _
      (FreshFor_advanceReader a q hst) hai

/-- The frames behind the first one: for the `k`-th index entry that the scan adds for the
records `rest`, `GetFrame` entered behind a seek to that entry returns the frame that the
sequential run `q`, standing before `rest`, produces as its frame number
`q.Datasets.length + k + 1`. -/
theorem scanSuffixes_seek (lm : Libm) :
    ∀ (rest pending : List Payload) (q : vtkInternal),
      (∃ inv, pending = inv ++ rest ∧ ∀ x ∈ inv, x.length ≠ 1206) → q.Skip = 0 →
      atMostOneBoundaryPerPacket rest q.LastAzimuth = true →
      ∀ (k : Nat) (e : List Payload × Nat),
        (scanSuffixes rest pending q.LastAzimuth)[k]? = some e →
        firstFiringRotation e.1 e.2 ≠ some 0 →
        ∀ (a : vtkInternal), FreshFor a q → a.Skip = e.2 →
          ∃ d d', (GetFrame.loop lm e.1 a).Datasets.getLast? = some d ∧
            (framesOf (decodeAll q rest lm))[q.Datasets.length + k + 1]? = some d' ∧
            d.sameColumns d' := by
  intro rest
  induction rest with
  | nil =>
    intro pending q _ _ _ k e he
    simp [scanSuffixes] at he
  | cons data rest ih =>
    intro pending q hp hqs hone k e he hrot a hst hai
    obtain ⟨inv, hinv, hbad⟩ := hp
    have hdec : decodeAll q (data :: rest) lm = decodeAll (ProcessHDLPacket q data lm) rest lm :=
      rfl
    by_cases hlen : data.length ≠ 1206
    · have e1 : ProcessHDLPacket q data lm = q := by
        unfold ProcessHDLPacket
        rw [if_pos hlen]
      rw [hdec, e1]
      rw [scanSuffixes, if_pos hlen] at he
      rw [atMostOneBoundaryPerPacket, if_pos hlen] at hone
      refine ih pending q ⟨inv ++ [data], by rw [hinv, List.append_assoc]; rfl, ?_⟩ hqs hone k e
        he hrot a hst hai
      intro x hx
      rcases List.mem_append.mp hx with hx | hx
      · exact hbad x hx
      · rw [List.mem_singleton.mp hx]
        exact hlen
    · have hlen1 : data.length = 1206 := not_not.mp hlen
      rw [scanSuffixes, if_neg hlen] at he
      simp only [atMostOneBoundaryPerPacket, if_neg hlen, Bool.and_eq_true, decide_eq_true_eq]
        at hone
      have hla : (ProcessHDLPacket q data lm).LastAzimuth
          = ((reinterpretPacket data).firingData (HDL_FIRING_PER_PKT - 1)).rotationalPosition := by
        rw [ProcessHDLPacket_LastAzimuth_eq q data lm hlen1, hqs,
          if_pos (by unfold HDL_FIRING_PER_PKT; omega)]
      have hlength := ProcessHDLPacket_Datasets_length_eq q data lm hlen1 hst.sequential
      rw [hqs, Nat.sub_zero] at hlength
      have hnext : ∀ (k1 : Nat),
          (scanSuffixes rest rest
            ((reinterpretPacket data).firingData (HDL_FIRING_PER_PKT - 1)).rotationalPosition)[k1]?
            = some e →
          ∃ d d', (GetFrame.loop lm e.1 a).Datasets.getLast? = some d ∧
            (framesOf (decodeAll (ProcessHDLPacket q data lm) rest lm))[
              (ProcessHDLPacket q data lm).Datasets.length + k1 + 1]? = some d' ∧
            d.sameColumns d' := by
        intro k1 hk1
        refine ih rest (ProcessHDLPacket q data lm)
          ⟨[], rfl, fun _ hx => absurd hx (List.not_mem_nil _)⟩
          (ProcessHDLPacket_Skip q data lm hlen1) (by rw [hla]; exact hone.2) k1 e
          (by rw [hla]; exact hk1) hrot a (FreshFor_ProcessHDLPacket a q hst data lm) hai
      rw [hdec]
      rcases Nat.le_one_iff_eq_zero_or_eq_one.mp hone.1 with hz | hz
      · rw [scanFirings_no_decrease _ _ _ _ _ hz, List.nil_append] at he
        obtain ⟨d, d', h1, h2, h3⟩ := hnext k he
        rw [hlength, hz, Nat.add_zero] at h2
        exact ⟨d, d', h1, h2, h3⟩
      · obtain ⟨i, _, hi, hscan, h4, h5, h6⟩ :=
          single_decrease (reinterpretPacket data) pending HDL_FIRING_PER_PKT 0 _ hz
        rw [hscan] at he
        rw [Nat.zero_add] at hi h6
        rw [Nat.sub_zero] at h4
        cases k with
        | zero =>
          have he1 : e = (pending, i) := by
            simpa using he.symm
          subst he1
          have hr : ((reinterpretPacket data).firingData i).rotationalPosition ≠ 0 := by
            intro h0
            apply hrot
            show firstFiringRotation pending i = some 0
            rw [hinv, firstFiringRotation_skip_missized _ _ _ hbad, firstFiringRotation,
              if_neg hlen, h0]
          have hle : azimuthDecreases (reinterpretPacket data) (HDL_FIRING_PER_PKT - i) i 0
              ≤ 1 := by
            rw [show HDL_FIRING_PER_PKT - i = (HDL_FIRING_PER_PKT - (i + 1)) + 1 by omega,
              azimuthDecreases, if_neg (Nat.not_lt_zero _), h6]
            omega
          obtain ⟨d, d', h1, h2, h3⟩ := GetFrame_loop_boundary lm data rest q i hlen1 hi hqs h4
            hr (Or.inl h5) hle hone.2 inv hbad a hst hai
          rw [if_pos h5] at h2
          refine ⟨d, d', ?_, h2, h3⟩
          show (GetFrame.loop lm pending a).Datasets.getLast? = some d
          rw [hinv]
          exact h1
        | succ k1 =>
          have he1 : (scanSuffixes rest rest
              ((reinterpretPacket data).firingData
                (HDL_FIRING_PER_PKT - 1)).rotationalPosition)[k1]? = some e := by
            simpa using he
          obtain ⟨d, d', h1, h2, h3⟩ := hnext k1 he1
          rw [hlength, hz,
            show q.Datasets.length + 1 + k1 + 1 = q.Datasets.length + (k1 + 1) + 1 by omega]
            at h2
          exact ⟨d, d', h1, h2, h3⟩

/-- The first frame: `GetFrame` entered at the start of the records `rest` returns frame 0 of
the sequential run from a fresh state. -/
theorem GetFrame_loop_first (lm : Libm) (q : vtkInternal) (hqs : q.Skip = 0)
    (hqd : q.Datasets = []) (hq0 : q.LastAzimuth = 0) (hqc : q.CurrentDataset = CreateData 0)
    (hql : ∀ k, k < HDL_MAX_NUM_LASERS → q.LastPointId k = -1) :
    ∀ (rest : List Payload) (a : vtkInternal), FreshFor a q → a.Skip = 0 →
      atMostOneBoundaryPerPacket rest 0 = true → firstFiringRotation rest 0 ≠ some 0 →
      ∃ d d', (GetFrame.loop lm rest a).Datasets.getLast? = some d ∧
        (framesOf (decodeAll q rest lm))[0]? = some d' ∧ d.sameColumns d' := by
  intro rest
  induction rest with
  | nil =>
    intro a hst _ _ _
    refine ⟨{ a.CurrentDataset with Verts := NewVertexCells a.CurrentDataset.Points.length },
      q.CurrentDataset, ?_, ?_, ?_⟩
    · rw [GetFrame.loop, SplitFrame_of_SplitCounter a hst.seeking]
      simp [hst.Datasets]
    · show (q.Datasets ++ [q.CurrentDataset])[0]? = _
      rw [hqd]
      rfl
    · rw [hqc, ← hst.CurrentDataset]
      exact sameColumns_with_Verts _ _
  | cons data rest ih =>
    intro a hst hai hone hrot
    have hdec : decodeAll q (data :: rest) lm = decodeAll (ProcessHDLPacket q data lm) rest lm :=
      rfl
    by_cases hlen : data.length ≠ 1206
    · have e : ∀ s : vtkInternal, ProcessHDLPacket s data lm = s := by
        intro s
        unfold ProcessHDLPacket
        rw [if_pos hlen]
      have hd : (advanceReader a).Datasets = [] := hst.Datasets
      rw [hdec, e q, GetFrame.loop]
      simp only [e, hd, List.length_nil, ne_eq, not_true_eq_false, if_false]
      rw [atMostOneBoundaryPerPacket, if_pos hlen] at hone
      rw [firstFiringRotation, if_pos hlen] at hrot
      exact ih _ (FreshFor_advanceReader a q hst) hai hone hrot
    · have hlen1 : data.length = 1206 := not_not.mp hlen
      simp only [atMostOneBoundaryPerPacket, if_neg hlen, Bool.and_eq_true, decide_eq_true_eq]
        at hone
      rw [firstFiringRotation, if_neg hlen] at hrot
      have hr : ((reinterpretPacket data).firingData 0).rotationalPosition ≠ 0 :=
        fun h0 => hrot (by rw [h0])
      obtain ⟨d, d', h1, h2, h3⟩ := GetFrame_loop_boundary lm data rest q 0 hlen1
        (by unfold HDL_FIRING_PER_PKT; omega) hqs rfl hr (Or.inr ⟨rfl, hq0, hqc, hql⟩)
        hone.1 hone.2 [] (fun _ hx => absurd hx (List.not_mem_nil _)) a hst hai
      rw [hqd, if_pos rfl, hq0, if_neg (Nat.not_lt_zero _)] at h2
      rw [hdec]
      exact ⟨d, d', h1, h2, h3⟩

theorem entriesOf_getElem (capture : List Payload) (fp sk : List Nat)
    (h : fp.length = sk.length) (n : Nat) (hn : n < fp.length) :
    (entriesOf capture fp sk)[n]? = some (capture.drop (fp.getD n 0), sk.getD n 0) := by
  have h1 := map_range_getD_eq_zip (fun p k => (capture.drop p, k)) fp sk h
  have h2 : entriesOf capture fp sk
      = (List.range fp.length).map
          (fun n => (capture.drop (fp.getD n 0), sk.getD n 0)) := h1.symm
  rw [h2, List.getElem?_map, List.getElem?_range hn]
  rfl

/-- The index of a capture, each entry with the records that follow its file position:
the entry `(capture, 0)` of frame 0 and the entries the scan adds. -/
theorem scan_entries (capture : List Payload) :
    (ReadFrameInformation.scan capture).filePositions.length
        = (ReadFrameInformation.scan capture).skips.length ∧
    entriesOf capture (ReadFrameInformation.scan capture).filePositions
        (ReadFrameInformation.scan capture).skips
      = (capture, 0) :: scanSuffixes capture capture 0 :=
  scan_loop_entries capture capture 0
    { lastAzimuth := 0, lastTimestamp := 0, filePositions := [0], skips := [0],
      lastFilePosition := 0, missed := [] } rfl rfl

set_option maxRecDepth 100000 in
/-- C24, as stated, fails.  In a capture whose only packet holds two frame boundaries,
`GetFrame(0)` returns the last data set the packet completed (azimuth 200), not frame 0 of
sequential decoding (azimuths 300, 300).  In a capture whose first two firings carry the
rotational position 0, a first `GetFrame(0)` returns the flags 5 and 10 of sequential
decoding and leaves `FirstPointIdThisReturn = 2`; the same request on the state it leaves
returns `DUAL_DOUBLED` twice.  With `PointsSkip = 1` and a frame boundary at a firing that is
left out, the same happens for `GetFrame(1)`, although the first firing of frame 1 carries
the rotational position 10. -/
theorem C24_seek_differs_from_sequential :
    GetNumberOfFrames doubleWrapReader = 3 ∧
    ((GetFrame doubleWrapReader 0 exampleLibm).frame.map fun d => d.Azimuth) = some [200] ∧
    ((framesOf (decodeAll (vtkInternal.new 0 exampleLibm) doubleWrapCapture exampleLibm)).map
      fun d => d.Azimuth) = [[300, 300], [200], [100, 101, 102, 103, 104, 105, 106, 107, 108, 109]] ∧
    GetNumberOfFrames zeroStartReader = 1 ∧
    ((framesOf (decodeAll (vtkInternal.new 0 exampleLibm) zeroStartCapture exampleLibm)).map
      fun d => d.Flags) = [[5, 10]] ∧
    ((GetFrame zeroStartReader 0 exampleLibm).frame.map fun d => d.Flags) = some [5, 10] ∧
    (GetFrame zeroStartReader 0 exampleLibm).state.FirstPointIdThisReturn = 2 ∧
    (GetFrame zeroStartReader 0 exampleLibm).state.SplitCounter = 0 ∧
    ((GetFrame (GetFrame zeroStartReader 0 exampleLibm).state 0 exampleLibm).frame.map
      fun d => d.Flags) = some [DUAL_DOUBLED, DUAL_DOUBLED] ∧
    GetNumberOfFrames skippedBoundaryReader = 2 ∧
    skippedBoundaryReader.FilePositions = [0, 0] ∧ skippedBoundaryReader.Skips = [0, 1] ∧
    ((framesOf (decodeAll everySecondFiring skippedBoundaryCapture exampleLibm)).map
      fun d => d.Flags) = [[DUAL_DOUBLED], [5, 10]] ∧
    ((GetFrame skippedBoundaryReader 1 exampleLibm).frame.map fun d => d.Flags)
      = some [5, 10] ∧
    ((GetFrame (GetFrame skippedBoundaryReader 1 exampleLibm).state 1 exampleLibm).frame.map
      fun d => d.Flags) = some [DUAL_DOUBLED, DUAL_DOUBLED] := by
  refine ⟨by decide!, by decide!, by decide!, by decide!, by decide!, by decide!, by decide!,
    by decide!, by decide!, by decide!, by decide!, by decide!, by decide!, by decide!,
    by decide!⟩

/-- C24, amended: for every capture in which no payload of 1206 bytes holds more than one
frame boundary, for a reader `s` that is open on the capture, holds its index and has
`SplitCounter = 0` and `PointsSkip = 0`, whatever `FirstPointIdThisReturn` and the other
assembler members hold from earlier requests, and for every `n` below the number of frames
such that the first firing of frame `n` (firing `Skips[n]` of the first payload of 1206
bytes at `FilePositions[n]`) does not carry the rotational position 0: `GetFrame(n)`
returns a frame that agrees in the nine columns with frame `n` of decoding the whole capture
in order from any fresh state with the settings of `s`, whatever that state holds in
`FirstPointIdThisReturn`; no error is reported, and the reader is left open on the capture
with the same index and settings. -/
theorem C24_seek_equals_sequential (s fresh : vtkInternal) (capture : List Payload)
    (p n : Nat) (lm : Libm)
    (hreader : s.Reader = some { packets := capture, position := p })
    (hfp : s.FilePositions = (ReadFrameInformation.scan capture).filePositions)
    (hsk : s.Skips = (ReadFrameInformation.scan capture).skips)
    (hfresh : FreshFor fresh s) (hskip : fresh.Skip = 0)
    (hone : atMostOneBoundaryPerPacket capture 0 = true)
    (hn : (n : Int) < GetNumberOfFrames s)
    (hrot : firstFiringRotation (capture.drop (s.FilePositions.getD n 0)) (s.Skips.getD n 0)
      ≠ some 0) :
    (∃ d d', (GetFrame s (n : Int) lm).frame = some d ∧
      (framesOf (decodeAll fresh capture lm))[n]? = some d' ∧ d.sameColumns d') ∧
    (GetFrame s (n : Int) lm).error = none ∧
    readerSettings capture s.FilePositions s.Skips s.LaserSelection 0
      (GetFrame s (n : Int) lm).state := by
  have hn1 : n < s.FilePositions.length := by
    unfold GetNumberOfFrames at hn
    omega
  obtain ⟨hlen, hentries⟩ := scan_entries capture
  rw [← hfp, ← hsk] at hlen hentries
  have hentry := entriesOf_getElem capture s.FilePositions s.Skips hlen n hn1
  rw [hentries] at hentry
  obtain ⟨hframe, herror⟩ := GetFrame_eq s capture p n lm hreader (le_of_lt hn1)
  have hstart : ∀ k : Nat, FreshFor
      (withIndex (some { packets := capture, position := s.FilePositions.getD n 0 })
        s.FilePositions s.Skips { UnloadData s with Skip := k }) fresh :=
    fun _ => ⟨rfl, rfl, fun i hi => if_pos hi, rfl, hfresh.Interp.symm,
      hfresh.ApplyTransform.symm, hfresh.PointsSkip.symm,
      hfresh.PointsSkip.trans hfresh.everyFiring, hfresh.LaserSelection.symm,
      hfresh.laser_corrections_.symm, hfresh.cos_lookup_table_.symm,
      hfresh.sin_lookup_table_.symm, hfresh.sequential, hfresh.seeking⟩
  have hone1 : atMostOneBoundaryPerPacket capture fresh.LastAzimuth = true := by
    rw [hfresh.LastAzimuth]
    exact hone
  refine ⟨?_, herror, (GetFrame_frame_count capture s.FilePositions s.Skips s.LaserSelection 0
    lm s n ⟨⟨p, hreader⟩, rfl, rfl, rfl, hfresh.everyFiring, hfresh.sequential⟩
    (le_of_lt hn1)).2⟩
  rw [hframe]
  cases n with
  | zero =>
    have he : (capture, 0) = (capture.drop (s.FilePositions.getD 0 0), s.Skips.getD 0 0) := by
      simpa using hentry
    have he1 : capture.drop (s.FilePositions.getD 0 0) = capture := (Prod.mk.inj he).1.symm
    have he2 : s.Skips.getD 0 0 = 0 := (Prod.mk.inj he).2.symm
    rw [he1, he2] at hrot
    rw [he1, he2]
    exact GetFrame_loop_first lm fresh hskip hfresh.Datasets hfresh.LastAzimuth
      hfresh.CurrentDataset hfresh.LastPointId capture _ (hstart 0) rfl hone hrot
  | succ k =>
    have he : (scanSuffixes capture capture fresh.LastAzimuth)[k]?
        = some (capture.drop (s.FilePositions.getD (k + 1) 0), s.Skips.getD (k + 1) 0) := by
      rw [hfresh.LastAzimuth]
      simpa using hentry
    obtain ⟨d, d', h1, h2, h3⟩ := scanSuffixes_seek lm capture capture fresh
      ⟨[], rfl, fun _ hx => absurd hx (List.not_mem_nil _)⟩ hskip hone1 k _ he hrot _
      (hstart (s.Skips.getD (k + 1) 0)) rfl
    rw [hfresh.Datasets, List.length_nil, Nat.zero_add] at h2
    exact ⟨d, d', h1, h2, h3⟩


theorem UnloadData_LastPointId (s : vtkInternal) (i : Nat) (hi : i < HDL_MAX_NUM_LASERS) :
    (UnloadData s).LastPointId i = -1 := if_pos hi

theorem indexedReader_tables (s : vtkInternal) (capture : List Payload) :
    (indexedReader s capture).cos_lookup_table_ = s.cos_lookup_table_ ∧
    (indexedReader s capture).sin_lookup_table_ = s.sin_lookup_table_ := ⟨rfl, rfl⟩

/-- The initial state is fresh for the reader made from an initial state by building the
index of a capture and opening it, whatever the two hold in `FirstPointIdThisReturn`. -/
theorem new_FreshFor (f f0 : Int) (lm : Libm) (capture : List Payload) :
    FreshFor (vtkInternal.new f lm) (indexedReader (vtkInternal.new f0 lm) capture) := by
  refine ⟨rfl, rfl, fun i hi => UnloadData_LastPointId _ i hi, rfl, ?_, ?_, ?_, ?_, ?_, ?_,
    ((new_tables f lm).1.trans (new_tables f0 lm).1.symm).trans
      (indexedReader_tables (vtkInternal.new f0 lm) capture).1.symm,
    ((new_tables f lm).2.trans (new_tables f0 lm).2.symm).trans
      (indexedReader_tables (vtkInternal.new f0 lm) capture).2.symm, ?_, ?_⟩
  · rfl
  · rfl
  · rfl
  · rfl
  · rfl
  · rfl
  · rfl
  · rfl
set_option maxRecDepth 100000 in
theorem C24_seek_equals_sequential_witness :
    twoSweepReader.Reader = some { packets := twoSweepCapture, position := 0 } ∧
    FreshFor (vtkInternal.new 0 exampleLibm) twoSweepReader ∧
    atMostOneBoundaryPerPacket twoSweepCapture 0 = true ∧
    ((1 : Nat) : Int) < GetNumberOfFrames twoSweepReader ∧
    firstFiringRotation (twoSweepCapture.drop (twoSweepReader.FilePositions.getD 1 0))
      (twoSweepReader.Skips.getD 1 0) = some 10 ∧
    (∃ d d', (GetFrame twoSweepReader ((1 : Nat) : Int) exampleLibm).frame = some d ∧
      (framesOf (decodeAll (vtkInternal.new 0 exampleLibm) twoSweepCapture exampleLibm))[1]?
        = some d' ∧
      d.sameColumns d') ∧
    ((GetFrame twoSweepReader ((1 : Nat) : Int) exampleLibm).frame.map fun d => d.Azimuth)
      = some [10, 20, 30, 40, 50, 60, 70, 80, 90, 100, 110, 120] := by
  have hfresh : FreshFor (vtkInternal.new 0 exampleLibm) twoSweepReader :=
    new_FreshFor 0 0 exampleLibm twoSweepCapture
  have hone : atMostOneBoundaryPerPacket twoSweepCapture 0 = true := by decide!
  have hn : ((1 : Nat) : Int) < GetNumberOfFrames twoSweepReader := by decide!
  have hrot : firstFiringRotation (twoSweepCapture.drop (twoSweepReader.FilePositions.getD 1 0))
      (twoSweepReader.Skips.getD 1 0) = some 10 := by decide!
  exact ⟨rfl, hfresh, hone, hn, hrot,
    (C24_seek_equals_sequential twoSweepReader (vtkInternal.new 0 exampleLibm) twoSweepCapture
      0 1 exampleLibm rfl rfl rfl hfresh rfl hone hn (by rw [hrot]; decide)).1,
    by decide!⟩

/-! ## Aggregate frames, all columns -/

theorem getValue_append_offset {α : Type} (P X : List α) (k : Int) (off : Nat) (dflt : α)
    (hP : P.length = off) (hk : 0 ≤ k ∨ off = 0) :
    getValue (P ++ X) (k + (off : Int)) dflt = getValue X k dflt := by
  by_cases h0 : 0 ≤ k
  · unfold getValue
    rw [if_neg (by omega), if_neg (by omega)]
    have e : (k + (off : Int)).toNat = P.length + k.toNat := by omega
    rw [e, List.getD_eq_getElem?_getD, List.getD_eq_getElem?_getD,
      List.getElem?_append_right (Nat.le_add_right _ _), Nat.add_sub_cancel_left]
  · rcases hk with hk | hk
    · exact absurd hk h0
    · subst hk
      rw [List.length_eq_zero.mp hP]
      simp

theorem setValue_append_offset {α : Type} (P X : List α) (k : Int) (off : Nat) (v : α)
    (hP : P.length = off) (hk : 0 ≤ k ∨ off = 0) :
    setValue (P ++ X) (k + (off : Int)) v = P ++ setValue X k v := by
  by_cases h0 : 0 ≤ k
  · unfold setValue
    rw [if_neg (by omega), if_neg (by omega)]
    have e : (k + (off : Int)).toNat = P.length + k.toNat := by omega
    rw [e, List.set_append_right _ _ (Nat.le_add_right _ _), Nat.add_sub_cancel_left]
  · rcases hk with hk | hk
    · exact absurd hk h0
    · subst hk
      rw [List.length_eq_zero.mp hP]
      simp

theorem PolyData_append_assoc (a b c : PolyData) :
    (a.append b).append c = a.append (b.append c) := by
  simp [PolyData.append, List.append_assoc]

theorem PolyData_append_empty (a : PolyData) : a.append (CreateData 0) = a := by
  cases a
  simp [PolyData.append, CreateData, NewVertexCells]

theorem PolyData_empty_append (a : PolyData) : (CreateData 0).append a = a := by
  cases a
  simp [PolyData.append, CreateData, NewVertexCells]

theorem concatFrames_append (xs : List PolyData) :
    ∀ ys : List PolyData,
      concatFrames (xs ++ ys) = (concatFrames xs).append (concatFrames ys) := by
  induction xs with
  | nil => intro ys; rw [List.nil_append, concatFrames, PolyData_empty_append]
  | cons d rest ih =>
    intro ys
    rw [List.cons_append, concatFrames, concatFrames, ih, PolyData_append_assoc]

theorem concatFrames_singleton (d : PolyData) : concatFrames [d] = d := by
  rw [concatFrames, concatFrames, PolyData_append_empty]

theorem concatFrames_framesOf (s : vtkInternal) :
    concatFrames (framesOf s) = (concatFrames s.Datasets).append s.CurrentDataset := by
  rw [framesOf, concatFrames_append, concatFrames_singleton]

theorem columnsAligned_iff (d : PolyData) :
    d.columnsAligned ↔
      d.Intensity.length = d.Points.length ∧ d.LaserId.length = d.Points.length ∧
      d.Azimuth.length = d.Points.length ∧ d.Distance.length = d.Points.length ∧
      d.Timestamp.length = d.Points.length ∧ d.Flags.length = d.Points.length ∧
      d.IntensityDelta.length = d.Points.length ∧ d.DistanceDelta.length = d.Points.length := by
  simp [PolyData.columnsAligned, PolyData.columnLengths, List.replicate]

theorem append_columnsAligned (a b : PolyData) (ha : a.columnsAligned)
    (hb : b.columnsAligned) : (a.append b).columnsAligned := by
  rw [columnsAligned_iff] at ha hb ⊢
  simp only [PolyData.append, List.length_append]
  omega

theorem sameColumns_trans {a b c : PolyData} (h1 : a.sameColumns b) (h2 : b.sameColumns c) :
    a.sameColumns c :=
  ⟨h1.1.trans h2.1, h1.2.1.trans h2.2.1, h1.2.2.1.trans h2.2.2.1,
    h1.2.2.2.1.trans h2.2.2.2.1, h1.2.2.2.2.1.trans h2.2.2.2.2.1,
    h1.2.2.2.2.2.1.trans h2.2.2.2.2.2.1, h1.2.2.2.2.2.2.1.trans h2.2.2.2.2.2.2.1,
    h1.2.2.2.2.2.2.2.1.trans h2.2.2.2.2.2.2.2.1, h1.2.2.2.2.2.2.2.2.trans h2.2.2.2.2.2.2.2.2⟩

/-- The raw columns are among the nine. -/
theorem sameColumns_raw {a b : PolyData} (h : a.sameColumns b) : a.raw = b.raw := by
  obtain ⟨h1, h2, h3, h4, h5, h6, _⟩ := h
  simp only [PolyData.raw, h1, h2, h3, h4, h5, h6]

theorem raw_append (a b : PolyData) : (a.append b).raw = a.raw.append b.raw := rfl

theorem raw_concatFrames (xs : List PolyData) : (concatFrames xs).raw = concatRaw xs := by
  induction xs with
  | nil => rfl
  | cons d rest ih => rw [concatFrames, concatRaw, raw_append, ih]

/-- `reconcile` on a frame whose columns start with those of `P`, for a partner behind `P`:
the three dual-return columns are those of `P` followed by what `reconcile` writes without
`P`. -/
theorem reconcile_append (P da dq : PolyData) (ida idq : Int) (intensity : Int)
    (distanceM : ℚ)
    (hI : da.Intensity = P.Intensity ++ dq.Intensity)
    (hD : da.Distance = P.Distance ++ dq.Distance)
    (hF : da.Flags = P.Flags ++ dq.Flags)
    (hID : da.IntensityDelta = P.IntensityDelta ++ dq.IntensityDelta)
    (hDD : da.DistanceDelta = P.DistanceDelta ++ dq.DistanceDelta)
    (hP : P.columnsAligned) (hid : ida = idq + (P.Points.length : Int))
    (hk : 0 ≤ idq ∨ P.Points.length = 0) :
    (PushFiringData.reconcile da ida intensity distanceM).Flags
      = P.Flags ++ (PushFiringData.reconcile dq idq intensity distanceM).Flags ∧
    (PushFiringData.reconcile da ida intensity distanceM).IntensityDelta
      = P.IntensityDelta ++ (PushFiringData.reconcile dq idq intensity distanceM).IntensityDelta ∧
    (PushFiringData.reconcile da ida intensity distanceM).DistanceDelta
      = P.DistanceDelta ++ (PushFiringData.reconcile dq idq intensity distanceM).DistanceDelta := by
  rw [columnsAligned_iff] at hP
  obtain ⟨p1, _, _, p4, _, p6, p7, p8⟩ := hP
  have g1 : getValue da.Intensity ida 0 = getValue dq.Intensity idq 0 := by
    rw [hI, hid]
    exact getValue_append_offset _ _ _ _ _ p1 hk
  have g2 : getValue da.Distance ida 0 = getValue dq.Distance idq 0 := by
    rw [hD, hid]
    exact getValue_append_offset _ _ _ _ _ p4 hk
  have g3 : getValue da.Flags ida 0 = getValue dq.Flags idq 0 := by
    rw [hF, hid]
    exact getValue_append_offset _ _ _ _ _ p6 hk
  have s1 : ∀ v, setValue da.Flags ida v = P.Flags ++ setValue dq.Flags idq v := by
    intro v
    rw [hF, hid]
    exact setValue_append_offset _ _ _ _ _ p6 hk
  have s2 : ∀ v, setValue da.IntensityDelta ida v
      = P.IntensityDelta ++ setValue dq.IntensityDelta idq v := by
    intro v
    rw [hID, hid]
    exact setValue_append_offset _ _ _ _ _ p7 hk
  have s3 : ∀ v, setValue da.DistanceDelta ida v
      = P.DistanceDelta ++ setValue dq.DistanceDelta idq v := by
    intro v
    rw [hDD, hid]
    exact setValue_append_offset _ _ _ _ _ p8 hk
  simp only [PushFiringData.reconcile, g1, g2, g3, s1, s2, s3, List.append_assoc]
  exact ⟨trivial, trivial, trivial⟩

theorem Merging_count (P : PolyData) (a q : vtkInternal) (h : Merging P a q) :
    (a.CurrentDataset.Points.length : Int)
      = (q.CurrentDataset.Points.length : Int) + (P.Points.length : Int) := by
  have h1 : a.CurrentDataset.Points = P.Points ++ q.CurrentDataset.Points := h.columns.1
  rw [h1, List.length_append]
  push_cast
  omega

/-- The two runs take the same branch of `PushFiringData` on a dual return. -/
theorem Merging_branch (P : PolyData) (a q : vtkInternal) (h : Merging P a q) (laserId : Nat)
    (hl : laserId < HDL_MAX_NUM_LASERS) :
    (a.LastPointId laserId < a.FirstPointIdThisReturn ↔
      q.LastPointId laserId < q.FirstPointIdThisReturn) ∧
    (¬ q.LastPointId laserId < q.FirstPointIdThisReturn →
      a.LastPointId laserId = q.LastPointId laserId + (P.Points.length : Int) ∧
      (0 ≤ q.LastPointId laserId ∨ P.Points.length = 0)) := by
  have hf := h.FirstPointIdThisReturn
  rcases h.LastPointId laserId hl with ⟨h1, h2⟩ | ⟨h1, h2, h3⟩
  · exact ⟨by omega, fun _ => ⟨h1, h2⟩⟩
  · exact ⟨by omega, fun hn => absurd (by omega) hn⟩

theorem Merging_PushFiringData (P : PolyData) (a q : vtkInternal) (h : Merging P a q)
    (laserId azimuth timestamp : Nat) (laserReturn : HDLLaserReturn)
    (correction : HDLLaserCorrection) (azimuthAdjustment : Nat) (translation : ℚ × ℚ × ℚ)
    (dual : Bool) (lm : Libm) (hl : laserId < HDL_MAX_NUM_LASERS) :
    Merging P
      (PushFiringData a laserId azimuth timestamp laserReturn correction azimuthAdjustment
        translation dual lm)
      (PushFiringData q laserId azimuth timestamp laserReturn correction azimuthAdjustment
        translation dual lm) := by
  obtain ⟨c1, c2, c3, c4, c5, c6, c7, c8, c9⟩ := h.columns
  have hpa := PushFiringData_Points a laserId azimuth timestamp laserReturn correction
    azimuthAdjustment translation dual lm
  have hpq := PushFiringData_Points q laserId azimuth timestamp laserReturn correction
    azimuthAdjustment translation dual lm
  obtain ⟨a1, a2, a3, a4, a5⟩ := PushFiringData_raw_columns a laserId azimuth timestamp
    laserReturn correction azimuthAdjustment translation dual lm
  obtain ⟨q1, q2, q3, q4, q5⟩ := PushFiringData_raw_columns q laserId azimuth timestamp
    laserReturn correction azimuthAdjustment translation dual lm
  rw [point_congr a q h.cos_lookup_table_ h.sin_lookup_table_] at hpa
  obtain ⟨hbr, hrec⟩ := Merging_branch P a q h laserId hl
  have hdual :
      (PushFiringData a laserId azimuth timestamp laserReturn correction azimuthAdjustment
          translation dual lm).CurrentDataset.Flags
        = P.Flags ++ (PushFiringData q laserId azimuth timestamp laserReturn correction
            azimuthAdjustment translation dual lm).CurrentDataset.Flags ∧
      (PushFiringData a laserId azimuth timestamp laserReturn correction azimuthAdjustment
          translation dual lm).CurrentDataset.IntensityDelta
        = P.IntensityDelta ++ (PushFiringData q laserId azimuth timestamp laserReturn correction
            azimuthAdjustment translation dual lm).CurrentDataset.IntensityDelta ∧
      (PushFiringData a laserId azimuth timestamp laserReturn correction azimuthAdjustment
          translation dual lm).CurrentDataset.DistanceDelta
        = P.DistanceDelta ++ (PushFiringData q laserId azimuth timestamp laserReturn correction
            azimuthAdjustment translation dual lm).CurrentDataset.DistanceDelta := by
    by_cases hd : dual = false ∨ q.LastPointId laserId < q.FirstPointIdThisReturn
    · have hda : dual = false ∨ a.LastPointId laserId < a.FirstPointIdThisReturn := by
        rcases hd with hd | hd
        · exact Or.inl hd
        · exact Or.inr (hbr.mpr hd)
      rw [PushFiringData_Flags_doubled a _ _ _ _ _ _ _ _ _ hda,
        PushFiringData_Flags_doubled q _ _ _ _ _ _ _ _ _ hd]
      refine ⟨?_, ?_, ?_⟩
      · show a.CurrentDataset.Flags ++ [DUAL_DOUBLED]
          = P.Flags ++ (q.CurrentDataset.Flags ++ [DUAL_DOUBLED])
        rw [c7, ← List.append_assoc]
        rfl
      · show a.CurrentDataset.IntensityDelta ++ [0]
          = P.IntensityDelta ++ (q.CurrentDataset.IntensityDelta ++ [0])
        rw [c8, ← List.append_assoc]
        rfl
      · show a.CurrentDataset.DistanceDelta ++ [0]
          = P.DistanceDelta ++ (q.CurrentDataset.DistanceDelta ++ [0])
        rw [c9, ← List.append_assoc]
        rfl
    · have hd1 : dual = true := by
        cases dual with
        | false => exact absurd (Or.inl rfl) hd
        | true => rfl
      have hd2 : ¬ q.LastPointId laserId < q.FirstPointIdThisReturn :=
        fun hh => hd (Or.inr hh)
      have hd3 : ¬ a.LastPointId laserId < a.FirstPointIdThisReturn :=
        fun hh => hd2 (hbr.mp hh)
      rw [PushFiringData_reconciled a _ _ _ _ _ _ _ _ _ ⟨hd1, hd3⟩,
        PushFiringData_reconciled q _ _ _ _ _ _ _ _ _ ⟨hd1, hd2⟩]
      refine reconcile_append P _ _ _ _ _ _ ?_ ?_ ?_ ?_ ?_ h.emitted (hrec hd2).1 (hrec hd2).2
      · show a.CurrentDataset.Intensity ++ [_] = P.Intensity ++ (q.CurrentDataset.Intensity ++ [_])
        rw [c2, ← List.append_assoc]
        rfl
      · show a.CurrentDataset.Distance ++ [_] = P.Distance ++ (q.CurrentDataset.Distance ++ [_])
        rw [c5, ← List.append_assoc]
        rfl
      · exact c7
      · exact c8
      · exact c9
  refine ⟨⟨?_, ?_, ?_, ?_, ?_, ?_, hdual.1, hdual.2.1, hdual.2.2⟩, h.emitted,
    PushFiringData_columnsAligned q laserId azimuth timestamp laserReturn correction
      azimuthAdjustment translation dual lm h.current,
    h.FirstPointIdThisReturn, ?_,
    PushFiringData_lastPointIdsValid q _ _ _ _ _ _ _ _ _ h.valid,
    h.LaserSelection, h.laser_corrections_, h.cos_lookup_table_, h.sin_lookup_table_⟩
  · rw [hpa, c1]
    show _ = P.Points ++ _
    rw [hpq, ← List.append_assoc]
    rfl
  · rw [a1, c2]
    show _ = P.Intensity ++ _
    rw [q1, ← List.append_assoc]
    rfl
  · rw [a2, c3]
    show _ = P.LaserId ++ _
    rw [q2, ← List.append_assoc]
    rfl
  · rw [a3, c4]
    show _ = P.Azimuth ++ _
    rw [q3, ← List.append_assoc]
    rfl
  · rw [a4, c5]
    show _ = P.Distance ++ _
    rw [q4, ← List.append_assoc]
    rfl
  · rw [a5, c6]
    show _ = P.Timestamp ++ _
    rw [q5, ← List.append_assoc]
    rfl
  · intro i hi
    have hcount := Merging_count P a q h
    show ((if i = laserId then (a.CurrentDataset.Points.length : Int) else a.LastPointId i)
          = (if i = laserId then (q.CurrentDataset.Points.length : Int) else q.LastPointId i)
            + (P.Points.length : Int) ∧
        (0 ≤ (if i = laserId then (q.CurrentDataset.Points.length : Int) else q.LastPointId i) ∨
          P.Points.length = 0)) ∨
      ((if i = laserId then (q.CurrentDataset.Points.length : Int) else q.LastPointId i) = -1 ∧
        (if i = laserId then (a.CurrentDataset.Points.length : Int) else a.LastPointId i)
          < (P.Points.length : Int) ∧
        0 ≤ q.FirstPointIdThisReturn)
    by_cases hil : i = laserId
    · simp only [if_pos hil]
      left
      exact ⟨hcount, Or.inl (Int.natCast_nonneg _)⟩
    · simp only [if_neg hil]
      exact h.LastPointId i hi

theorem Merging_ProcessFiring_loop (P : PolyData) (firingData : HDLFiringData)
    (offset gpsTime azimuthOffset : Nat) (translation : ℚ × ℚ × ℚ) (dual : Bool)
    (lm : Libm) (ho : offset ≤ 32) (m : Nat) :
    ∀ (j : Nat) (a q : vtkInternal), j + m ≤ HDL_LASER_PER_FIRING → Merging P a q →
      Merging P
        (ProcessFiring.loop firingData offset gpsTime azimuthOffset translation dual lm m j a)
        (ProcessFiring.loop firingData offset gpsTime azimuthOffset translation dual lm m j q) := by
  induction m with
  | zero => intro j a q _ h; exact h
  | succ m ih =>
    intro j a q hj h
    simp only [ProcessFiring.loop]
    apply ih _ _ _ (by omega)
    rw [h.LaserSelection, h.laser_corrections_]
    split_ifs
    · refine Merging_PushFiringData P a q h _ _ _ _ _ _ _ _ _ ?_
      unfold HDL_LASER_PER_FIRING at hj
      unfold HDL_MAX_NUM_LASERS
      omega
    · exact h

theorem ProcessFiring_unfold (s : vtkInternal) (firingData : HDLFiringData)
    (offset gpsTime azimuthOffset : Nat) (translation : ℚ × ℚ × ℚ) (lm : Libm) :
    ProcessFiring s firingData offset gpsTime azimuthOffset translation lm
      = ProcessFiring.loop firingData offset gpsTime azimuthOffset translation
          (ProcessFiring.dual s firingData) lm HDL_LASER_PER_FIRING 0
          (if ProcessFiring.dual s firingData = false then
            { s with FirstPointIdThisReturn := (s.CurrentDataset.Points.length : Int) }
          else s) := rfl

/-- `ProcessFiring` keeps the two runs related while `a` merges. -/
theorem Merging_ProcessFiring (P : PolyData) (a q : vtkInternal) (h : Merging P a q)
    (hl : a.LastAzimuth = q.LastAzimuth) (firingData : HDLFiringData)
    (offset gpsTime azimuthOffset : Nat) (translation : ℚ × ℚ × ℚ) (lm : Libm)
    (ho : offset ≤ 32) :
    Merging P (ProcessFiring a firingData offset gpsTime azimuthOffset translation lm)
      (ProcessFiring q firingData offset gpsTime azimuthOffset translation lm) := by
  have hd : ProcessFiring.dual a firingData = ProcessFiring.dual q firingData := by
    unfold ProcessFiring.dual
    rw [hl]
  rw [ProcessFiring_unfold a, ProcessFiring_unfold q, hd]
  apply Merging_ProcessFiring_loop P _ _ _ _ _ _ _ ho _ _ _ _ (by simp)
  cases hq : ProcessFiring.dual q firingData with
  | true =>
    simp only [Bool.true_eq_false, if_false]
    exact h
  | false =>
    simp only [if_true]
    refine ⟨h.columns, h.emitted, h.current, Merging_count P a q h, ?_, h.valid,
      h.LaserSelection, h.laser_corrections_, h.cos_lookup_table_, h.sin_lookup_table_⟩
    intro i hi
    rcases h.LastPointId i hi with h1 | ⟨h1, h2, _⟩
    · exact Or.inl h1
    · exact Or.inr ⟨h1, h2, Int.natCast_nonneg _⟩

/-- `ProcessFiring` at a frame boundary that `a` swallows and `q` emits: the firing is not a
dual return, so both write their point count to `FirstPointIdThisReturn`, and what `a`
remembers in `LastPointId` lies in the frames `q` has emitted. -/
theorem Merging_ProcessFiring_swallowed (a q : vtkInternal)
    (h : Merging (concatFrames q.Datasets) a q) (hl : a.LastAzimuth = q.LastAzimuth)
    (firingData : HDLFiringData) (hrot : firingData.rotationalPosition < q.LastAzimuth)
    (counter : Int) (verts : List Nat)
    (offset gpsTime azimuthOffset : Nat) (translation : ℚ × ℚ × ℚ) (lm : Libm)
    (ho : offset ≤ 32) :
    Merging (concatFrames (q.Datasets ++ [{ q.CurrentDataset with Verts := verts }]))
      (ProcessFiring { a with SplitCounter := counter } firingData offset gpsTime azimuthOffset
        translation lm)
      (ProcessFiring
        { q with
          LastPointId := fun k => if k < HDL_MAX_NUM_LASERS then -1 else q.LastPointId k
          Datasets := q.Datasets ++ [{ q.CurrentDataset with Verts := verts }]
          CurrentDataset := CreateData 0 } firingData offset gpsTime azimuthOffset
        translation lm) := by
  have hda : ProcessFiring.dual { a with SplitCounter := counter } firingData = false := by
    unfold ProcessFiring.dual
    exact decide_eq_false (by show ¬ a.LastAzimuth = _; omega)
  have hdq : ProcessFiring.dual
      { q with
        LastPointId := fun k => if k < HDL_MAX_NUM_LASERS then -1 else q.LastPointId k
        Datasets := q.Datasets ++ [{ q.CurrentDataset with Verts := verts }]
        CurrentDataset := CreateData 0 } firingData = false := by
    unfold ProcessFiring.dual
    exact decide_eq_false (by show ¬ q.LastAzimuth = _; omega)
  rw [ProcessFiring_unfold, ProcessFiring_unfold, hda, hdq]
  simp only [if_true]
  apply Merging_ProcessFiring_loop _ _ _ _ _ _ _ _ ho _ _ _ _ (by simp)
  have hP : concatFrames (q.Datasets ++ [{ q.CurrentDataset with Verts := verts }])
      = (concatFrames q.Datasets).append { q.CurrentDataset with Verts := verts } := by
    rw [concatFrames_append, concatFrames_singleton]
  have hlen : (concatFrames (q.Datasets ++ [{ q.CurrentDataset with Verts := verts }])).Points.length
      = (concatFrames q.Datasets).Points.length + q.CurrentDataset.Points.length := by
    rw [hP]
    show ((concatFrames q.Datasets).Points ++ q.CurrentDataset.Points).length = _
    rw [List.length_append]
  have hcount := Merging_count _ a q h
  refine ⟨?_, ?_, CreateData_columnsAligned 0, ?_, ?_, ?_, h.LaserSelection,
    h.laser_corrections_, h.cos_lookup_table_, h.sin_lookup_table_⟩
  · show a.CurrentDataset.sameColumns _
    rw [PolyData_append_empty, hP]
    exact h.columns
  · rw [hP]
    exact append_columnsAligned _ _ h.emitted h.current
  · show (a.CurrentDataset.Points.length : Int) = ((CreateData 0).Points.length : Int) + _
    rw [hlen, hcount]
    show _ = ((0 : Nat) : Int) + _
    push_cast
    omega
  · intro i hi
    right
    refine ⟨if_pos hi, ?_, Int.natCast_nonneg _⟩
    show a.LastPointId i < _
    rw [hlen]
    push_cast
    rcases h.LastPointId i hi with ⟨h1, _⟩ | ⟨_, h2, _⟩
    · rcases h.valid i hi with hv | ⟨_, hv⟩
      · rw [h1, hv]
        omega
      · rw [h1]
        omega
    · omega
  · intro i hi
    left
    exact if_pos hi

theorem Merging_with_LastAzimuth (P : PolyData) (a q : vtkInternal) (va vq : Nat)
    (h : Merging P a q) : Merging P { a with LastAzimuth := va } { q with LastAzimuth := vq } :=
  ⟨h.columns, h.emitted, h.current, h.FirstPointIdThisReturn, h.LastPointId, h.valid,
    h.LaserSelection, h.laser_corrections_, h.cos_lookup_table_, h.sin_lookup_table_⟩

theorem ProcessFiring_SplitCounter (s : vtkInternal) (firingData : HDLFiringData)
    (offset gpsTime azimuthOffset : Nat) (translation : ℚ × ℚ × ℚ) (lm : Libm) :
    (ProcessFiring s firingData offset gpsTime azimuthOffset translation lm).SplitCounter
      = s.SplitCounter ∧
    (ProcessFiring s firingData offset gpsTime azimuthOffset translation lm).Datasets
      = s.Datasets :=
  ProcessFiring_preserves
    (fun t => t.SplitCounter = s.SplitCounter ∧ t.Datasets = s.Datasets)
    (fun _ _ _ _ _ _ _ _ _ _ h => h) (fun _ _ h => h) s _ _ _ _ _ _ ⟨rfl, rfl⟩

/-- One iteration of the firing loop keeps the members that the frames do not depend on. -/
theorem ProcessHDLPacket_step_fields (dataPacket : HDLDataPacket) (azimuthOffset : Nat)
    (translation : ℚ × ℚ × ℚ) (lm : Libm) (i : Nat) (s : vtkInternal) :
    (ProcessHDLPacket.step dataPacket azimuthOffset translation lm i s).Skip = s.Skip ∧
    (ProcessHDLPacket.step dataPacket azimuthOffset translation lm i s).Interp = s.Interp ∧
    (ProcessHDLPacket.step dataPacket azimuthOffset translation lm i s).ApplyTransform
      = s.ApplyTransform ∧
    (ProcessHDLPacket.step dataPacket azimuthOffset translation lm i s).PointsSkip
      = s.PointsSkip ∧
    s.Datasets <+: (ProcessHDLPacket.step dataPacket azimuthOffset translation lm i s).Datasets :=
  ProcessHDLPacket_step_preserves
    (fun t => t.Skip = s.Skip ∧ t.Interp = s.Interp ∧ t.ApplyTransform = s.ApplyTransform ∧
      t.PointsSkip = s.PointsSkip ∧ s.Datasets <+: t.Datasets)
    (fun _ _ _ _ _ _ _ _ _ _ h => h) (fun _ _ h => h) (fun _ _ h => h)
    (fun t h => ⟨by unfold SplitFrame; split_ifs <;> exact h.1,
      by unfold SplitFrame; split_ifs <;> exact h.2.1,
      by unfold SplitFrame; split_ifs <;> exact h.2.2.1,
      by unfold SplitFrame; split_ifs <;> exact h.2.2.2.1,
      List.IsPrefix.trans h.2.2.2.2 (SplitFrame_keeps_Datasets t false)⟩)
    _ _ _ _ _ s ⟨rfl, rfl, rfl, rfl, List.prefix_refl _⟩

theorem Merging_cast {P P' : PolyData} {a q : vtkInternal} (h : Merging P a q)
    (e : P' = P) : Merging P' a q := e ▸ h

/-- One iteration of the firing loop when every firing is processed. -/
theorem ProcessHDLPacket_step_everyFiring (dataPacket : HDLDataPacket) (azimuthOffset : Nat)
    (translation : ℚ × ℚ × ℚ) (lm : Libm) (i : Nat) (s : vtkInternal)
    (hp : s.PointsSkip = 0) :
    ProcessHDLPacket.step dataPacket azimuthOffset translation lm i s
      = { ProcessFiring
            (if (dataPacket.firingData i).rotationalPosition < s.LastAzimuth
              then SplitFrame s false else s)
            (dataPacket.firingData i)
            (if (dataPacket.firingData i).blockIdentifier = BLOCK_0_TO_31 then 0 else 32)
            dataPacket.gpsTimestamp azimuthOffset translation lm with
          LastAzimuth := (dataPacket.firingData i).rotationalPosition } := by
  have h1 : (if (dataPacket.firingData i).rotationalPosition < s.LastAzimuth
      then SplitFrame s false else s).PointsSkip = 0 := by
    split_ifs
    · unfold SplitFrame
      split_ifs <;> exact hp
    · exact hp
  unfold ProcessHDLPacket.step ProcessHDLPacket.fire
  simp only [h1, true_or, if_true]

theorem Merges_step (n : Nat) (a q : vtkInternal) (h : Merges n a q)
    (dataPacket : HDLDataPacket) (azimuthOffset : Nat) (translation : ℚ × ℚ × ℚ) (lm : Libm)
    (i : Nat) :
    Merges n (ProcessHDLPacket.step dataPacket azimuthOffset translation lm i a)
      (ProcessHDLPacket.step dataPacket azimuthOffset translation lm i q) := by
  obtain ⟨fa1, fa2, fa3, fa4, fa5⟩ :=
    ProcessHDLPacket_step_fields dataPacket azimuthOffset translation lm i a
  obtain ⟨fq1, fq2, fq3, fq4, fq5⟩ :=
    ProcessHDLPacket_step_fields dataPacket azimuthOffset translation lm i q
  have hsq : (ProcessHDLPacket.step dataPacket azimuthOffset translation lm i q).SplitCounter
      = 0 :=
    ProcessHDLPacket_loop_SplitCounter dataPacket azimuthOffset translation lm 1 i q
      h.sequential
  refine ⟨rfl, fa1.trans (h.Skip.trans fq1.symm), fa2.trans (h.Interp.trans fq2.symm),
    fa3.trans (h.ApplyTransform.trans fq3.symm), fa4.trans (h.PointsSkip.trans fq4.symm),
    fq4.trans h.everyFiring, hsq, ?_⟩
  rcases h.frames with ⟨hlen, hnil, hsc, M⟩ | ⟨hlen, d, hd, hcol⟩
  · have hpa : a.PointsSkip = 0 := h.PointsSkip.trans h.everyFiring
    rw [ProcessHDLPacket_step_everyFiring _ _ _ _ _ a hpa,
      ProcessHDLPacket_step_everyFiring _ _ _ _ _ q h.everyFiring, h.LastAzimuth]
    by_cases hb : (dataPacket.firingData i).rotationalPosition < q.LastAzimuth
    · rw [if_pos hb, if_pos hb, SplitFrame_of_SplitCounter q h.sequential]
      by_cases hc : 0 < a.SplitCounter
      · have ea : SplitFrame a false = { a with SplitCounter := a.SplitCounter - 1 } := by
          unfold SplitFrame
          rw [if_pos ⟨hc, rfl⟩]
        rw [ea]
        left
        refine ⟨?_, ?_, ?_, ?_⟩
        · show (ProcessFiring _ _ _ _ _ _ _).Datasets.length ≤ n
          rw [(ProcessFiring_SplitCounter _ _ _ _ _ _ _).2]
          show (q.Datasets ++ [_]).length ≤ n
          rw [List.length_append, List.length_singleton]
          omega
        · show (ProcessFiring _ _ _ _ _ _ _).Datasets = []
          rw [(ProcessFiring_SplitCounter _ _ _ _ _ _ _).2]
          exact hnil
        · show (ProcessFiring _ _ _ _ _ _ _).SplitCounter
            = (n : Int) - ((ProcessFiring _ _ _ _ _ _ _).Datasets.length : Nat)
          rw [(ProcessFiring_SplitCounter _ _ _ _ _ _ _).1,
            (ProcessFiring_SplitCounter _ _ _ _ _ _ _).2]
          show a.SplitCounter - 1 = (n : Int) - ((q.Datasets ++ [_]).length : Nat)
          rw [List.length_append, List.length_singleton]
          push_cast
          omega
        · apply Merging_with_LastAzimuth
          refine Merging_cast (Merging_ProcessFiring_swallowed a q M h.LastAzimuth _ hb _ _ _ _
            _ _ _ (fire_offset_le _)) ?_
          show concatFrames (ProcessFiring _ _ _ _ _ _ _).Datasets = _
          rw [(ProcessFiring_SplitCounter _ _ _ _ _ _ _).2]
      · have hc0 : a.SplitCounter = 0 := by omega
        rw [SplitFrame_of_SplitCounter a hc0]
        right
        refine ⟨?_, { a.CurrentDataset with
          Verts := NewVertexCells a.CurrentDataset.Points.length }, ?_, ?_⟩
        · show n < (ProcessFiring _ _ _ _ _ _ _).Datasets.length
          rw [(ProcessFiring_SplitCounter _ _ _ _ _ _ _).2]
          show n < (q.Datasets ++ [_]).length
          rw [List.length_append, List.length_singleton]
          omega
        · show (ProcessFiring _ _ _ _ _ _ _).Datasets.head? = _
          rw [(ProcessFiring_SplitCounter _ _ _ _ _ _ _).2]
          show (a.Datasets ++ [_]).head? = _
          rw [hnil]
          rfl
        · show PolyData.sameColumns _
            (concatFrames ((ProcessFiring _ _ _ _ _ _ _).Datasets.take (n + 1)))
          rw [(ProcessFiring_SplitCounter _ _ _ _ _ _ _).2]
          show PolyData.sameColumns _ (concatFrames ((q.Datasets ++ [_]).take (n + 1)))
          rw [List.take_of_length_le (by rw [List.length_append, List.length_singleton]; omega),
            concatFrames_append, concatFrames_singleton]
          exact M.columns
    · rw [if_neg hb, if_neg hb]
      left
      refine ⟨?_, ?_, ?_, ?_⟩
      · show (ProcessFiring _ _ _ _ _ _ _).Datasets.length ≤ n
        rw [(ProcessFiring_SplitCounter _ _ _ _ _ _ _).2]
        exact hlen
      · show (ProcessFiring _ _ _ _ _ _ _).Datasets = []
        rw [(ProcessFiring_SplitCounter _ _ _ _ _ _ _).2]
        exact hnil
      · show (ProcessFiring _ _ _ _ _ _ _).SplitCounter
          = (n : Int) - ((ProcessFiring _ _ _ _ _ _ _).Datasets.length : Nat)
        rw [(ProcessFiring_SplitCounter _ _ _ _ _ _ _).1,
          (ProcessFiring_SplitCounter _ _ _ _ _ _ _).2]
        exact hsc
      · apply Merging_with_LastAzimuth
        refine Merging_cast (Merging_ProcessFiring _ a q M h.LastAzimuth _ _ _ _ _ _
          (fire_offset_le _)) ?_
        show concatFrames (ProcessFiring _ _ _ _ _ _ _).Datasets = _
        rw [(ProcessFiring_SplitCounter _ _ _ _ _ _ _).2]
  · obtain ⟨t, ht⟩ := fq5
    obtain ⟨u, hu⟩ := fa5
    right
    refine ⟨by rw [← ht, List.length_append]; omega, d, ?_, ?_⟩
    · rw [← hu, List.head?_append, hd]
      rfl
    · rw [← ht, List.take_append_of_le_length (by omega)]
      exact hcol

theorem Merges_loop (n : Nat) (dataPacket : HDLDataPacket) (azimuthOffset : Nat)
    (translation : ℚ × ℚ × ℚ) (lm : Libm) (m : Nat) :
    ∀ (i : Nat) (a q : vtkInternal), Merges n a q →
      Merges n (ProcessHDLPacket.loop dataPacket azimuthOffset translation lm m i a)
        (ProcessHDLPacket.loop dataPacket azimuthOffset translation lm m i q) := by
  induction m with
  | zero => intro i a q h; exact h
  | succ m ih =>
    intro i a q h
    simp only [ProcessHDLPacket.loop]
    exact ih _ _ _ (Merges_step n a q h _ _ _ _ _)

theorem Merges_ProcessHDLPacket (n : Nat) (a q : vtkInternal) (h : Merges n a q)
    (data : Payload) (lm : Libm) :
    Merges n (ProcessHDLPacket a data lm) (ProcessHDLPacket q data lm) := by
  unfold ProcessHDLPacket
  split_ifs
  · exact h
  · unfold ProcessHDLPacket.decoded
    simp only []
    rw [ComputeOrientation_congr a q h.Interp h.ApplyTransform, h.Skip]
    apply Merges_loop
    refine ⟨h.LastAzimuth, rfl, h.Interp, h.ApplyTransform, h.PointsSkip, h.everyFiring,
      h.sequential, ?_⟩
    rcases h.frames with ⟨h1, h2, h3, M⟩ | h4
    · exact Or.inl ⟨h1, h2, h3, M.columns, M.emitted, M.current, M.FirstPointIdThisReturn,
        M.LastPointId, M.valid, M.LaserSelection, M.laser_corrections_, M.cos_lookup_table_,
        M.sin_lookup_table_⟩
    · exact Or.inr h4

theorem Merges_advanceReader (n : Nat) (a q : vtkInternal) (h : Merges n a q) :
    Merges n (advanceReader a) q := by
  refine ⟨h.LastAzimuth, h.Skip, h.Interp, h.ApplyTransform, h.PointsSkip, h.everyFiring,
    h.sequential, ?_⟩
  rcases h.frames with ⟨h1, h2, h3, M⟩ | h4
  · exact Or.inl ⟨h1, h2, h3, M.columns, M.emitted, M.current, M.FirstPointIdThisReturn,
      M.LastPointId, M.valid, M.LaserSelection, M.laser_corrections_, M.cos_lookup_table_,
      M.sin_lookup_table_⟩
  · exact Or.inr h4

theorem SplitFrame_forced (s : vtkInternal) :
    SplitFrame s true
      = { s with
          LastPointId := fun n => if n < HDL_MAX_NUM_LASERS then -1 else s.LastPointId n
          Datasets := s.Datasets ++
            [{ s.CurrentDataset with Verts := NewVertexCells s.CurrentDataset.Points.length }]
          CurrentDataset := CreateData 0 } := by
  unfold SplitFrame
  rw [if_neg (by simp)]

/-- What `atMostOneBoundaryRead` says behind a payload that did not complete the request. -/
theorem atMostOneBoundaryRead_next (n : Nat) (q : vtkInternal) (data : Payload)
    (rest : List Payload) (lm : Libm) (hs : q.SplitCounter = 0)
    (hone : atMostOneBoundaryRead (data :: rest) q.Skip q.LastAzimuth
      (n + 1 - q.Datasets.length) = true)
    (hq : (ProcessHDLPacket q data lm).Datasets.length ≤ n) :
    atMostOneBoundaryRead rest (ProcessHDLPacket q data lm).Skip
      (ProcessHDLPacket q data lm).LastAzimuth
      (n + 1 - (ProcessHDLPacket q data lm).Datasets.length) = true := by
  by_cases hlen : data.length ≠ 1206
  · have e : ProcessHDLPacket q data lm = q := by
      unfold ProcessHDLPacket
      rw [if_pos hlen]
    rw [e]
    simpa only [atMostOneBoundaryRead, if_pos hlen] using hone
  · have hlen1 : data.length = 1206 := not_not.mp hlen
    have hl := ProcessHDLPacket_Datasets_length_eq q data lm hlen1 hs
    simp only [atMostOneBoundaryRead, if_neg hlen, Bool.and_eq_true, Bool.or_eq_true,
      decide_eq_true_eq] at hone
    rw [ProcessHDLPacket_Skip q data lm hlen1, ProcessHDLPacket_LastAzimuth_eq q data lm hlen1,
      hl]
    rcases hone.2 with h1 | h1
    · omega
    · rw [show n + 1 - (q.Datasets.length
          + azimuthDecreases (reinterpretPacket data) (HDL_FIRING_PER_PKT - q.Skip) q.Skip
              q.LastAzimuth)
          = n + 1 - q.Datasets.length
            - azimuthDecreases (reinterpretPacket data) (HDL_FIRING_PER_PKT - q.Skip) q.Skip
                q.LastAzimuth by omega]
      exact h1

/-- The payload behind which a frame request returns has emitted one frame. -/
theorem atMostOneBoundaryRead_single (a : vtkInternal) (data : Payload) (rest : List Payload)
    (lm : Libm) (skip lastAzimuth frames : Nat) (ha : a.Datasets = []) (hsk : a.Skip = skip)
    (hla : a.LastAzimuth = lastAzimuth)
    (hone : atMostOneBoundaryRead (data :: rest) skip lastAzimuth frames = true)
    (hd : (ProcessHDLPacket a data lm).Datasets.length ≠ 0) :
    ∃ d, (ProcessHDLPacket a data lm).Datasets = [d] := by
  by_cases hlen : data.length ≠ 1206
  · exfalso
    apply hd
    have e : ProcessHDLPacket a data lm = a := by
      unfold ProcessHDLPacket
      rw [if_pos hlen]
    rw [e, ha]
    rfl
  · have hlen1 : data.length = 1206 := not_not.mp hlen
    have hle := ProcessHDLPacket_Datasets_length a data lm hlen1
    rw [ha, hsk, hla] at hle
    simp only [atMostOneBoundaryRead, if_neg hlen, Bool.and_eq_true, Bool.or_eq_true,
      decide_eq_true_eq] at hone
    match hm : (ProcessHDLPacket a data lm).Datasets with
    | [] => rw [hm] at hd; exact absurd rfl hd
    | [d] => exact ⟨d, rfl⟩
    | _ :: _ :: _ =>
      rw [hm] at hle
      have := hone.1
      simp only [List.length_cons, List.length_nil] at hle
      omega

/-- The packet loop of `GetFrameRange`, entered with `SplitCounter = n` and no frame emitted,
returns the raw columns of the first `n + 1` frames of the sequential run. -/
theorem GetFrameRange_loop_raw (n : Nat) (lm : Libm) :
    ∀ (suffix : List Payload) (a q : vtkInternal), Aggregates n a q → a.Datasets = [] →
      atMostOneBoundaryRead suffix q.Skip q.LastAzimuth (n + 1 - q.Datasets.length) = true →
      ∃ d, (GetFrameRange.loop lm suffix a).Datasets.getLast? = some d ∧
        d.raw = concatRaw ((framesOf (decodeAll q suffix lm)).take (n + 1)) := by
  intro suffix
  induction suffix with
  | nil =>
    intro a q h ha _
    refine ⟨{ a.CurrentDataset with Verts := NewVertexCells a.CurrentDataset.Points.length },
      ?_, ?_⟩
    · simp [GetFrameRange.loop, SplitFrame, ha]
    · rcases h.frames with ⟨h1, _, _, h4⟩ | ⟨_, _, h3, _⟩
      · show a.CurrentDataset.raw = _
        rw [h4]
        show _ = concatRaw (List.take (n + 1) (framesOf q))
        rw [List.take_of_length_le (by simp [framesOf]; omega)]
      · rw [ha] at h3
        simp at h3
  | cons data rest ih =>
    intro a q h ha hone
    have h1 : Aggregates n (ProcessHDLPacket (advanceReader a) data lm)
        (ProcessHDLPacket q data lm) :=
      Aggregates_ProcessHDLPacket n _ _ (Aggregates_advanceReader n a q h) data lm
    have hdec : decodeAll q (data :: rest) lm = decodeAll (ProcessHDLPacket q data lm) rest lm :=
      rfl
    rw [hdec]
    simp only [GetFrameRange.loop]
    by_cases hd : (ProcessHDLPacket (advanceReader a) data lm).Datasets.length ≠ 0
    · rw [if_pos hd]
      obtain ⟨d, hd1⟩ := atMostOneBoundaryRead_single (advanceReader a) data rest lm _ _ _ ha
        h.Skip h.LastAzimuth hone hd
      rcases h1.frames with ⟨_, g2, _, _⟩ | ⟨g1, _, g3, _⟩
      · rw [g2] at hd
        exact absurd rfl hd
      · refine ⟨d, by rw [hd1]; rfl, ?_⟩
        rw [hd1] at g3
        simp only [List.map_cons, List.map_nil, List.cons.injEq] at g3
        rw [g3.1]
        obtain ⟨t, ht⟩ := decodeAll_keeps_Datasets (ProcessHDLPacket q data lm) rest lm
        rw [framesOf, ← ht, List.append_assoc, List.take_append_of_le_length (by omega)]
    · rw [if_neg hd]
      have hd0 : (ProcessHDLPacket (advanceReader a) data lm).Datasets = [] :=
        List.length_eq_zero.mp (not_not.mp hd)
      apply ih _ _ h1 hd0
      refine atMostOneBoundaryRead_next n q data rest lm h.sequential hone ?_
      rcases h1.frames with ⟨g1, _, _, _⟩ | ⟨_, _, g3, _⟩
      · exact g1
      · rw [hd0] at g3
        simp at g3

/-- The same for all nine columns, when every firing is processed. -/
theorem GetFrameRange_loop_merges (n : Nat) (lm : Libm) :
    ∀ (suffix : List Payload) (a q : vtkInternal), Merges n a q → a.Datasets = [] →
      atMostOneBoundaryRead suffix q.Skip q.LastAzimuth (n + 1 - q.Datasets.length) = true →
      ∃ d, (GetFrameRange.loop lm suffix a).Datasets.getLast? = some d ∧
        d.sameColumns (concatFrames ((framesOf (decodeAll q suffix lm)).take (n + 1))) := by
  intro suffix
  induction suffix with
  | nil =>
    intro a q h ha _
    refine ⟨{ a.CurrentDataset with Verts := NewVertexCells a.CurrentDataset.Points.length },
      ?_, ?_⟩
    · rw [GetFrameRange.loop, SplitFrame_forced]
      simp [ha]
    · rcases h.frames with ⟨h1, _, _, M⟩ | ⟨_, d, h3, _⟩
      · show PolyData.sameColumns _ (concatFrames (List.take (n + 1) (framesOf q)))
        rw [List.take_of_length_le (by simp [framesOf]; omega), concatFrames_framesOf]
        exact M.columns
      · rw [ha] at h3
        simp at h3
  | cons data rest ih =>
    intro a q h ha hone
    have h1 : Merges n (ProcessHDLPacket (advanceReader a) data lm)
        (ProcessHDLPacket q data lm) :=
      Merges_ProcessHDLPacket n _ _ (Merges_advanceReader n a q h) data lm
    have hdec : decodeAll q (data :: rest) lm = decodeAll (ProcessHDLPacket q data lm) rest lm :=
      rfl
    rw [hdec]
    simp only [GetFrameRange.loop]
    by_cases hd : (ProcessHDLPacket (advanceReader a) data lm).Datasets.length ≠ 0
    · rw [if_pos hd]
      obtain ⟨d, hd1⟩ := atMostOneBoundaryRead_single (advanceReader a) data rest lm _ _ _ ha
        h.Skip h.LastAzimuth hone hd
      rcases h1.frames with ⟨_, g2, _, _⟩ | ⟨g1, d', g3, g4⟩
      · rw [g2] at hd
        exact absurd rfl hd
      · rw [hd1] at g3
        have hdd : d = d' := by simpa using g3
        subst hdd
        refine ⟨d, by rw [hd1]; rfl, ?_⟩
        obtain ⟨t, ht⟩ := decodeAll_keeps_Datasets (ProcessHDLPacket q data lm) rest lm
        rw [framesOf, ← ht, List.append_assoc, List.take_append_of_le_length (by omega)]
        exact g4
    · rw [if_neg hd]
      have hd0 : (ProcessHDLPacket (advanceReader a) data lm).Datasets = [] :=
        List.length_eq_zero.mp (not_not.mp hd)
      apply ih _ _ h1 hd0
      refine atMostOneBoundaryRead_next n q data rest lm h.sequential hone ?_
      rcases h1.frames with ⟨g1, _, _, _⟩ | ⟨_, d', g3, _⟩
      · exact g1
      · rw [hd0] at g3
        simp at g3

set_option maxRecDepth 100000 in
/-- C18, as stated, fails: on a capture of three sweeps of twelve points, `GetFrameRange(0, 1)`
returns the 24 points of frames 0 and 1, two frames and not one.  With `PointsSkip = 1` and a
frame boundary at a firing that is left out, the dual-return flags of the aggregate frame are
not those of the frames one after the other: the first return behind the boundary is
reconciled with a point of the frame before. -/
theorem C18_frame_range_returns_one_frame_more :
    ((GetFrameRange threeSweepReader 0 1 exampleLibm).frame.map fun d => d.Azimuth)
      = some [100, 200, 300, 400, 500, 600, 700, 800, 900, 1000, 1100, 1200,
          10, 20, 30, 40, 50, 60, 70, 80, 90, 100, 110, 120] ∧
    ((GetFrame threeSweepReader 0 exampleLibm).frame.map fun d => d.Azimuth)
      = some [100, 200, 300, 400, 500, 600, 700, 800, 900, 1000, 1100, 1200] ∧
    ((GetFrame threeSweepReader 1 exampleLibm).frame.map fun d => d.Azimuth)
      = some [10, 20, 30, 40, 50, 60, 70, 80, 90, 100, 110, 120] ∧
    skippedBoundaryReader.PointsSkip = 1 ∧
    ((framesOf (decodeAll everySecondFiring skippedBoundaryCapture exampleLibm)).map
      fun d => d.Flags) = [[DUAL_DOUBLED], [5, 10]] ∧
    ((GetFrameRange skippedBoundaryReader 0 1 exampleLibm).frame.map fun d => d.Azimuth)
      = some [100, 10, 10] ∧
    ((GetFrameRange skippedBoundaryReader 0 1 exampleLibm).frame.map fun d => d.Flags)
      = some [10, 5, 10] := by
  refine ⟨by decide!, by decide!, by decide!, by decide!, by decide!, by decide!, by decide!⟩

/-- C18, amended: `GetFrameRange(startFrame, numberOfFrames)` with `startFrame ≥ 0` and
`numberOfFrames ≥ 1` sets `SplitCounter = numberOfFrames`, and every non-forced frame split
reached while `SplitCounter > 0` only decrements the counter.  When no packet the request
reads holds more than one frame boundary, the frame returned holds, in packet order, the
columns of the first `numberOfFrames + 1` frames that the assembler produces from the file
position and skip of `startFrame` with `SplitCounter = 0`, or of all of them when the capture
ends before: the six columns position, intensity, laser_id, azimuth, distance_m and timestamp
for every `PointsSkip`, and all nine columns when `PointsSkip = 0`. -/
theorem C18_frame_range_aggregates (s : vtkInternal) (reader : vtkPacketFileReader)
    (startFrame numberOfFrames : Int) (lm : Libm)
    (hreader : s.Reader = some reader) (hstart : 0 ≤ startFrame) (hcount : 1 ≤ numberOfFrames)
    (hone : atMostOneBoundaryRead
      (reader.packets.drop (s.FilePositions.getD startFrame.toNat 0))
      (s.Skips.getD startFrame.toNat 0) 0 (numberOfFrames.toNat + 1) = true) :
    (∃ d, (GetFrameRange s startFrame numberOfFrames lm).frame = some d ∧
      d.raw = concatRaw ((framesOf (decodeAll
          { UnloadData s with Skip := s.Skips.getD startFrame.toNat 0, SplitCounter := 0 }
          (reader.packets.drop (s.FilePositions.getD startFrame.toNat 0)) lm)).take
            (numberOfFrames.toNat + 1)) ∧
      (s.PointsSkip = 0 →
        d.sameColumns (concatFrames ((framesOf (decodeAll
          { UnloadData s with Skip := s.Skips.getD startFrame.toNat 0, SplitCounter := 0 }
          (reader.packets.drop (s.FilePositions.getD startFrame.toNat 0)) lm)).take
            (numberOfFrames.toNat + 1))))) ∧
    (GetFrameRange s startFrame numberOfFrames lm).state
      = { GetFrameRange.loop lm (reader.packets.drop (s.FilePositions.getD startFrame.toNat 0))
            { UnloadData s with
              Reader := some (reader.SetFilePosition (s.FilePositions.getD startFrame.toNat 0))
              Skip := s.Skips.getD startFrame.toNat 0
              SplitCounter := numberOfFrames } with SplitCounter := 0 } ∧
    (∀ t : vtkInternal, 0 < t.SplitCounter →
      SplitFrame t false = { t with SplitCounter := t.SplitCounter - 1 }) := by
  have hr : (UnloadData s).Reader = some reader := hreader
  have hns : ¬ startFrame < 0 := not_lt.mpr hstart
  have e1 : (GetFrameRange s startFrame numberOfFrames lm).frame
      = (GetFrameRange.loop lm (reader.packets.drop (s.FilePositions.getD startFrame.toNat 0))
          { UnloadData s with
            Reader := some (reader.SetFilePosition (s.FilePositions.getD startFrame.toNat 0))
            Skip := s.Skips.getD startFrame.toNat 0
            SplitCounter := numberOfFrames }).Datasets.getLast? := by
    unfold GetFrameRange
    simp only [hr, if_neg hns]
    rfl
  have e2 : (GetFrameRange s startFrame numberOfFrames lm).state
      = { GetFrameRange.loop lm (reader.packets.drop (s.FilePositions.getD startFrame.toNat 0))
            { UnloadData s with
              Reader := some (reader.SetFilePosition (s.FilePositions.getD startFrame.toNat 0))
              Skip := s.Skips.getD startFrame.toNat 0
              SplitCounter := numberOfFrames } with SplitCounter := 0 } := by
    unfold GetFrameRange
    simp only [hr, if_neg hns]
    rfl
  have hcast : numberOfFrames = ((numberOfFrames.toNat : Nat) : Int) - ((0 : Nat) : Int) := by
    rw [Int.toNat_of_nonneg (by omega)]
    simp
  refine ⟨?_, e2, ?_⟩
  · rw [e1]
    obtain ⟨d, hd1, hd2⟩ := GetFrameRange_loop_raw numberOfFrames.toNat lm
      (reader.packets.drop (s.FilePositions.getD startFrame.toNat 0))
      { UnloadData s with
        Reader := some (reader.SetFilePosition (s.FilePositions.getD startFrame.toNat 0))
        Skip := s.Skips.getD startFrame.toNat 0
        SplitCounter := numberOfFrames }
      { UnloadData s with Skip := s.Skips.getD startFrame.toNat 0, SplitCounter := 0 }
      ⟨rfl, rfl, rfl, rfl, rfl, rfl, rfl, rfl, rfl, rfl,
        Or.inl ⟨Nat.zero_le _, rfl, hcast, rfl⟩⟩ rfl hone
    refine ⟨d, hd1, hd2, ?_⟩
    intro hps
    obtain ⟨d', hd3, hd4⟩ := GetFrameRange_loop_merges numberOfFrames.toNat lm
      (reader.packets.drop (s.FilePositions.getD startFrame.toNat 0))
      { UnloadData s with
        Reader := some (reader.SetFilePosition (s.FilePositions.getD startFrame.toNat 0))
        Skip := s.Skips.getD startFrame.toNat 0
        SplitCounter := numberOfFrames }
      { UnloadData s with Skip := s.Skips.getD startFrame.toNat 0, SplitCounter := 0 }
      ⟨rfl, rfl, rfl, rfl, rfl, hps, rfl,
        Or.inl ⟨Nat.zero_le _, rfl, hcast,
          ⟨sameColumns_refl _, CreateData_columnsAligned 0, CreateData_columnsAligned 0,
            by show s.FirstPointIdThisReturn = s.FirstPointIdThisReturn + ((0 : Nat) : Int)
               simp,
            fun i _ => Or.inl ⟨by show _ = _ + ((0 : Nat) : Int); simp, Or.inr rfl⟩,
            UnloadData_lastPointIdsValid s, rfl, rfl, rfl, rfl⟩⟩⟩ rfl hone
    rw [hd1] at hd3
    rw [Option.some.inj hd3]
    exact hd4
  · intro t ht
    unfold SplitFrame
    rw [if_pos ⟨ht, rfl⟩]

set_option maxRecDepth 100000 in
theorem C18_frame_range_aggregates_witness :
    threeSweepReader.Reader = some { packets := threeSweepCapture, position := 0 } ∧
    atMostOneBoundaryRead
      (threeSweepCapture.drop (threeSweepReader.FilePositions.getD (0 : Int).toNat 0))
      (threeSweepReader.Skips.getD (0 : Int).toNat 0) 0 ((1 : Int).toNat + 1) = true ∧
    threeSweepReader.PointsSkip = 0 ∧
    (∃ d, (GetFrameRange threeSweepReader 0 1 exampleLibm).frame = some d ∧
      d.raw = concatRaw ((framesOf (decodeAll
          { UnloadData threeSweepReader with
            Skip := threeSweepReader.Skips.getD (0 : Int).toNat 0, SplitCounter := 0 }
          (threeSweepCapture.drop (threeSweepReader.FilePositions.getD (0 : Int).toNat 0))
          exampleLibm)).take ((1 : Int).toNat + 1)) ∧
      (threeSweepReader.PointsSkip = 0 →
        d.sameColumns (concatFrames ((framesOf (decodeAll
          { UnloadData threeSweepReader with
            Skip := threeSweepReader.Skips.getD (0 : Int).toNat 0, SplitCounter := 0 }
          (threeSweepCapture.drop (threeSweepReader.FilePositions.getD (0 : Int).toNat 0))
          exampleLibm)).take ((1 : Int).toNat + 1))))) ∧
    ((framesOf (decodeAll
        { UnloadData threeSweepReader with
          Skip := threeSweepReader.Skips.getD (0 : Int).toNat 0, SplitCounter := 0 }
        (threeSweepCapture.drop (threeSweepReader.FilePositions.getD (0 : Int).toNat 0))
        exampleLibm)).map fun d => d.Azimuth)
      = [[100, 200, 300, 400, 500, 600, 700, 800, 900, 1000, 1100, 1200],
          [10, 20, 30, 40, 50, 60, 70, 80, 90, 100, 110, 120],
          [5, 10, 15, 20, 25, 30, 35, 40, 45, 50, 55, 60]] :=
  ⟨rfl, by decide!, rfl,
    (C18_frame_range_aggregates threeSweepReader { packets := threeSweepCapture, position := 0 }
      0 1 exampleLibm rfl (by decide) (by decide) (by decide!)).1,
    by decide!⟩

end VelodyneHDL
